import Mathlib

/-!
The simple keys manager and the XML Encryption context of xmlsec.

A shallow embedding of `src/src/openssl/keysmngr.c` and `src/src/xmlenc.c`.

Conventions of the embedding.

* A `NULL`-able pointer is an `Option`.
* A C function that returns `0` / `-1` and mutates an object through a pointer returns the
  pair of its return value and the object after the call.
* Library calls whose code is outside the two files (libxml2, the key and transform modules
  of xmlsec) are fields of a record of collaborators; where a call can fail only by running
  out of memory the record holds a flag that says whether it succeeds.
* The sibling chain walked with `xmlSecGetNextElementNode (cur->next)` is the list of the
  element nodes among the children; `cur == NULL` is the empty list.
-/

set_option autoImplicit false

namespace XmlSec

/-! ## The DOM -/

/-- A buffer of octets. -/
abbrev Bytes := List Nat

/-- A libxml2 node. `element name ns nsDef props children`: `ns` is the href of the namespace
the element is in, `nsDef` the namespace declarations it carries, `props` its attributes.
`text` stands for every node that is not an element. -/
inductive xmlNode where
  | element (name : String) (ns : Option String) (nsDef : List String)
      (props : List (String × String)) (children : List xmlNode)
  | text (content : Bytes)

/-- A libxml2 document: the nodes at top level. -/
structure xmlDoc where
  children : List xmlNode

namespace xmlNode

/-- True for `XML_ELEMENT_NODE`. -/
def isElement : xmlNode → Bool
  | element .. => true
  | text _ => false

/-- The field `node->children`. -/
def children : xmlNode → List xmlNode
  | element _ _ _ _ c => c
  | text _ => []

/-- The field `node->name`. -/
def name : xmlNode → Option String
  | element n _ _ _ _ => some n
  | text _ => none

/-- The node with its list of children replaced. -/
def setChildren : xmlNode → List xmlNode → xmlNode
  | element n ns d p _, c => element n ns d p c
  | text t, _ => text t

end xmlNode

/-- The namespace of XML Signature, `xmlSecDSigNs`. -/
def xmlSecDSigNs : String := "http://www.w3.org/2000/09/xmldsig#"

/-- The namespace of XML Encryption, `xmlSecEncNs`. -/
def xmlSecEncNs : String := "http://www.w3.org/2001/04/xmlenc#"

/-- The namespace of the library's own elements, `xmlSecNs`. -/
def xmlSecNs : String := "http://www.aleksey.com/xmlsec/2002"

/-- Modelled from the spec: `xmlSecCheckNodeName` (xmltree.c) is true when the node is not
`NULL`, is an element with the given local name, and lies in the given namespace. -/
def xmlSecCheckNodeName (cur : Option xmlNode) (name ns : String) : Bool :=
  match cur with
  | some (xmlNode.element nm href _ _ _) => decide (nm = name) && decide (href = some ns)
  | _ => false

/-- Modelled from the spec: the chain `xmlSecGetNextElementNode (first)`,
`xmlSecGetNextElementNode (cur->next)`, ... over a list of siblings: its element nodes in
document order. -/
def xmlSecElementNodes (siblings : List xmlNode) : List xmlNode :=
  siblings.filter xmlNode.isElement

/-- The function `xmlDocGetRootElement`: the first element at top level. -/
def xmlDocGetRootElement (doc : xmlDoc) : Option xmlNode :=
  (xmlSecElementNodes doc.children).head?

/-! ## keysmngr.c: data -/

/-- The constant `XMLSEC_SIMPLEKEYSMNGR_DEFAULT`. -/
def XMLSEC_SIMPLEKEYSMNGR_DEFAULT : Nat := 16

/-- The constant `xmlSecKeyOriginAll`. -/
def xmlSecKeyOriginAll : Nat := 0xFFFF

/-- A key, `xmlSecKey`: optional name, algorithm id, key type bits, key material and the
optional X.509 data attached to it. -/
structure xmlSecKey where
  name : Option String
  id : Nat
  type : Nat
  value : Bytes
  x509Data : Option Bytes
  deriving DecidableEq, Repr

/-- The store `xmlSecSimpleKeysData`. `keys` holds the slots `keys[0] .. keys[curSize-1]` of
the C array in order, so `curSize` is its length; `maxSize` is the number of slots
allocated. -/
structure xmlSecSimpleKeysData where
  keys : List xmlSecKey
  maxSize : Nat
  deriving DecidableEq, Repr

/-- The field `curSize`. -/
def xmlSecSimpleKeysData.curSize (keysData : xmlSecSimpleKeysData) : Nat :=
  keysData.keys.length

/-- The part of `xmlSecKeysMngr` the simple manager reads: the pointer `keysData`. -/
structure xmlSecKeysMngr where
  keysData : Option xmlSecSimpleKeysData
  deriving DecidableEq, Repr

/-- The search context `xmlSecKeysMngrCtx`. -/
structure xmlSecKeysMngrCtx where
  keysMngr : Option xmlSecKeysMngr
  keyName : Option String
  keyId : Nat
  keyType : Nat
  allowedOrigins : Nat
  deriving DecidableEq, Repr

/-- The collaborators of keysmngr.c. -/
structure KeysMngrEnv where
  /-- Value of `sizeof(xmlSecKeyPtr)`. -/
  sizeofKeyPtr : Nat
  /-- Whether `xmlMalloc` of that many bytes returns a block. -/
  xmlMalloc : Nat → Bool
  /-- Whether `xmlRealloc` to that many bytes returns a block. -/
  xmlRealloc : Nat → Bool
  /-- The match predicate `xmlSecKeyCheck (key, name, id, type)`. -/
  xmlSecKeyCheck : xmlSecKey → Option String → Nat → Nat → Int
  /-- Whether `xmlSecKeyDuplicate` of that key gets its memory. -/
  xmlSecKeyDuplicateOk : xmlSecKey → Bool
  /-- The parser `xmlParseFile`. -/
  xmlParseFile : String → Option xmlDoc
  /-- Whether `xmlSecKeysMngrCtxCreate` returns a context. -/
  xmlSecKeysMngrCtxCreateOk : Bool
  /-- The KeyInfo reader `xmlSecKeyInfoNodeRead (node, keysMngrCtx)`. -/
  xmlSecKeyInfoNodeRead : xmlNode → xmlSecKeysMngrCtx → Option xmlSecKey
  /-- Whether `xmlNewDoc` returns a document. -/
  xmlNewDocOk : Bool
  /-- Whether `xmlNewDocNode` returns a node. -/
  xmlNewDocNodeOk : Bool
  /-- Whether `xmlNewNs` returns a namespace. -/
  xmlNewNsOk : Bool
  /-- Whether `xmlSecAddChild (parent, name, ns)` returns the new child. -/
  xmlSecAddChildOk : xmlNode → String → Bool
  /-- The KeyInfo writer `xmlSecKeyInfoNodeWrite (node, keysMngrCtx, key, type)`: the
  children of `node` after the call, or `none` when it returns a negative value. -/
  xmlSecKeyInfoNodeWrite : xmlNode → xmlSecKeysMngrCtx → xmlSecKey → Nat → Option (List xmlNode)
  /-- The serializer `xmlSaveFormatFile (filename, doc, 1)`. -/
  xmlSaveFormatFile : String → xmlDoc → Int

/-- Modelled from the spec: `xmlSecKeyDuplicate` (keys.c) returns a deep copy of the key,
or `NULL` when it cannot allocate it. -/
def xmlSecKeyDuplicate (env : KeysMngrEnv) (key : xmlSecKey) : Option xmlSecKey :=
  if env.xmlSecKeyDuplicateOk key then some key else none

/-- Modelled from the spec: `xmlSecKeysMngrCtxCreate` (keysmngr core) returns a zeroed
context bound to the manager, or `NULL`. -/
def xmlSecKeysMngrCtxCreate (env : KeysMngrEnv) (keysMngr : Option xmlSecKeysMngr) :
    Option xmlSecKeysMngrCtx :=
  if env.xmlSecKeysMngrCtxCreateOk then
    some { keysMngr := keysMngr, keyName := none, keyId := 0, keyType := 0, allowedOrigins := 0 }
  else none

/-- Modelled from the spec: `xmlSecAddChild` (xmltree.c) creates an empty element `name` in
namespace `ns` as the last child of `parent` and returns it, or `NULL`.  The value is the new
child; the caller of the embedding links it under `parent` once it is filled in. -/
def xmlSecAddChild (env : KeysMngrEnv) (parent : xmlNode) (name ns : String) : Option xmlNode :=
  if env.xmlSecAddChildOk parent name then some (xmlNode.element name (some ns) [] [] []) else none

/-- The match predicate of a lookup: `xmlSecKeyCheck` on the criteria of the context
(name, algorithm id, key type) returns `1`, as tested at keysmngr.c:143. -/
def keyMatches (env : KeysMngrEnv) (keysMngrCtx : xmlSecKeysMngrCtx) (key : xmlSecKey) : Prop :=
  env.xmlSecKeyCheck key keysMngrCtx.keyName keysMngrCtx.keyId keysMngrCtx.keyType = 1

instance (env : KeysMngrEnv) (keysMngrCtx : xmlSecKeysMngrCtx) (key : xmlSecKey) :
    Decidable (keyMatches env keysMngrCtx key) := by
  unfold keyMatches; infer_instance

/-! ## keysmngr.c: functions -/

/-- The loop of `xmlSecSimpleKeysMngrFindKey` over `keys[i]`, `i < curSize`. -/
def xmlSecSimpleKeysMngrFindKeyLoop (env : KeysMngrEnv) (keysMngrCtx : xmlSecKeysMngrCtx) :
    List xmlSecKey → Option xmlSecKey
  | [] => none
  | key :: rest =>
    if env.xmlSecKeyCheck key keysMngrCtx.keyName keysMngrCtx.keyId keysMngrCtx.keyType = 1 then
      match xmlSecKeyDuplicate env key with
      | none => none
      | some dup => some dup
    else xmlSecSimpleKeysMngrFindKeyLoop env keysMngrCtx rest

/-- The function `xmlSecSimpleKeysMngrFindKey` (keysmngr.c:131). -/
def xmlSecSimpleKeysMngrFindKey (env : KeysMngrEnv) (keysMngrCtx : Option xmlSecKeysMngrCtx) :
    Option xmlSecKey :=
  match keysMngrCtx with
  | none => none
  | some ctx =>
    match ctx.keysMngr with
    | none => none
    | some mngr =>
      match mngr.keysData with
      | none => none
      | some keysData => xmlSecSimpleKeysMngrFindKeyLoop env ctx keysData.keys

/-- The function `xmlSecSimpleKeysMngrAddKey` (keysmngr.c:172): the return value and the
manager after the call. -/
def xmlSecSimpleKeysMngrAddKey (env : KeysMngrEnv) (mngr : Option xmlSecKeysMngr)
    (key : Option xmlSecKey) : Int × Option xmlSecKeysMngr :=
  match mngr with
  | none => (-1, mngr)
  | some m =>
    match m.keysData with
    | none => (-1, mngr)
    | some keysData =>
      match key with
      | none => (-1, mngr)
      | some k =>
        if keysData.maxSize = 0 then
          if env.xmlMalloc (XMLSEC_SIMPLEKEYSMNGR_DEFAULT * env.sizeofKeyPtr) then
            let grown : xmlSecSimpleKeysData :=
              { keys := keysData.keys ++ [k], maxSize := XMLSEC_SIMPLEKEYSMNGR_DEFAULT }
            (0, some { m with keysData := some grown })
          else (-1, mngr)
        else if keysData.curSize = keysData.maxSize then
          let newMax := keysData.maxSize * 2
          if env.xmlRealloc (newMax * env.sizeofKeyPtr) then
            let grown : xmlSecSimpleKeysData :=
              { keys := keysData.keys ++ [k], maxSize := newMax }
            (0, some { m with keysData := some grown })
          else (-1, mngr)
        else
          let stored : xmlSecSimpleKeysData :=
            { keys := keysData.keys ++ [k], maxSize := keysData.maxSize }
          (0, some { m with keysData := some stored })

/-- What a call of `xmlSecSimpleKeysMngrLoad` leaves behind: the return value, the manager,
and the calls of `xmlSecKeyInfoNodeRead` it made, in order, each with its result. -/
structure LoadResult where
  ret : Int
  mngr : Option xmlSecKeysMngr
  trace : List (xmlNode × Option xmlSecKey)

/-- The `while` loop of `xmlSecSimpleKeysMngrLoad` (keysmngr.c:267-300) together with the
test `cur != NULL` that follows it.  The list is the chain of element siblings from `cur`.
The reader is handed the context whose manager copy shares the store with `mngr`. -/
def xmlSecSimpleKeysMngrLoadLoop (env : KeysMngrEnv) (strict : Bool)
    (keysMngrCtx : xmlSecKeysMngrCtx) : Option xmlSecKeysMngr → List xmlNode → LoadResult
  | mngr, [] => { ret := 0, mngr := mngr, trace := [] }
  | mngr, cur :: next =>
    if xmlSecCheckNodeName (some cur) "KeyInfo" xmlSecDSigNs then
      match env.xmlSecKeyInfoNodeRead cur { keysMngrCtx with keysMngr := mngr } with
      | none =>
        if strict then { ret := -1, mngr := mngr, trace := [(cur, none)] }
        else
          let r := xmlSecSimpleKeysMngrLoadLoop env strict keysMngrCtx mngr next
          { r with trace := (cur, none) :: r.trace }
      | some key =>
        let added := xmlSecSimpleKeysMngrAddKey env mngr (some key)
        if added.1 < 0 then { ret := -1, mngr := added.2, trace := [(cur, some key)] }
        else
          let r := xmlSecSimpleKeysMngrLoadLoop env strict keysMngrCtx added.2 next
          { r with trace := (cur, some key) :: r.trace }
    else { ret := -1, mngr := mngr, trace := [] }

/-- The function `xmlSecSimpleKeysMngrLoad` (keysmngr.c:224). -/
def xmlSecSimpleKeysMngrLoad (env : KeysMngrEnv) (mngr : Option xmlSecKeysMngr)
    (uri : Option String) (strict : Bool) : LoadResult :=
  match mngr, uri with
  | none, _ => { ret := -1, mngr := mngr, trace := [] }
  | some _, none => { ret := -1, mngr := mngr, trace := [] }
  | some _, some u =>
    match env.xmlParseFile u with
    | none => { ret := -1, mngr := mngr, trace := [] }
    | some doc =>
      let root := xmlDocGetRootElement doc
      if !xmlSecCheckNodeName root "Keys" xmlSecNs then { ret := -1, mngr := mngr, trace := [] }
      else
        match root, xmlSecKeysMngrCtxCreate env mngr with
        | none, _ => { ret := -1, mngr := mngr, trace := [] }
        | some _, none => { ret := -1, mngr := mngr, trace := [] }
        | some rootNode, some ctx =>
          let keysMngrCtx := { ctx with allowedOrigins := xmlSecKeyOriginAll }
          xmlSecSimpleKeysMngrLoadLoop env strict keysMngrCtx mngr
            (xmlSecElementNodes rootNode.children)

/-- What a call of `xmlSecSimpleKeysMngrSave` leaves behind: the return value and the
document it handed to `xmlSaveFormatFile`, when it got that far. -/
structure SaveResult where
  ret : Int
  doc : Option xmlDoc

/-- The children a fresh `KeyInfo` gets before the writer runs (keysmngr.c:385-414):
`KeyName`, `KeyValue`, and `X509Data` when the key carries X.509 data.  `none` when one
`xmlSecAddChild` fails. -/
def xmlSecSimpleKeysMngrSaveTemplate (env : KeysMngrEnv) (key : xmlSecKey) (cur : xmlNode) :
    Option xmlNode :=
  match xmlSecAddChild env cur "KeyName" xmlSecDSigNs with
  | none => none
  | some keyName =>
    let cur1 := cur.setChildren (cur.children ++ [keyName])
    match xmlSecAddChild env cur1 "KeyValue" xmlSecDSigNs with
    | none => none
    | some keyValue =>
      let cur2 := cur1.setChildren (cur1.children ++ [keyValue])
      if key.x509Data ≠ none then
        match xmlSecAddChild env cur2 "X509Data" xmlSecDSigNs with
        | none => none
        | some x509 => some (cur2.setChildren (cur2.children ++ [x509]))
      else some cur2

/-- The `for` loop of `xmlSecSimpleKeysMngrSave` (keysmngr.c:374-425) over `keys[i]`: the
root after the loop, or `none` when an iteration returns `-1`. -/
def xmlSecSimpleKeysMngrSaveLoop (env : KeysMngrEnv) (keysMngrCtx : xmlSecKeysMngrCtx)
    (type : Nat) : xmlNode → List xmlSecKey → Option xmlNode
  | root, [] => some root
  | root, key :: rest =>
    match xmlSecAddChild env root "KeyInfo" xmlSecDSigNs with
    | none => none
    | some cur =>
      match xmlSecSimpleKeysMngrSaveTemplate env key cur with
      | none => none
      | some tmpl =>
        match env.xmlSecKeyInfoNodeWrite tmpl keysMngrCtx key type with
        | none => none
        | some written =>
          xmlSecSimpleKeysMngrSaveLoop env keysMngrCtx type
            (root.setChildren (root.children ++ [tmpl.setChildren written])) rest

/-- The function `xmlSecSimpleKeysMngrSave` (keysmngr.c:318), built with X.509 support
(`XMLSEC_NO_X509` not defined). -/
def xmlSecSimpleKeysMngrSave (env : KeysMngrEnv) (mngr : Option xmlSecKeysMngr)
    (filename : Option String) (type : Nat) : SaveResult :=
  match mngr with
  | none => { ret := -1, doc := none }
  | some m =>
    match m.keysData, filename with
    | none, _ => { ret := -1, doc := none }
    | some _, none => { ret := -1, doc := none }
    | some keysData, some file =>
      let keysMngr : xmlSecKeysMngr := { keysData := none }
      if !env.xmlNewDocOk then { ret := -1, doc := none }
      else if !env.xmlNewDocNodeOk then { ret := -1, doc := none }
      else
        let created := xmlNode.element "Keys" none [] [] []
        if !env.xmlNewNsOk then { ret := -1, doc := none }
        else
          let root := xmlNode.element "Keys" none [xmlSecNs] [] created.children
          match xmlSecKeysMngrCtxCreate env (some keysMngr) with
          | none => { ret := -1, doc := none }
          | some ctx =>
            let keysMngrCtx := { ctx with allowedOrigins := xmlSecKeyOriginAll }
            match xmlSecSimpleKeysMngrSaveLoop env keysMngrCtx type root keysData.keys with
            | none => { ret := -1, doc := none }
            | some root =>
              let doc : xmlDoc := { children := [root] }
              if env.xmlSaveFormatFile file doc < 0 then { ret := -1, doc := some doc }
              else { ret := 0, doc := some doc }

/-- The keys held by a manager: the stored sequence in insertion order. -/
def storedKeys (mngr : Option xmlSecKeysMngr) : List xmlSecKey :=
  match mngr with
  | some { keysData := some keysData } => keysData.keys
  | _ => []

/-- The element children of the root of the document behind `uri`, in document order
(empty when the file does not parse or has no root element). -/
def keysDocumentElements (env : KeysMngrEnv) (uri : String) : List xmlNode :=
  match env.xmlParseFile uri with
  | none => []
  | some doc =>
    match xmlDocGetRootElement doc with
    | none => []
    | some root => xmlSecElementNodes root.children

/-- The `KeyInfo` element the spec describes for a stored key, before the KeyInfo writer
fills it in: children `KeyName`, `KeyValue` and, if the key has X.509 data, `X509Data`. -/
def specKeyInfoTemplate (key : xmlSecKey) : xmlNode :=
  xmlNode.element "KeyInfo" (some xmlSecDSigNs) [] []
    ([xmlNode.element "KeyName" (some xmlSecDSigNs) [] [] [],
      xmlNode.element "KeyValue" (some xmlSecDSigNs) [] [] []] ++
     (if key.x509Data.isSome then [xmlNode.element "X509Data" (some xmlSecDSigNs) [] [] []]
      else []))

/-- The context `xmlSecSimpleKeysMngrSave` hands to the KeyInfo writer: created over a
zeroed manager, with every key origin allowed. -/
def saveKeysMngrCtx : xmlSecKeysMngrCtx :=
  { keysMngr := some { keysData := none }, keyName := none, keyId := 0, keyType := 0,
    allowedOrigins := xmlSecKeyOriginAll }

/-! ## Sample data for keysmngr.c -/

/-- A symmetric key named `name` with algorithm id `id`. -/
def sampleKey (name : String) (id : Nat) : xmlSecKey :=
  { name := some name, id := id, type := 1, value := [id], x509Data := none }

/-- A `KeyInfo` element of the dsig namespace with the given children. -/
def sampleKeyInfo (children : List xmlNode) : xmlNode :=
  xmlNode.element "KeyInfo" (some xmlSecDSigNs) [] [] children

/-- A `Keys` document with the given children under its root. -/
def sampleKeysDoc (children : List xmlNode) : xmlDoc :=
  { children := [xmlNode.element "Keys" (some xmlSecNs) [] [] children] }

/-- Collaborators that never run out of memory.  The match predicate compares the name
and the algorithm id when they are supplied; the reader fails on an empty `KeyInfo` and
otherwise returns a key whose id is the number of children of the node; every file name
opens the document `doc`. -/
def sampleKeysEnv (doc : xmlDoc) : KeysMngrEnv :=
  { sizeofKeyPtr := 8
    xmlMalloc := fun _ => true
    xmlRealloc := fun _ => true
    xmlSecKeyCheck := fun key name id _ =>
      if (name = none ∨ key.name = name) ∧ (id = 0 ∨ key.id = id) then 1 else 0
    xmlSecKeyDuplicateOk := fun _ => true
    xmlParseFile := fun _ => some doc
    xmlSecKeysMngrCtxCreateOk := true
    xmlSecKeyInfoNodeRead := fun node _ =>
      if node.children.length = 0 then none else some (sampleKey "read" node.children.length)
    xmlNewDocOk := true
    xmlNewDocNodeOk := true
    xmlNewNsOk := true
    xmlSecAddChildOk := fun _ _ => true
    xmlSecKeyInfoNodeWrite := fun node _ _ _ => some node.children
    xmlSaveFormatFile := fun _ _ => 0 }

/-- The same collaborators with a heap that is exhausted: every allocation fails. -/
def sampleKeysEnvNoMemory (doc : xmlDoc) : KeysMngrEnv :=
  { sampleKeysEnv doc with
    xmlMalloc := fun _ => false
    xmlRealloc := fun _ => false
    xmlSecKeyDuplicateOk := fun _ => false }

/-- A store with the keys of three entries named alice, bob and carol. -/
def sampleStore : xmlSecSimpleKeysData :=
  { keys := [sampleKey "alice" 1, sampleKey "bob" 2, sampleKey "carol" 3], maxSize := 16 }

/-- A lookup context over `sampleStore` that asks for the key named `name`. -/
def sampleLookup (name : String) : xmlSecKeysMngrCtx :=
  { keysMngr := some { keysData := some sampleStore }, keyName := some name, keyId := 0,
    keyType := 0, allowedOrigins := 0 }

/-- A `KeyInfo` with one child, which the sample reader accepts. -/
def sampleReadable : xmlNode :=
  sampleKeyInfo [xmlNode.element "KeyName" (some xmlSecDSigNs) [] [] []]

/-- A `KeyInfo` with two children, which the sample reader accepts. -/
def sampleReadable2 : xmlNode :=
  sampleKeyInfo [xmlNode.element "KeyName" (some xmlSecDSigNs) [] [] [],
    xmlNode.element "KeyValue" (some xmlSecDSigNs) [] [] []]

/-- A malformed `KeyInfo` (no child), on which the sample reader fails. -/
def sampleMalformed : xmlNode := sampleKeyInfo []

/-- Scenario S2: three `KeyInfo` entries, the middle one malformed, with text between. -/
def sampleS2Doc : xmlDoc :=
  sampleKeysDoc [sampleReadable, xmlNode.text [10], sampleMalformed, sampleReadable2]

/-- A manager whose store is empty and has no slot allocated yet. -/
def sampleEmptyMngr : Option xmlSecKeysMngr :=
  some { keysData := some { keys := [], maxSize := 0 } }

/-! ## xmlenc.c: data -/

/-- The reasons `xmlSecError` is called with in xmlenc.c (`XMLSEC_ERRORS_R_*`), and
`ASSERTION` for a failed `xmlSecAssert2`. -/
inductive xmlSecErrorReason where
  | XMLSEC_FAILED
  | MALLOC_FAILED
  | INVALID_NODE
  | INVALID_NODE_CONTENT
  | UNEXPECTED_NODE
  | INVALID_TYPE
  | INVALID_URI_TYPE
  | INVALID_DATA
  | KEY_NOT_FOUND
  | ASSERTION
  deriving DecidableEq, Repr

/-- The outcome of a call: `ok value` for a return value that is not negative (or a pointer
that is not `NULL`); `fail reason subject` for `-1` (or `NULL`), with the reason of the first
`xmlSecError` report on the failing path and the function or asserted expression it names.
The `XMLSEC_FAILED` reports the callers add on the way out are not recorded. -/
inductive xmlSecResult (α : Type) where
  | ok (value : α)
  | fail (reason : xmlSecErrorReason) (subject : String)
  deriving DecidableEq, Repr

/-- True for a return value that is negative (a pointer that is `NULL`). -/
def xmlSecResult.failed {α : Type} : xmlSecResult α → Bool
  | ok _ => false
  | fail _ _ => true

/-- The enum `xmlEncCtxMode`. -/
inductive xmlEncCtxMode where
  | xmlEncCtxModeEncryptedData
  | xmlEncCtxModeEncryptedKey
  deriving DecidableEq, Repr

/-- The enum `xmlSecKeyInfoMode`. -/
inductive xmlSecKeyInfoMode where
  | xmlSecKeyInfoModeRead
  | xmlSecKeyInfoModeWrite
  deriving DecidableEq, Repr

/-- The key requirements `xmlSecKeyReq`: algorithm class, key type, size in bits. -/
structure xmlSecKeyReq where
  keyId : Nat
  keyType : Nat
  keyBitsSize : Nat
  deriving DecidableEq, Repr

/-- The part of `xmlSecKeyInfoCtx` xmlenc.c touches.  The manager the context is bound to,
with its `getKey` callback, is part of the collaborators. -/
structure xmlSecKeyInfoCtx where
  mode : xmlSecKeyInfoMode
  keyReq : xmlSecKeyReq
  deriving DecidableEq, Repr

/-- A transform: its algorithm, the direction flag `encode`, and the key installed in it. -/
structure xmlSecTransform where
  id : String
  encode : Bool
  key : Option xmlSecKey
  deriving DecidableEq, Repr

/-- An entry of the transform chain: a pointer to the transform `encCtx->encMethod` also
points to, or a transform only the chain points to. -/
inductive xmlSecTransformPtr where
  | encMethod
  | owned (transform : xmlSecTransform)
  deriving DecidableEq, Repr

/-- Modelled from the spec: the transform pipeline `xmlSecTransformCtx` is an ordered chain
of transforms (first to last), an optional input URI, and the result buffer. -/
structure xmlSecTransformCtx where
  chain : List xmlSecTransformPtr
  uri : Option String
  result : Option Bytes
  deriving DecidableEq, Repr

/-- A pointer into the tree under the node handed to an entry point: the indices, among
element children, that lead to the node, and the node found there when the pointer was
taken. -/
structure xmlNodePtr where
  path : List Nat
  node : xmlNode

/-- The context `xmlSecEncCtx`. -/
structure xmlSecEncCtx where
  mode : xmlEncCtxMode
  encrypt : Bool
  id : Option String
  type : Option String
  mimeType : Option String
  encoding : Option String
  recipient : Option String
  carriedKeyName : Option Bytes
  encMethodNode : Option xmlNodePtr
  keyInfoNode : Option xmlNodePtr
  cipherValueNode : Option xmlNodePtr
  encTransformCtx : xmlSecTransformCtx
  encMethod : Option xmlSecTransform
  dontDestroyEncMethod : Bool
  keyInfoReadCtx : xmlSecKeyInfoCtx
  keyInfoWriteCtx : xmlSecKeyInfoCtx
  encKey : Option xmlSecKey
  result : Option Bytes
  resultBase64Encoded : Bool
  resultReplaced : Bool
  allowedCipherReferenceUris : Nat

/-- What an entry point did to the document of the source node. -/
inductive DomOp where
  | replaceNode (tmpl : xmlNode)
  | replaceContent (tmpl : xmlNode)
  | replaceNodeBuffer (buffer : Bytes)

/-- What a call of an entry point leaves behind: the return value, the context, the template
(or encrypted node) it was handed, and the substitutions made in the document of the source
node. -/
structure EncOutcome (α : Type) where
  ret : xmlSecResult α
  ctx : xmlSecEncCtx
  tmpl : Option xmlNode
  dom : List DomOp

/-- The names of xmlenc.c. -/
def xmlSecNodeEncryptedData : String := "EncryptedData"
def xmlSecNodeEncryptedKey : String := "EncryptedKey"
def xmlSecNodeEncryptionMethod : String := "EncryptionMethod"
def xmlSecNodeKeyInfo : String := "KeyInfo"
def xmlSecNodeCipherData : String := "CipherData"
def xmlSecNodeCipherValue : String := "CipherValue"
def xmlSecNodeCipherReference : String := "CipherReference"
def xmlSecNodeEncryptionProperties : String := "EncryptionProperties"
def xmlSecNodeReferenceList : String := "ReferenceList"
def xmlSecNodeCarriedKeyName : String := "CarriedKeyName"
def xmlSecNodeTransforms : String := "Transforms"
def xmlSecAttrId : String := "Id"
def xmlSecAttrType : String := "Type"
def xmlSecAttrMimeType : String := "MimeType"
def xmlSecAttrEncoding : String := "Encoding"
def xmlSecAttrRecipient : String := "Recipient"
def xmlSecAttrURI : String := "URI"
def xmlSecTypeEncElement : String := "http://www.w3.org/2001/04/xmlenc#Element"
def xmlSecTypeEncContent : String := "http://www.w3.org/2001/04/xmlenc#Content"
def xmlSecTransformBase64Id : String := "base64"
def xmlSecUriTypeAny : Nat := 0xFFFF
def xmlSecKeyDataTypePublic : Nat := 1
def xmlSecTransformUsageDSigTransform : Nat := 1
def xmlSecTransformUsageEncryptionMethod : Nat := 8

/-- The collaborators of xmlenc.c: the transform, key and KeyInfo modules of xmlsec, libxml2,
and the callbacks of the keys manager the context is bound to. -/
structure EncEnv where
  /-- Whether `xmlSecKeyInfoCtxInitialize` succeeds. -/
  xmlSecKeyInfoCtxInitializeOk : Bool
  /-- Whether `xmlSecTransformCtxInitialize` succeeds. -/
  xmlSecTransformCtxInitializeOk : Bool
  /-- The text `xmlNodeGetContent` returns for a node, `none` for `NULL`. -/
  xmlNodeGetContent : xmlNode → Option Bytes
  /-- The transform `xmlSecTransformCtxNodeRead (ctx, node, usage)` creates from a node. -/
  xmlSecTransformCtxNodeRead : xmlNode → Nat → Option xmlSecTransform
  /-- The transforms `xmlSecTransformCtxNodesListRead (ctx, node, usage)` creates. -/
  xmlSecTransformCtxNodesListRead : xmlNode → Nat → Option (List xmlSecTransform)
  /-- Whether `xmlSecTransformCtxAppend` of that transform succeeds. -/
  xmlSecTransformCtxAppendOk : xmlSecTransform → Bool
  /-- Whether a transform of that algorithm can be created (and linked into the chain). -/
  xmlSecTransformCreateOk : String → Bool
  /-- Whether `xmlSecTransformCtxSetUri` accepts that URI. -/
  xmlSecTransformCtxSetUriOk : String → Bool
  /-- Whether `xmlSecTransformCtxPrepare (ctx, xmlSecTransformDataTypeBin)` succeeds. -/
  xmlSecTransformCtxPrepareOk : Bool
  /-- Whether `xmlSecTransformCreateOutputBuffer` returns a buffer. -/
  xmlSecTransformCreateOutputBufferOk : Bool
  /-- The key requirements `xmlSecTransformSetKeyReq` writes for a transform, `none` when it
  returns a negative value. -/
  xmlSecTransformSetKeyReq : xmlSecTransform → xmlSecKeyReq → Option xmlSecKeyReq
  /-- Whether `xmlSecTransformSetKey` installs that key. -/
  xmlSecTransformSetKeyOk : xmlSecTransform → xmlSecKey → Bool
  /-- What one transform makes of its whole input, `none` when it fails. -/
  xmlSecTransformExecute : xmlSecTransform → Bytes → Option Bytes
  /-- The octets behind the input URI of a chain run in pull mode. -/
  uriFetch : Option String → Option Bytes
  /-- The callback `keysMngr->getKey (keyInfoNode, keyInfoCtx)`, `none` when it is `NULL`. -/
  getKey : Option (Option xmlNode → xmlSecKeyInfoCtx → Option xmlSecKey)
  /-- The predicate `xmlSecKeyMatch (key, name, keyReq)`. -/
  xmlSecKeyMatch : xmlSecKey → Option String → xmlSecKeyReq → Bool
  /-- The check `xmlSecUriTypeCheck (allowed, uri)`. -/
  xmlSecUriTypeCheck : Nat → Option String → Int
  /-- The KeyInfo writer `xmlSecKeyInfoNodeWrite (node, key, keyInfoCtx)`: the children of
  `node` after the call, or `none` when it returns a negative value. -/
  xmlSecKeyInfoNodeWrite : xmlNode → xmlSecKey → xmlSecKeyInfoCtx → Option (List xmlNode)
  /-- Whether `xmlSecBufferGetData` of a buffer with this content is `NULL`. -/
  xmlSecBufferDataNull : Bytes → Bool
  /-- The serialization `xmlNodeDumpOutput` writes for a node. -/
  xmlNodeDumpOutput : xmlNode → Bytes
  /-- Whether `xmlSecReplaceNode` succeeds. -/
  xmlSecReplaceNodeOk : Bool
  /-- Whether `xmlSecReplaceContent` succeeds. -/
  xmlSecReplaceContentOk : Bool
  /-- Whether `xmlSecReplaceNodeBuffer` parses and substitutes that buffer. -/
  xmlSecReplaceNodeBufferOk : Bytes → Bool

/-- The function `xmlGetProp`: the value of the attribute, `none` when the node has none. -/
def xmlGetProp (node : xmlNode) (name : String) : Option String :=
  match node with
  | xmlNode.element _ _ _ props _ => (props.find? (fun p => decide (p.1 = name))).map Prod.snd
  | xmlNode.text _ => none

/-- The function `xmlStrEqual` on a `NULL`-able first argument. -/
def xmlStrEqual (s : Option String) (t : String) : Bool := decide (s = some t)

/-- The function `xmlStrlen`: the number of octets before the first `NUL`. -/
def xmlStrlen (s : Bytes) : Nat := (s.takeWhile (fun b => decide (b ≠ 0))).length

/-- Modelled from the spec: `xmlNodeSetContentLen (node, content, len)` sets the text content
of the node to exactly the first `len` octets of `content`. -/
def xmlNodeSetContentLen (node : xmlNode) (content : Bytes) (len : Nat) : xmlNode :=
  node.setChildren [xmlNode.text (content.take len)]

/-- The list of siblings with `f` applied to the element node number `k` (counting element
nodes only, from 0). -/
def updateElement (f : xmlNode → xmlNode) : Nat → List xmlNode → List xmlNode
  | _, [] => []
  | k, n :: rest =>
    if n.isElement then
      match k with
      | 0 => f n :: rest
      | k + 1 => n :: updateElement f k rest
    else n :: updateElement f k rest

/-- The tree with `f` applied to the node a pointer path leads to. -/
def updateAt (f : xmlNode → xmlNode) : List Nat → xmlNode → xmlNode
  | [], node => f node
  | [i], node => node.setChildren (updateElement f i node.children)
  | i :: j :: _, node =>
    node.setChildren
      (updateElement (fun child => child.setChildren (updateElement f j child.children)) i
        node.children)

/-- The name an error report shows for a node, `xmlSecErrorsSafeString (xmlSecNodeGetName
(cur))`. -/
def xmlSecNodeGetName (cur : Option xmlNode) : String :=
  match cur with
  | some (xmlNode.element n _ _ _ _) => n
  | _ => "NULL"

/-- The failure of `xmlSecAssert2 (expr, -1)`. -/
def assertionFailed {α : Type} (expr : String) : xmlSecResult α :=
  xmlSecResult.fail xmlSecErrorReason.ASSERTION expr

/-! ### The transform pipeline -/

/-- The transforms of a chain, first to last, with the shared pointer followed to
`encMethod`. -/
def xmlSecTransformCtx.transforms (ctx : xmlSecTransformCtx) (encMethod : Option xmlSecTransform) :
    List xmlSecTransform :=
  ctx.chain.filterMap fun p =>
    match p with
    | xmlSecTransformPtr.encMethod => encMethod
    | xmlSecTransformPtr.owned t => some t

/-- Modelled from the spec: a chain of octet-to-octet stages run first to last. -/
def xmlSecTransformsRun (env : EncEnv) : List xmlSecTransform → Bytes → Option Bytes
  | [], data => some data
  | t :: rest, data =>
    match env.xmlSecTransformExecute t data with
    | none => none
    | some out => xmlSecTransformsRun env rest out

/-- Modelled from the spec: `xmlSecTransformCtxBinaryExecute` pushes the buffer through the
chain and stores the output in `result`; `none` when it returns a negative value. -/
def xmlSecTransformCtxBinaryExecute (env : EncEnv) (ctx : xmlSecTransformCtx)
    (encMethod : Option xmlSecTransform) (data : Bytes) : Option xmlSecTransformCtx :=
  match xmlSecTransformsRun env (ctx.transforms encMethod) data with
  | none => none
  | some out => some { ctx with result := some out }

/-- Modelled from the spec: `xmlSecTransformCtxExecute` pulls the octets behind the input URI
through the chain and stores the output in `result`. -/
def xmlSecTransformCtxExecute (env : EncEnv) (ctx : xmlSecTransformCtx)
    (encMethod : Option xmlSecTransform) : Option xmlSecTransformCtx :=
  match env.uriFetch ctx.uri with
  | none => none
  | some data => xmlSecTransformCtxBinaryExecute env ctx encMethod data

/-- Modelled from the spec: `xmlSecTransformCtxSetUri` records the input URI. -/
def xmlSecTransformCtxSetUri (env : EncEnv) (ctx : xmlSecTransformCtx) (uri : String) :
    Option xmlSecTransformCtx :=
  if env.xmlSecTransformCtxSetUriOk uri then some { ctx with uri := some uri } else none

/-- A transform as `xmlSecTransformCreate` leaves it: zeroed, so `encode` is `0`. -/
def xmlSecTransformCreate (id : String) : xmlSecTransform :=
  { id := id, encode := false, key := none }

/-- Modelled from the spec: `xmlSecTransformCtxCreateAndAppend` creates a transform and links
it at the tail of the chain. -/
def xmlSecTransformCtxCreateAndAppend (env : EncEnv) (ctx : xmlSecTransformCtx) (id : String) :
    Option xmlSecTransformCtx :=
  if env.xmlSecTransformCreateOk id then
    some { ctx with chain := ctx.chain ++ [xmlSecTransformPtr.owned (xmlSecTransformCreate id)] }
  else none

/-- Modelled from the spec: `xmlSecTransformCtxCreateAndPrepend` creates a transform and
links it at the head of the chain. -/
def xmlSecTransformCtxCreateAndPrepend (env : EncEnv) (ctx : xmlSecTransformCtx) (id : String) :
    Option xmlSecTransformCtx :=
  if env.xmlSecTransformCreateOk id then
    some { ctx with chain := xmlSecTransformPtr.owned (xmlSecTransformCreate id) :: ctx.chain }
  else none

/-! ## xmlenc.c: functions -/

/-- The context after `memset (encCtx, 0, sizeof (xmlSecEncCtx))`. -/
def xmlSecEncCtxZero : xmlSecEncCtx :=
  { mode := xmlEncCtxMode.xmlEncCtxModeEncryptedData
    encrypt := false
    id := none
    type := none
    mimeType := none
    encoding := none
    recipient := none
    carriedKeyName := none
    encMethodNode := none
    keyInfoNode := none
    cipherValueNode := none
    encTransformCtx := { chain := [], uri := none, result := none }
    encMethod := none
    dontDestroyEncMethod := false
    keyInfoReadCtx :=
      { mode := xmlSecKeyInfoMode.xmlSecKeyInfoModeRead
        keyReq := { keyId := 0, keyType := 0, keyBitsSize := 0 } }
    keyInfoWriteCtx :=
      { mode := xmlSecKeyInfoMode.xmlSecKeyInfoModeRead
        keyReq := { keyId := 0, keyType := 0, keyBitsSize := 0 } }
    encKey := none
    result := none
    resultBase64Encoded := false
    resultReplaced := false
    allowedCipherReferenceUris := 0 }

/-- The function `xmlSecEncCtxInitialize` (xmlenc.c:81). -/
def xmlSecEncCtxInitialize (env : EncEnv) : xmlSecResult Unit × xmlSecEncCtx :=
  let encCtx := xmlSecEncCtxZero
  if !env.xmlSecKeyInfoCtxInitializeOk then
    (xmlSecResult.fail xmlSecErrorReason.XMLSEC_FAILED "xmlSecKeyInfoCtxInitialize", encCtx)
  else
    let encCtx := { encCtx with
      keyInfoReadCtx := { encCtx.keyInfoReadCtx with mode := xmlSecKeyInfoMode.xmlSecKeyInfoModeRead } }
    let encCtx := { encCtx with
      keyInfoWriteCtx :=
        { mode := xmlSecKeyInfoMode.xmlSecKeyInfoModeWrite
          keyReq := { encCtx.keyInfoWriteCtx.keyReq with keyType := xmlSecKeyDataTypePublic } } }
    if !env.xmlSecTransformCtxInitializeOk then
      (xmlSecResult.fail xmlSecErrorReason.XMLSEC_FAILED "xmlSecTransformCtxInitialize", encCtx)
    else
      (xmlSecResult.ok (), { encCtx with allowedCipherReferenceUris := xmlSecUriTypeAny })

/-- What `xmlSecEncCtxFinalize` releases. -/
inductive Released where
  | transformCtx (ctx : xmlSecTransformCtx)
  | keyInfoCtx (ctx : xmlSecKeyInfoCtx)
  | transform (transform : xmlSecTransform)
  | key (key : xmlSecKey)
  | string (field : String)
  deriving DecidableEq, Repr

/-- The function `xmlSecEncCtxFinalize` (xmlenc.c:129): what it releases, in order, and the
zeroed context. -/
def xmlSecEncCtxFinalize (encCtx : xmlSecEncCtx) : List Released × xmlSecEncCtx :=
  ([Released.transformCtx encCtx.encTransformCtx,
    Released.keyInfoCtx encCtx.keyInfoReadCtx,
    Released.keyInfoCtx encCtx.keyInfoWriteCtx] ++
   (match encCtx.dontDestroyEncMethod, encCtx.encMethod with
    | false, some t => [Released.transform t]
    | _, _ => []) ++
   (match encCtx.encKey with
    | some k => [Released.key k]
    | none => []) ++
   (if encCtx.id ≠ none then [Released.string "id"] else []) ++
   (if encCtx.type ≠ none then [Released.string "type"] else []) ++
   (if encCtx.mimeType ≠ none then [Released.string "mimeType"] else []) ++
   (if encCtx.encoding ≠ none then [Released.string "encoding"] else []) ++
   (if encCtx.recipient ≠ none then [Released.string "recipient"] else []) ++
   (if encCtx.carriedKeyName ≠ none then [Released.string "carriedKeyName"] else []),
   xmlSecEncCtxZero)

/-- The function `xmlSecEncCtxCipherReferenceNodeRead` (xmlenc.c:841). -/
def xmlSecEncCtxCipherReferenceNodeRead (env : EncEnv) (encCtx : xmlSecEncCtx)
    (node : xmlNodePtr) : xmlSecResult Unit × xmlSecEncCtx :=
  let uri := xmlGetProp node.node xmlSecAttrURI
  if env.xmlSecUriTypeCheck encCtx.allowedCipherReferenceUris uri ≠ 1 then
    (xmlSecResult.fail xmlSecErrorReason.INVALID_URI_TYPE "uri", encCtx)
  else
    let afterUri : Option xmlSecTransformCtx :=
      match uri with
      | none => some encCtx.encTransformCtx
      | some u => xmlSecTransformCtxSetUri env encCtx.encTransformCtx u
    match afterUri with
    | none => (xmlSecResult.fail xmlSecErrorReason.XMLSEC_FAILED "xmlSecTransformCtxSetUri", encCtx)
    | some tctx =>
      let encCtx := { encCtx with encTransformCtx := tctx }
      let cur := xmlSecElementNodes node.node.children
      if xmlSecCheckNodeName cur.head? xmlSecNodeTransforms xmlSecEncNs then
        match cur.head?.bind
            (fun n => env.xmlSecTransformCtxNodesListRead n xmlSecTransformUsageDSigTransform) with
        | none =>
          (xmlSecResult.fail xmlSecErrorReason.XMLSEC_FAILED "xmlSecTransformCtxNodesListRead",
            encCtx)
        | some transforms =>
          let encCtx := { encCtx with
            encTransformCtx := { encCtx.encTransformCtx with
              chain := encCtx.encTransformCtx.chain ++ transforms.map xmlSecTransformPtr.owned } }
          let cur := cur.tail
          if !cur.isEmpty then
            (xmlSecResult.fail xmlSecErrorReason.UNEXPECTED_NODE (xmlSecNodeGetName cur.head?),
              encCtx)
          else (xmlSecResult.ok (), encCtx)
      else if !cur.isEmpty then
        (xmlSecResult.fail xmlSecErrorReason.UNEXPECTED_NODE (xmlSecNodeGetName cur.head?), encCtx)
      else (xmlSecResult.ok (), encCtx)

/-- The end of `xmlSecEncCtxCipherDataNodeRead` (xmlenc.c:830-838): nothing may be left. -/
def xmlSecEncCtxCipherDataNodeReadEnd (encCtx : xmlSecEncCtx) (cur : List xmlNode) :
    xmlSecResult Unit × xmlSecEncCtx :=
  if !cur.isEmpty then
    (xmlSecResult.fail xmlSecErrorReason.INVALID_NODE (xmlSecNodeGetName cur.head?), encCtx)
  else (xmlSecResult.ok (), encCtx)

/-- The function `xmlSecEncCtxCipherDataNodeRead` (xmlenc.c:783). -/
def xmlSecEncCtxCipherDataNodeRead (env : EncEnv) (encCtx : xmlSecEncCtx) (node : xmlNodePtr) :
    xmlSecResult Unit × xmlSecEncCtx :=
  let cur := xmlSecElementNodes node.node.children
  if encCtx.cipherValueNode.isSome then
    (assertionFailed "encCtx->cipherValueNode == NULL", encCtx)
  else if xmlSecCheckNodeName cur.head? xmlSecNodeCipherValue xmlSecEncNs then
    if encCtx.encrypt = false then
      match xmlSecTransformCtxCreateAndPrepend env encCtx.encTransformCtx
          xmlSecTransformBase64Id with
      | none =>
        (xmlSecResult.fail xmlSecErrorReason.XMLSEC_FAILED "xmlSecTransformCtxCreateAndPrepend",
          encCtx)
      | some tctx =>
        xmlSecEncCtxCipherDataNodeReadEnd
          { encCtx with
            encTransformCtx := tctx
            cipherValueNode := cur.head?.map fun n => { path := node.path ++ [0], node := n } }
          cur.tail
    else
      xmlSecEncCtxCipherDataNodeReadEnd
        { encCtx with
          cipherValueNode := cur.head?.map fun n => { path := node.path ++ [0], node := n } }
        cur.tail
  else if xmlSecCheckNodeName cur.head? xmlSecNodeCipherReference xmlSecEncNs then
    if encCtx.encrypt = false then
      match cur.head? with
      | some n =>
        match xmlSecEncCtxCipherReferenceNodeRead env encCtx
            { path := node.path ++ [0], node := n } with
        | (xmlSecResult.fail reason subject, encCtx) => (xmlSecResult.fail reason subject, encCtx)
        | (xmlSecResult.ok _, encCtx) => xmlSecEncCtxCipherDataNodeReadEnd encCtx cur.tail
      | none => xmlSecEncCtxCipherDataNodeReadEnd encCtx cur.tail
    else xmlSecEncCtxCipherDataNodeReadEnd encCtx cur.tail
  else xmlSecEncCtxCipherDataNodeReadEnd encCtx cur

/-- The name the root must have in a mode (the `switch` at xmlenc.c:533). -/
def xmlEncCtxMode.rootName : xmlEncCtxMode → String
  | xmlEncCtxModeEncryptedData => xmlSecNodeEncryptedData
  | xmlEncCtxModeEncryptedKey => xmlSecNodeEncryptedKey

/-- The end of the walk over the children (xmlenc.c:641-649): nothing may be left. -/
def xmlSecEncCtxEncDataNodeReadEnd (encCtx : xmlSecEncCtx) (cur : List xmlNode) :
    xmlSecResult Unit × xmlSecEncCtx :=
  if !cur.isEmpty then
    (xmlSecResult.fail xmlSecErrorReason.UNEXPECTED_NODE (xmlSecNodeGetName cur.head?), encCtx)
  else (xmlSecResult.ok (), encCtx)

/-- The children the walk accepts in mode `EncryptedKey` only (xmlenc.c:617-639): optional
`ReferenceList`, then optional `CarriedKeyName`, whose content is kept. -/
def xmlSecEncCtxEncDataNodeReadKeyTail (env : EncEnv) (encCtx : xmlSecEncCtx)
    (cur : List xmlNode) : xmlSecResult Unit × xmlSecEncCtx :=
  let cur :=
    if xmlSecCheckNodeName cur.head? xmlSecNodeReferenceList xmlSecEncNs then cur.tail else cur
  if xmlSecCheckNodeName cur.head? xmlSecNodeCarriedKeyName xmlSecEncNs then
    match cur.head?.bind env.xmlNodeGetContent with
    | none =>
      (xmlSecResult.fail xmlSecErrorReason.INVALID_NODE_CONTENT (xmlSecNodeGetName cur.head?),
        encCtx)
    | some content =>
      xmlSecEncCtxEncDataNodeReadEnd { encCtx with carriedKeyName := some content } cur.tail
  else xmlSecEncCtxEncDataNodeReadEnd encCtx cur

/-- The children of `EncryptedData` / `EncryptedKey` that may follow `CipherData`
(xmlenc.c:612-649): optional `EncryptionProperties`, then in mode `EncryptedKey` optional
`ReferenceList` and optional `CarriedKeyName`, then nothing. -/
def xmlSecEncCtxEncDataNodeReadTail (env : EncEnv) (encCtx : xmlSecEncCtx) (cur : List xmlNode) :
    xmlSecResult Unit × xmlSecEncCtx :=
  let cur :=
    if xmlSecCheckNodeName cur.head? xmlSecNodeEncryptionProperties xmlSecEncNs then cur.tail
    else cur
  if encCtx.mode = xmlEncCtxMode.xmlEncCtxModeEncryptedKey then
    xmlSecEncCtxEncDataNodeReadKeyTail env encCtx cur
  else xmlSecEncCtxEncDataNodeReadEnd encCtx cur

/-- The walk over the element children `cur` of the root from the optional `KeyInfo` on
(xmlenc.c:583-649); `idx` is the number of elements before `cur`. -/
def xmlSecEncCtxEncDataNodeReadFromKeyInfo (env : EncEnv) (encCtx : xmlSecEncCtx)
    (node : xmlNodePtr) (idx : Nat) (cur : List xmlNode) : xmlSecResult Unit × xmlSecEncCtx :=
  if encCtx.keyInfoNode.isSome then (assertionFailed "encCtx->keyInfoNode == NULL", encCtx)
  else
    let hasKeyInfo := xmlSecCheckNodeName cur.head? xmlSecNodeKeyInfo xmlSecDSigNs
    let encCtx :=
      if hasKeyInfo then
        { encCtx with
          keyInfoNode := cur.head?.map fun n => { path := node.path ++ [idx], node := n } }
      else encCtx
    let idx := if hasKeyInfo then idx + 1 else idx
    let cur := if hasKeyInfo then cur.tail else cur
    match cur with
    | [] => (xmlSecResult.fail xmlSecErrorReason.INVALID_NODE (xmlSecNodeGetName none), encCtx)
    | cipherData :: next =>
      if !xmlSecCheckNodeName (some cipherData) xmlSecNodeCipherData xmlSecEncNs then
        (xmlSecResult.fail xmlSecErrorReason.INVALID_NODE (xmlSecNodeGetName (some cipherData)),
          encCtx)
      else
        match xmlSecEncCtxCipherDataNodeRead env encCtx
            { path := node.path ++ [idx], node := cipherData } with
        | (xmlSecResult.fail reason subject, encCtx) => (xmlSecResult.fail reason subject, encCtx)
        | (xmlSecResult.ok _, encCtx) => xmlSecEncCtxEncDataNodeReadTail env encCtx next

/-- The walk over the element children of the root (xmlenc.c:574-649), from the optional
`EncryptionMethod` on. -/
def xmlSecEncCtxEncDataNodeReadChildren (env : EncEnv) (encCtx : xmlSecEncCtx)
    (node : xmlNodePtr) : xmlSecResult Unit × xmlSecEncCtx :=
  let cur := xmlSecElementNodes node.node.children
  if encCtx.encMethodNode.isSome then (assertionFailed "encCtx->encMethodNode == NULL", encCtx)
  else if xmlSecCheckNodeName cur.head? xmlSecNodeEncryptionMethod xmlSecEncNs then
    xmlSecEncCtxEncDataNodeReadFromKeyInfo env
      { encCtx with
        encMethodNode := cur.head?.map fun n => { path := node.path ++ [0], node := n } }
      node 1 cur.tail
  else xmlSecEncCtxEncDataNodeReadFromKeyInfo env encCtx node 0 cur

/-- The attributes of the root `xmlSecEncCtxEncDataNodeRead` stores in the context
(xmlenc.c:566-573); `Recipient` in mode `EncryptedKey` only. -/
def xmlSecEncCtxEncDataNodeReadAttrs (encCtx : xmlSecEncCtx) (node : xmlNode) : xmlSecEncCtx :=
  { encCtx with
    id := xmlGetProp node xmlSecAttrId
    type := xmlGetProp node xmlSecAttrType
    mimeType := xmlGetProp node xmlSecAttrMimeType
    encoding := xmlGetProp node xmlSecAttrEncoding
    recipient :=
      if encCtx.mode = xmlEncCtxMode.xmlEncCtxModeEncryptedKey then
        xmlGetProp node xmlSecAttrRecipient
      else encCtx.recipient }

/-- The first part of `xmlSecEncCtxEncDataNodeRead` (xmlenc.c:525-649): the check of the
root, the attributes, and the walk over the element children. -/
def xmlSecEncCtxEncDataNodeReadStructure (env : EncEnv) (encCtx : xmlSecEncCtx)
    (node : xmlNodePtr) : xmlSecResult Unit × xmlSecEncCtx :=
  if !xmlSecCheckNodeName (some node.node) encCtx.mode.rootName xmlSecEncNs then
    (xmlSecResult.fail xmlSecErrorReason.INVALID_NODE (xmlSecNodeGetName (some node.node)), encCtx)
  else if encCtx.id.isSome then (assertionFailed "encCtx->id == NULL", encCtx)
  else if encCtx.type.isSome then (assertionFailed "encCtx->type == NULL", encCtx)
  else if encCtx.mimeType.isSome then (assertionFailed "encCtx->mimeType == NULL", encCtx)
  else if encCtx.encoding.isSome then (assertionFailed "encCtx->encoding == NULL", encCtx)
  else if encCtx.recipient.isSome then (assertionFailed "encCtx->recipient == NULL", encCtx)
  else if encCtx.carriedKeyName.isSome then
    (assertionFailed "encCtx->carriedKeyName == NULL", encCtx)
  else
    xmlSecEncCtxEncDataNodeReadChildren env (xmlSecEncCtxEncDataNodeReadAttrs encCtx node.node)
      node

/-- The end of `xmlSecEncCtxEncDataNodeRead` (xmlenc.c:728-746): an encryption into a
`CipherValue` gets a base64 encoder at the tail of the chain. -/
def xmlSecEncCtxEncDataNodeReadBase64 (env : EncEnv) (encCtx : xmlSecEncCtx) :
    xmlSecResult Unit × xmlSecEncCtx :=
  if encCtx.encrypt = true ∧ encCtx.cipherValueNode.isSome = true then
    if env.xmlSecTransformCreateOk xmlSecTransformBase64Id then
      (xmlSecResult.ok (), { encCtx with
        encTransformCtx := { encCtx.encTransformCtx with
          chain := encCtx.encTransformCtx.chain ++
            [xmlSecTransformPtr.owned
              { xmlSecTransformCreate xmlSecTransformBase64Id with encode := true }] }
        resultBase64Encoded := true })
    else
      (xmlSecResult.fail xmlSecErrorReason.XMLSEC_FAILED "xmlSecTransformCtxCreateAndAppend",
        encCtx)
  else (xmlSecResult.ok (), encCtx)

/-- The key lookup of `xmlSecEncCtxEncDataNodeRead` (xmlenc.c:698-702): a context without a
key asks the `getKey` callback of the keys manager, when there is one. -/
def xmlSecEncCtxEncDataNodeReadGetKey (env : EncEnv) (encCtx : xmlSecEncCtx) : xmlSecEncCtx :=
  match encCtx.encKey, env.getKey with
  | none, some getKey =>
    { encCtx with
      encKey := getKey (encCtx.keyInfoNode.map xmlNodePtr.node) encCtx.keyInfoReadCtx }
  | _, _ => encCtx

/-- The key part of `xmlSecEncCtxEncDataNodeRead` (xmlenc.c:684-746), for the transform `t`
that `encCtx->encMethod` points to. -/
def xmlSecEncCtxEncDataNodeReadKey (env : EncEnv) (encCtx : xmlSecEncCtx) (t : xmlSecTransform) :
    xmlSecResult Unit × xmlSecEncCtx :=
  let t := { t with encode := encCtx.encrypt }
  let encCtx := { encCtx with encMethod := some t }
  match env.xmlSecTransformSetKeyReq t encCtx.keyInfoReadCtx.keyReq with
  | none => (xmlSecResult.fail xmlSecErrorReason.XMLSEC_FAILED "xmlSecTransformSetKeyReq", encCtx)
  | some keyReq =>
    let encCtx := xmlSecEncCtxEncDataNodeReadGetKey env
      { encCtx with keyInfoReadCtx := { encCtx.keyInfoReadCtx with keyReq := keyReq } }
    match encCtx.encKey with
    | none => (xmlSecResult.fail xmlSecErrorReason.KEY_NOT_FOUND "", encCtx)
    | some key =>
      if !env.xmlSecKeyMatch key none encCtx.keyInfoReadCtx.keyReq then
        (xmlSecResult.fail xmlSecErrorReason.KEY_NOT_FOUND "", encCtx)
      else if !env.xmlSecTransformSetKeyOk t key then
        (xmlSecResult.fail xmlSecErrorReason.XMLSEC_FAILED "xmlSecTransformSetKey", encCtx)
      else
        xmlSecEncCtxEncDataNodeReadBase64 env
          { encCtx with encMethod := some { t with key := some key } }

/-- The second part of `xmlSecEncCtxEncDataNodeRead` (xmlenc.c:651-747): the transform, the
key, and the base64 encoder of an encryption into a `CipherValue`. -/
def xmlSecEncCtxEncDataNodeReadResolve (env : EncEnv) (encCtx : xmlSecEncCtx) :
    xmlSecResult Unit × xmlSecEncCtx :=
  match encCtx.encMethod, encCtx.encMethodNode with
  | none, some methodNode =>
    match env.xmlSecTransformCtxNodeRead methodNode.node xmlSecTransformUsageEncryptionMethod with
    | none =>
      (xmlSecResult.fail xmlSecErrorReason.XMLSEC_FAILED "xmlSecTransformCtxNodeRead", encCtx)
    | some t =>
      xmlSecEncCtxEncDataNodeReadKey env
        { encCtx with
          encMethod := some t
          encTransformCtx := { encCtx.encTransformCtx with
            chain := encCtx.encTransformCtx.chain ++ [xmlSecTransformPtr.encMethod] }
          dontDestroyEncMethod := true }
        t
  | some t, _ =>
    if env.xmlSecTransformCtxAppendOk t then
      xmlSecEncCtxEncDataNodeReadKey env
        { encCtx with
          encTransformCtx := { encCtx.encTransformCtx with
            chain := encCtx.encTransformCtx.chain ++ [xmlSecTransformPtr.encMethod] } }
        t
    else (xmlSecResult.fail xmlSecErrorReason.XMLSEC_FAILED "xmlSecTransformCtxAppend", encCtx)
  | none, none =>
    (xmlSecResult.fail xmlSecErrorReason.INVALID_DATA "encryption method not specified", encCtx)

/-- The function `xmlSecEncCtxEncDataNodeRead` (xmlenc.c:525), TemplateRead. -/
def xmlSecEncCtxEncDataNodeRead (env : EncEnv) (encCtx : xmlSecEncCtx) (node : xmlNodePtr) :
    xmlSecResult Unit × xmlSecEncCtx :=
  match xmlSecEncCtxEncDataNodeReadStructure env encCtx node with
  | (xmlSecResult.fail reason subject, encCtx) => (xmlSecResult.fail reason subject, encCtx)
  | (xmlSecResult.ok _, encCtx) => xmlSecEncCtxEncDataNodeReadResolve env encCtx

/-- The end of `xmlSecEncCtxEncDataNodeWrite` (xmlenc.c:767-780): the KeyInfo writer runs on
the `KeyInfo` node, when the template has one. -/
def xmlSecEncCtxEncDataNodeWriteKeyInfo (env : EncEnv) (encCtx : xmlSecEncCtx) (key : xmlSecKey)
    (tmpl : xmlNode) : xmlSecResult Unit × xmlSecEncCtx × xmlNode :=
  match encCtx.keyInfoNode with
  | some keyInfo =>
    match env.xmlSecKeyInfoNodeWrite keyInfo.node key encCtx.keyInfoWriteCtx with
    | none =>
      (xmlSecResult.fail xmlSecErrorReason.XMLSEC_FAILED "xmlSecKeyInfoNodeWrite", encCtx, tmpl)
    | some children =>
      (xmlSecResult.ok (), encCtx, updateAt (fun n => n.setChildren children) keyInfo.path tmpl)
  | none => (xmlSecResult.ok (), encCtx, tmpl)

/-- The function `xmlSecEncCtxEncDataNodeWrite` (xmlenc.c:749), TemplateWrite: the return
value, the context and the template after the call. -/
def xmlSecEncCtxEncDataNodeWrite (env : EncEnv) (encCtx : xmlSecEncCtx) (tmpl : xmlNode) :
    xmlSecResult Unit × xmlSecEncCtx × xmlNode :=
  match encCtx.result, encCtx.encKey with
  | none, _ => (assertionFailed "encCtx->result != NULL", encCtx, tmpl)
  | some _, none => (assertionFailed "encCtx->encKey != NULL", encCtx, tmpl)
  | some result, some key =>
    match encCtx.cipherValueNode with
    | some cipherValue =>
      if env.xmlSecBufferDataNull result then
        (assertionFailed "xmlSecBufferGetData(encCtx->result) != NULL", encCtx, tmpl)
      else
        xmlSecEncCtxEncDataNodeWriteKeyInfo env { encCtx with resultReplaced := true } key
          (updateAt (fun n => xmlNodeSetContentLen n result result.length) cipherValue.path tmpl)
    | none => xmlSecEncCtxEncDataNodeWriteKeyInfo env encCtx key tmpl

/-- The function `xmlSecEncCtxBinaryEncrypt` (xmlenc.c:165).  The pair `data`, `dataSize` is
the list of the `dataSize` octets at `data`.  The registration of the `Id` attributes
(`xmlSecAddIDs`) leaves the tree as it is and is not shown. -/
def xmlSecEncCtxBinaryEncrypt (env : EncEnv) (encCtx : xmlSecEncCtx) (tmpl : Option xmlNode)
    (data : Option Bytes) : EncOutcome Unit :=
  if encCtx.result.isSome then
    { ret := assertionFailed "encCtx->result == NULL", ctx := encCtx, tmpl := tmpl, dom := [] }
  else
    match tmpl, data with
    | none, _ => { ret := assertionFailed "tmpl != NULL", ctx := encCtx, tmpl := tmpl, dom := [] }
    | some _, none =>
      { ret := assertionFailed "data != NULL", ctx := encCtx, tmpl := tmpl, dom := [] }
    | some tmplNode, some bytes =>
      let encCtx := { encCtx with encrypt := true }
      match xmlSecEncCtxEncDataNodeRead env encCtx { path := [], node := tmplNode } with
      | (xmlSecResult.fail reason subject, encCtx) =>
        { ret := xmlSecResult.fail reason subject, ctx := encCtx, tmpl := tmpl, dom := [] }
      | (xmlSecResult.ok _, encCtx) =>
        match xmlSecTransformCtxBinaryExecute env encCtx.encTransformCtx encCtx.encMethod bytes with
        | none =>
          { ret := xmlSecResult.fail xmlSecErrorReason.XMLSEC_FAILED
              "xmlSecTransformCtxBinaryExecute", ctx := encCtx, tmpl := tmpl, dom := [] }
        | some tctx =>
          let encCtx := { encCtx with encTransformCtx := tctx, result := tctx.result }
          if encCtx.result.isNone then
            { ret := assertionFailed "encCtx->result != NULL", ctx := encCtx, tmpl := tmpl,
              dom := [] }
          else
            { ret := (xmlSecEncCtxEncDataNodeWrite env encCtx tmplNode).1
              ctx := (xmlSecEncCtxEncDataNodeWrite env encCtx tmplNode).2.1
              tmpl := some (xmlSecEncCtxEncDataNodeWrite env encCtx tmplNode).2.2
              dom := [] }

/-- The call `xmlOutputBufferClose (output)` on the buffer bound to the first transform: what
was written to the buffer is flushed through the chain. -/
def xmlOutputBufferClose (env : EncEnv) (ctx : xmlSecTransformCtx)
    (encMethod : Option xmlSecTransform) (written : Bytes) : xmlSecTransformCtx :=
  match xmlSecTransformCtxBinaryExecute env ctx encMethod written with
  | none => ctx
  | some after => after

/-- The end of `xmlSecEncCtxXmlEncrypt` (xmlenc.c:303-338): the template takes the place of
the source node, or of its content. -/
def xmlSecEncCtxXmlEncryptReplace (env : EncEnv) (encCtx : xmlSecEncCtx) (written : xmlNode) :
    EncOutcome Unit :=
  if xmlStrEqual encCtx.type xmlSecTypeEncElement then
    if !env.xmlSecReplaceNodeOk then
      { ret := xmlSecResult.fail xmlSecErrorReason.XMLSEC_FAILED "xmlSecReplaceNode",
        ctx := encCtx, tmpl := some written, dom := [] }
    else
      { ret := xmlSecResult.ok (), ctx := { encCtx with resultReplaced := true },
        tmpl := some written, dom := [DomOp.replaceNode written] }
  else if xmlStrEqual encCtx.type xmlSecTypeEncContent then
    if !env.xmlSecReplaceContentOk then
      { ret := xmlSecResult.fail xmlSecErrorReason.XMLSEC_FAILED "xmlSecReplaceContent",
        ctx := encCtx, tmpl := some written, dom := [] }
    else
      { ret := xmlSecResult.ok (), ctx := { encCtx with resultReplaced := true },
        tmpl := some written, dom := [DomOp.replaceContent written] }
  else
    { ret := xmlSecResult.fail xmlSecErrorReason.INVALID_TYPE "type", ctx := encCtx,
      tmpl := some written, dom := [] }

/-- The part of `xmlSecEncCtxXmlEncrypt` after the output buffer is closed
(xmlenc.c:290-338). -/
def xmlSecEncCtxXmlEncryptWrite (env : EncEnv) (encCtx : xmlSecEncCtx) (tmplNode : xmlNode) :
    EncOutcome Unit :=
  let encCtx := { encCtx with result := encCtx.encTransformCtx.result }
  if encCtx.result.isNone then
    { ret := assertionFailed "encCtx->result != NULL", ctx := encCtx, tmpl := some tmplNode,
      dom := [] }
  else
    match (xmlSecEncCtxEncDataNodeWrite env encCtx tmplNode).1 with
    | xmlSecResult.fail reason subject =>
      { ret := xmlSecResult.fail reason subject
        ctx := (xmlSecEncCtxEncDataNodeWrite env encCtx tmplNode).2.1
        tmpl := some (xmlSecEncCtxEncDataNodeWrite env encCtx tmplNode).2.2
        dom := [] }
    | xmlSecResult.ok _ =>
      xmlSecEncCtxXmlEncryptReplace env (xmlSecEncCtxEncDataNodeWrite env encCtx tmplNode).2.1
        (xmlSecEncCtxEncDataNodeWrite env encCtx tmplNode).2.2

/-- The function `xmlSecEncCtxXmlEncrypt` (xmlenc.c:217).  `nodeDoc` is `node->doc`.  The
output buffer bound to the first transform collects what `xmlNodeDumpOutput` writes;
`xmlOutputBufferClose` flushes it through the chain. -/
def xmlSecEncCtxXmlEncrypt (env : EncEnv) (encCtx : xmlSecEncCtx) (tmpl : Option xmlNode)
    (node : Option xmlNode) (nodeDoc : Option xmlDoc) : EncOutcome Unit :=
  if encCtx.result.isSome then
    { ret := assertionFailed "encCtx->result == NULL", ctx := encCtx, tmpl := tmpl, dom := [] }
  else
    match tmpl, node, nodeDoc with
    | none, _, _ =>
      { ret := assertionFailed "tmpl != NULL", ctx := encCtx, tmpl := tmpl, dom := [] }
    | some _, none, _ =>
      { ret := assertionFailed "node != NULL", ctx := encCtx, tmpl := tmpl, dom := [] }
    | some _, some _, none =>
      { ret := assertionFailed "node->doc != NULL", ctx := encCtx, tmpl := tmpl, dom := [] }
    | some tmplNode, some source, some _ =>
      let encCtx := { encCtx with encrypt := true }
      match xmlSecEncCtxEncDataNodeRead env encCtx { path := [], node := tmplNode } with
      | (xmlSecResult.fail reason subject, encCtx) =>
        { ret := xmlSecResult.fail reason subject, ctx := encCtx, tmpl := tmpl, dom := [] }
      | (xmlSecResult.ok _, encCtx) =>
        if !env.xmlSecTransformCtxPrepareOk then
          { ret := xmlSecResult.fail xmlSecErrorReason.XMLSEC_FAILED "xmlSecTransformCtxPrepare",
            ctx := encCtx, tmpl := tmpl, dom := [] }
        else if encCtx.encTransformCtx.chain.isEmpty then
          { ret := assertionFailed "encCtx->encTransformCtx.first != NULL", ctx := encCtx,
            tmpl := tmpl, dom := [] }
        else if !env.xmlSecTransformCreateOutputBufferOk then
          { ret := xmlSecResult.fail xmlSecErrorReason.XMLSEC_FAILED
              "xmlSecTransformCreateOutputBuffer", ctx := encCtx, tmpl := tmpl, dom := [] }
        else if xmlStrEqual encCtx.type xmlSecTypeEncElement then
          xmlSecEncCtxXmlEncryptWrite env
            { encCtx with
              encTransformCtx := xmlOutputBufferClose env encCtx.encTransformCtx encCtx.encMethod
                (env.xmlNodeDumpOutput source) }
            tmplNode
        else if xmlStrEqual encCtx.type xmlSecTypeEncContent then
          xmlSecEncCtxXmlEncryptWrite env
            { encCtx with
              encTransformCtx := xmlOutputBufferClose env encCtx.encTransformCtx encCtx.encMethod
                (source.children.map env.xmlNodeDumpOutput).flatten }
            tmplNode
        else
          { ret := xmlSecResult.fail xmlSecErrorReason.INVALID_TYPE "type"
            ctx := { encCtx with
              encTransformCtx :=
                xmlOutputBufferClose env encCtx.encTransformCtx encCtx.encMethod [] }
            tmpl := tmpl, dom := [] }

/-- The function `xmlSecEncCtxUriEncrypt` (xmlenc.c:341). -/
def xmlSecEncCtxUriEncrypt (env : EncEnv) (encCtx : xmlSecEncCtx) (tmpl : Option xmlNode)
    (uri : Option String) : EncOutcome Unit :=
  if encCtx.result.isSome then
    { ret := assertionFailed "encCtx->result == NULL", ctx := encCtx, tmpl := tmpl, dom := [] }
  else
    match tmpl, uri with
    | none, _ => { ret := assertionFailed "tmpl != NULL", ctx := encCtx, tmpl := tmpl, dom := [] }
    | some _, none =>
      { ret := assertionFailed "uri != NULL", ctx := encCtx, tmpl := tmpl, dom := [] }
    | some tmplNode, some u =>
      let encCtx := { encCtx with encrypt := true }
      match xmlSecTransformCtxSetUri env encCtx.encTransformCtx u with
      | none =>
        { ret := xmlSecResult.fail xmlSecErrorReason.XMLSEC_FAILED "xmlSecTransformCtxSetUri",
          ctx := encCtx, tmpl := tmpl, dom := [] }
      | some tctx =>
        let encCtx := { encCtx with encTransformCtx := tctx }
        match xmlSecEncCtxEncDataNodeRead env encCtx { path := [], node := tmplNode } with
        | (xmlSecResult.fail reason subject, encCtx) =>
          { ret := xmlSecResult.fail reason subject, ctx := encCtx, tmpl := tmpl, dom := [] }
        | (xmlSecResult.ok _, encCtx) =>
          match xmlSecTransformCtxExecute env encCtx.encTransformCtx encCtx.encMethod with
          | none =>
            { ret := xmlSecResult.fail xmlSecErrorReason.XMLSEC_FAILED "xmlSecTransformCtxExecute",
              ctx := encCtx, tmpl := tmpl, dom := [] }
          | some tctx =>
            let encCtx := { encCtx with encTransformCtx := tctx, result := tctx.result }
            if encCtx.result.isNone then
              { ret := assertionFailed "encCtx->result != NULL", ctx := encCtx, tmpl := tmpl,
                dom := [] }
            else
              { ret := (xmlSecEncCtxEncDataNodeWrite env encCtx tmplNode).1
                ctx := (xmlSecEncCtxEncDataNodeWrite env encCtx tmplNode).2.1
                tmpl := some (xmlSecEncCtxEncDataNodeWrite env encCtx tmplNode).2.2
                dom := [] }

/-- The function `xmlSecEncCtxDecryptToBuffer` (xmlenc.c:453): the buffer returned, `fail`
for `NULL`. -/
def xmlSecEncCtxDecryptToBuffer (env : EncEnv) (encCtx : xmlSecEncCtx) (node : Option xmlNode) :
    EncOutcome Bytes :=
  if encCtx.result.isSome then
    { ret := assertionFailed "encCtx->result == NULL", ctx := encCtx, tmpl := node, dom := [] }
  else
    match node with
    | none => { ret := assertionFailed "node != NULL", ctx := encCtx, tmpl := node, dom := [] }
    | some encNode =>
      let encCtx := { encCtx with encrypt := false }
      match xmlSecEncCtxEncDataNodeRead env encCtx { path := [], node := encNode } with
      | (xmlSecResult.fail reason subject, encCtx) =>
        { ret := xmlSecResult.fail reason subject, ctx := encCtx, tmpl := node, dom := [] }
      | (xmlSecResult.ok _, encCtx) =>
        let executed : xmlSecResult xmlSecTransformCtx :=
          match encCtx.cipherValueNode with
          | some cipherValue =>
            match env.xmlNodeGetContent cipherValue.node with
            | none =>
              xmlSecResult.fail xmlSecErrorReason.INVALID_NODE_CONTENT
                (xmlSecNodeGetName (some cipherValue.node))
            | some data =>
              let dataSize := xmlStrlen data
              match xmlSecTransformCtxBinaryExecute env encCtx.encTransformCtx encCtx.encMethod
                  (data.take dataSize) with
              | none =>
                xmlSecResult.fail xmlSecErrorReason.XMLSEC_FAILED "xmlSecTransformCtxBinaryExecute"
              | some tctx => xmlSecResult.ok tctx
          | none =>
            match xmlSecTransformCtxExecute env encCtx.encTransformCtx encCtx.encMethod with
            | none => xmlSecResult.fail xmlSecErrorReason.XMLSEC_FAILED "xmlSecTransformCtxExecute"
            | some tctx => xmlSecResult.ok tctx
        match executed with
        | xmlSecResult.fail reason subject =>
          { ret := xmlSecResult.fail reason subject, ctx := encCtx, tmpl := node, dom := [] }
        | xmlSecResult.ok tctx =>
          let encCtx := { encCtx with encTransformCtx := tctx, result := tctx.result }
          match encCtx.result with
          | none =>
            { ret := assertionFailed "encCtx->result != NULL", ctx := encCtx, tmpl := node,
              dom := [] }
          | some buffer => { ret := xmlSecResult.ok buffer, ctx := encCtx, tmpl := node, dom := [] }

/-- The end of `xmlSecEncCtxDecrypt` (xmlenc.c:423-451): the buffer takes the place of the
encrypted node when `Type` asks for it. -/
def xmlSecEncCtxDecryptReplace (env : EncEnv) (encCtx : xmlSecEncCtx) (node : Option xmlNode)
    (buffer : Bytes) : EncOutcome Unit :=
  if xmlStrEqual encCtx.type xmlSecTypeEncElement then
    if !env.xmlSecReplaceNodeBufferOk buffer then
      { ret := xmlSecResult.fail xmlSecErrorReason.XMLSEC_FAILED "xmlSecReplaceNodeBuffer",
        ctx := encCtx, tmpl := node, dom := [] }
    else
      { ret := xmlSecResult.ok (), ctx := { encCtx with resultReplaced := true }, tmpl := node,
        dom := [DomOp.replaceNodeBuffer buffer] }
  else if xmlStrEqual encCtx.type xmlSecTypeEncContent then
    if !env.xmlSecReplaceNodeBufferOk buffer then
      { ret := xmlSecResult.fail xmlSecErrorReason.XMLSEC_FAILED "xmlSecReplaceNodeBuffer",
        ctx := encCtx, tmpl := node, dom := [] }
    else
      { ret := xmlSecResult.ok (), ctx := { encCtx with resultReplaced := true }, tmpl := node,
        dom := [DomOp.replaceNodeBuffer buffer] }
  else { ret := xmlSecResult.ok (), ctx := encCtx, tmpl := node, dom := [] }

/-- The function `xmlSecEncCtxDecrypt` (xmlenc.c:404). -/
def xmlSecEncCtxDecrypt (env : EncEnv) (encCtx : xmlSecEncCtx) (node : Option xmlNode) :
    EncOutcome Unit :=
  match node with
  | none => { ret := assertionFailed "node != NULL", ctx := encCtx, tmpl := node, dom := [] }
  | some _ =>
    match (xmlSecEncCtxDecryptToBuffer env encCtx node).ret with
    | xmlSecResult.fail reason subject =>
      { ret := xmlSecResult.fail reason subject
        ctx := (xmlSecEncCtxDecryptToBuffer env encCtx node).ctx, tmpl := node, dom := [] }
    | xmlSecResult.ok buffer =>
      xmlSecEncCtxDecryptReplace env (xmlSecEncCtxDecryptToBuffer env encCtx node).ctx node buffer

/-- One call of an entry point of the context, with its arguments. -/
inductive EntryCall where
  | binaryEncrypt (tmpl : Option xmlNode) (data : Option Bytes)
  | xmlEncrypt (tmpl : Option xmlNode) (node : Option xmlNode) (nodeDoc : Option xmlDoc)
  | uriEncrypt (tmpl : Option xmlNode) (uri : Option String)
  | decrypt (node : xmlNode)
  | decryptToBuffer (node : Option xmlNode)

/-- The outcome of a call of an entry point on a context: whether it failed, and the context
after it. -/
def EntryCall.run (env : EncEnv) (encCtx : xmlSecEncCtx) : EntryCall → xmlSecResult Unit × xmlSecEncCtx
  | binaryEncrypt tmpl data =>
    ((xmlSecEncCtxBinaryEncrypt env encCtx tmpl data).ret,
      (xmlSecEncCtxBinaryEncrypt env encCtx tmpl data).ctx)
  | xmlEncrypt tmpl node nodeDoc =>
    ((xmlSecEncCtxXmlEncrypt env encCtx tmpl node nodeDoc).ret,
      (xmlSecEncCtxXmlEncrypt env encCtx tmpl node nodeDoc).ctx)
  | uriEncrypt tmpl uri =>
    ((xmlSecEncCtxUriEncrypt env encCtx tmpl uri).ret,
      (xmlSecEncCtxUriEncrypt env encCtx tmpl uri).ctx)
  | decrypt node =>
    ((xmlSecEncCtxDecrypt env encCtx (some node)).ret,
      (xmlSecEncCtxDecrypt env encCtx (some node)).ctx)
  | decryptToBuffer node =>
    (match (xmlSecEncCtxDecryptToBuffer env encCtx node).ret with
      | xmlSecResult.ok _ => xmlSecResult.ok ()
      | xmlSecResult.fail reason subject => xmlSecResult.fail reason subject,
      (xmlSecEncCtxDecryptToBuffer env encCtx node).ctx)

/-- The grammar the spec gives for the element children of `EncryptedData` /
`EncryptedKey`, in document order: optional `EncryptionMethod`, optional dsig `KeyInfo`,
required `CipherData`, optional `EncryptionProperties`, and in mode `EncryptedKey` only
optional `ReferenceList` then optional `CarriedKeyName`, with nothing else.  `nameOk` is what
is asked of a `CarriedKeyName` child beyond its name. -/
def specEncDataChildren (mode : xmlEncCtxMode) (nameOk : xmlNode → Prop) (elems : List xmlNode) :
    Prop :=
  ∃ (method keyInfo props refs name : Option xmlNode) (cipherData : xmlNode),
    elems = method.toList ++ keyInfo.toList ++ [cipherData] ++ props.toList ++ refs.toList ++
      name.toList ∧
    (∀ n ∈ method, xmlSecCheckNodeName (some n) xmlSecNodeEncryptionMethod xmlSecEncNs = true) ∧
    (∀ n ∈ keyInfo, xmlSecCheckNodeName (some n) xmlSecNodeKeyInfo xmlSecDSigNs = true) ∧
    xmlSecCheckNodeName (some cipherData) xmlSecNodeCipherData xmlSecEncNs = true ∧
    (∀ n ∈ props, xmlSecCheckNodeName (some n) xmlSecNodeEncryptionProperties xmlSecEncNs = true) ∧
    (∀ n ∈ refs, mode = xmlEncCtxMode.xmlEncCtxModeEncryptedKey ∧
      xmlSecCheckNodeName (some n) xmlSecNodeReferenceList xmlSecEncNs = true) ∧
    (∀ n ∈ name, mode = xmlEncCtxMode.xmlEncCtxModeEncryptedKey ∧
      xmlSecCheckNodeName (some n) xmlSecNodeCarriedKeyName xmlSecEncNs = true ∧ nameOk n)

/-- The fields TemplateRead fills are all `NULL`, as `xmlSecEncCtxInitialize` leaves them. -/
def xmlSecEncCtx.unread (encCtx : xmlSecEncCtx) : Prop :=
  encCtx.id = none ∧ encCtx.type = none ∧ encCtx.mimeType = none ∧ encCtx.encoding = none ∧
  encCtx.recipient = none ∧ encCtx.carriedKeyName = none ∧ encCtx.encMethodNode = none ∧
  encCtx.keyInfoNode = none ∧ encCtx.cipherValueNode = none

/-- The `CipherValue` child of a template: the first element child of its `CipherData`
child, when that is a `CipherValue`. -/
def templateCipherValue (tmpl : xmlNode) : Option xmlNode :=
  match (xmlSecElementNodes tmpl.children).find? fun n =>
      xmlSecCheckNodeName (some n) xmlSecNodeCipherData xmlSecEncNs with
  | none => none
  | some cipherData =>
    match xmlSecElementNodes cipherData.children with
    | [] => none
    | first :: _ =>
      if xmlSecCheckNodeName (some first) xmlSecNodeCipherValue xmlSecEncNs then some first
      else none

/-- The base64 transform in encode mode, as TemplateRead appends it. -/
def base64Encoder : xmlSecTransform :=
  { xmlSecTransformCreate xmlSecTransformBase64Id with encode := true }

/-- The base64 transform in decode mode, as `xmlSecEncCtxCipherDataNodeRead` prepends it. -/
def base64Decoder : xmlSecTransform := xmlSecTransformCreate xmlSecTransformBase64Id

/-- What the round trip assumes of the collaborators, for the key `key`. -/
structure RoundTripEnv (env : EncEnv) (key : xmlSecKey) : Prop where
  /-- The cipher's decrypt inverts its encrypt under the same key. -/
  cipher_inverts : ∀ (t : xmlSecTransform) (plain cipher : Bytes),
    env.xmlSecTransformExecute { t with encode := true, key := some key } plain = some cipher →
    env.xmlSecTransformExecute { t with encode := false, key := some key } cipher = some plain
  /-- A key a transform accepts for encrypting it accepts for decrypting. -/
  key_accepted : ∀ (t : xmlSecTransform) (req accepted : xmlSecKeyReq),
    env.xmlSecTransformSetKeyReq { t with encode := true } req = some accepted →
    env.xmlSecKeyMatch key none accepted = true →
    env.xmlSecTransformSetKeyOk { t with encode := true } key = true →
    ∃ acceptedDec : xmlSecKeyReq,
      env.xmlSecTransformSetKeyReq { t with encode := false } req = some acceptedDec ∧
      env.xmlSecKeyMatch key none acceptedDec = true ∧
      env.xmlSecTransformSetKeyOk { t with encode := false } key = true
  /-- Base64 decode inverts base64 encode. -/
  base64_inverts : ∀ (raw text : Bytes),
    env.xmlSecTransformExecute base64Encoder raw = some text →
    env.xmlSecTransformExecute base64Decoder text = some raw
  /-- Base64 text set as the content of an element is what `xmlNodeGetContent` returns for
  it, and holds no `NUL`. -/
  text_reads_back : ∀ (node : xmlNode) (raw text : Bytes), node.isElement = true →
    env.xmlSecTransformExecute base64Encoder raw = some text →
    env.xmlNodeGetContent (xmlNodeSetContentLen node text text.length) = some text ∧
    xmlStrlen text = text.length

/-- The two contexts agree on every field that the walk over the children of the root does
not write: all but `carriedKeyName`, the three node pointers and the transform pipeline. -/
def xmlSecEncCtx.sameOutsideWalk (a b : xmlSecEncCtx) : Prop :=
  a.mode = b.mode ∧ a.encrypt = b.encrypt ∧ a.id = b.id ∧ a.type = b.type ∧
  a.mimeType = b.mimeType ∧ a.encoding = b.encoding ∧ a.recipient = b.recipient ∧
  a.encMethod = b.encMethod ∧ a.dontDestroyEncMethod = b.dontDestroyEncMethod ∧
  a.keyInfoReadCtx = b.keyInfoReadCtx ∧ a.keyInfoWriteCtx = b.keyInfoWriteCtx ∧
  a.encKey = b.encKey ∧ a.result = b.result ∧
  a.resultBase64Encoded = b.resultBase64Encoded ∧ a.resultReplaced = b.resultReplaced ∧
  a.allowedCipherReferenceUris = b.allowedCipherReferenceUris

/-- The template, or the encrypted node, a call of an entry point is handed. -/
def EntryCall.tmpl : EntryCall → Option xmlNode
  | binaryEncrypt tmpl _ => tmpl
  | xmlEncrypt tmpl _ _ => tmpl
  | uriEncrypt tmpl _ => tmpl
  | decrypt node => some node
  | decryptToBuffer node => node

/-- What a call of an entry point leaves behind: the return value (for
`xmlSecEncCtxDecryptToBuffer`, whether a buffer was returned), the context, the template or
node after the call, and the substitutions made in the document of the source node. -/
def EntryCall.outcome (env : EncEnv) (encCtx : xmlSecEncCtx) : EntryCall → EncOutcome Unit
  | binaryEncrypt tmpl data => xmlSecEncCtxBinaryEncrypt env encCtx tmpl data
  | xmlEncrypt tmpl node nodeDoc => xmlSecEncCtxXmlEncrypt env encCtx tmpl node nodeDoc
  | uriEncrypt tmpl uri => xmlSecEncCtxUriEncrypt env encCtx tmpl uri
  | decrypt node => xmlSecEncCtxDecrypt env encCtx (some node)
  | decryptToBuffer node =>
    { ret :=
        match (xmlSecEncCtxDecryptToBuffer env encCtx node).ret with
        | xmlSecResult.ok _ => xmlSecResult.ok ()
        | xmlSecResult.fail reason subject => xmlSecResult.fail reason subject
      ctx := (xmlSecEncCtxDecryptToBuffer env encCtx node).ctx
      tmpl := (xmlSecEncCtxDecryptToBuffer env encCtx node).tmpl
      dom := (xmlSecEncCtxDecryptToBuffer env encCtx node).dom }

/-- Modelled from the spec: the match of the store lookup, "name equals (when supplied),
algorithm identifier equals (when supplied), key-type bit present in the stored key's bits",
as `xmlSecKeyCheck (key, name, id, type)` (keys.c, not among the sources) returns it.  The
algorithm id `0` stands for an identifier that is not supplied. -/
def specKeyCheck (key : xmlSecKey) (name : Option String) (id type : Nat) : Int :=
  if (name = none ∨ key.name = name) ∧ (id = 0 ∨ key.id = id) ∧ key.type &&& type ≠ 0 then 1
  else 0

/-- Modelled from the spec: "a key satisfies `keyReq` iff algorithm class, key-type, and
key-size all align", as `xmlSecKeyMatch (key, name, keyReq)` (keys.c, not among the sources)
decides it.  The size of a key is the number of bits of its value. -/
def specKeyMatch (key : xmlSecKey) (name : Option String) (keyReq : xmlSecKeyReq) : Bool :=
  decide ((name = none ∨ key.name = name) ∧ key.id = keyReq.keyId ∧
    key.type &&& keyReq.keyType ≠ 0 ∧ 8 * key.value.length = keyReq.keyBitsSize)

/-- Modelled from the spec: the default `getKey` callback of the keys manager (keysmngr core,
not among the sources), which "walks the KeyInfo children using the KeyInfo reader, which in
turn may call back into `KeyStore.find`".  `keyName` is the name the reader finds in the
`KeyInfo` node; it is looked up in the store with `xmlSecSimpleKeysMngrFindKey`, together with
the algorithm and the key type of the requirements. -/
def xmlSecSimpleKeysMngrGetKey (kenv : KeysMngrEnv) (mngr : Option xmlSecKeysMngr)
    (keyName : Option xmlNode → Option String) (keyInfoNode : Option xmlNode)
    (keyInfoCtx : xmlSecKeyInfoCtx) : Option xmlSecKey :=
  xmlSecSimpleKeysMngrFindKey kenv
    (some
      { keysMngr := mngr
        keyName := keyName keyInfoNode
        keyId := keyInfoCtx.keyReq.keyId
        keyType := keyInfoCtx.keyReq.keyType
        allowedOrigins := xmlSecKeyOriginAll })

/-- The collaborators of xmlenc.c for a context bound to a simple keys manager: `getKey` is
the default callback over the store of the manager. -/
def EncEnv.withKeysMngr (env : EncEnv) (kenv : KeysMngrEnv) (mngr : Option xmlSecKeysMngr)
    (keyName : Option xmlNode → Option String) : EncEnv :=
  { env with getKey := some (xmlSecSimpleKeysMngrGetKey kenv mngr keyName) }

/-- The two contexts agree on every field that the second part of TemplateRead does not
write: all but the transform, its ownership flag, the key, the key requirements of
`keyInfoReadCtx`, the pipeline and `resultBase64Encoded`. -/
def xmlSecEncCtx.sameOutsideResolve (a b : xmlSecEncCtx) : Prop :=
  a.mode = b.mode ∧ a.encrypt = b.encrypt ∧ a.id = b.id ∧ a.type = b.type ∧
  a.mimeType = b.mimeType ∧ a.encoding = b.encoding ∧ a.recipient = b.recipient ∧
  a.carriedKeyName = b.carriedKeyName ∧ a.keyInfoWriteCtx = b.keyInfoWriteCtx ∧
  a.result = b.result ∧ a.resultReplaced = b.resultReplaced ∧
  a.allowedCipherReferenceUris = b.allowedCipherReferenceUris ∧
  a.encMethodNode.isSome = b.encMethodNode.isSome ∧
  a.keyInfoNode.isSome = b.keyInfoNode.isSome ∧
  a.cipherValueNode.isSome = b.cipherValueNode.isSome

/-- What the walk over the children of the root does to the pipeline, for the context
`before` the walk and the pair `r` it returns: an encryption leaves the pipeline as it is,
whatever is returned; a decryption that succeeds and has recorded a `CipherValue` has put the
base64 decoder at the head of the chain and left the rest. -/
def pipelineAfterWalk (before : xmlSecEncCtx) (r : xmlSecResult Unit × xmlSecEncCtx) : Prop :=
  (before.encrypt = true → r.2.encTransformCtx = before.encTransformCtx) ∧
  (r.1 = xmlSecResult.ok () → before.encrypt = false → r.2.cipherValueNode.isSome = true →
    r.2.encTransformCtx =
      { before.encTransformCtx with
        chain := xmlSecTransformPtr.owned base64Decoder :: before.encTransformCtx.chain })

/-- One of the fields that TemplateRead records from a node, and asserts to be `NULL` before
it records it, is set: `id`, `type`, `mimeType`, `encoding`, `encMethodNode`, `keyInfoNode`
or `cipherValueNode`. -/
def xmlSecEncCtx.poisoned (encCtx : xmlSecEncCtx) : Prop :=
  encCtx.id.isSome = true ∨ encCtx.type.isSome = true ∨ encCtx.mimeType.isSome = true ∨
  encCtx.encoding.isSome = true ∨ encCtx.encMethodNode.isSome = true ∨
  encCtx.keyInfoNode.isSome = true ∨ encCtx.cipherValueNode.isSome = true

/-- Every one of these fields that is set in `before` has the same value in `after`. -/
def xmlSecEncCtx.keepsRead (before after : xmlSecEncCtx) : Prop :=
  (before.id.isSome = true → after.id = before.id) ∧
  (before.type.isSome = true → after.type = before.type) ∧
  (before.mimeType.isSome = true → after.mimeType = before.mimeType) ∧
  (before.encoding.isSome = true → after.encoding = before.encoding) ∧
  (before.encMethodNode.isSome = true → after.encMethodNode = before.encMethodNode) ∧
  (before.keyInfoNode.isSome = true → after.keyInfoNode = before.keyInfoNode) ∧
  (before.cipherValueNode.isSome = true → after.cipherValueNode = before.cipherValueNode)

/-- The expressions of the assertions `field == NULL` of TemplateRead, in the order in which
they are made (xmlenc.c:559-564, 577, 584, 794). -/
def readAssertions : List String :=
  ["encCtx->id == NULL", "encCtx->type == NULL", "encCtx->mimeType == NULL",
    "encCtx->encoding == NULL", "encCtx->recipient == NULL", "encCtx->carriedKeyName == NULL",
    "encCtx->encMethodNode == NULL", "encCtx->keyInfoNode == NULL",
    "encCtx->cipherValueNode == NULL"]

/-- The return values of a sequence of calls of entry points made one after the other on the
same context. -/
def EntryCall.runAll (env : EncEnv) : xmlSecEncCtx → List EntryCall → List (xmlSecResult Unit)
  | _, [] => []
  | encCtx, call :: rest =>
    (call.run env encCtx).1 :: EntryCall.runAll env (call.run env encCtx).2 rest

/-- The function `xmlSecSimpleKeysDataCreate` (keysmngr.c:517): the store after `memset` to
zero, so without slots and without keys, or `NULL` when `xmlMalloc` fails.  `sizeofKeysData`
is `sizeof (xmlSecSimpleKeysData)`. -/
def xmlSecSimpleKeysDataCreate (env : KeysMngrEnv) (sizeofKeysData : Nat) :
    Option xmlSecSimpleKeysData :=
  if env.xmlMalloc sizeofKeysData then some { keys := [], maxSize := 0 } else none

/-- One call on the store of a manager: `xmlSecSimpleKeysMngrAddKey` with a key, or
`xmlSecSimpleKeysMngrFindKey` with the criteria of a search context. -/
inductive StoreCall where
  | addKey (key : Option xmlSecKey)
  | findKey (keyName : Option String) (keyId keyType allowedOrigins : Nat)

/-- The manager after a call, and the key the call returned.  `xmlSecSimpleKeysMngrFindKey`
reads the store through its search context and assigns to no field of it
(keysmngr.c:141-158), so the manager after the call is the manager before it. -/
def StoreCall.run (env : KeysMngrEnv) (mngr : Option xmlSecKeysMngr) :
    StoreCall → Option xmlSecKeysMngr × Option xmlSecKey
  | addKey key => ((xmlSecSimpleKeysMngrAddKey env mngr key).2, none)
  | findKey keyName keyId keyType allowedOrigins =>
    (mngr,
      xmlSecSimpleKeysMngrFindKey env
        (some
          { keysMngr := mngr, keyName := keyName, keyId := keyId, keyType := keyType,
            allowedOrigins := allowedOrigins }))

/-- The manager after a sequence of calls made one after the other. -/
def StoreCall.runAll (env : KeysMngrEnv) :
    Option xmlSecKeysMngr → List StoreCall → Option xmlSecKeysMngr
  | mngr, [] => mngr
  | mngr, call :: rest => StoreCall.runAll env (call.run env mngr).1 rest

/-- The sizes of a store fit: `curSize <= maxSize`, `maxSize` is `0` or `16 * 2 ^ k`, and a
store without slots has no key. -/
def xmlSecSimpleKeysData.wellSized (keysData : xmlSecSimpleKeysData) : Prop :=
  keysData.curSize ≤ keysData.maxSize ∧
  (keysData.maxSize = 0 ∨ ∃ k : Nat, keysData.maxSize = 16 * 2 ^ k) ∧
  (keysData.maxSize = 0 → keysData.curSize = 0)

/-- The store of a manager, when it has one, has sizes that fit. -/
def storeWellSized (mngr : Option xmlSecKeysMngr) : Prop :=
  ∀ (m : xmlSecKeysMngr) (keysData : xmlSecSimpleKeysData),
    mngr = some m → m.keysData = some keysData → keysData.wellSized

/-! ## Sample data for xmlenc.c -/

/-- An element of the xmlenc namespace without attributes. -/
def encElement (name : String) (children : List xmlNode) : xmlNode :=
  xmlNode.element name (some xmlSecEncNs) [] [] children

/-- The text of the children of a node that are text nodes. -/
def sampleText : List xmlNode → Bytes
  | [] => []
  | xmlNode.text t :: rest => t ++ sampleText rest
  | xmlNode.element _ _ _ _ _ :: rest => sampleText rest

/-- Collaborators in which nothing runs out of memory.  A node without children has no
content; a transform is read from the attribute `Algorithm`; the cipher adds the id of its
key to every octet and puts the octet 1 in front, and takes both away again to decrypt;
base64 adds 65 to every octet to encode and takes it away to decode; there is no `getKey`
callback; every key matches; a URI is allowed when the set of allowed types is not empty; the
KeyInfo writer writes a `KeyName`. -/
def sampleEncEnv : EncEnv :=
  { xmlSecKeyInfoCtxInitializeOk := true
    xmlSecTransformCtxInitializeOk := true
    xmlNodeGetContent := fun n => if n.children.isEmpty then none else some (sampleText n.children)
    xmlSecTransformCtxNodeRead := fun n _ => (xmlGetProp n "Algorithm").map xmlSecTransformCreate
    xmlSecTransformCtxNodesListRead := fun n _ =>
      some ((xmlSecElementNodes n.children).filterMap fun c =>
        (xmlGetProp c "Algorithm").map xmlSecTransformCreate)
    xmlSecTransformCtxAppendOk := fun _ => true
    xmlSecTransformCreateOk := fun _ => true
    xmlSecTransformCtxSetUriOk := fun _ => true
    xmlSecTransformCtxPrepareOk := true
    xmlSecTransformCreateOutputBufferOk := true
    xmlSecTransformSetKeyReq := fun _ req => some req
    xmlSecTransformSetKeyOk := fun _ _ => true
    xmlSecTransformExecute := fun t data =>
      if t.id = xmlSecTransformBase64Id then
        (if t.encode then some (data.map (· + 65)) else some (data.map (· - 65)))
      else
        match t.key with
        | none => none
        | some k =>
          if t.encode then some (1 :: data.map (· + k.id)) else some (data.tail.map (· - k.id))
    uriFetch := fun _ => none
    getKey := none
    xmlSecKeyMatch := fun _ _ _ => true
    xmlSecUriTypeCheck := fun allowed uri => if uri = none ∨ allowed ≠ 0 then 1 else 0
    xmlSecKeyInfoNodeWrite := fun _ key _ =>
      some [xmlNode.element "KeyName" (some xmlSecDSigNs) [] []
        [xmlNode.text ((key.name.getD "").toList.map Char.toNat)]]
    xmlSecBufferDataNull := fun b => b.isEmpty
    xmlNodeDumpOutput := fun n => sampleText n.children
    xmlSecReplaceNodeOk := true
    xmlSecReplaceContentOk := true
    xmlSecReplaceNodeBufferOk := fun _ => true }

/-- An `EncryptionMethod` element naming the sample cipher. -/
def sampleEncryptionMethod : xmlNode :=
  xmlNode.element "EncryptionMethod" (some xmlSecEncNs) [] [("Algorithm", "sample-cipher")] []

/-- A template `EncryptedData` with `EncryptionMethod`, `KeyInfo` and an empty
`CipherValue`, with text between the elements. -/
def sampleTemplate : xmlNode :=
  encElement "EncryptedData"
    [xmlNode.text [10], sampleEncryptionMethod, sampleKeyInfo [], xmlNode.text [10],
      encElement "CipherData" [encElement "CipherValue" []]]

/-- An `EncryptedKey` whose `CarriedKeyName` is empty. -/
def sampleEncryptedKeyEmptyName : xmlNode :=
  encElement "EncryptedKey"
    [encElement "CipherData" [encElement "CipherValue" [xmlNode.text [66]]],
      encElement "CarriedKeyName" []]

/-- An `EncryptedData` whose `CipherData` holds a `CipherReference` with the attribute
`URI="cid:blob"`. -/
def sampleCipherReferenceNode : xmlNode :=
  encElement "EncryptedData"
    [sampleEncryptionMethod,
      encElement "CipherData"
        [xmlNode.element "CipherReference" (some xmlSecEncNs) [] [("URI", "cid:blob")] []]]

/-- The sample template with the attribute `Type` on its root. -/
def sampleTypedTemplate (type : String) : xmlNode :=
  xmlNode.element "EncryptedData" (some xmlSecEncNs) [] [("Type", type)]
    [sampleEncryptionMethod, sampleKeyInfo [],
      encElement "CipherData" [encElement "CipherValue" []]]

/-- The sample collaborators with a KeyInfo writer that fails. -/
def sampleEncEnvNoKeyInfoWriter : EncEnv :=
  { sampleEncEnv with xmlSecKeyInfoNodeWrite := fun _ _ _ => none }

/-- A symmetric key named `k` of algorithm 7 with `bytes` octets of material. -/
def sampleSizedKey (bytes : Nat) : xmlSecKey :=
  { name := some "k", id := 7, type := 1, value := List.replicate bytes 0, x509Data := none }

/-- Collaborators of keysmngr.c whose match predicate is the one the spec gives for the
store lookup. -/
def sampleSpecKeysEnv : KeysMngrEnv :=
  { sampleKeysEnv (sampleKeysDoc []) with xmlSecKeyCheck := specKeyCheck }

/-- Collaborators of xmlenc.c for a context bound to the simple keys manager `mngr`: the
cipher asks for a symmetric key of algorithm 7 with 128 bits, a key satisfies requirements as
the spec says, and the KeyInfo reader finds the name `k`. -/
def sampleStoreEncEnv (mngr : Option xmlSecKeysMngr) : EncEnv :=
  EncEnv.withKeysMngr
    { sampleEncEnv with
      xmlSecKeyMatch := specKeyMatch
      xmlSecTransformSetKeyReq := fun _ req =>
        some { req with keyId := 7, keyType := 1, keyBitsSize := 128 } }
    sampleSpecKeysEnv mngr (fun _ => some "k")

/-- A manager whose store holds the 256-bit key named `k`. -/
def sampleMngr256 : Option xmlSecKeysMngr :=
  some { keysData := some { keys := [sampleSizedKey 32], maxSize := 16 } }

/-- An `EncryptedData` with the attributes `props` on its root, whose `CipherValue` holds the
base64 text of the octets 1, 2, 3 encrypted with the sample cipher under a key of id 3. -/
def sampleEncryptedNode (props : List (String × String)) : xmlNode :=
  xmlNode.element "EncryptedData" (some xmlSecEncNs) [] props
    [sampleEncryptionMethod,
      encElement "CipherData" [encElement "CipherValue" [xmlNode.text [66, 69, 70, 71]]]]

/-- An `EncryptedData` with the attribute `Type` and without `CipherData`. -/
def sampleTypedNoCipherData : xmlNode :=
  xmlNode.element "EncryptedData" (some xmlSecEncNs) [] [("Type", xmlSecTypeEncElement)]
    [sampleEncryptionMethod]

/-- A context as `xmlSecEncCtxInitialize` leaves it, with the mode, the transform and the key
the caller sets before the first operation. -/
def freshEncCtx (env : EncEnv) (mode : xmlEncCtxMode) (encMethod : Option xmlSecTransform)
    (encKey : Option xmlSecKey) : xmlSecEncCtx :=
  { (xmlSecEncCtxInitialize env).2 with mode := mode, encMethod := encMethod, encKey := encKey }

/-! ## Theorems about keysmngr.c -/

theorem findKeyLoop_first (env : KeysMngrEnv) (ctx : xmlSecKeysMngrCtx) :
    ∀ (keys : List xmlSecKey) (i : Nat) (key : xmlSecKey), keys[i]? = some key →
      keyMatches env ctx key →
      (∀ (j : Nat) (other : xmlSecKey), j < i → keys[j]? = some other → ¬ keyMatches env ctx other) →
      xmlSecSimpleKeysMngrFindKeyLoop env ctx keys = xmlSecKeyDuplicate env key := by
  intro keys
  induction keys with
  | nil => intro i key h; simp at h
  | cons k rest ih =>
    intro i key hi hm hlt
    cases i with
    | zero =>
      simp at hi
      subst hi
      have hk : env.xmlSecKeyCheck k ctx.keyName ctx.keyId ctx.keyType = 1 := hm
      simp only [xmlSecSimpleKeysMngrFindKeyLoop, hk, if_true]
      cases xmlSecKeyDuplicate env k <;> rfl
    | succ n =>
      have h0 : ¬ keyMatches env ctx k := hlt 0 k (Nat.succ_pos n) (by simp)
      have hk : ¬ env.xmlSecKeyCheck k ctx.keyName ctx.keyId ctx.keyType = 1 := h0
      simp only [xmlSecSimpleKeysMngrFindKeyLoop, hk, if_false]
      apply ih n key (by simpa using hi) hm
      intro j other hj hother
      exact hlt (j + 1) other (Nat.succ_lt_succ hj) (by simpa using hother)

theorem findKeyLoop_no_match (env : KeysMngrEnv) (ctx : xmlSecKeysMngrCtx) :
    ∀ keys : List xmlSecKey, (∀ key ∈ keys, ¬ keyMatches env ctx key) →
      xmlSecSimpleKeysMngrFindKeyLoop env ctx keys = none := by
  intro keys
  induction keys with
  | nil => intro _; rfl
  | cons k rest ih =>
    intro h
    have hk : ¬ env.xmlSecKeyCheck k ctx.keyName ctx.keyId ctx.keyType = 1 :=
      h k (List.mem_cons_self k rest)
    simp only [xmlSecSimpleKeysMngrFindKeyLoop, hk, if_false]
    exact ih (fun key hkey => h key (List.mem_cons_of_mem k hkey))

theorem findKeyLoop_none (env : KeysMngrEnv) (ctx : xmlSecKeysMngrCtx) :
    ∀ keys : List xmlSecKey, xmlSecSimpleKeysMngrFindKeyLoop env ctx keys = none →
      (∀ key ∈ keys, ¬ keyMatches env ctx key) ∨
      ∃ (i : Nat) (key : xmlSecKey), keys[i]? = some key ∧ keyMatches env ctx key ∧
        (∀ (j : Nat) (other : xmlSecKey), j < i → keys[j]? = some other → ¬ keyMatches env ctx other) ∧
        env.xmlSecKeyDuplicateOk key = false := by
  intro keys
  induction keys with
  | nil => intro _; left; simp
  | cons k rest ih =>
    intro h
    by_cases hk : env.xmlSecKeyCheck k ctx.keyName ctx.keyId ctx.keyType = 1
    · right
      refine ⟨0, k, by simp, hk, fun j _ hj => absurd hj (Nat.not_lt_zero j), ?_⟩
      simp only [xmlSecSimpleKeysMngrFindKeyLoop, hk, if_true, xmlSecKeyDuplicate] at h
      by_cases hd : env.xmlSecKeyDuplicateOk k = true
      · simp [hd] at h
      · simpa using hd
    · simp only [xmlSecSimpleKeysMngrFindKeyLoop, hk, if_false] at h
      rcases ih h with hall | ⟨i, key, hi, hm, hlt, hd⟩
      · left
        intro key hkey
        rcases List.mem_cons.mp hkey with rfl | hin
        · exact hk
        · exact hall key hin
      · right
        refine ⟨i + 1, key, by simpa using hi, hm, ?_, hd⟩
        intro j other hj hother
        cases j with
        | zero =>
          simp at hother
          subst hother
          exact hk
        | succ n => exact hlt n other (Nat.lt_of_succ_lt_succ hj) (by simpa using hother)

/-- C2 (as amended). For every key store and search criteria, when the key at index `i`
satisfies the match predicate and no key at a smaller index does,
`xmlSecSimpleKeysMngrFindKey` returns what `xmlSecKeyDuplicate` returns for that key, a copy
of it unless the duplication fails; and it returns `NULL` exactly when no stored key
satisfies the predicate or the duplication of the first one that does fails. -/
theorem findKey_first_match_or_null (env : KeysMngrEnv) (ctx : xmlSecKeysMngrCtx)
    (mngr : xmlSecKeysMngr) (keysData : xmlSecSimpleKeysData)
    (hm : ctx.keysMngr = some mngr) (hd : mngr.keysData = some keysData) :
    (∀ (i : Nat) (key : xmlSecKey), keysData.keys[i]? = some key → keyMatches env ctx key →
      (∀ (j : Nat) (other : xmlSecKey), j < i → keysData.keys[j]? = some other → ¬ keyMatches env ctx other) →
      xmlSecSimpleKeysMngrFindKey env (some ctx) =
        (if env.xmlSecKeyDuplicateOk key then some key else none)) ∧
    (xmlSecSimpleKeysMngrFindKey env (some ctx) = none ↔
      (∀ key ∈ keysData.keys, ¬ keyMatches env ctx key) ∨
      ∃ (i : Nat) (key : xmlSecKey), keysData.keys[i]? = some key ∧ keyMatches env ctx key ∧
        (∀ (j : Nat) (other : xmlSecKey), j < i → keysData.keys[j]? = some other → ¬ keyMatches env ctx other) ∧
        env.xmlSecKeyDuplicateOk key = false) := by
  have hfind : xmlSecSimpleKeysMngrFindKey env (some ctx) =
      xmlSecSimpleKeysMngrFindKeyLoop env ctx keysData.keys := by
    simp only [xmlSecSimpleKeysMngrFindKey, hm, hd]
  rw [hfind]
  refine ⟨?_, ?_, ?_⟩
  · intro i key hi hmatch hlt
    exact findKeyLoop_first env ctx keysData.keys i key hi hmatch hlt
  · exact findKeyLoop_none env ctx keysData.keys
  · rintro (hall | ⟨i, key, hi, hmatch, hlt, hfail⟩)
    · exact findKeyLoop_no_match env ctx keysData.keys hall
    · rw [findKeyLoop_first env ctx keysData.keys i key hi hmatch hlt]
      simp [xmlSecKeyDuplicate, hfail]

/-- C2 (as stated) fails: with the heap exhausted `xmlSecKeyDuplicate` returns `NULL`, so the
lookup of "bob" returns `NULL` although the second stored key satisfies the predicate. -/
theorem findKey_null_although_key_matches :
    xmlSecSimpleKeysMngrFindKey (sampleKeysEnvNoMemory (sampleKeysDoc [])) (some (sampleLookup "bob"))
        = none ∧
      ∃ key ∈ sampleStore.keys,
        keyMatches (sampleKeysEnvNoMemory (sampleKeysDoc [])) (sampleLookup "bob") key := by
  refine ⟨by decide, sampleKey "bob" 2, by decide, by decide⟩

/-- C2, at a concrete store (scenario S1): the lookup of "bob" among alice, bob, carol
returns a copy of the second entry. -/
theorem findKey_first_match_or_null_witness :
    xmlSecSimpleKeysMngrFindKey (sampleKeysEnv (sampleKeysDoc [])) (some (sampleLookup "bob"))
      = some (sampleKey "bob" 2) :=
  (findKey_first_match_or_null (sampleKeysEnv (sampleKeysDoc [])) (sampleLookup "bob")
    { keysData := some sampleStore } sampleStore rfl rfl).1 1 (sampleKey "bob" 2) rfl
    (by decide)
    (by
      intro j other hj hother
      have hj0 : j = 0 := by omega
      subst hj0
      have : other = sampleKey "alice" 1 := by
        simpa [sampleStore] using hother.symm
      subst this
      decide)

/-! ### Insertion -/

/-- Shared: when no allocation fails, `xmlSecSimpleKeysMngrAddKey` returns `0` and the store
is the old sequence followed by the key. -/
theorem addKey_ok_of_memory (env : KeysMngrEnv) (keysData : xmlSecSimpleKeysData)
    (key : xmlSecKey) (hmalloc : ∀ n, env.xmlMalloc n = true)
    (hrealloc : ∀ n, env.xmlRealloc n = true) :
    ∃ grown : xmlSecSimpleKeysData,
      xmlSecSimpleKeysMngrAddKey env (some { keysData := some keysData }) (some key)
        = (0, some { keysData := some grown }) ∧
      grown.keys = keysData.keys ++ [key] := by
  unfold xmlSecSimpleKeysMngrAddKey
  simp only [hmalloc, hrealloc, if_true]
  by_cases h0 : keysData.maxSize = 0
  · simp [h0]
  · by_cases hfull : keysData.curSize = keysData.maxSize
    · simp [h0, hfull]
    · simp [h0, hfull]

/-- Shared: whenever `xmlSecSimpleKeysMngrAddKey` does not return a negative value, the stored
sequence is the old one followed by the key; when it does, the stored sequence is the old
one. -/
theorem addKey_storedKeys (env : KeysMngrEnv) (mngr : Option xmlSecKeysMngr) (key : xmlSecKey) :
    (¬ (xmlSecSimpleKeysMngrAddKey env mngr (some key)).1 < 0 →
      storedKeys (xmlSecSimpleKeysMngrAddKey env mngr (some key)).2 = storedKeys mngr ++ [key]) ∧
    ((xmlSecSimpleKeysMngrAddKey env mngr (some key)).1 < 0 →
      (xmlSecSimpleKeysMngrAddKey env mngr (some key)).2 = mngr) := by
  unfold xmlSecSimpleKeysMngrAddKey
  rcases mngr with _ | ⟨_ | keysData⟩
  · simp
  · simp
  · by_cases h0 : keysData.maxSize = 0
    · by_cases hm : env.xmlMalloc (XMLSEC_SIMPLEKEYSMNGR_DEFAULT * env.sizeofKeyPtr) = true
      · simp [h0, hm, storedKeys]
      · simp [h0, hm, storedKeys]
    · by_cases hfull : keysData.curSize = keysData.maxSize
      · by_cases hr : env.xmlRealloc (keysData.maxSize * 2 * env.sizeofKeyPtr) = true
        · simp [h0, hfull, hr, storedKeys]
        · simp [h0, hfull, hr, storedKeys]
      · simp [h0, hfull, storedKeys]

/-- C3. For every key store and key, `xmlSecSimpleKeysMngrAddKey` either returns `0`, and
then the stored sequence is the old one followed by the key, the size is one more, and the
capacity is 16 if it was 0, twice the old one if the store was full, and the old one
otherwise; or it returns `-1`, and then an allocation failed (`xmlMalloc` of the first 16
slots, or `xmlRealloc` to twice the capacity of a full store) and the store, with its size
and capacity, is as before. -/
theorem addKey_appends_or_fails_unchanged (env : KeysMngrEnv) (keysData : xmlSecSimpleKeysData)
    (key : xmlSecKey) :
    (∃ grown : xmlSecSimpleKeysData,
      xmlSecSimpleKeysMngrAddKey env (some { keysData := some keysData }) (some key)
        = (0, some { keysData := some grown }) ∧
      grown.keys = keysData.keys ++ [key] ∧
      grown.curSize = keysData.curSize + 1 ∧
      grown.maxSize =
        (if keysData.maxSize = 0 then 16
         else if keysData.curSize = keysData.maxSize then 2 * keysData.maxSize
         else keysData.maxSize)) ∨
    (xmlSecSimpleKeysMngrAddKey env (some { keysData := some keysData }) (some key)
        = (-1, some { keysData := some keysData }) ∧
      ((keysData.maxSize = 0 ∧
          env.xmlMalloc (XMLSEC_SIMPLEKEYSMNGR_DEFAULT * env.sizeofKeyPtr) = false) ∨
       (keysData.maxSize ≠ 0 ∧ keysData.curSize = keysData.maxSize ∧
          env.xmlRealloc (keysData.maxSize * 2 * env.sizeofKeyPtr) = false))) := by
  simp only [xmlSecSimpleKeysMngrAddKey]
  by_cases h0 : keysData.maxSize = 0
  · by_cases hm : env.xmlMalloc (XMLSEC_SIMPLEKEYSMNGR_DEFAULT * env.sizeofKeyPtr) = true
    · left
      rw [if_pos h0, if_pos hm]
      exact ⟨_, rfl, rfl, by simp [xmlSecSimpleKeysData.curSize],
        by simp [h0, XMLSEC_SIMPLEKEYSMNGR_DEFAULT]⟩
    · right
      rw [if_pos h0, if_neg hm]
      exact ⟨rfl, Or.inl ⟨h0, by simpa using hm⟩⟩
  · by_cases hfull : keysData.curSize = keysData.maxSize
    · by_cases hr : env.xmlRealloc (keysData.maxSize * 2 * env.sizeofKeyPtr) = true
      · left
        rw [if_neg h0, if_pos hfull, if_pos hr]
        exact ⟨_, rfl, rfl, by simp [xmlSecSimpleKeysData.curSize],
          by simp [h0, hfull, Nat.mul_comm]⟩
      · right
        rw [if_neg h0, if_pos hfull, if_neg hr]
        exact ⟨rfl, Or.inr ⟨h0, hfull, by simpa using hr⟩⟩
    · left
      rw [if_neg h0, if_neg hfull]
      exact ⟨_, rfl, rfl, by simp [xmlSecSimpleKeysData.curSize], by simp [h0, hfull]⟩

/-! ### Loading a `Keys` document -/

/-- Shared: `xmlSecSimpleKeysMngrLoad` either returns `-1` before it reads any child, or is
its loop run over the element children of the root of the parsed document. -/
theorem load_cases (env : KeysMngrEnv) (mngr : Option xmlSecKeysMngr) (uri : String)
    (strict : Bool) :
    ((xmlSecSimpleKeysMngrLoad env mngr (some uri) strict).ret = -1 ∧
      (xmlSecSimpleKeysMngrLoad env mngr (some uri) strict).trace = [] ∧
      (xmlSecSimpleKeysMngrLoad env mngr (some uri) strict).mngr = mngr) ∨
    ∃ (doc : xmlDoc) (root : xmlNode) (ctx : xmlSecKeysMngrCtx),
      env.xmlParseFile uri = some doc ∧ xmlDocGetRootElement doc = some root ∧
      ctx.allowedOrigins = xmlSecKeyOriginAll ∧
      xmlSecSimpleKeysMngrLoad env mngr (some uri) strict =
        xmlSecSimpleKeysMngrLoadLoop env strict ctx mngr (xmlSecElementNodes root.children) := by
  cases mngr with
  | none => left; simp [xmlSecSimpleKeysMngrLoad]
  | some m =>
    cases hparse : env.xmlParseFile uri with
    | none => left; simp [xmlSecSimpleKeysMngrLoad, hparse]
    | some doc =>
      cases hroot : xmlDocGetRootElement doc with
      | none => left; simp [xmlSecSimpleKeysMngrLoad, hparse, hroot, xmlSecCheckNodeName]
      | some root =>
        by_cases hname : xmlSecCheckNodeName (some root) "Keys" xmlSecNs = true
        · cases hctx : xmlSecKeysMngrCtxCreate env (some m) with
          | none => left; simp [xmlSecSimpleKeysMngrLoad, hparse, hroot, hname, hctx]
          | some ctx =>
            right
            exact ⟨doc, root, { ctx with allowedOrigins := xmlSecKeyOriginAll }, rfl, hroot, rfl,
              by simp [xmlSecSimpleKeysMngrLoad, hparse, hroot, hname, hctx]⟩
        · left; simp [xmlSecSimpleKeysMngrLoad, hparse, hroot, hname]

/-- Shared: every entry of the trace of the loop is a call of the KeyInfo reader with its
result. -/
theorem loadLoop_trace_faithful (env : KeysMngrEnv) (strict : Bool) (ctx : xmlSecKeysMngrCtx) :
    ∀ (l : List xmlNode) (mngr : Option xmlSecKeysMngr),
      ∀ e ∈ (xmlSecSimpleKeysMngrLoadLoop env strict ctx mngr l).trace,
        ∃ m, env.xmlSecKeyInfoNodeRead e.1 { ctx with keysMngr := m } = e.2 := by
  intro l
  induction l with
  | nil => intro mngr e he; simp [xmlSecSimpleKeysMngrLoadLoop] at he
  | cons c next ih =>
    intro mngr e he
    unfold xmlSecSimpleKeysMngrLoadLoop at he
    by_cases hcheck : xmlSecCheckNodeName (some c) "KeyInfo" xmlSecDSigNs = true
    · rw [if_pos hcheck] at he
      cases hread : env.xmlSecKeyInfoNodeRead c { ctx with keysMngr := mngr } with
      | none =>
        rw [hread] at he
        cases strict with
        | true =>
          simp at he
          subst he
          exact ⟨mngr, hread⟩
        | false =>
          simp at he
          rcases he with rfl | he
          · exact ⟨mngr, hread⟩
          · exact ih _ e he
      | some key =>
        rw [hread] at he
        by_cases hadd : (xmlSecSimpleKeysMngrAddKey env mngr (some key)).1 < 0
        · simp [hadd] at he
          subst he
          exact ⟨mngr, hread⟩
        · simp [hadd] at he
          rcases he with rfl | he
          · exact ⟨mngr, hread⟩
          · exact ih _ e he
    · rw [if_neg hcheck] at he
      simp at he

/-- Shared: without `strict` and with no allocation failing, the loop over a chain of
`KeyInfo` elements returns `0`, reads every element once in order, and appends the keys the
reader returned, in that order. -/
theorem loadLoop_lenient (env : KeysMngrEnv) (ctx : xmlSecKeysMngrCtx)
    (hmalloc : ∀ n, env.xmlMalloc n = true) (hrealloc : ∀ n, env.xmlRealloc n = true) :
    ∀ (l : List xmlNode) (keysData : xmlSecSimpleKeysData),
      (∀ c ∈ l, xmlSecCheckNodeName (some c) "KeyInfo" xmlSecDSigNs = true) →
      (xmlSecSimpleKeysMngrLoadLoop env false ctx (some { keysData := some keysData }) l).ret = 0 ∧
      (xmlSecSimpleKeysMngrLoadLoop env false ctx (some { keysData := some keysData }) l).trace.map
          Prod.fst = l ∧
      storedKeys (xmlSecSimpleKeysMngrLoadLoop env false ctx (some { keysData := some keysData })
          l).mngr =
        keysData.keys ++
          (xmlSecSimpleKeysMngrLoadLoop env false ctx (some { keysData := some keysData })
            l).trace.filterMap Prod.snd := by
  intro l
  induction l with
  | nil => intro keysData _; simp [xmlSecSimpleKeysMngrLoadLoop, storedKeys]
  | cons c next ih =>
    intro keysData hall
    have hcheck : xmlSecCheckNodeName (some c) "KeyInfo" xmlSecDSigNs = true :=
      hall c (List.mem_cons_self c next)
    have hnext : ∀ x ∈ next, xmlSecCheckNodeName (some x) "KeyInfo" xmlSecDSigNs = true :=
      fun x hx => hall x (List.mem_cons_of_mem c hx)
    unfold xmlSecSimpleKeysMngrLoadLoop
    rw [if_pos hcheck]
    cases hread : env.xmlSecKeyInfoNodeRead c
        { ctx with keysMngr := some { keysData := some keysData } } with
    | none =>
      obtain ⟨h1, h2, h3⟩ := ih keysData hnext
      simp [h1, h2, h3]
    | some key =>
      obtain ⟨grown, hadd, hkeys⟩ := addKey_ok_of_memory env keysData key hmalloc hrealloc
      obtain ⟨h1, h2, h3⟩ := ih grown hnext
      simp [hadd, h1, h2, h3, hkeys]

/-- Shared: with `strict`, a failed read is the last entry of the trace of the loop; the loop
then returns `-1`, has read a prefix of the chain, and has appended the keys read before. -/
theorem loadLoop_strict (env : KeysMngrEnv) (ctx : xmlSecKeysMngrCtx) :
    ∀ (l : List xmlNode) (mngr : Option xmlSecKeysMngr)
      (pre post : List (xmlNode × Option xmlSecKey)) (cur : xmlNode),
      (xmlSecSimpleKeysMngrLoadLoop env true ctx mngr l).trace = pre ++ (cur, none) :: post →
      (xmlSecSimpleKeysMngrLoadLoop env true ctx mngr l).ret = -1 ∧ post = [] ∧
      (pre.map Prod.fst ++ [cur]) <+: l ∧
      storedKeys (xmlSecSimpleKeysMngrLoadLoop env true ctx mngr l).mngr =
        storedKeys mngr ++ pre.filterMap Prod.snd := by
  intro l
  induction l with
  | nil =>
    intro mngr pre post cur h
    simp [xmlSecSimpleKeysMngrLoadLoop] at h
  | cons c next ih =>
    intro mngr pre post cur h
    unfold xmlSecSimpleKeysMngrLoadLoop at h ⊢
    by_cases hcheck : xmlSecCheckNodeName (some c) "KeyInfo" xmlSecDSigNs = true
    · rw [if_pos hcheck] at h ⊢
      cases hread : env.xmlSecKeyInfoNodeRead c { ctx with keysMngr := mngr } with
      | none =>
        rw [hread] at h
        simp only [if_true] at h ⊢
        cases pre with
        | nil =>
          simp at h
          obtain ⟨hc, hpost⟩ := h
          subst hc
          subst hpost
          simp
        | cons p pre' =>
          simp at h
      | some key =>
        rw [hread] at h
        by_cases hadd : (xmlSecSimpleKeysMngrAddKey env mngr (some key)).1 < 0
        · simp only [hadd, if_true] at h
          cases pre with
          | nil => simp at h
          | cons p pre' => simp at h
        · simp only [hadd, if_false] at h ⊢
          cases pre with
          | nil => simp at h
          | cons p pre' =>
            simp only [List.cons_append, List.cons.injEq] at h
            obtain ⟨hp, htail⟩ := h
            subst hp
            obtain ⟨h1, h2, h3, h4⟩ := ih _ pre' post cur htail
            refine ⟨h1, h2, ?_, ?_⟩
            · simpa using h3
            · rw [h4, (addKey_storedKeys env mngr key).1 hadd]
              simp
    · rw [if_neg hcheck] at h
      simp at h

/-- Shared: a chain with an element that is not a dsig `KeyInfo` makes the loop return
`-1`, whatever `strict` is. -/
theorem loadLoop_foreign (env : KeysMngrEnv) (strict : Bool) (ctx : xmlSecKeysMngrCtx) :
    ∀ (l : List xmlNode) (mngr : Option xmlSecKeysMngr),
      (∃ c ∈ l, xmlSecCheckNodeName (some c) "KeyInfo" xmlSecDSigNs = false) →
      (xmlSecSimpleKeysMngrLoadLoop env strict ctx mngr l).ret = -1 := by
  intro l
  induction l with
  | nil => intro mngr h; simp at h
  | cons c next ih =>
    intro mngr h
    unfold xmlSecSimpleKeysMngrLoadLoop
    by_cases hcheck : xmlSecCheckNodeName (some c) "KeyInfo" xmlSecDSigNs = true
    · have hnext : ∃ x ∈ next, xmlSecCheckNodeName (some x) "KeyInfo" xmlSecDSigNs = false := by
        obtain ⟨x, hx, hxf⟩ := h
        rcases List.mem_cons.mp hx with rfl | hin
        · rw [hcheck] at hxf; cases hxf
        · exact ⟨x, hin, hxf⟩
      rw [if_pos hcheck]
      cases hread : env.xmlSecKeyInfoNodeRead c { ctx with keysMngr := mngr } with
      | none =>
        cases strict with
        | true => simp
        | false => simpa using ih mngr hnext
      | some key =>
        by_cases hadd : (xmlSecSimpleKeysMngrAddKey env mngr (some key)).1 < 0
        · simp [hadd]
        · simpa [hadd] using ih _ hnext
    · rw [if_neg hcheck]

/-- C4 (as stated) fails: the document has one readable `KeyInfo` child and nothing else,
`strict` is off, and the allocation of the first slots fails in
`xmlSecSimpleKeysMngrAddKey`; the load returns `-1` and the store stays empty. -/
theorem load_lenient_fails_without_memory :
    (∀ c ∈ keysDocumentElements (sampleKeysEnvNoMemory (sampleKeysDoc [sampleReadable])) "keys.xml",
        xmlSecCheckNodeName (some c) "KeyInfo" xmlSecDSigNs = true) ∧
      (xmlSecSimpleKeysMngrLoad (sampleKeysEnvNoMemory (sampleKeysDoc [sampleReadable]))
        sampleEmptyMngr (some "keys.xml") false).ret = -1 ∧
      storedKeys (xmlSecSimpleKeysMngrLoad (sampleKeysEnvNoMemory (sampleKeysDoc [sampleReadable]))
        sampleEmptyMngr (some "keys.xml") false).mngr = [] := by
  refine ⟨by decide, by decide, by decide⟩

/-- C4 (as amended). For every `Keys` document whose element children are all dsig `KeyInfo`,
when the search context is created and no allocation fails, `xmlSecSimpleKeysMngrLoad` with
`strict` off returns `0`, hands every element child to the KeyInfo reader once, in document
order, and appends to the store exactly the keys the reader returned, in that order, skipping
the children on which it failed. -/
theorem load_lenient_appends_read_keys (env : KeysMngrEnv) (keysData : xmlSecSimpleKeysData)
    (uri : String) (doc : xmlDoc) (root : xmlNode)
    (hparse : env.xmlParseFile uri = some doc)
    (hroot : xmlDocGetRootElement doc = some root)
    (hkeys : xmlSecCheckNodeName (some root) "Keys" xmlSecNs = true)
    (hall : ∀ c ∈ xmlSecElementNodes root.children,
      xmlSecCheckNodeName (some c) "KeyInfo" xmlSecDSigNs = true)
    (hctx : env.xmlSecKeysMngrCtxCreateOk = true)
    (hmalloc : ∀ n, env.xmlMalloc n = true) (hrealloc : ∀ n, env.xmlRealloc n = true) :
    (xmlSecSimpleKeysMngrLoad env (some { keysData := some keysData }) (some uri) false).ret = 0 ∧
    (xmlSecSimpleKeysMngrLoad env (some { keysData := some keysData }) (some uri) false).trace.map
        Prod.fst = xmlSecElementNodes root.children ∧
    (∀ e ∈ (xmlSecSimpleKeysMngrLoad env (some { keysData := some keysData }) (some uri)
        false).trace,
      ∃ ctx : xmlSecKeysMngrCtx, ctx.allowedOrigins = xmlSecKeyOriginAll ∧
        env.xmlSecKeyInfoNodeRead e.1 ctx = e.2) ∧
    storedKeys (xmlSecSimpleKeysMngrLoad env (some { keysData := some keysData }) (some uri)
        false).mngr =
      keysData.keys ++
        (xmlSecSimpleKeysMngrLoad env (some { keysData := some keysData }) (some uri)
          false).trace.filterMap Prod.snd := by
  have hload : xmlSecSimpleKeysMngrLoad env (some { keysData := some keysData }) (some uri) false =
      xmlSecSimpleKeysMngrLoadLoop env false
        { keysMngr := some { keysData := some keysData }, keyName := none, keyId := 0,
          keyType := 0, allowedOrigins := xmlSecKeyOriginAll }
        (some { keysData := some keysData }) (xmlSecElementNodes root.children) := by
    simp [xmlSecSimpleKeysMngrLoad, hparse, hroot, hkeys, xmlSecKeysMngrCtxCreate, hctx]
  rw [hload]
  obtain ⟨h1, h2, h3⟩ := loadLoop_lenient env _ hmalloc hrealloc
    (xmlSecElementNodes root.children) keysData hall
  refine ⟨h1, h2, ?_, h3⟩
  intro e he
  obtain ⟨m, hm⟩ := loadLoop_trace_faithful env false _ _ _ e he
  exact ⟨_, rfl, hm⟩

/-- C4, at scenario S2: three `KeyInfo` children with a malformed middle one, loaded without
`strict` into an empty store: no error, and the store holds the two keys that were read. -/
theorem load_lenient_appends_read_keys_witness :
    (xmlSecSimpleKeysMngrLoad (sampleKeysEnv sampleS2Doc) sampleEmptyMngr (some "keys.xml")
        false).ret = 0 ∧
      storedKeys (xmlSecSimpleKeysMngrLoad (sampleKeysEnv sampleS2Doc) sampleEmptyMngr
        (some "keys.xml") false).mngr = [sampleKey "read" 1, sampleKey "read" 2] :=
  ⟨(load_lenient_appends_read_keys (sampleKeysEnv sampleS2Doc) { keys := [], maxSize := 0 }
      "keys.xml" sampleS2Doc
      (xmlNode.element "Keys" (some xmlSecNs) [] []
        [sampleReadable, xmlNode.text [10], sampleMalformed, sampleReadable2])
      rfl rfl (by decide) (by decide) rfl (fun _ => rfl) (fun _ => rfl)).1,
    by decide⟩

/-- C5. For every `Keys` document, when `xmlSecSimpleKeysMngrLoad` with `strict` on has
handed a child to the KeyInfo reader and the reader failed, that is the last child it read:
the call returns a negative value, what it read is an initial segment of the element
children ending at the failing child (no later child is read), and the store has grown by
exactly the keys read before it. -/
theorem load_strict_stops_at_failed_read (env : KeysMngrEnv) (mngr : Option xmlSecKeysMngr)
    (uri : String) (pre post : List (xmlNode × Option xmlSecKey)) (cur : xmlNode)
    (h : (xmlSecSimpleKeysMngrLoad env mngr (some uri) true).trace = pre ++ (cur, none) :: post) :
    (xmlSecSimpleKeysMngrLoad env mngr (some uri) true).ret < 0 ∧
    post = [] ∧
    (pre.map Prod.fst ++ [cur]) <+: keysDocumentElements env uri ∧
    storedKeys (xmlSecSimpleKeysMngrLoad env mngr (some uri) true).mngr =
      storedKeys mngr ++ pre.filterMap Prod.snd ∧
    (∃ ctx : xmlSecKeysMngrCtx, ctx.allowedOrigins = xmlSecKeyOriginAll ∧
      env.xmlSecKeyInfoNodeRead cur ctx = none) := by
  rcases load_cases env mngr uri true with ⟨_, htrace, _⟩ | ⟨doc, root, ctx, hparse, hroot, horig, hload⟩
  · rw [htrace] at h
    simp at h
  · rw [hload] at h ⊢
    obtain ⟨h1, h2, h3, h4⟩ := loadLoop_strict env ctx _ mngr pre post cur h
    have hmem : (cur, (none : Option xmlSecKey)) ∈
        (xmlSecSimpleKeysMngrLoadLoop env true ctx mngr (xmlSecElementNodes root.children)).trace := by
      rw [h]; simp
    obtain ⟨m, hm⟩ := loadLoop_trace_faithful env true ctx _ mngr _ hmem
    refine ⟨by rw [h1]; decide, h2, ?_, h4, ⟨{ ctx with keysMngr := m }, horig, hm⟩⟩
    simpa [keysDocumentElements, hparse, hroot] using h3

/-- C5, at a concrete document: readable, malformed, readable. With `strict` on the load
fails at the second child, having added only the first key. -/
theorem load_strict_stops_at_failed_read_witness :
    (xmlSecSimpleKeysMngrLoad (sampleKeysEnv sampleS2Doc) sampleEmptyMngr (some "keys.xml")
        true).ret < 0 ∧
      storedKeys (xmlSecSimpleKeysMngrLoad (sampleKeysEnv sampleS2Doc) sampleEmptyMngr
        (some "keys.xml") true).mngr = [sampleKey "read" 1] :=
  have h := load_strict_stops_at_failed_read (sampleKeysEnv sampleS2Doc) sampleEmptyMngr
    "keys.xml" [(sampleReadable, some (sampleKey "read" 1))] [] sampleMalformed rfl
  ⟨h.1, h.2.2.2.1⟩

/-- C6. For every `Keys` document and either value of `strict`, if some element child of the
root is not a `KeyInfo` element of the dsig namespace, `xmlSecSimpleKeysMngrLoad` returns a
negative value. -/
theorem load_rejects_foreign_child (env : KeysMngrEnv) (mngr : Option xmlSecKeysMngr)
    (uri : String) (strict : Bool) (doc : xmlDoc) (root : xmlNode)
    (hparse : env.xmlParseFile uri = some doc)
    (hroot : xmlDocGetRootElement doc = some root)
    (h : ∃ c ∈ xmlSecElementNodes root.children,
      xmlSecCheckNodeName (some c) "KeyInfo" xmlSecDSigNs = false) :
    (xmlSecSimpleKeysMngrLoad env mngr (some uri) strict).ret < 0 := by
  rcases load_cases env mngr uri strict with ⟨hret, _, _⟩ | ⟨doc', root', ctx, hparse', hroot', _, hload⟩
  · rw [hret]; decide
  · rw [hparse] at hparse'
    cases hparse'
    rw [hroot] at hroot'
    cases hroot'
    rw [hload, loadLoop_foreign env strict ctx _ mngr h]
    decide

/-- C6, at a concrete document: a `KeyInfo` of the wrong namespace after a readable one makes
the load fail, with `strict` off. -/
theorem load_rejects_foreign_child_witness :
    (xmlSecSimpleKeysMngrLoad
      (sampleKeysEnv (sampleKeysDoc [sampleReadable, xmlNode.element "KeyInfo" (some xmlSecEncNs) [] [] []]))
      sampleEmptyMngr (some "keys.xml") false).ret < 0 :=
  load_rejects_foreign_child _ sampleEmptyMngr "keys.xml" false
    (sampleKeysDoc [sampleReadable, xmlNode.element "KeyInfo" (some xmlSecEncNs) [] [] []])
    (xmlNode.element "Keys" (some xmlSecNs) [] []
      [sampleReadable, xmlNode.element "KeyInfo" (some xmlSecEncNs) [] [] []])
    rfl rfl ⟨xmlNode.element "KeyInfo" (some xmlSecEncNs) [] [] [], by simp [xmlSecElementNodes, xmlNode.children, xmlNode.isElement], by decide⟩

/-! ### Saving the store -/

theorem setChildren_element (n : String) (ns : Option String) (d : List String)
    (p : List (String × String)) (c c' : List xmlNode) :
    (xmlNode.element n ns d p c).setChildren c' = xmlNode.element n ns d p c' := rfl

theorem children_element (n : String) (ns : Option String) (d : List String)
    (p : List (String × String)) (c : List xmlNode) :
    (xmlNode.element n ns d p c).children = c := rfl

/-- Shared: the element `xmlSecSimpleKeysMngrSave` builds for a key before it calls the
writer is the one the spec describes. -/
theorem saveTemplate_eq_spec (env : KeysMngrEnv) (key : xmlSecKey) (tmpl : xmlNode)
    (h : xmlSecSimpleKeysMngrSaveTemplate env key
      (xmlNode.element "KeyInfo" (some xmlSecDSigNs) [] [] []) = some tmpl) :
    tmpl = specKeyInfoTemplate key := by
  unfold xmlSecSimpleKeysMngrSaveTemplate xmlSecAddChild at h
  split at h
  · cases h
  · rename_i keyName hName
    split at hName
    · cases hName
      simp only at h
      split at h
      · cases h
      · rename_i keyValue hValue
        split at hValue
        · cases hValue
          cases hx : key.x509Data with
          | none =>
            simp [hx] at h
            subst h
            simp [specKeyInfoTemplate, hx, xmlNode.setChildren, xmlNode.children]
          | some x =>
            simp [hx] at h
            split at h
            · cases h
            · rename_i x509 hX
              split at hX
              · cases hX
                cases h
                simp [specKeyInfoTemplate, hx, xmlNode.setChildren, xmlNode.children]
              · cases hX
        · cases hValue
    · cases hName

/-- Shared: when the loop of `xmlSecSimpleKeysMngrSave` completes, it has appended to the root
one `KeyInfo` per key, in order: the spec's template for the key with the children the writer
left in it. -/
theorem saveLoop_shape (env : KeysMngrEnv) (ctx : xmlSecKeysMngrCtx) (type : Nat) :
    ∀ (keys : List xmlSecKey) (n : String) (ns : Option String) (d : List String)
      (p : List (String × String)) (c : List xmlNode) (root : xmlNode),
      xmlSecSimpleKeysMngrSaveLoop env ctx type (xmlNode.element n ns d p c) keys = some root →
      ∃ kids : List xmlNode, root = xmlNode.element n ns d p (c ++ kids) ∧
        List.Forall₂ (fun key kid => ∃ written : List xmlNode,
          env.xmlSecKeyInfoNodeWrite (specKeyInfoTemplate key) ctx key type = some written ∧
          kid = xmlNode.element "KeyInfo" (some xmlSecDSigNs) [] [] written) keys kids := by
  intro keys
  induction keys with
  | nil =>
    intro n ns d p c root h
    simp [xmlSecSimpleKeysMngrSaveLoop] at h
    exact ⟨[], by simp [h], List.Forall₂.nil⟩
  | cons key rest ih =>
    intro n ns d p c root h
    unfold xmlSecSimpleKeysMngrSaveLoop at h
    cases hcur : xmlSecAddChild env (xmlNode.element n ns d p c) "KeyInfo" xmlSecDSigNs with
    | none => simp [hcur] at h
    | some cur =>
      have hcur' : cur = xmlNode.element "KeyInfo" (some xmlSecDSigNs) [] [] [] := by
        unfold xmlSecAddChild at hcur
        split at hcur
        · cases hcur; rfl
        · cases hcur
      subst hcur'
      cases htmpl : xmlSecSimpleKeysMngrSaveTemplate env key
          (xmlNode.element "KeyInfo" (some xmlSecDSigNs) [] [] []) with
      | none => simp [hcur, htmpl] at h
      | some tmpl =>
        have hspec := saveTemplate_eq_spec env key tmpl htmpl
        subst hspec
        cases hw : env.xmlSecKeyInfoNodeWrite (specKeyInfoTemplate key) ctx key type with
        | none => simp [hcur, htmpl, hw] at h
        | some written =>
          simp only [hcur, htmpl, hw, setChildren_element, children_element] at h
          obtain ⟨kids, hroot, hall⟩ := ih n ns d p _ root h
          refine ⟨(specKeyInfoTemplate key).setChildren written :: kids, ?_, ?_⟩
          · rw [hroot]; simp
          · exact List.Forall₂.cons ⟨written, hw, by simp [specKeyInfoTemplate, xmlNode.setChildren]⟩
              hall

/-- C7. For every key store with `n` keys, when `xmlSecSimpleKeysMngrSave` returns `0` the
document it wrote has the single root `Keys`, whose children are exactly `n` dsig `KeyInfo`
elements, the `i`-th made for the `i`-th stored key in insertion order: each was created with
the children `KeyName`, `KeyValue` and, if and only if that key has X.509 data, `X509Data`
(the element `specKeyInfoTemplate key`), and then handed to the KeyInfo writer with that
key. -/
theorem save_writes_one_keyinfo_per_key (env : KeysMngrEnv) (mngr : xmlSecKeysMngr)
    (keysData : xmlSecSimpleKeysData) (filename : String) (type : Nat)
    (hstore : mngr.keysData = some keysData)
    (hret : (xmlSecSimpleKeysMngrSave env (some mngr) (some filename) type).ret = 0) :
    ∃ kids : List xmlNode,
      (xmlSecSimpleKeysMngrSave env (some mngr) (some filename) type).doc =
        some { children := [xmlNode.element "Keys" none [xmlSecNs] [] kids] } ∧
      kids.length = keysData.keys.length ∧
      List.Forall₂ (fun key kid => ∃ written : List xmlNode,
        env.xmlSecKeyInfoNodeWrite (specKeyInfoTemplate key) saveKeysMngrCtx key type
          = some written ∧
        kid = xmlNode.element "KeyInfo" (some xmlSecDSigNs) [] [] written) keysData.keys kids := by
  unfold xmlSecSimpleKeysMngrSave at hret ⊢
  simp only [hstore] at hret ⊢
  by_cases h1 : env.xmlNewDocOk = true
  · by_cases h2 : env.xmlNewDocNodeOk = true
    · by_cases h3 : env.xmlNewNsOk = true
      · by_cases h4 : env.xmlSecKeysMngrCtxCreateOk = true
        · simp only [h1, h2, h3, h4, xmlSecKeysMngrCtxCreate, xmlNode.children, if_true,
            Bool.not_true, Bool.false_eq_true, if_false] at hret ⊢
          cases hloop : xmlSecSimpleKeysMngrSaveLoop env
              { keysMngr := some { keysData := none }, keyName := none, keyId := 0, keyType := 0,
                allowedOrigins := xmlSecKeyOriginAll } type
              (xmlNode.element "Keys" none [xmlSecNs] [] []) keysData.keys with
          | none => simp [hloop] at hret
          | some root =>
            obtain ⟨kids, hroot, hall⟩ := saveLoop_shape env _ type keysData.keys _ _ _ _ _ root hloop
            simp only [List.nil_append] at hroot
            subst hroot
            simp only [hloop] at hret ⊢
            refine ⟨kids, ?_, hall.length_eq.symm, hall⟩
            split
            · rename_i hneg
              simp [hneg] at hret
            · rfl
        · simp [h1, h2, h3, h4, xmlSecKeysMngrCtxCreate] at hret
      · simp [h1, h2, h3] at hret
    · simp [h1, h2] at hret
  · simp [h1] at hret

/-- C7, at the store alice, bob, carol with collaborators that do not fail: the call returns
`0` and the document has three `KeyInfo` children. -/
theorem save_writes_one_keyinfo_per_key_witness :
    ∃ kids : List xmlNode,
      (xmlSecSimpleKeysMngrSave (sampleKeysEnv (sampleKeysDoc [])) (some { keysData := some sampleStore })
        (some "out.xml") 1).doc =
          some { children := [xmlNode.element "Keys" none [xmlSecNs] [] kids] } ∧
      kids.length = 3 :=
  have h := save_writes_one_keyinfo_per_key (sampleKeysEnv (sampleKeysDoc []))
    { keysData := some sampleStore } sampleStore "out.xml" 1 rfl (by decide)
  h.imp fun _ hk => ⟨hk.1, hk.2.1⟩

/-! ## Theorems about xmlenc.c -/

/-! ### The precondition `result == NULL` -/

/-- Shared: TemplateWrite leaves `result` as it is. -/
theorem encDataNodeWrite_result (env : EncEnv) (encCtx : xmlSecEncCtx) (tmpl : xmlNode) :
    (xmlSecEncCtxEncDataNodeWrite env encCtx tmpl).2.1.result = encCtx.result := by
  have hki : ∀ (c : xmlSecEncCtx) (k : xmlSecKey) (t : xmlNode),
      (xmlSecEncCtxEncDataNodeWriteKeyInfo env c k t).2.1.result = c.result := by
    intro c k t
    unfold xmlSecEncCtxEncDataNodeWriteKeyInfo
    split
    · split <;> rfl
    · rfl
  unfold xmlSecEncCtxEncDataNodeWrite
  split
  · rfl
  · rfl
  · split
    · split
      · rfl
      · rw [hki]
    · rw [hki]

theorem binaryEncrypt_ok_result (env : EncEnv) (encCtx : xmlSecEncCtx) (tmpl : Option xmlNode)
    (data : Option Bytes) :
    (xmlSecEncCtxBinaryEncrypt env encCtx tmpl data).ret = xmlSecResult.ok () →
    (xmlSecEncCtxBinaryEncrypt env encCtx tmpl data).ctx.result.isSome = true := by
  unfold xmlSecEncCtxBinaryEncrypt
  split
  · intro h; cases h
  · split
    · intro h; cases h
    · intro h; cases h
    · try dsimp only
      split
      · intro h; cases h
      · split
        · intro h; cases h
        · try dsimp only
          split
          · intro h; cases h
          · rename_i tctx _ hsome
            intro _
            rw [encDataNodeWrite_result]
            cases hr : tctx.result with
            | none => simp [hr] at hsome
            | some _ => rfl

theorem uriEncrypt_ok_result (env : EncEnv) (encCtx : xmlSecEncCtx) (tmpl : Option xmlNode)
    (uri : Option String) :
    (xmlSecEncCtxUriEncrypt env encCtx tmpl uri).ret = xmlSecResult.ok () →
    (xmlSecEncCtxUriEncrypt env encCtx tmpl uri).ctx.result.isSome = true := by
  unfold xmlSecEncCtxUriEncrypt
  split
  · intro h; cases h
  · split
    · intro h; cases h
    · intro h; cases h
    · try dsimp only
      split
      · intro h; cases h
      · try dsimp only
        split
        · intro h; cases h
        · split
          · intro h; cases h
          · try dsimp only
            split
            · intro h; cases h
            · rename_i tctx _ hsome
              intro _
              rw [encDataNodeWrite_result]
              cases hr : tctx.result with
              | none => simp [hr] at hsome
              | some _ => rfl

theorem decryptToBuffer_ok_result (env : EncEnv) (encCtx : xmlSecEncCtx) (node : Option xmlNode)
    (buffer : Bytes) :
    (xmlSecEncCtxDecryptToBuffer env encCtx node).ret = xmlSecResult.ok buffer →
    (xmlSecEncCtxDecryptToBuffer env encCtx node).ctx.result = some buffer := by
  unfold xmlSecEncCtxDecryptToBuffer
  split
  · intro h; cases h
  · split
    · intro h; cases h
    · try dsimp only
      split
      · intro h; cases h
      · split
        · intro h; cases h
        · try dsimp only
          split
          · intro h; cases h
          · rename_i hres
            intro h
            cases h
            exact hres

theorem xmlEncryptReplace_result (env : EncEnv) (encCtx : xmlSecEncCtx) (written : xmlNode) :
    (xmlSecEncCtxXmlEncryptReplace env encCtx written).ctx.result = encCtx.result := by
  unfold xmlSecEncCtxXmlEncryptReplace
  repeat' split
  all_goals rfl

theorem xmlEncryptWrite_ok_result (env : EncEnv) (encCtx : xmlSecEncCtx) (tmplNode : xmlNode) :
    (xmlSecEncCtxXmlEncryptWrite env encCtx tmplNode).ret = xmlSecResult.ok () →
    (xmlSecEncCtxXmlEncryptWrite env encCtx tmplNode).ctx.result.isSome = true := by
  unfold xmlSecEncCtxXmlEncryptWrite
  dsimp only
  split
  · intro h; cases h
  · rename_i hsome
    split
    · intro h; cases h
    · intro _
      rw [xmlEncryptReplace_result, encDataNodeWrite_result]
      cases hr : encCtx.encTransformCtx.result with
      | none => simp [hr] at hsome
      | some _ => rfl

theorem xmlEncrypt_ok_result (env : EncEnv) (encCtx : xmlSecEncCtx) (tmpl node : Option xmlNode)
    (nodeDoc : Option xmlDoc) :
    (xmlSecEncCtxXmlEncrypt env encCtx tmpl node nodeDoc).ret = xmlSecResult.ok () →
    (xmlSecEncCtxXmlEncrypt env encCtx tmpl node nodeDoc).ctx.result.isSome = true := by
  unfold xmlSecEncCtxXmlEncrypt
  split
  · intro h; cases h
  · split
    · intro h; cases h
    · intro h; cases h
    · intro h; cases h
    · try dsimp only
      split
      · intro h; cases h
      · split
        · intro h; cases h
        · split
          · intro h; cases h
          · split
            · intro h; cases h
            · split
              · exact xmlEncryptWrite_ok_result env _ _
              · split
                · exact xmlEncryptWrite_ok_result env _ _
                · intro h; cases h

theorem decryptReplace_result (env : EncEnv) (encCtx : xmlSecEncCtx) (node : Option xmlNode)
    (buffer : Bytes) :
    (xmlSecEncCtxDecryptReplace env encCtx node buffer).ctx.result = encCtx.result := by
  unfold xmlSecEncCtxDecryptReplace
  repeat' split
  all_goals rfl

theorem decrypt_ok_result (env : EncEnv) (encCtx : xmlSecEncCtx) (node : Option xmlNode) :
    (xmlSecEncCtxDecrypt env encCtx node).ret = xmlSecResult.ok () →
    (xmlSecEncCtxDecrypt env encCtx node).ctx.result.isSome = true := by
  cases node with
  | none => intro h; cases h
  | some n =>
    unfold xmlSecEncCtxDecrypt
    dsimp only
    cases hbuf : (xmlSecEncCtxDecryptToBuffer env encCtx (some n)).ret with
    | fail reason subject => intro h; cases h
    | ok buffer =>
      intro _
      dsimp only
      rw [decryptReplace_result, decryptToBuffer_ok_result env encCtx (some n) buffer hbuf]
      rfl

/-- Shared: on a context whose `result` is set, every entry point fails at the assertion
`encCtx->result == NULL` and leaves the context as it is. -/
theorem entry_fails_when_result_set (env : EncEnv) (encCtx : xmlSecEncCtx) (second : EntryCall)
    (h : encCtx.result.isSome = true) :
    second.run env encCtx = (assertionFailed "encCtx->result == NULL", encCtx) := by
  cases second with
  | binaryEncrypt tmpl data => simp [EntryCall.run, xmlSecEncCtxBinaryEncrypt, h]
  | xmlEncrypt tmpl node nodeDoc => simp [EntryCall.run, xmlSecEncCtxXmlEncrypt, h]
  | uriEncrypt tmpl uri => simp [EntryCall.run, xmlSecEncCtxUriEncrypt, h]
  | decrypt node =>
    simp [EntryCall.run, xmlSecEncCtxDecrypt, xmlSecEncCtxDecryptToBuffer, h, assertionFailed]
  | decryptToBuffer node =>
    simp [EntryCall.run, xmlSecEncCtxDecryptToBuffer, h, assertionFailed]

/-- C8 (as stated) fails: the first call, `xmlSecEncCtxBinaryEncrypt` on a node that is not an
`EncryptedData`, fails in TemplateRead and leaves `result` at `NULL`; the second call on the
same context, on a good template, passes the precondition and succeeds. -/
theorem second_call_succeeds_after_failed_first :
    (xmlSecEncCtxBinaryEncrypt sampleEncEnv
        (freshEncCtx sampleEncEnv xmlEncCtxMode.xmlEncCtxModeEncryptedData none
          (some (sampleKey "k" 3)))
        (some (encElement "Other" [])) (some [0, 1, 2])).ret.failed = true ∧
      (xmlSecEncCtxBinaryEncrypt sampleEncEnv
        (xmlSecEncCtxBinaryEncrypt sampleEncEnv
          (freshEncCtx sampleEncEnv xmlEncCtxMode.xmlEncCtxModeEncryptedData none
            (some (sampleKey "k" 3)))
          (some (encElement "Other" [])) (some [0, 1, 2])).ctx
        (some sampleTemplate) (some [0, 1, 2])).ret = xmlSecResult.ok () := by
  refine ⟨by decide, by decide⟩

/-- C8 (as amended). For every pair of entry-point calls (binaryEncrypt, xmlEncrypt,
uriEncrypt, decrypt on a node, decryptToBuffer) made on the same context without an
intervening finalize + initialize, if the first call succeeded then the second call fails on
the `result == NULL` precondition, and it leaves the context as the first call left it. -/
theorem second_call_fails_after_successful_first (env : EncEnv) (encCtx : xmlSecEncCtx)
    (first second : EntryCall)
    (hfirst : (first.run env encCtx).1 = xmlSecResult.ok ()) :
    second.run env (first.run env encCtx).2 =
      (xmlSecResult.fail xmlSecErrorReason.ASSERTION "encCtx->result == NULL",
        (first.run env encCtx).2) := by
  apply entry_fails_when_result_set
  cases first with
  | binaryEncrypt tmpl data => exact binaryEncrypt_ok_result env encCtx tmpl data hfirst
  | xmlEncrypt tmpl node nodeDoc => exact xmlEncrypt_ok_result env encCtx tmpl node nodeDoc hfirst
  | uriEncrypt tmpl uri => exact uriEncrypt_ok_result env encCtx tmpl uri hfirst
  | decrypt node => exact decrypt_ok_result env encCtx (some node) hfirst
  | decryptToBuffer node =>
    simp only [EntryCall.run] at hfirst ⊢
    cases hret : (xmlSecEncCtxDecryptToBuffer env encCtx node).ret with
    | fail reason subject => rw [hret] at hfirst; cases hfirst
    | ok buffer =>
      rw [decryptToBuffer_ok_result env encCtx node buffer hret]
      rfl

/-- C8, at a concrete pair: after a successful `xmlSecEncCtxBinaryEncrypt`, a call of
`xmlSecEncCtxDecrypt` on the same context fails at `encCtx->result == NULL`. -/
theorem second_call_fails_after_successful_first_witness :
    ((EntryCall.decrypt sampleTemplate).run sampleEncEnv
      ((EntryCall.binaryEncrypt (some sampleTemplate) (some [0, 1, 2])).run sampleEncEnv
        (freshEncCtx sampleEncEnv xmlEncCtxMode.xmlEncCtxModeEncryptedData none
          (some (sampleKey "k" 3)))).2).1 =
      xmlSecResult.fail xmlSecErrorReason.ASSERTION "encCtx->result == NULL" :=
  congrArg Prod.fst
    (second_call_fails_after_successful_first sampleEncEnv
      (freshEncCtx sampleEncEnv xmlEncCtxMode.xmlEncCtxModeEncryptedData none
        (some (sampleKey "k" 3)))
      (EntryCall.binaryEncrypt (some sampleTemplate) (some [0, 1, 2]))
      (EntryCall.decrypt sampleTemplate) (by decide))

/-! ### The structure TemplateRead accepts -/

theorem checkNodeName_head_cons (n : xmlNode) (rest : List xmlNode) (name ns : String) :
    xmlSecCheckNodeName (n :: rest).head? name ns = xmlSecCheckNodeName (some n) name ns := rfl

theorem checkNodeName_head_nil (name ns : String) :
    xmlSecCheckNodeName ([] : List xmlNode).head? name ns = false := rfl

theorem checkNodeName_none (name ns : String) :
    xmlSecCheckNodeName none name ns = false := rfl

/-- Shared: a node passes the name check for one local name only. -/
theorem checkNodeName_exclusive (n : xmlNode) (a b nsa nsb : String) (hab : a ≠ b)
    (h : xmlSecCheckNodeName (some n) a nsa = true) :
    xmlSecCheckNodeName (some n) b nsb = false := by
  cases n with
  | text t => rfl
  | element nm href d p c =>
    simp only [xmlSecCheckNodeName, Bool.and_eq_true, decide_eq_true_eq] at h
    obtain ⟨hnm, _⟩ := h
    subst hnm
    simp [xmlSecCheckNodeName, hab]

theorem encDataNodeReadEnd_ok (encCtx : xmlSecEncCtx) (cur : List xmlNode) :
    (xmlSecEncCtxEncDataNodeReadEnd encCtx cur).1 = xmlSecResult.ok () ↔ cur = [] := by
  cases cur with
  | nil => simp [xmlSecEncCtxEncDataNodeReadEnd]
  | cons a r => simp [xmlSecEncCtxEncDataNodeReadEnd]

/-- Shared: an optional step of the walk takes an optional node of that name off the front. -/
theorem optional_step_prefix (cur : List xmlNode) (name ns : String) :
    ∃ o : Option xmlNode,
      cur = o.toList ++ (if xmlSecCheckNodeName cur.head? name ns = true then cur.tail else cur) ∧
      (∀ n ∈ o, xmlSecCheckNodeName (some n) name ns = true) ∧
      (o.isSome = xmlSecCheckNodeName cur.head? name ns) := by
  by_cases h : xmlSecCheckNodeName cur.head? name ns = true
  · cases cur with
    | nil => rw [checkNodeName_head_nil] at h; cases h
    | cons a r =>
      have ha : xmlSecCheckNodeName (some a) name ns = true := h
      refine ⟨some a, by simp [ha], ?_, by simp [ha]⟩
      intro n hn
      simp at hn
      subst hn
      exact ha
  · refine ⟨none, by simp [h], by simp, ?_⟩
    simp at h
    simp [h]

/-- Shared: when the rest does not start with a node of that name, the optional step leaves
exactly the rest. -/
theorem optional_step_unique (o : Option xmlNode) (rest : List xmlNode) (name ns : String)
    (ho : ∀ n ∈ o, xmlSecCheckNodeName (some n) name ns = true)
    (hrest : xmlSecCheckNodeName rest.head? name ns = false) :
    (if xmlSecCheckNodeName (o.toList ++ rest).head? name ns = true then (o.toList ++ rest).tail
      else o.toList ++ rest) = rest ∧
    xmlSecCheckNodeName (o.toList ++ rest).head? name ns = o.isSome := by
  cases o with
  | none => simp [hrest]
  | some a =>
    have ha := ho a rfl
    simp [ha]

theorem encDataNodeReadKeyTail_ok (env : EncEnv) (encCtx : xmlSecEncCtx) (cur : List xmlNode) :
    (xmlSecEncCtxEncDataNodeReadKeyTail env encCtx cur).1 = xmlSecResult.ok () ↔
      ∃ refs name : Option xmlNode, cur = refs.toList ++ name.toList ∧
        (∀ n ∈ refs, xmlSecCheckNodeName (some n) xmlSecNodeReferenceList xmlSecEncNs = true) ∧
        (∀ n ∈ name, xmlSecCheckNodeName (some n) xmlSecNodeCarriedKeyName xmlSecEncNs = true ∧
          env.xmlNodeGetContent n ≠ none) := by
  unfold xmlSecEncCtxEncDataNodeReadKeyTail
  dsimp only
  constructor
  · intro h
    obtain ⟨refs, hcur, hrefs, _⟩ := optional_step_prefix cur xmlSecNodeReferenceList xmlSecEncNs
    generalize (if xmlSecCheckNodeName cur.head? xmlSecNodeReferenceList xmlSecEncNs = true
      then cur.tail else cur) = cur1 at h hcur
    by_cases hckn : xmlSecCheckNodeName cur1.head? xmlSecNodeCarriedKeyName xmlSecEncNs = true
    · rw [if_pos hckn] at h
      cases cur1 with
      | nil => rw [checkNodeName_head_nil] at hckn; cases hckn
      | cons b r =>
        cases hcontent : env.xmlNodeGetContent b with
        | none => simp [hcontent] at h
        | some c =>
          simp [hcontent, encDataNodeReadEnd_ok] at h
          subst h
          refine ⟨refs, some b, by simpa using hcur, hrefs, ?_⟩
          intro n hn
          simp at hn
          subst hn
          exact ⟨hckn, by simp [hcontent]⟩
    · rw [if_neg hckn, encDataNodeReadEnd_ok] at h
      subst h
      exact ⟨refs, none, by simpa using hcur, hrefs, by simp⟩
  · rintro ⟨refs, name, hcur, hrefs, hname⟩
    subst hcur
    have hrest : xmlSecCheckNodeName name.toList.head? xmlSecNodeReferenceList xmlSecEncNs = false := by
      cases name with
      | none => rfl
      | some b =>
        exact checkNodeName_exclusive b xmlSecNodeCarriedKeyName xmlSecNodeReferenceList _ _
          (by decide) (hname b rfl).1
    rw [(optional_step_unique refs name.toList _ _ hrefs hrest).1]
    cases name with
    | none => simp [checkNodeName_none, encDataNodeReadEnd_ok]
    | some b =>
      obtain ⟨hb, hcontent⟩ := hname b rfl
      cases hc : env.xmlNodeGetContent b with
      | none => exact absurd hc hcontent
      | some c => simp [hb, hc, encDataNodeReadEnd_ok]

theorem encDataNodeReadTail_ok (env : EncEnv) (encCtx : xmlSecEncCtx) (cur : List xmlNode) :
    (xmlSecEncCtxEncDataNodeReadTail env encCtx cur).1 = xmlSecResult.ok () ↔
      ∃ props refs name : Option xmlNode, cur = props.toList ++ refs.toList ++ name.toList ∧
        (∀ n ∈ props,
          xmlSecCheckNodeName (some n) xmlSecNodeEncryptionProperties xmlSecEncNs = true) ∧
        (∀ n ∈ refs, encCtx.mode = xmlEncCtxMode.xmlEncCtxModeEncryptedKey ∧
          xmlSecCheckNodeName (some n) xmlSecNodeReferenceList xmlSecEncNs = true) ∧
        (∀ n ∈ name, encCtx.mode = xmlEncCtxMode.xmlEncCtxModeEncryptedKey ∧
          xmlSecCheckNodeName (some n) xmlSecNodeCarriedKeyName xmlSecEncNs = true ∧
          env.xmlNodeGetContent n ≠ none) := by
  unfold xmlSecEncCtxEncDataNodeReadTail
  dsimp only
  constructor
  · intro h
    obtain ⟨props, hcur, hprops, _⟩ :=
      optional_step_prefix cur xmlSecNodeEncryptionProperties xmlSecEncNs
    generalize (if xmlSecCheckNodeName cur.head? xmlSecNodeEncryptionProperties xmlSecEncNs = true
      then cur.tail else cur) = cur1 at h hcur
    by_cases hmode : encCtx.mode = xmlEncCtxMode.xmlEncCtxModeEncryptedKey
    · rw [if_pos hmode, encDataNodeReadKeyTail_ok] at h
      obtain ⟨refs, name, hcur1, hrefs, hname⟩ := h
      refine ⟨props, refs, name, by rw [hcur, hcur1, List.append_assoc], hprops, ?_, ?_⟩
      · intro n hn; exact ⟨hmode, hrefs n hn⟩
      · intro n hn; exact ⟨hmode, hname n hn⟩
    · rw [if_neg hmode, encDataNodeReadEnd_ok] at h
      subst h
      exact ⟨props, none, none, by simpa using hcur, hprops, by simp, by simp⟩
  · rintro ⟨props, refs, name, hcur, hprops, hrefs, hname⟩
    subst hcur
    have hrest : xmlSecCheckNodeName (refs.toList ++ name.toList).head?
        xmlSecNodeEncryptionProperties xmlSecEncNs = false := by
      cases refs with
      | some a =>
        exact checkNodeName_exclusive a xmlSecNodeReferenceList xmlSecNodeEncryptionProperties _ _
          (by decide) (hrefs a rfl).2
      | none =>
        cases name with
        | none => rfl
        | some b =>
          exact checkNodeName_exclusive b xmlSecNodeCarriedKeyName xmlSecNodeEncryptionProperties
            _ _ (by decide) (hname b rfl).2.1
    rw [List.append_assoc, (optional_step_unique props _ _ _ hprops hrest).1]
    by_cases hmode : encCtx.mode = xmlEncCtxMode.xmlEncCtxModeEncryptedKey
    · rw [if_pos hmode, encDataNodeReadKeyTail_ok]
      exact ⟨refs, name, rfl, fun n hn => (hrefs n hn).2, fun n hn => (hname n hn).2⟩
    · rw [if_neg hmode, encDataNodeReadEnd_ok]
      cases refs with
      | some a => exact absurd (hrefs a rfl).1 hmode
      | none =>
        cases name with
        | some b => exact absurd (hname b rfl).1 hmode
        | none => rfl

/-- Shared: the walk from the optional `KeyInfo` on, for children of the shape
optional `KeyInfo`, `CipherData`, rest. -/
theorem readFromKeyInfo_of_shape (env : EncEnv) (encCtx : xmlSecEncCtx) (node : xmlNodePtr)
    (idx : Nat) (keyInfo : Option xmlNode) (cipherData : xmlNode) (rest : List xmlNode)
    (hnull : encCtx.keyInfoNode = none)
    (hki : ∀ n ∈ keyInfo, xmlSecCheckNodeName (some n) xmlSecNodeKeyInfo xmlSecDSigNs = true)
    (hcd : xmlSecCheckNodeName (some cipherData) xmlSecNodeCipherData xmlSecEncNs = true) :
    xmlSecEncCtxEncDataNodeReadFromKeyInfo env encCtx node idx
        (keyInfo.toList ++ cipherData :: rest) =
      match xmlSecEncCtxCipherDataNodeRead env
          { encCtx with
            keyInfoNode := keyInfo.map fun n => { path := node.path ++ [idx], node := n } }
          { path := node.path ++ [idx + keyInfo.toList.length], node := cipherData } with
      | (xmlSecResult.fail reason subject, after) => (xmlSecResult.fail reason subject, after)
      | (xmlSecResult.ok _, after) => xmlSecEncCtxEncDataNodeReadTail env after rest := by
  unfold xmlSecEncCtxEncDataNodeReadFromKeyInfo
  cases keyInfo with
  | none =>
    have hno : xmlSecCheckNodeName (some cipherData) xmlSecNodeKeyInfo xmlSecDSigNs = false :=
      checkNodeName_exclusive cipherData xmlSecNodeCipherData xmlSecNodeKeyInfo _ _ (by decide) hcd
    have hctx : { encCtx with keyInfoNode := none } = encCtx := by
      cases encCtx
      simp only at hnull
      subst hnull
      rfl
    simp [hnull, hno, hcd, hctx]
  | some k =>
    have hk := hki k rfl
    simp [hnull, hk, hcd]

/-- Shared: the walk over the children, for children of the shape optional
`EncryptionMethod`, optional `KeyInfo`, `CipherData`, rest. -/
theorem readChildren_of_shape (env : EncEnv) (encCtx : xmlSecEncCtx) (node : xmlNodePtr)
    (method keyInfo : Option xmlNode) (cipherData : xmlNode) (rest : List xmlNode)
    (hshape : xmlSecElementNodes node.node.children =
      method.toList ++ keyInfo.toList ++ cipherData :: rest)
    (hnullM : encCtx.encMethodNode = none) (hnullK : encCtx.keyInfoNode = none)
    (hm : ∀ n ∈ method,
      xmlSecCheckNodeName (some n) xmlSecNodeEncryptionMethod xmlSecEncNs = true)
    (hki : ∀ n ∈ keyInfo, xmlSecCheckNodeName (some n) xmlSecNodeKeyInfo xmlSecDSigNs = true)
    (hcd : xmlSecCheckNodeName (some cipherData) xmlSecNodeCipherData xmlSecEncNs = true) :
    xmlSecEncCtxEncDataNodeReadChildren env encCtx node =
      match xmlSecEncCtxCipherDataNodeRead env
          { encCtx with
            encMethodNode := method.map fun n => { path := node.path ++ [0], node := n }
            keyInfoNode :=
              keyInfo.map fun n => { path := node.path ++ [method.toList.length], node := n } }
          { path := node.path ++ [method.toList.length + keyInfo.toList.length],
            node := cipherData } with
      | (xmlSecResult.fail reason subject, after) => (xmlSecResult.fail reason subject, after)
      | (xmlSecResult.ok _, after) => xmlSecEncCtxEncDataNodeReadTail env after rest := by
  unfold xmlSecEncCtxEncDataNodeReadChildren
  cases method with
  | none =>
    have hshape' : xmlSecElementNodes node.node.children =
        keyInfo.toList ++ cipherData :: rest := hshape
    rw [hshape']
    have hno : xmlSecCheckNodeName (keyInfo.toList ++ cipherData :: rest).head?
        xmlSecNodeEncryptionMethod xmlSecEncNs = false := by
      cases keyInfo with
      | none =>
        exact checkNodeName_exclusive cipherData xmlSecNodeCipherData xmlSecNodeEncryptionMethod
          _ _ (by decide) hcd
      | some k =>
        exact checkNodeName_exclusive k xmlSecNodeKeyInfo xmlSecNodeEncryptionMethod _ _
          (by decide) (hki k rfl)
    have hctx : { encCtx with encMethodNode := none } = encCtx := by
      cases encCtx
      simp only at hnullM
      subst hnullM
      rfl
    dsimp only
    rw [hno]
    simp only [hnullM, Option.isSome_none, Bool.false_eq_true, if_false]
    rw [readFromKeyInfo_of_shape env encCtx node 0 keyInfo cipherData rest hnullK hki hcd]
    simp [hnullM]
  | some m =>
    have hmm := hm m rfl
    have hshape' : xmlSecElementNodes node.node.children =
        m :: (keyInfo.toList ++ cipherData :: rest) := hshape
    rw [hshape']
    dsimp only
    simp only [List.head?_cons, List.tail_cons, hnullM, Option.isSome_none, Bool.false_eq_true,
      if_false, hmm, if_true]
    rw [readFromKeyInfo_of_shape env
      { encCtx with
        encMethodNode := Option.map (fun n => { path := node.path ++ [0], node := n }) (some m) }
      node 1 keyInfo cipherData rest hnullK hki hcd]
    simp [Nat.add_comm]

theorem cipherReferenceNodeRead_mode (env : EncEnv) (encCtx : xmlSecEncCtx) (node : xmlNodePtr) :
    (xmlSecEncCtxCipherReferenceNodeRead env encCtx node).2.mode = encCtx.mode := by
  unfold xmlSecEncCtxCipherReferenceNodeRead
  dsimp only
  repeat' split
  all_goals rfl

theorem cipherDataNodeReadEnd_snd (encCtx : xmlSecEncCtx) (cur : List xmlNode) :
    (xmlSecEncCtxCipherDataNodeReadEnd encCtx cur).2 = encCtx := by
  unfold xmlSecEncCtxCipherDataNodeReadEnd
  split <;> rfl

theorem cipherDataNodeRead_mode (env : EncEnv) (encCtx : xmlSecEncCtx) (node : xmlNodePtr) :
    (xmlSecEncCtxCipherDataNodeRead env encCtx node).2.mode = encCtx.mode := by
  unfold xmlSecEncCtxCipherDataNodeRead
  dsimp only
  split
  · rfl
  · split
    · split
      · split
        · rfl
        · rw [cipherDataNodeReadEnd_snd]
      · rw [cipherDataNodeReadEnd_snd]
    · split
      · split
        · split
          · rename_i n _
            have hm := cipherReferenceNodeRead_mode env encCtx
              { path := node.path ++ [0], node := n }
            split
            · rename_i heq
              rw [heq] at hm
              exact hm
            · rename_i heq
              rw [cipherDataNodeReadEnd_snd]
              rw [heq] at hm
              exact hm
          · rw [cipherDataNodeReadEnd_snd]
        · rw [cipherDataNodeReadEnd_snd]
      · rw [cipherDataNodeReadEnd_snd]

/-- Shared: when the walk from the optional `KeyInfo` on succeeds, the children it walked
have the shape optional `KeyInfo`, `CipherData`, rest. -/
theorem readFromKeyInfo_shape_of_ok (env : EncEnv) (encCtx : xmlSecEncCtx) (node : xmlNodePtr)
    (idx : Nat) (cur : List xmlNode)
    (h : (xmlSecEncCtxEncDataNodeReadFromKeyInfo env encCtx node idx cur).1 = xmlSecResult.ok ()) :
    encCtx.keyInfoNode = none ∧
    ∃ (keyInfo : Option xmlNode) (cipherData : xmlNode) (rest : List xmlNode),
      cur = keyInfo.toList ++ cipherData :: rest ∧
      (∀ n ∈ keyInfo, xmlSecCheckNodeName (some n) xmlSecNodeKeyInfo xmlSecDSigNs = true) ∧
      xmlSecCheckNodeName (some cipherData) xmlSecNodeCipherData xmlSecEncNs = true := by
  unfold xmlSecEncCtxEncDataNodeReadFromKeyInfo at h
  by_cases hnull : encCtx.keyInfoNode.isSome = true
  · rw [if_pos hnull] at h; cases h
  · rw [if_neg hnull] at h
    refine ⟨by simpa using hnull, ?_⟩
    dsimp only at h
    obtain ⟨keyInfo, hcur, hki, _⟩ := optional_step_prefix cur xmlSecNodeKeyInfo xmlSecDSigNs
    generalize (if xmlSecCheckNodeName cur.head? xmlSecNodeKeyInfo xmlSecDSigNs = true
      then cur.tail else cur) = cur1 at h hcur
    cases cur1 with
    | nil => cases h
    | cons cd next =>
      by_cases hcd : xmlSecCheckNodeName (some cd) xmlSecNodeCipherData xmlSecEncNs = true
      · exact ⟨keyInfo, cd, next, hcur, hki, hcd⟩
      · simp [hcd] at h

/-- Shared: when the walk over the children succeeds, they have the shape optional
`EncryptionMethod`, optional `KeyInfo`, `CipherData`, rest. -/
theorem readChildren_shape_of_ok (env : EncEnv) (encCtx : xmlSecEncCtx) (node : xmlNodePtr)
    (h : (xmlSecEncCtxEncDataNodeReadChildren env encCtx node).1 = xmlSecResult.ok ()) :
    encCtx.encMethodNode = none ∧ encCtx.keyInfoNode = none ∧
    ∃ (method keyInfo : Option xmlNode) (cipherData : xmlNode) (rest : List xmlNode),
      xmlSecElementNodes node.node.children =
        method.toList ++ keyInfo.toList ++ cipherData :: rest ∧
      (∀ n ∈ method,
        xmlSecCheckNodeName (some n) xmlSecNodeEncryptionMethod xmlSecEncNs = true) ∧
      (∀ n ∈ keyInfo, xmlSecCheckNodeName (some n) xmlSecNodeKeyInfo xmlSecDSigNs = true) ∧
      xmlSecCheckNodeName (some cipherData) xmlSecNodeCipherData xmlSecEncNs = true := by
  unfold xmlSecEncCtxEncDataNodeReadChildren at h
  dsimp only at h
  by_cases hnull : encCtx.encMethodNode.isSome = true
  · rw [if_pos hnull] at h; cases h
  · rw [if_neg hnull] at h
    refine ⟨by simpa using hnull, ?_⟩
    obtain ⟨method, hcur, hm, hsome⟩ :=
      optional_step_prefix (xmlSecElementNodes node.node.children) xmlSecNodeEncryptionMethod
        xmlSecEncNs
    by_cases hem : xmlSecCheckNodeName (xmlSecElementNodes node.node.children).head?
        xmlSecNodeEncryptionMethod xmlSecEncNs = true
    · rw [if_pos hem] at h hcur
      obtain ⟨hk, keyInfo, cd, rest, hshape, hki, hcd⟩ :=
        readFromKeyInfo_shape_of_ok env _ node 1 _ h
      exact ⟨hk, method, keyInfo, cd, rest, by rw [hcur, hshape, List.append_assoc], hm, hki, hcd⟩
    · rw [if_neg hem] at h hcur
      obtain ⟨hk, keyInfo, cd, rest, hshape, hki, hcd⟩ :=
        readFromKeyInfo_shape_of_ok env _ node 0 _ h
      have hnone : method = none := by
        cases method with
        | none => rfl
        | some m =>
          simp only [Option.isSome_some] at hsome
          exact absurd hsome.symm hem
      subst hnone
      exact ⟨hk, none, keyInfo, cd, rest, by simpa using hshape, by simp, hki, hcd⟩

/-- Shared: on a context that is unread the first part of TemplateRead is the walk over the
children, on the context with the attributes of the root stored. -/
theorem readStructure_eq_children (env : EncEnv) (encCtx : xmlSecEncCtx) (node : xmlNodePtr)
    (hroot : xmlSecCheckNodeName (some node.node) encCtx.mode.rootName xmlSecEncNs = true)
    (hunread : encCtx.unread) :
    xmlSecEncCtxEncDataNodeReadStructure env encCtx node =
      xmlSecEncCtxEncDataNodeReadChildren env (xmlSecEncCtxEncDataNodeReadAttrs encCtx node.node)
        node := by
  obtain ⟨h1, h2, h3, h4, h5, h6, _⟩ := hunread
  unfold xmlSecEncCtxEncDataNodeReadStructure
  simp [hroot, h1, h2, h3, h4, h5, h6]

theorem readStructure_ok_root (env : EncEnv) (encCtx : xmlSecEncCtx) (node : xmlNodePtr)
    (h : (xmlSecEncCtxEncDataNodeReadStructure env encCtx node).1 = xmlSecResult.ok ()) :
    xmlSecCheckNodeName (some node.node) encCtx.mode.rootName xmlSecEncNs = true := by
  unfold xmlSecEncCtxEncDataNodeReadStructure at h
  by_cases hroot : xmlSecCheckNodeName (some node.node) encCtx.mode.rootName xmlSecEncNs = true
  · exact hroot
  · simp [hroot] at h

/-- Shared: `xmlSecEncCtxCipherDataNodeRead` on a `CipherData` whose first element child is a
`CipherValue`. -/
theorem cipherDataNodeRead_cipherValue (env : EncEnv) (encCtx : xmlSecEncCtx) (node : xmlNodePtr)
    (cipherValue : xmlNode) (more : List xmlNode)
    (hnull : encCtx.cipherValueNode = none)
    (hshape : xmlSecElementNodes node.node.children = cipherValue :: more)
    (hname : xmlSecCheckNodeName (some cipherValue) xmlSecNodeCipherValue xmlSecEncNs = true) :
    xmlSecEncCtxCipherDataNodeRead env encCtx node =
      if encCtx.encrypt = false then
        if env.xmlSecTransformCreateOk xmlSecTransformBase64Id then
          xmlSecEncCtxCipherDataNodeReadEnd
            { encCtx with
              encTransformCtx := { encCtx.encTransformCtx with
                chain := xmlSecTransformPtr.owned base64Decoder :: encCtx.encTransformCtx.chain }
              cipherValueNode := some { path := node.path ++ [0], node := cipherValue } }
            more
        else
          (xmlSecResult.fail xmlSecErrorReason.XMLSEC_FAILED "xmlSecTransformCtxCreateAndPrepend",
            encCtx)
      else
        xmlSecEncCtxCipherDataNodeReadEnd
          { encCtx with
            cipherValueNode := some { path := node.path ++ [0], node := cipherValue } }
          more := by
  unfold xmlSecEncCtxCipherDataNodeRead
  simp only [hshape, hnull, List.head?_cons, hname, List.tail_cons, Option.isSome_none,
    Bool.false_eq_true, if_false, if_true, Option.map_some', xmlSecTransformCtxCreateAndPrepend,
    base64Decoder]
  by_cases henc : encCtx.encrypt = false
  · rw [if_pos henc, if_pos henc]
    by_cases hok : env.xmlSecTransformCreateOk xmlSecTransformBase64Id = true
    · simp only [hok, if_true]
    · simp only [hok, Bool.false_eq_true, if_false]
  · rw [if_neg henc, if_neg henc]

/-- Shared: a context as `xmlSecEncCtxInitialize` leaves it has nothing read, no result, an
empty chain, and key requirements that do not depend on what the caller sets. -/
theorem freshEncCtx_fields (env : EncEnv) (mode : xmlEncCtxMode)
    (encMethod : Option xmlSecTransform) (encKey : Option xmlSecKey) :
    (freshEncCtx env mode encMethod encKey).unread ∧
    (freshEncCtx env mode encMethod encKey).result = none ∧
    (freshEncCtx env mode encMethod encKey).encTransformCtx.chain = [] ∧
    (freshEncCtx env mode encMethod encKey).mode = mode ∧
    (freshEncCtx env mode encMethod encKey).encMethod = encMethod ∧
    (freshEncCtx env mode encMethod encKey).encKey = encKey ∧
    (freshEncCtx env mode encMethod encKey).keyInfoReadCtx.keyReq =
      { keyId := 0, keyType := 0, keyBitsSize := 0 } := by
  unfold freshEncCtx xmlSecEncCtxInitialize
  dsimp only
  split
  · exact ⟨⟨rfl, rfl, rfl, rfl, rfl, rfl, rfl, rfl, rfl⟩, rfl, rfl, rfl, rfl, rfl, rfl⟩
  · split
    · exact ⟨⟨rfl, rfl, rfl, rfl, rfl, rfl, rfl, rfl, rfl⟩, rfl, rfl, rfl, rfl, rfl, rfl⟩
    · exact ⟨⟨rfl, rfl, rfl, rfl, rfl, rfl, rfl, rfl, rfl⟩, rfl, rfl, rfl, rfl, rfl, rfl⟩

/-- C9 (as stated) fails: in mode `EncryptedKey` the node is an `EncryptedKey` whose element
children are `CipherData` then `CarriedKeyName`, as the grammar asks, and the `CipherData`
sub-read succeeds; yet the structural phase rejects the node, because the `CarriedKeyName` is
empty and `xmlNodeGetContent` returns `NULL` for it. -/
theorem structure_rejects_empty_carried_key_name :
    xmlSecCheckNodeName (some sampleEncryptedKeyEmptyName)
        xmlEncCtxMode.xmlEncCtxModeEncryptedKey.rootName xmlSecEncNs = true ∧
      specEncDataChildren xmlEncCtxMode.xmlEncCtxModeEncryptedKey (fun _ => True)
        (xmlSecElementNodes sampleEncryptedKeyEmptyName.children) ∧
      (xmlSecEncCtxCipherDataNodeRead sampleEncEnv
        (freshEncCtx sampleEncEnv xmlEncCtxMode.xmlEncCtxModeEncryptedKey none none)
        { path := [0],
          node := encElement "CipherData" [encElement "CipherValue" [xmlNode.text [66]]] }).1
        = xmlSecResult.ok () ∧
      (xmlSecEncCtxEncDataNodeReadStructure sampleEncEnv
        (freshEncCtx sampleEncEnv xmlEncCtxMode.xmlEncCtxModeEncryptedKey none none)
        { path := [], node := sampleEncryptedKeyEmptyName }).1
        = xmlSecResult.fail xmlSecErrorReason.INVALID_NODE_CONTENT "CarriedKeyName" := by
  refine ⟨by decide, ?_, by decide, by decide⟩
  refine ⟨none, none, none, none, some (encElement "CarriedKeyName" []),
    encElement "CipherData" [encElement "CipherValue" [xmlNode.text [66]]], rfl, ?_, ?_, by decide,
    ?_, ?_, ?_⟩
  · intro n hn; cases hn
  · intro n hn; cases hn
  · intro n hn; cases hn
  · intro n hn; cases hn
  · intro n hn
    cases hn
    exact ⟨rfl, by decide, trivial⟩

/-- C9 (as amended). On a context whose parse fields are still `NULL`, and assuming the
`CipherData` sub-read succeeds, the structural phase of TemplateRead accepts a node if and
only if its name is `EncryptedData` (mode `EncryptedData`) or `EncryptedKey` (mode
`EncryptedKey`) in the xmlenc namespace and its element children, in document order, are:
optional `EncryptionMethod`, optional dsig `KeyInfo`, required `CipherData`, optional
`EncryptionProperties`, and, in mode `EncryptedKey` only, optional `ReferenceList` then
optional `CarriedKeyName` whose content `xmlNodeGetContent` returns is not `NULL`, with
nothing else. -/
theorem structure_accepts_iff_grammar (env : EncEnv) (encCtx : xmlSecEncCtx) (node : xmlNodePtr)
    (hunread : encCtx.unread)
    (hsub : ∀ (c : xmlSecEncCtx) (ptr : xmlNodePtr), c.cipherValueNode = none →
      ptr.node ∈ xmlSecElementNodes node.node.children →
      xmlSecCheckNodeName (some ptr.node) xmlSecNodeCipherData xmlSecEncNs = true →
      (xmlSecEncCtxCipherDataNodeRead env c ptr).1 = xmlSecResult.ok ()) :
    (xmlSecEncCtxEncDataNodeReadStructure env encCtx node).1 = xmlSecResult.ok () ↔
      xmlSecCheckNodeName (some node.node) encCtx.mode.rootName xmlSecEncNs = true ∧
      specEncDataChildren encCtx.mode (fun n => env.xmlNodeGetContent n ≠ none)
        (xmlSecElementNodes node.node.children) := by
  have hcv : encCtx.cipherValueNode = none := hunread.2.2.2.2.2.2.2.2
  have hmn : encCtx.encMethodNode = none := hunread.2.2.2.2.2.2.1
  have hkn : encCtx.keyInfoNode = none := hunread.2.2.2.2.2.2.2.1
  -- what the walk does on children of the grammar's shape
  have hwalk : ∀ (method keyInfo : Option xmlNode) (cipherData : xmlNode) (rest : List xmlNode),
      xmlSecCheckNodeName (some node.node) encCtx.mode.rootName xmlSecEncNs = true →
      xmlSecElementNodes node.node.children =
        method.toList ++ keyInfo.toList ++ cipherData :: rest →
      (∀ n ∈ method,
        xmlSecCheckNodeName (some n) xmlSecNodeEncryptionMethod xmlSecEncNs = true) →
      (∀ n ∈ keyInfo, xmlSecCheckNodeName (some n) xmlSecNodeKeyInfo xmlSecDSigNs = true) →
      xmlSecCheckNodeName (some cipherData) xmlSecNodeCipherData xmlSecEncNs = true →
      ∃ after : xmlSecEncCtx, after.mode = encCtx.mode ∧
        xmlSecEncCtxEncDataNodeReadStructure env encCtx node =
          xmlSecEncCtxEncDataNodeReadTail env after rest := by
    intro method keyInfo cipherData rest hroot hshape hm hki hcd
    rw [readStructure_eq_children env encCtx node hroot hunread,
      readChildren_of_shape env (xmlSecEncCtxEncDataNodeReadAttrs encCtx node.node) node method
        keyInfo cipherData rest hshape hmn hkn hm hki hcd]
    have hmem : cipherData ∈ xmlSecElementNodes node.node.children := by
      rw [hshape]; simp
    generalize hc1 : ({ xmlSecEncCtxEncDataNodeReadAttrs encCtx node.node with
        encMethodNode := method.map fun n => { path := node.path ++ [0], node := n }
        keyInfoNode := keyInfo.map fun n =>
          { path := node.path ++ [method.toList.length], node := n } } : xmlSecEncCtx) = c1
    have hc1cv : c1.cipherValueNode = none := by rw [← hc1]; exact hcv
    have hc1mode : c1.mode = encCtx.mode := by rw [← hc1]; rfl
    have hok := hsub c1
      { path := node.path ++ [method.toList.length + keyInfo.toList.length], node := cipherData }
      hc1cv hmem hcd
    have hmode := cipherDataNodeRead_mode env c1
      { path := node.path ++ [method.toList.length + keyInfo.toList.length], node := cipherData }
    generalize xmlSecEncCtxCipherDataNodeRead env c1
      { path := node.path ++ [method.toList.length + keyInfo.toList.length],
        node := cipherData } = r at hok hmode
    obtain ⟨status, after⟩ := r
    simp only at hok hmode
    subst hok
    exact ⟨after, by rw [hmode, hc1mode], rfl⟩
  constructor
  · intro h
    have hroot := readStructure_ok_root env encCtx node h
    refine ⟨hroot, ?_⟩
    have h' := h
    rw [readStructure_eq_children env encCtx node hroot hunread] at h'
    obtain ⟨_, _, method, keyInfo, cipherData, rest, hshape, hm, hki, hcd⟩ :=
      readChildren_shape_of_ok env _ node h'
    obtain ⟨after, hmode, heq⟩ := hwalk method keyInfo cipherData rest hroot hshape hm hki hcd
    rw [heq, encDataNodeReadTail_ok, hmode] at h
    obtain ⟨props, refs, name, hrest, hprops, hrefs, hname⟩ := h
    exact ⟨method, keyInfo, props, refs, name, cipherData,
      by rw [hshape, hrest]; simp, hm, hki, hcd, hprops, hrefs, hname⟩
  · rintro ⟨hroot, method, keyInfo, props, refs, name, cipherData, hshape, hm, hki, hcd, hprops,
      hrefs, hname⟩
    have hshape' : xmlSecElementNodes node.node.children =
        method.toList ++ keyInfo.toList ++
          cipherData :: (props.toList ++ refs.toList ++ name.toList) := by
      rw [hshape]; simp
    obtain ⟨after, hmode, heq⟩ := hwalk method keyInfo cipherData _ hroot hshape' hm hki hcd
    rw [heq, encDataNodeReadTail_ok, hmode]
    exact ⟨props, refs, name, rfl, hprops, hrefs, hname⟩

/-- C9, at a concrete input: the sample template, an `EncryptedData` with `EncryptionMethod`,
`KeyInfo` and `CipherData`, is accepted in mode `EncryptedData`, and its element children
follow the grammar. -/
theorem structure_accepts_iff_grammar_witness :
    (xmlSecEncCtxEncDataNodeReadStructure sampleEncEnv
      (freshEncCtx sampleEncEnv xmlEncCtxMode.xmlEncCtxModeEncryptedData none
        (some (sampleKey "k" 3)))
      { path := [], node := sampleTemplate }).1 = xmlSecResult.ok () ∧
    specEncDataChildren xmlEncCtxMode.xmlEncCtxModeEncryptedData
      (fun n => sampleEncEnv.xmlNodeGetContent n ≠ none)
      (xmlSecElementNodes sampleTemplate.children) := by
  have hsub : ∀ (c : xmlSecEncCtx) (ptr : xmlNodePtr), c.cipherValueNode = none →
      ptr.node ∈ xmlSecElementNodes
        ({ path := [], node := sampleTemplate } : xmlNodePtr).node.children →
      xmlSecCheckNodeName (some ptr.node) xmlSecNodeCipherData xmlSecEncNs = true →
      (xmlSecEncCtxCipherDataNodeRead sampleEncEnv c ptr).1 = xmlSecResult.ok () := by
    intro c ptr hnull hmem hname
    have hlist : xmlSecElementNodes
        ({ path := [], node := sampleTemplate } : xmlNodePtr).node.children =
        [sampleEncryptionMethod, sampleKeyInfo [],
          encElement "CipherData" [encElement "CipherValue" []]] := rfl
    rw [hlist] at hmem
    simp only [List.mem_cons, List.mem_singleton, List.not_mem_nil, or_false] at hmem
    rcases hmem with h | h | h
    · rw [h] at hname; exact absurd hname (by decide)
    · rw [h] at hname; exact absurd hname (by decide)
    · rw [cipherDataNodeRead_cipherValue sampleEncEnv c ptr (encElement "CipherValue" []) [] hnull
        (by rw [h]; rfl) (by decide)]
      cases c.encrypt <;> rfl
  have h := structure_accepts_iff_grammar sampleEncEnv
    (freshEncCtx sampleEncEnv xmlEncCtxMode.xmlEncCtxModeEncryptedData none
      (some (sampleKey "k" 3)))
    { path := [], node := sampleTemplate }
    (freshEncCtx_fields sampleEncEnv _ _ _).1 hsub
  exact ⟨by decide, (h.mp (by decide)).2⟩

/-! ### The `CipherData` element -/

/-- C10: `xmlSecEncCtxCipherDataNodeRead` returns 0 for a `CipherData` element that has no
element child, when decrypting and when encrypting, and leaves `cipherValueNode` at `NULL`;
so `xmlSecEncCtxBinaryEncrypt` succeeds on a template whose `CipherData` is empty and writes
the ciphertext nowhere in the template. -/
theorem cipherData_without_child_accepted :
    xmlSecElementNodes (encElement "CipherData" []).children = [] ∧
    (xmlSecEncCtxCipherDataNodeRead sampleEncEnv
      (freshEncCtx sampleEncEnv xmlEncCtxMode.xmlEncCtxModeEncryptedData none
        (some (sampleKey "k" 3)))
      { path := [0], node := encElement "CipherData" [] }).1 = xmlSecResult.ok () ∧
    (xmlSecEncCtxCipherDataNodeRead sampleEncEnv
      { freshEncCtx sampleEncEnv xmlEncCtxMode.xmlEncCtxModeEncryptedData none
          (some (sampleKey "k" 3)) with encrypt := true }
      { path := [0], node := encElement "CipherData" [] }).1 = xmlSecResult.ok () ∧
    (xmlSecEncCtxCipherDataNodeRead sampleEncEnv
      (freshEncCtx sampleEncEnv xmlEncCtxMode.xmlEncCtxModeEncryptedData none
        (some (sampleKey "k" 3)))
      { path := [0], node := encElement "CipherData" [] }).2.cipherValueNode.isSome = false ∧
    (xmlSecEncCtxBinaryEncrypt sampleEncEnv
      (freshEncCtx sampleEncEnv xmlEncCtxMode.xmlEncCtxModeEncryptedData none
        (some (sampleKey "k" 3)))
      (some (encElement "EncryptedData" [sampleEncryptionMethod, encElement "CipherData" []]))
      (some [0, 1, 2])).ret = xmlSecResult.ok () := by
  refine ⟨rfl, by decide, by decide, by decide, by decide⟩

/-! ### The binary round trip -/

theorem encDataNodeReadEnd_snd (encCtx : xmlSecEncCtx) (cur : List xmlNode) :
    (xmlSecEncCtxEncDataNodeReadEnd encCtx cur).2 = encCtx := by
  unfold xmlSecEncCtxEncDataNodeReadEnd
  split <;> rfl

theorem encDataNodeReadKeyTail_snd (env : EncEnv) (encCtx : xmlSecEncCtx) (cur : List xmlNode) :
    (xmlSecEncCtxEncDataNodeReadKeyTail env encCtx cur).2 =
      { encCtx with
        carriedKeyName :=
          (xmlSecEncCtxEncDataNodeReadKeyTail env encCtx cur).2.carriedKeyName } := by
  unfold xmlSecEncCtxEncDataNodeReadKeyTail
  dsimp only
  generalize (if xmlSecCheckNodeName cur.head? xmlSecNodeReferenceList xmlSecEncNs = true
    then cur.tail else cur) = cur1
  by_cases hckn : xmlSecCheckNodeName cur1.head? xmlSecNodeCarriedKeyName xmlSecEncNs = true
  · simp only [hckn, if_true]
    cases cur1.head?.bind env.xmlNodeGetContent with
    | none => rfl
    | some content => simp only [encDataNodeReadEnd_snd]
  · simp only [hckn, Bool.false_eq_true, if_false, encDataNodeReadEnd_snd]

/-- Shared: the children after `CipherData` change `carriedKeyName` only. -/
theorem encDataNodeReadTail_snd (env : EncEnv) (encCtx : xmlSecEncCtx) (cur : List xmlNode) :
    (xmlSecEncCtxEncDataNodeReadTail env encCtx cur).2 =
      { encCtx with
        carriedKeyName := (xmlSecEncCtxEncDataNodeReadTail env encCtx cur).2.carriedKeyName } := by
  unfold xmlSecEncCtxEncDataNodeReadTail
  dsimp only
  generalize (if xmlSecCheckNodeName cur.head? xmlSecNodeEncryptionProperties xmlSecEncNs = true
    then cur.tail else cur) = cur1
  by_cases hmode : encCtx.mode = xmlEncCtxMode.xmlEncCtxModeEncryptedKey
  · simp only [hmode, if_true]
    have h := encDataNodeReadKeyTail_snd env encCtx cur1
    simp only [hmode] at h
    exact h
  · simp only [hmode, if_false, encDataNodeReadEnd_snd]

/-- Shared: in mode `EncryptedData` a walk over the children after `CipherData` that succeeds
leaves the context as it is. -/
theorem encDataNodeReadTail_data (env : EncEnv) (encCtx : xmlSecEncCtx) (cur : List xmlNode)
    (hmode : encCtx.mode = xmlEncCtxMode.xmlEncCtxModeEncryptedData)
    (h : (xmlSecEncCtxEncDataNodeReadTail env encCtx cur).1 = xmlSecResult.ok ()) :
    xmlSecEncCtxEncDataNodeReadTail env encCtx cur = (xmlSecResult.ok (), encCtx) := by
  have hsnd := encDataNodeReadTail_snd env encCtx cur
  have hckn : (xmlSecEncCtxEncDataNodeReadTail env encCtx cur).2.carriedKeyName =
      encCtx.carriedKeyName := by
    unfold xmlSecEncCtxEncDataNodeReadTail
    dsimp only
    rw [if_neg (by rw [hmode]; decide), encDataNodeReadEnd_snd]
  rw [hckn] at hsnd
  exact Prod.ext h hsnd

/-- Shared: whether the walk over the children after `CipherData` succeeds depends on the
context through its mode only. -/
theorem encDataNodeReadTail_transfer (env : EncEnv) (encCtx other : xmlSecEncCtx)
    (cur : List xmlNode) (hmode : other.mode = encCtx.mode)
    (h : (xmlSecEncCtxEncDataNodeReadTail env encCtx cur).1 = xmlSecResult.ok ()) :
    (xmlSecEncCtxEncDataNodeReadTail env other cur).1 = xmlSecResult.ok () := by
  rw [encDataNodeReadTail_ok] at h ⊢
  rw [hmode]
  exact h

theorem checkNodeName_setChildren (n : xmlNode) (children : List xmlNode) (name ns : String) :
    xmlSecCheckNodeName (some (n.setChildren children)) name ns =
      xmlSecCheckNodeName (some n) name ns := by
  cases n <;> rfl

theorem isElement_setChildren (n : xmlNode) (children : List xmlNode) :
    (n.setChildren children).isElement = n.isElement := by
  cases n <;> rfl

theorem isElement_of_checkNodeName (n : xmlNode) (name ns : String)
    (h : xmlSecCheckNodeName (some n) name ns = true) : n.isElement = true := by
  cases n with
  | element => rfl
  | text t => cases h

theorem children_setChildren (n : xmlNode) (children : List xmlNode)
    (h : n.isElement = true) : (n.setChildren children).children = children := by
  cases n with
  | element => rfl
  | text t => cases h

/-- Shared: `updateElement` changes the element it is aimed at and no other. -/
theorem elementNodes_updateElement (f : xmlNode → xmlNode)
    (hf : ∀ n, (f n).isElement = n.isElement) :
    ∀ (siblings before : List xmlNode) (x : xmlNode) (after : List xmlNode),
      xmlSecElementNodes siblings = before ++ x :: after →
      xmlSecElementNodes (updateElement f before.length siblings) = before ++ f x :: after := by
  intro siblings
  induction siblings with
  | nil =>
    intro before x after h
    cases before <;> cases h
  | cons n rest ih =>
    intro before x after h
    by_cases hn : n.isElement = true
    · have hfilter : xmlSecElementNodes (n :: rest) = n :: xmlSecElementNodes rest := by
        simp [xmlSecElementNodes, hn]
      rw [hfilter] at h
      cases before with
      | nil =>
        simp only [List.nil_append, List.cons.injEq] at h
        obtain ⟨hx, hrest⟩ := h
        subst hx
        simp only [updateElement, hn, if_true, List.length_nil, List.nil_append]
        simp only [xmlSecElementNodes] at hrest ⊢
        rw [List.filter_cons, hf, hn, if_pos rfl, hrest]
      | cons b before =>
        simp only [List.cons_append, List.cons.injEq] at h
        obtain ⟨hb, hrest⟩ := h
        subst hb
        simp only [updateElement, hn, if_true, List.length_cons, List.cons_append]
        have := ih before x after hrest
        simp only [xmlSecElementNodes] at this ⊢
        rw [List.filter_cons, hn, if_pos rfl, this]
    · have hfilter : xmlSecElementNodes (n :: rest) = xmlSecElementNodes rest := by
        simp [xmlSecElementNodes, hn]
      rw [hfilter] at h
      have := ih before x after h
      simp only [updateElement, hn, Bool.false_eq_true, if_false]
      simp only [xmlSecElementNodes] at this ⊢
      rw [List.filter_cons, if_neg hn, this]

/-- Shared: in a template of the shape TemplateRead accepts, the `CipherValue` of the template
is the first element child of the `CipherData`. -/
theorem templateCipherValue_of_shape (tmpl : xmlNode) (method keyInfo : Option xmlNode)
    (cipherData : xmlNode) (rest : List xmlNode)
    (hshape : xmlSecElementNodes tmpl.children =
      method.toList ++ keyInfo.toList ++ cipherData :: rest)
    (hm : ∀ n ∈ method,
      xmlSecCheckNodeName (some n) xmlSecNodeEncryptionMethod xmlSecEncNs = true)
    (hki : ∀ n ∈ keyInfo, xmlSecCheckNodeName (some n) xmlSecNodeKeyInfo xmlSecDSigNs = true)
    (hcd : xmlSecCheckNodeName (some cipherData) xmlSecNodeCipherData xmlSecEncNs = true)
    (hcv : (templateCipherValue tmpl).isSome = true) :
    ∃ (cipherValue : xmlNode) (more : List xmlNode),
      xmlSecElementNodes cipherData.children = cipherValue :: more ∧
      xmlSecCheckNodeName (some cipherValue) xmlSecNodeCipherValue xmlSecEncNs = true := by
  have hfind : (method.toList ++ keyInfo.toList ++ cipherData :: rest).find?
      (fun n => xmlSecCheckNodeName (some n) xmlSecNodeCipherData xmlSecEncNs) =
      some cipherData := by
    have hnm : ∀ n ∈ method,
        xmlSecCheckNodeName (some n) xmlSecNodeCipherData xmlSecEncNs = false := fun n hn =>
      checkNodeName_exclusive n xmlSecNodeEncryptionMethod xmlSecNodeCipherData _ _ (by decide)
        (hm n hn)
    have hnk : ∀ n ∈ keyInfo,
        xmlSecCheckNodeName (some n) xmlSecNodeCipherData xmlSecEncNs = false := fun n hn =>
      checkNodeName_exclusive n xmlSecNodeKeyInfo xmlSecNodeCipherData _ _ (by decide) (hki n hn)
    cases method with
    | none =>
      cases keyInfo with
      | none => simp [List.find?, hcd]
      | some k => simp [List.find?, hcd, hnk k rfl]
    | some m =>
      cases keyInfo with
      | none => simp [List.find?, hcd, hnm m rfl]
      | some k => simp [List.find?, hcd, hnm m rfl, hnk k rfl]
  unfold templateCipherValue at hcv
  rw [hshape, hfind] at hcv
  dsimp only at hcv
  cases hch : xmlSecElementNodes cipherData.children with
  | nil => rw [hch] at hcv; cases hcv
  | cons first more =>
    rw [hch] at hcv
    dsimp only at hcv
    by_cases hname : xmlSecCheckNodeName (some first) xmlSecNodeCipherValue xmlSecEncNs = true
    · exact ⟨first, more, rfl, hname⟩
    · rw [if_neg hname] at hcv; cases hcv

/-- Shared: the structural phase of TemplateRead on a template of the shape optional
`EncryptionMethod`, optional `KeyInfo`, `CipherData` with one `CipherValue`, rest. -/
theorem readStructure_cipherValue (env : EncEnv) (encCtx : xmlSecEncCtx) (node : xmlNodePtr)
    (method keyInfo : Option xmlNode) (cipherData : xmlNode) (rest : List xmlNode)
    (cipherValue : xmlNode)
    (hroot : xmlSecCheckNodeName (some node.node) encCtx.mode.rootName xmlSecEncNs = true)
    (hunread : encCtx.unread)
    (hmode : encCtx.mode = xmlEncCtxMode.xmlEncCtxModeEncryptedData)
    (hshape : xmlSecElementNodes node.node.children =
      method.toList ++ keyInfo.toList ++ cipherData :: rest)
    (hm : ∀ n ∈ method,
      xmlSecCheckNodeName (some n) xmlSecNodeEncryptionMethod xmlSecEncNs = true)
    (hki : ∀ n ∈ keyInfo, xmlSecCheckNodeName (some n) xmlSecNodeKeyInfo xmlSecDSigNs = true)
    (hcd : xmlSecCheckNodeName (some cipherData) xmlSecNodeCipherData xmlSecEncNs = true)
    (hcdshape : xmlSecElementNodes cipherData.children = [cipherValue])
    (hcv : xmlSecCheckNodeName (some cipherValue) xmlSecNodeCipherValue xmlSecEncNs = true)
    (htail : (xmlSecEncCtxEncDataNodeReadTail env encCtx rest).1 = xmlSecResult.ok ())
    (hcreate : encCtx.encrypt = true ∨
      env.xmlSecTransformCreateOk xmlSecTransformBase64Id = true) :
    ∃ after : xmlSecEncCtx,
      xmlSecEncCtxEncDataNodeReadStructure env encCtx node = (xmlSecResult.ok (), after) ∧
      after.encrypt = encCtx.encrypt ∧ after.encMethod = encCtx.encMethod ∧
      after.encKey = encCtx.encKey ∧ after.keyInfoReadCtx = encCtx.keyInfoReadCtx ∧
      after.encMethodNode = method.map (fun n => { path := node.path ++ [0], node := n }) ∧
      after.keyInfoNode =
        keyInfo.map (fun n => { path := node.path ++ [method.toList.length], node := n }) ∧
      after.cipherValueNode =
        some { path := node.path ++ [method.toList.length + keyInfo.toList.length] ++ [0],
               node := cipherValue } ∧
      after.encTransformCtx.chain =
        if encCtx.encrypt = false then
          xmlSecTransformPtr.owned base64Decoder :: encCtx.encTransformCtx.chain
        else encCtx.encTransformCtx.chain := by
  have hcvn : encCtx.cipherValueNode = none := hunread.2.2.2.2.2.2.2.2
  have hmn : encCtx.encMethodNode = none := hunread.2.2.2.2.2.2.1
  have hkn : encCtx.keyInfoNode = none := hunread.2.2.2.2.2.2.2.1
  rw [readStructure_eq_children env encCtx node hroot hunread,
    readChildren_of_shape env (xmlSecEncCtxEncDataNodeReadAttrs encCtx node.node) node method
      keyInfo cipherData rest hshape hmn hkn hm hki hcd]
  generalize hc1 : ({ xmlSecEncCtxEncDataNodeReadAttrs encCtx node.node with
      encMethodNode := method.map fun n => { path := node.path ++ [0], node := n }
      keyInfoNode := keyInfo.map fun n =>
        { path := node.path ++ [method.toList.length], node := n } } : xmlSecEncCtx) = c1
  have hc1cv : c1.cipherValueNode = none := by rw [← hc1]; exact hcvn
  have hc1enc : c1.encrypt = encCtx.encrypt := by rw [← hc1]; rfl
  rw [cipherDataNodeRead_cipherValue env c1
    { path := node.path ++ [method.toList.length + keyInfo.toList.length], node := cipherData }
    cipherValue [] hc1cv hcdshape hcv]
  have hnil : ∀ c : xmlSecEncCtx,
      xmlSecEncCtxCipherDataNodeReadEnd c [] = (xmlSecResult.ok (), c) := fun _ => rfl
  have htl : ∀ c : xmlSecEncCtx, c.mode = encCtx.mode →
      xmlSecEncCtxEncDataNodeReadTail env c rest = (xmlSecResult.ok (), c) := fun c hc =>
    encDataNodeReadTail_data env c rest (by rw [hc, hmode])
      (encDataNodeReadTail_transfer env encCtx c rest hc htail)
  by_cases henc : encCtx.encrypt = false
  · have hok : env.xmlSecTransformCreateOk xmlSecTransformBase64Id = true := by
      cases hcreate with
      | inl h => rw [henc] at h; cases h
      | inr h => exact h
    rw [hc1enc, if_pos henc, if_pos hok, hnil]
    dsimp only
    rw [htl _ (by rw [← hc1]; rfl)]
    refine ⟨_, rfl, ?_, ?_, ?_, ?_, ?_, ?_, ?_, ?_⟩
    all_goals subst hc1
    all_goals first | rfl | (rw [if_pos henc]; done) | (rw [if_pos henc]; rfl)
  · rw [hc1enc, if_neg henc, hnil]
    dsimp only
    rw [htl _ (by rw [← hc1]; rfl)]
    refine ⟨_, rfl, ?_, ?_, ?_, ?_, ?_, ?_, ?_, ?_⟩
    all_goals subst hc1
    all_goals first | rfl | (rw [if_neg henc]; done) | (rw [if_neg henc]; rfl)

/-- Shared: when the structural phase of TemplateRead succeeds for an encryption on a template
with a `CipherValue`, the template has the shape optional `EncryptionMethod`, optional
`KeyInfo`, `CipherData` with one `CipherValue`, rest. -/
theorem readStructure_cipherValue_inv (env : EncEnv) (encCtx : xmlSecEncCtx) (node : xmlNodePtr)
    (hunread : encCtx.unread) (henc : encCtx.encrypt = true)
    (hcvT : (templateCipherValue node.node).isSome = true)
    (h : (xmlSecEncCtxEncDataNodeReadStructure env encCtx node).1 = xmlSecResult.ok ()) :
    ∃ (method keyInfo : Option xmlNode) (cipherData : xmlNode) (rest : List xmlNode)
      (cipherValue : xmlNode),
      xmlSecCheckNodeName (some node.node) encCtx.mode.rootName xmlSecEncNs = true ∧
      xmlSecElementNodes node.node.children =
        method.toList ++ keyInfo.toList ++ cipherData :: rest ∧
      (∀ n ∈ method,
        xmlSecCheckNodeName (some n) xmlSecNodeEncryptionMethod xmlSecEncNs = true) ∧
      (∀ n ∈ keyInfo, xmlSecCheckNodeName (some n) xmlSecNodeKeyInfo xmlSecDSigNs = true) ∧
      xmlSecCheckNodeName (some cipherData) xmlSecNodeCipherData xmlSecEncNs = true ∧
      xmlSecElementNodes cipherData.children = [cipherValue] ∧
      xmlSecCheckNodeName (some cipherValue) xmlSecNodeCipherValue xmlSecEncNs = true ∧
      (xmlSecEncCtxEncDataNodeReadTail env encCtx rest).1 = xmlSecResult.ok () := by
  have hcvn : encCtx.cipherValueNode = none := hunread.2.2.2.2.2.2.2.2
  have hmn : encCtx.encMethodNode = none := hunread.2.2.2.2.2.2.1
  have hkn : encCtx.keyInfoNode = none := hunread.2.2.2.2.2.2.2.1
  have hroot := readStructure_ok_root env encCtx node h
  rw [readStructure_eq_children env encCtx node hroot hunread] at h
  obtain ⟨_, _, method, keyInfo, cipherData, rest, hshape, hm, hki, hcd⟩ :=
    readChildren_shape_of_ok env _ node h
  obtain ⟨cipherValue, more, hcdshape, hcv⟩ :=
    templateCipherValue_of_shape node.node method keyInfo cipherData rest hshape hm hki hcd hcvT
  rw [readChildren_of_shape env (xmlSecEncCtxEncDataNodeReadAttrs encCtx node.node) node method
      keyInfo cipherData rest hshape hmn hkn hm hki hcd] at h
  generalize hc1 : ({ xmlSecEncCtxEncDataNodeReadAttrs encCtx node.node with
      encMethodNode := method.map fun n => { path := node.path ++ [0], node := n }
      keyInfoNode := keyInfo.map fun n =>
        { path := node.path ++ [method.toList.length], node := n } } : xmlSecEncCtx) = c1 at h
  have hc1cv : c1.cipherValueNode = none := by rw [← hc1]; exact hcvn
  have hc1enc : c1.encrypt = encCtx.encrypt := by rw [← hc1]; rfl
  have hc1mode : c1.mode = encCtx.mode := by rw [← hc1]; rfl
  rw [cipherDataNodeRead_cipherValue env c1
    { path := node.path ++ [method.toList.length + keyInfo.toList.length], node := cipherData }
    cipherValue more hc1cv hcdshape hcv, hc1enc, if_neg (by rw [henc]; decide)] at h
  cases more with
  | cons extra more => cases h
  | nil =>
    refine ⟨method, keyInfo, cipherData, rest, cipherValue, hroot, hshape, hm, hki, hcd,
      hcdshape, hcv, ?_⟩
    change (xmlSecEncCtxEncDataNodeReadTail env _ rest).1 = _ at h
    exact encDataNodeReadTail_transfer env _ encCtx rest (by exact hc1mode.symm) h

/-- Shared: the key lookup changes `encKey` only, and leaves a key that is set. -/
theorem readGetKey_eq (env : EncEnv) (encCtx : xmlSecEncCtx) :
    xmlSecEncCtxEncDataNodeReadGetKey env encCtx =
      { encCtx with encKey := (xmlSecEncCtxEncDataNodeReadGetKey env encCtx).encKey } := by
  unfold xmlSecEncCtxEncDataNodeReadGetKey
  split <;> rfl

theorem readGetKey_of_key (env : EncEnv) (encCtx : xmlSecEncCtx) (key : xmlSecKey)
    (h : encCtx.encKey = some key) :
    xmlSecEncCtxEncDataNodeReadGetKey env encCtx = encCtx := by
  unfold xmlSecEncCtxEncDataNodeReadGetKey
  split
  · rename_i hnone _
    rw [h] at hnone
    cases hnone
  · rfl

/-- Shared: what a successful key part of TemplateRead did, for an encryption into a
`CipherValue`. -/
theorem readKey_ok_inv (env : EncEnv) (encCtx after : xmlSecEncCtx) (t : xmlSecTransform)
    (henc : encCtx.encrypt = true) (hcv : encCtx.cipherValueNode.isSome = true)
    (h : xmlSecEncCtxEncDataNodeReadKey env encCtx t = (xmlSecResult.ok (), after)) :
    ∃ (accepted : xmlSecKeyReq) (key : xmlSecKey),
      env.xmlSecTransformSetKeyReq { t with encode := true } encCtx.keyInfoReadCtx.keyReq =
        some accepted ∧
      env.xmlSecKeyMatch key none accepted = true ∧
      env.xmlSecTransformSetKeyOk { t with encode := true } key = true ∧
      env.xmlSecTransformCreateOk xmlSecTransformBase64Id = true ∧
      after.encKey = some key ∧
      after.encMethod = some { t with encode := true, key := some key } ∧
      after.encTransformCtx.chain =
        encCtx.encTransformCtx.chain ++ [xmlSecTransformPtr.owned base64Encoder] ∧
      after.cipherValueNode = encCtx.cipherValueNode ∧
      after.keyInfoNode = encCtx.keyInfoNode := by
  unfold xmlSecEncCtxEncDataNodeReadKey at h
  dsimp only at h
  rw [henc] at h
  cases hreq : env.xmlSecTransformSetKeyReq { t with encode := true }
      encCtx.keyInfoReadCtx.keyReq with
  | none => rw [hreq] at h; cases h
  | some accepted =>
    rw [hreq] at h
    dsimp only at h
    rw [readGetKey_eq] at h
    generalize (xmlSecEncCtxEncDataNodeReadGetKey env _).encKey = found at h
    cases found with
    | none => cases h
    | some key =>
      dsimp only at h
      by_cases hmatch : env.xmlSecKeyMatch key none accepted = true
      · by_cases hset : env.xmlSecTransformSetKeyOk { t with encode := true } key = true
        · simp only [hmatch, hset, Bool.not_true, Bool.false_eq_true, if_false] at h
          unfold xmlSecEncCtxEncDataNodeReadBase64 at h
          simp only [hcv, and_self, if_true] at h
          by_cases hok : env.xmlSecTransformCreateOk xmlSecTransformBase64Id = true
          · simp only [hok, if_true, Prod.mk.injEq, true_and] at h
            subst h
            exact ⟨accepted, key, rfl, hmatch, hset, hok, rfl, rfl, rfl, rfl, rfl⟩
          · simp [hok] at h
        · simp [hmatch, hset] at h
      · simp [hmatch] at h

/-- Shared: the key part of TemplateRead for a decryption with a key the transform accepts. -/
theorem readKey_decrypt (env : EncEnv) (encCtx : xmlSecEncCtx) (t : xmlSecTransform)
    (accepted : xmlSecKeyReq) (key : xmlSecKey)
    (henc : encCtx.encrypt = false) (hkey : encCtx.encKey = some key)
    (hreq : env.xmlSecTransformSetKeyReq { t with encode := false }
      encCtx.keyInfoReadCtx.keyReq = some accepted)
    (hmatch : env.xmlSecKeyMatch key none accepted = true)
    (hset : env.xmlSecTransformSetKeyOk { t with encode := false } key = true) :
    ∃ after : xmlSecEncCtx,
      xmlSecEncCtxEncDataNodeReadKey env encCtx t = (xmlSecResult.ok (), after) ∧
      after.encMethod = some { t with encode := false, key := some key } ∧
      after.encTransformCtx = encCtx.encTransformCtx ∧
      after.cipherValueNode = encCtx.cipherValueNode := by
  unfold xmlSecEncCtxEncDataNodeReadKey
  dsimp only
  rw [henc, hreq]
  dsimp only
  rw [readGetKey_of_key env _ key (by exact hkey)]
  simp only [hkey, hmatch, hset, Bool.not_true, Bool.false_eq_true, if_false]
  unfold xmlSecEncCtxEncDataNodeReadBase64
  simp only [Bool.false_eq_true, false_and, if_false]
  exact ⟨_, rfl, rfl, rfl, rfl⟩

/-- Shared: what a successful second part of TemplateRead did, for an encryption into a
`CipherValue`: the transform is the one set in the context or the one read from the
`EncryptionMethod` node, the key is accepted for it, and the chain ends with the transform and
a base64 encoder. -/
theorem readResolve_ok_inv (env : EncEnv) (encCtx after : xmlSecEncCtx)
    (henc : encCtx.encrypt = true) (hcv : encCtx.cipherValueNode.isSome = true)
    (h : xmlSecEncCtxEncDataNodeReadResolve env encCtx = (xmlSecResult.ok (), after)) :
    ∃ (t : xmlSecTransform) (accepted : xmlSecKeyReq) (key : xmlSecKey),
      ((encCtx.encMethod = some t ∧ env.xmlSecTransformCtxAppendOk t = true) ∨
        (encCtx.encMethod = none ∧ ∃ methodNode : xmlNodePtr,
          encCtx.encMethodNode = some methodNode ∧
          env.xmlSecTransformCtxNodeRead methodNode.node xmlSecTransformUsageEncryptionMethod =
            some t)) ∧
      env.xmlSecTransformSetKeyReq { t with encode := true } encCtx.keyInfoReadCtx.keyReq =
        some accepted ∧
      env.xmlSecKeyMatch key none accepted = true ∧
      env.xmlSecTransformSetKeyOk { t with encode := true } key = true ∧
      env.xmlSecTransformCreateOk xmlSecTransformBase64Id = true ∧
      after.encKey = some key ∧
      after.encMethod = some { t with encode := true, key := some key } ∧
      after.encTransformCtx.chain =
        encCtx.encTransformCtx.chain ++
          [xmlSecTransformPtr.encMethod, xmlSecTransformPtr.owned base64Encoder] ∧
      after.cipherValueNode = encCtx.cipherValueNode ∧
      after.keyInfoNode = encCtx.keyInfoNode := by
  unfold xmlSecEncCtxEncDataNodeReadResolve at h
  split at h
  · rename_i methodNode hnone hnode
    split at h
    · cases h
    · rename_i t hread
      obtain ⟨accepted, key, hreq, hmatch, hset, hcreate, hk, hm, hchain, hcvn, hkin⟩ :=
        readKey_ok_inv env _ after t (by exact henc) (by exact hcv) h
      refine ⟨t, accepted, key, Or.inr ⟨hnone, methodNode, hnode, hread⟩, hreq, hmatch, hset,
        hcreate, hk, hm, ?_, hcvn, hkin⟩
      rw [hchain]
      simp
  · rename_i t hsome
    by_cases hok : env.xmlSecTransformCtxAppendOk t = true
    · rw [if_pos hok] at h
      obtain ⟨accepted, key, hreq, hmatch, hset, hcreate, hk, hm, hchain, hcvn, hkin⟩ :=
        readKey_ok_inv env _ after t (by exact henc) (by exact hcv) h
      refine ⟨t, accepted, key, Or.inl ⟨hsome, hok⟩, hreq, hmatch, hset, hcreate, hk, hm, ?_,
        hcvn, hkin⟩
      rw [hchain]
      simp
    · rw [if_neg hok] at h
      cases h
  · cases h

/-- Shared: the second part of TemplateRead for a decryption with a key the transform
accepts: the chain gets the transform at its tail. -/
theorem readResolve_decrypt (env : EncEnv) (encCtx : xmlSecEncCtx) (t : xmlSecTransform)
    (accepted : xmlSecKeyReq) (key : xmlSecKey)
    (henc : encCtx.encrypt = false) (hkey : encCtx.encKey = some key)
    (hsrc : (encCtx.encMethod = some t ∧ env.xmlSecTransformCtxAppendOk t = true) ∨
      (encCtx.encMethod = none ∧ ∃ methodNode : xmlNodePtr,
        encCtx.encMethodNode = some methodNode ∧
        env.xmlSecTransformCtxNodeRead methodNode.node xmlSecTransformUsageEncryptionMethod =
          some t))
    (hreq : env.xmlSecTransformSetKeyReq { t with encode := false }
      encCtx.keyInfoReadCtx.keyReq = some accepted)
    (hmatch : env.xmlSecKeyMatch key none accepted = true)
    (hset : env.xmlSecTransformSetKeyOk { t with encode := false } key = true) :
    ∃ after : xmlSecEncCtx,
      xmlSecEncCtxEncDataNodeReadResolve env encCtx = (xmlSecResult.ok (), after) ∧
      after.encMethod = some { t with encode := false, key := some key } ∧
      after.encTransformCtx.chain =
        encCtx.encTransformCtx.chain ++ [xmlSecTransformPtr.encMethod] ∧
      after.cipherValueNode = encCtx.cipherValueNode := by
  unfold xmlSecEncCtxEncDataNodeReadResolve
  cases hsrc with
  | inl hset0 =>
    obtain ⟨hm, hok⟩ := hset0
    rw [hm]
    dsimp only
    rw [if_pos hok]
    obtain ⟨after, hrun, h1, h2, h3⟩ := readKey_decrypt env
      { encCtx with
        encTransformCtx := { encCtx.encTransformCtx with
          chain := encCtx.encTransformCtx.chain ++ [xmlSecTransformPtr.encMethod] } }
      t accepted key henc hkey hreq hmatch hset
    exact ⟨after, hrun, h1, by rw [h2], h3⟩
  | inr hread =>
    obtain ⟨hm, methodNode, hnode, hnr⟩ := hread
    rw [hm, hnode]
    dsimp only
    rw [hnr]
    dsimp only
    obtain ⟨after, hrun, h1, h2, h3⟩ := readKey_decrypt env
      { encCtx with
        encMethodNode := some methodNode
        encMethod := some t
        encTransformCtx := { encCtx.encTransformCtx with
          chain := encCtx.encTransformCtx.chain ++ [xmlSecTransformPtr.encMethod] }
        dontDestroyEncMethod := true }
      t accepted key henc hkey hreq hmatch hset
    exact ⟨after, hrun, h1, by rw [h2], h3⟩

/-- Shared: TemplateRead succeeds when both of its parts do. -/
theorem encDataNodeRead_ok_inv (env : EncEnv) (encCtx after : xmlSecEncCtx) (node : xmlNodePtr)
    (h : xmlSecEncCtxEncDataNodeRead env encCtx node = (xmlSecResult.ok (), after)) :
    ∃ mid : xmlSecEncCtx,
      xmlSecEncCtxEncDataNodeReadStructure env encCtx node = (xmlSecResult.ok (), mid) ∧
      xmlSecEncCtxEncDataNodeReadResolve env mid = (xmlSecResult.ok (), after) := by
  unfold xmlSecEncCtxEncDataNodeRead at h
  split at h
  · cases h
  · rename_i mid hstruct
    exact ⟨mid, hstruct, h⟩

theorem encDataNodeRead_of_parts (env : EncEnv) (encCtx mid after : xmlSecEncCtx)
    (node : xmlNodePtr)
    (hstruct : xmlSecEncCtxEncDataNodeReadStructure env encCtx node = (xmlSecResult.ok (), mid))
    (hres : xmlSecEncCtxEncDataNodeReadResolve env mid = (xmlSecResult.ok (), after)) :
    xmlSecEncCtxEncDataNodeRead env encCtx node = (xmlSecResult.ok (), after) := by
  unfold xmlSecEncCtxEncDataNodeRead
  rw [hstruct]
  exact hres

/-- Shared: TemplateWrite leaves `encKey` as it is. -/
theorem encDataNodeWrite_encKey (env : EncEnv) (encCtx : xmlSecEncCtx) (tmpl : xmlNode) :
    (xmlSecEncCtxEncDataNodeWrite env encCtx tmpl).2.1.encKey = encCtx.encKey := by
  have hki : ∀ (c : xmlSecEncCtx) (k : xmlSecKey) (t : xmlNode),
      (xmlSecEncCtxEncDataNodeWriteKeyInfo env c k t).2.1.encKey = c.encKey := by
    intro c k t
    unfold xmlSecEncCtxEncDataNodeWriteKeyInfo
    split
    · split <;> rfl
    · rfl
  unfold xmlSecEncCtxEncDataNodeWrite
  split
  · rfl
  · rfl
  · split
    · split
      · rfl
      · rw [hki]
    · rw [hki]

/-- Shared: the template a successful TemplateWrite leaves, for a context with a
`CipherValue` node: the result is the content of the `CipherValue`, and the `KeyInfo` node,
when there is one, has the children the KeyInfo writer gave it. -/
theorem encDataNodeWrite_cipherValue (env : EncEnv) (encCtx : xmlSecEncCtx) (tmpl : xmlNode)
    (out : Bytes) (cipherValue : xmlNodePtr)
    (hres : encCtx.result = some out) (hcv : encCtx.cipherValueNode = some cipherValue)
    (h : (xmlSecEncCtxEncDataNodeWrite env encCtx tmpl).1 = xmlSecResult.ok ()) :
    ∃ written : List xmlNode,
      (xmlSecEncCtxEncDataNodeWrite env encCtx tmpl).2.2 =
        match encCtx.keyInfoNode with
        | some keyInfo =>
          updateAt (fun n => n.setChildren written) keyInfo.path
            (updateAt (fun n => xmlNodeSetContentLen n out out.length) cipherValue.path tmpl)
        | none => updateAt (fun n => xmlNodeSetContentLen n out out.length) cipherValue.path tmpl := by
  unfold xmlSecEncCtxEncDataNodeWrite at h ⊢
  rw [hres] at h ⊢
  cases hk : encCtx.encKey with
  | none => rw [hk] at h; cases h
  | some key =>
    try rw [hk] at h
    try rw [hk]
    dsimp only at h ⊢
    rw [hcv] at h ⊢
    dsimp only at h ⊢
    by_cases hnull : env.xmlSecBufferDataNull out = true
    · rw [if_pos hnull] at h; cases h
    · rw [if_neg hnull] at h ⊢
      unfold xmlSecEncCtxEncDataNodeWriteKeyInfo at h ⊢
      dsimp only at h ⊢
      cases hkin : encCtx.keyInfoNode with
      | none => exact ⟨[], rfl⟩
      | some keyInfo =>
        rw [hkin] at h
        dsimp only at h ⊢
        cases hw : env.xmlSecKeyInfoNodeWrite keyInfo.node key encCtx.keyInfoWriteCtx with
        | none => rw [hw] at h; cases h
        | some written => exact ⟨written, rfl⟩

/-- Shared: what a successful `xmlSecEncCtxBinaryEncrypt` did. -/
theorem binaryEncrypt_ok_inv (env : EncEnv) (encCtx : xmlSecEncCtx) (tmpl : xmlNode)
    (data : Bytes) (hres : encCtx.result = none)
    (h : (xmlSecEncCtxBinaryEncrypt env encCtx (some tmpl) (some data)).ret = xmlSecResult.ok ()) :
    ∃ (read : xmlSecEncCtx) (out : Bytes),
      xmlSecEncCtxEncDataNodeRead env { encCtx with encrypt := true } { path := [], node := tmpl } =
        (xmlSecResult.ok (), read) ∧
      xmlSecTransformsRun env (read.encTransformCtx.transforms read.encMethod) data = some out ∧
      (xmlSecEncCtxEncDataNodeWrite env
        { read with
          encTransformCtx := { read.encTransformCtx with result := some out }
          result := some out } tmpl).1 = xmlSecResult.ok () ∧
      (xmlSecEncCtxBinaryEncrypt env encCtx (some tmpl) (some data)).tmpl =
        some (xmlSecEncCtxEncDataNodeWrite env
          { read with
            encTransformCtx := { read.encTransformCtx with result := some out }
            result := some out } tmpl).2.2 ∧
      (xmlSecEncCtxBinaryEncrypt env encCtx (some tmpl) (some data)).ctx =
        (xmlSecEncCtxEncDataNodeWrite env
          { read with
            encTransformCtx := { read.encTransformCtx with result := some out }
            result := some out } tmpl).2.1 := by
  have hs : encCtx.result.isSome = false := by rw [hres]; rfl
  unfold xmlSecEncCtxBinaryEncrypt at h ⊢
  simp only [hs, Bool.false_eq_true, if_false] at h ⊢
  cases hread : xmlSecEncCtxEncDataNodeRead env { encCtx with encrypt := true }
      { path := [], node := tmpl } with
  | mk status read =>
    rw [hread] at h
    cases status with
    | fail reason subject => cases h
    | ok u =>
      dsimp only at h ⊢
      unfold xmlSecTransformCtxBinaryExecute at h ⊢
      cases hrun : xmlSecTransformsRun env (read.encTransformCtx.transforms read.encMethod) data with
      | none => rw [hrun] at h; cases h
      | some out =>
        rw [hrun] at h
        simp only [Option.isNone_some, Bool.false_eq_true, if_false] at h ⊢
        exact ⟨read, out, rfl, hrun, h, rfl, rfl⟩

/-- Shared: the template after TemplateWrite put `out` into the `CipherValue` and the
children `written` into the `KeyInfo`: the element children are those of the template, with
the new `KeyInfo` and a `CipherData` whose one child is the `CipherValue` with content `out`. -/
theorem written_template_shape (tmpl : xmlNode) (method keyInfo : Option xmlNode)
    (cipherData cipherValue : xmlNode) (rest : List xmlNode) (out : Bytes)
    (written : List xmlNode)
    (helem : tmpl.isElement = true)
    (hshape : xmlSecElementNodes tmpl.children =
      method.toList ++ keyInfo.toList ++ cipherData :: rest)
    (hki : ∀ n ∈ keyInfo, xmlSecCheckNodeName (some n) xmlSecNodeKeyInfo xmlSecDSigNs = true)
    (hcd : xmlSecCheckNodeName (some cipherData) xmlSecNodeCipherData xmlSecEncNs = true)
    (hcdshape : xmlSecElementNodes cipherData.children = [cipherValue]) :
    ∃ (keyInfoW : Option xmlNode) (cipherDataW : xmlNode),
      xmlSecElementNodes
        (match keyInfo.map (fun n => ({ path := [method.toList.length], node := n } : xmlNodePtr)) with
          | some ptr =>
            updateAt (fun n => n.setChildren written) ptr.path
              (updateAt (fun n => xmlNodeSetContentLen n out out.length)
                [method.toList.length + keyInfo.toList.length, 0] tmpl)
          | none =>
            updateAt (fun n => xmlNodeSetContentLen n out out.length)
              [method.toList.length + keyInfo.toList.length, 0] tmpl).children =
        method.toList ++ keyInfoW.toList ++ cipherDataW :: rest ∧
      (∀ name ns,
        xmlSecCheckNodeName (some
          (match keyInfo.map (fun n => ({ path := [method.toList.length], node := n } : xmlNodePtr)) with
          | some ptr =>
            updateAt (fun n => n.setChildren written) ptr.path
              (updateAt (fun n => xmlNodeSetContentLen n out out.length)
                [method.toList.length + keyInfo.toList.length, 0] tmpl)
          | none =>
            updateAt (fun n => xmlNodeSetContentLen n out out.length)
              [method.toList.length + keyInfo.toList.length, 0] tmpl)) name ns =
          xmlSecCheckNodeName (some tmpl) name ns) ∧
      (∀ n ∈ keyInfoW, xmlSecCheckNodeName (some n) xmlSecNodeKeyInfo xmlSecDSigNs = true) ∧
      xmlSecCheckNodeName (some cipherDataW) xmlSecNodeCipherData xmlSecEncNs = true ∧
      xmlSecElementNodes cipherDataW.children =
        [xmlNodeSetContentLen cipherValue out out.length] := by
  have hcdel := isElement_of_checkNodeName cipherData _ _ hcd
  have hset : ∀ n : xmlNode,
      (xmlNodeSetContentLen n out out.length).isElement = n.isElement := fun n =>
    isElement_setChildren n _
  have hinner : ∀ n : xmlNode,
      (n.setChildren (updateElement (fun c => xmlNodeSetContentLen c out out.length) 0
        n.children)).isElement = n.isElement := fun n => isElement_setChildren n _
  -- the template after the `CipherValue` got its content
  have h1 : xmlSecElementNodes
      (updateAt (fun n => xmlNodeSetContentLen n out out.length)
        [method.toList.length + keyInfo.toList.length, 0] tmpl).children =
      method.toList ++ keyInfo.toList ++
        cipherData.setChildren
          (updateElement (fun c => xmlNodeSetContentLen c out out.length) 0 cipherData.children)
        :: rest := by
    have := elementNodes_updateElement
      (fun child => child.setChildren
        (updateElement (fun c => xmlNodeSetContentLen c out out.length) 0 child.children))
      hinner tmpl.children (method.toList ++ keyInfo.toList) cipherData rest hshape
    rw [List.length_append] at this
    show xmlSecElementNodes (tmpl.setChildren _).children = _
    rw [children_setChildren tmpl _ helem]
    exact this
  have h1el : (updateAt (fun n => xmlNodeSetContentLen n out out.length)
      [method.toList.length + keyInfo.toList.length, 0] tmpl).isElement = true := by
    show (tmpl.setChildren _).isElement = true
    rw [isElement_setChildren]
    exact helem
  have h1name : ∀ name ns, xmlSecCheckNodeName (some
      (updateAt (fun n => xmlNodeSetContentLen n out out.length)
        [method.toList.length + keyInfo.toList.length, 0] tmpl)) name ns =
      xmlSecCheckNodeName (some tmpl) name ns := fun name ns =>
    checkNodeName_setChildren tmpl _ name ns
  have hcdW : xmlSecElementNodes
      (cipherData.setChildren
        (updateElement (fun c => xmlNodeSetContentLen c out out.length) 0
          cipherData.children)).children =
      [xmlNodeSetContentLen cipherValue out out.length] := by
    rw [children_setChildren cipherData _ hcdel]
    exact elementNodes_updateElement (fun c => xmlNodeSetContentLen c out out.length) hset
      cipherData.children [] cipherValue [] hcdshape
  have hcdWname : xmlSecCheckNodeName (some (cipherData.setChildren
      (updateElement (fun c => xmlNodeSetContentLen c out out.length) 0 cipherData.children)))
      xmlSecNodeCipherData xmlSecEncNs = true := by
    rw [checkNodeName_setChildren]; exact hcd
  cases keyInfo with
  | none => exact ⟨none, _, h1, h1name, by simp, hcdWname, hcdW⟩
  | some k =>
    generalize hT1 : updateAt (fun n => xmlNodeSetContentLen n out out.length)
      [method.toList.length + (some k).toList.length, 0] tmpl = T1 at h1 h1el h1name
    refine ⟨some (k.setChildren written), _, ?_, ?_, ?_, hcdWname, hcdW⟩
    · show xmlSecElementNodes (T1.setChildren _).children = _
      rw [children_setChildren T1 _ h1el]
      have h1' : xmlSecElementNodes T1.children = method.toList ++ k ::
          (cipherData.setChildren
            (updateElement (fun c => xmlNodeSetContentLen c out out.length) 0
              cipherData.children) :: rest) := by
        rw [h1]; simp
      have := elementNodes_updateElement (fun n => n.setChildren written)
        (fun n => isElement_setChildren n written) T1.children method.toList k _ h1'
      rw [this]
      simp
    · intro name ns
      show xmlSecCheckNodeName (some (T1.setChildren _)) name ns = _
      rw [checkNodeName_setChildren, h1name]
    · intro n hn
      simp only [Option.mem_def, Option.some.injEq] at hn
      subst hn
      rw [checkNodeName_setChildren]
      exact hki k rfl

/-- Shared: `xmlSecEncCtxDecryptToBuffer` returns what the chain makes of the content of the
`CipherValue` that TemplateRead found. -/
theorem decryptToBuffer_of_read (env : EncEnv) (encCtx read : xmlSecEncCtx) (node : xmlNode)
    (cipherValue : xmlNodePtr) (content out : Bytes)
    (hres : encCtx.result = none)
    (hread : xmlSecEncCtxEncDataNodeRead env { encCtx with encrypt := false }
      { path := [], node := node } = (xmlSecResult.ok (), read))
    (hcv : read.cipherValueNode = some cipherValue)
    (hcontent : env.xmlNodeGetContent cipherValue.node = some content)
    (hrun : xmlSecTransformsRun env (read.encTransformCtx.transforms read.encMethod)
      (content.take (xmlStrlen content)) = some out) :
    (xmlSecEncCtxDecryptToBuffer env encCtx (some node)).ret = xmlSecResult.ok out := by
  have hs : encCtx.result.isSome = false := by rw [hres]; rfl
  unfold xmlSecEncCtxDecryptToBuffer
  simp only [hs, Bool.false_eq_true, if_false]
  rw [hread]
  dsimp only
  rw [hcv]
  dsimp only
  rw [hcontent]
  dsimp only
  unfold xmlSecTransformCtxBinaryExecute
  rw [hrun]

/-- C1. Binary round trip: for every key, cipher transform (set in the context or named by the
`EncryptionMethod` of the template) and byte string, assuming the cipher's decrypt inverts its
encrypt under the same key, the transform accepts for decrypting the key it accepted for
encrypting, base64 decode inverts base64 encode, and the base64 text set as content of an
element is read back from it: if `xmlSecEncCtxBinaryEncrypt` succeeds on an `EncryptedData`
template that has a `CipherValue`, then `xmlSecEncCtxDecryptToBuffer` run with a fresh context
and the same key on the resulting node returns a buffer equal to the original bytes. -/
theorem binary_round_trip (env : EncEnv) (encMethod : Option xmlSecTransform)
    (encKey : Option xmlSecKey) (key : xmlSecKey) (tmpl : xmlNode) (data : Bytes)
    (henv : RoundTripEnv env key)
    (hcv : (templateCipherValue tmpl).isSome = true)
    (henc : (xmlSecEncCtxBinaryEncrypt env
      (freshEncCtx env xmlEncCtxMode.xmlEncCtxModeEncryptedData encMethod encKey)
      (some tmpl) (some data)).ret = xmlSecResult.ok ())
    (hkey : (xmlSecEncCtxBinaryEncrypt env
      (freshEncCtx env xmlEncCtxMode.xmlEncCtxModeEncryptedData encMethod encKey)
      (some tmpl) (some data)).ctx.encKey = some key) :
    (xmlSecEncCtxDecryptToBuffer env
      (freshEncCtx env xmlEncCtxMode.xmlEncCtxModeEncryptedData encMethod (some key))
      (xmlSecEncCtxBinaryEncrypt env
        (freshEncCtx env xmlEncCtxMode.xmlEncCtxModeEncryptedData encMethod encKey)
        (some tmpl) (some data)).tmpl).ret = xmlSecResult.ok data := by
  obtain ⟨hunread, hres, hchain, hmode, hmeth, _, hreq0⟩ :=
    freshEncCtx_fields env xmlEncCtxMode.xmlEncCtxModeEncryptedData encMethod encKey
  obtain ⟨hunreadD, hresD, hchainD, hmodeD, hmethD, hkD, hreqD0⟩ :=
    freshEncCtx_fields env xmlEncCtxMode.xmlEncCtxModeEncryptedData encMethod (some key)
  generalize freshEncCtx env xmlEncCtxMode.xmlEncCtxModeEncryptedData encMethod encKey = c0
    at henc hkey hunread hres hchain hmode hmeth hreq0 ⊢
  generalize freshEncCtx env xmlEncCtxMode.xmlEncCtxModeEncryptedData encMethod (some key) = d0
    at hunreadD hresD hchainD hmodeD hmethD hkD hreqD0 ⊢
  -- what the encryption did
  obtain ⟨c3, out, hread, hrun, hwrite, htmpl, hctx⟩ :=
    binaryEncrypt_ok_inv env c0 tmpl data hres henc
  rw [htmpl]
  rw [hctx, encDataNodeWrite_encKey] at hkey
  have hkey3 : c3.encKey = some key := hkey
  obtain ⟨c2, hstruct, hresolve⟩ := encDataNodeRead_ok_inv env _ c3 _ hread
  have hunreadE : ({ c0 with encrypt := true } : xmlSecEncCtx).unread := hunread
  obtain ⟨method, keyInfo, cipherData, rest, cipherValue, hroot, hshape, hm, hki, hcd, hcdshape,
      hcvname, htail⟩ :=
    readStructure_cipherValue_inv env { c0 with encrypt := true } { path := [], node := tmpl }
      hunreadE rfl hcv (by rw [hstruct])
  obtain ⟨c2', hstruct', e1, e2, _, e4, e5, e6, e7, e8⟩ :=
    readStructure_cipherValue env { c0 with encrypt := true } { path := [], node := tmpl }
      method keyInfo cipherData rest cipherValue hroot hunreadE hmode hshape hm hki hcd hcdshape
      hcvname htail (Or.inl rfl)
  have hc2 : c2' = c2 := by
    rw [hstruct] at hstruct'
    exact (Prod.mk.inj hstruct').2.symm
  subst hc2
  obtain ⟨t, accepted, key', hsrc, hreq, hmatch, hset, hcreate, hk3, hm3, hchain3, hcv3, hki3⟩ :=
    readResolve_ok_inv env c2' c3 e1 (by rw [e7]; rfl) hresolve
  have hkk : key' = key := by
    rw [hk3] at hkey3
    exact Option.some.inj hkey3
  subst hkk
  -- the transforms the encryption ran
  have htr : c3.encTransformCtx.transforms c3.encMethod =
      [{ t with encode := true, key := some key' }, base64Encoder] := by
    have e8' : c2'.encTransformCtx.chain = c0.encTransformCtx.chain := by rw [e8]; rfl
    unfold xmlSecTransformCtx.transforms
    rw [hchain3, hm3, e8', hchain]
    rfl
  rw [htr] at hrun
  have hrun2 : ∃ cipher : Bytes,
      env.xmlSecTransformExecute { t with encode := true, key := some key' } data = some cipher ∧
      env.xmlSecTransformExecute base64Encoder cipher = some out := by
    unfold xmlSecTransformsRun at hrun
    cases hE : env.xmlSecTransformExecute { t with encode := true, key := some key' } data with
    | none => rw [hE] at hrun; cases hrun
    | some cipher =>
      rw [hE] at hrun
      dsimp only at hrun
      unfold xmlSecTransformsRun at hrun
      cases hB : env.xmlSecTransformExecute base64Encoder cipher with
      | none => rw [hB] at hrun; cases hrun
      | some text =>
        rw [hB] at hrun
        dsimp only at hrun
        unfold xmlSecTransformsRun at hrun
        exact ⟨cipher, rfl, hB.trans hrun⟩
  obtain ⟨cipher, hE, hB⟩ := hrun2
  -- the template the encryption left
  generalize hc4 : ({ c3 with
      encTransformCtx := { c3.encTransformCtx with result := some out }
      result := some out } : xmlSecEncCtx) = c4 at hwrite
  have hcv4 : c4.cipherValueNode =
      some { path := [method.toList.length + keyInfo.toList.length, 0], node := cipherValue } := by
    rw [← hc4]
    show c3.cipherValueNode = _
    rw [hcv3, e7]
    rfl
  have hki4 : c4.keyInfoNode =
      keyInfo.map (fun n => ({ path := [method.toList.length], node := n } : xmlNodePtr)) := by
    rw [← hc4]
    show c3.keyInfoNode = _
    rw [hki3, e6]
    rfl
  obtain ⟨written, hW⟩ := encDataNodeWrite_cipherValue env c4 tmpl out _
    (by rw [← hc4]) hcv4 hwrite
  rw [hW, hki4]
  have helem : tmpl.isElement = true := isElement_of_checkNodeName tmpl _ _ hroot
  obtain ⟨keyInfoW, cipherDataW, hshapeW, hnameW, hkiW, hcdW, hcdshapeW⟩ :=
    written_template_shape tmpl method keyInfo cipherData cipherValue rest out written helem
      hshape hki hcd hcdshape
  generalize (match keyInfo.map
      (fun n => ({ path := [method.toList.length], node := n } : xmlNodePtr)) with
    | some ptr =>
      updateAt (fun n => n.setChildren written) ptr.path
        (updateAt (fun n => xmlNodeSetContentLen n out out.length)
          [method.toList.length + keyInfo.toList.length, 0] tmpl)
    | none =>
      updateAt (fun n => xmlNodeSetContentLen n out out.length)
        [method.toList.length + keyInfo.toList.length, 0] tmpl) = encrypted at hshapeW hnameW ⊢
  -- the decryption reads the same structure
  have hunreadF : ({ d0 with encrypt := false } : xmlSecEncCtx).unread := hunreadD
  have hrootD : xmlSecCheckNodeName (some encrypted)
      ({ d0 with encrypt := false } : xmlSecEncCtx).mode.rootName xmlSecEncNs = true := by
    rw [hnameW]
    show xmlSecCheckNodeName (some tmpl) d0.mode.rootName xmlSecEncNs = true
    rw [hmodeD, ← hmode]
    exact hroot
  have htailD : (xmlSecEncCtxEncDataNodeReadTail env { d0 with encrypt := false } rest).1 =
      xmlSecResult.ok () :=
    encDataNodeReadTail_transfer env { c0 with encrypt := true } _ rest
      (by show d0.mode = c0.mode; rw [hmodeD, hmode]) htail
  obtain ⟨d2, hstructD, f1, f2, f3, f4, f5, _, f7, f8⟩ :=
    readStructure_cipherValue env { d0 with encrypt := false } { path := [], node := encrypted }
      method keyInfoW cipherDataW rest (xmlNodeSetContentLen cipherValue out out.length) hrootD
      hunreadF hmodeD hshapeW hm hkiW hcdW hcdshapeW
      (by rw [xmlNodeSetContentLen, checkNodeName_setChildren]; exact hcvname) htailD
      (Or.inr hcreate)
  -- the key is accepted for decrypting
  have hreqE : env.xmlSecTransformSetKeyReq { t with encode := true }
      { keyId := 0, keyType := 0, keyBitsSize := 0 } = some accepted := by
    rw [← hreq0, ← hreq, e4]
  obtain ⟨acceptedD, hreqD, hmatchD, hsetD⟩ := henv.key_accepted t _ accepted hreqE hmatch hset
  have hsrcD : (d2.encMethod = some t ∧ env.xmlSecTransformCtxAppendOk t = true) ∨
      (d2.encMethod = none ∧ ∃ methodNode : xmlNodePtr,
        d2.encMethodNode = some methodNode ∧
        env.xmlSecTransformCtxNodeRead methodNode.node xmlSecTransformUsageEncryptionMethod =
          some t) := by
    have hmm : d2.encMethod = c2'.encMethod := by
      rw [f2, e2]
      show d0.encMethod = c0.encMethod
      rw [hmethD, hmeth]
    have hmn : d2.encMethodNode = c2'.encMethodNode := by rw [f5, e5]
    rw [hmm, hmn]
    exact hsrc
  obtain ⟨d3, hresolveD, g1, g2, g3⟩ :=
    readResolve_decrypt env d2 t acceptedD key' f1 (by rw [f3]; exact hkD) hsrcD
      (by rw [f4]; show env.xmlSecTransformSetKeyReq _ d0.keyInfoReadCtx.keyReq = _
          rw [hreqD0]; exact hreqD)
      hmatchD hsetD
  have hreadD := encDataNodeRead_of_parts env _ d2 d3 _ hstructD hresolveD
  -- the content of the `CipherValue` goes back through the chain
  have hel : cipherValue.isElement = true := isElement_of_checkNodeName cipherValue _ _ hcvname
  obtain ⟨hcontent, hlen⟩ := henv.text_reads_back cipherValue cipher out hel hB
  apply decryptToBuffer_of_read env d0 d3 encrypted _ out data hresD hreadD
    (by rw [g3, f7]) hcontent
  rw [hlen, List.take_length]
  have f8' : d2.encTransformCtx.chain =
      xmlSecTransformPtr.owned base64Decoder :: d0.encTransformCtx.chain := by rw [f8]; rfl
  unfold xmlSecTransformCtx.transforms
  rw [g2, g1, f8', hchainD]
  show xmlSecTransformsRun env [base64Decoder, { t with encode := false, key := some key' }] out
    = some data
  unfold xmlSecTransformsRun
  rw [henv.base64_inverts cipher out hB]
  dsimp only
  unfold xmlSecTransformsRun
  rw [henv.cipher_inverts t data cipher hE]
  rfl

/-- Shared: the sample collaborators meet what the round trip assumes, for every key. -/
theorem sampleEncEnv_roundTrip (key : xmlSecKey) : RoundTripEnv sampleEncEnv key := by
  have hsub : ∀ (k : Nat) (l : List Nat), (l.map (· + k)).map (· - k) = l := by
    intro k l
    induction l with
    | nil => rfl
    | cons a r ih => simp [ih]
  have hlen : ∀ l : List Nat, xmlStrlen (l.map (· + 65)) = (l.map (· + 65)).length := by
    intro l
    unfold xmlStrlen
    induction l with
    | nil => rfl
    | cons a r ih =>
      simp only [List.map_cons, List.length_cons]
      rw [List.takeWhile_cons_of_pos (by simp), List.length_cons, ih]
  refine ⟨?_, ?_, ?_, ?_⟩
  · intro t plain cipher h
    simp only [sampleEncEnv] at h ⊢
    by_cases hid : t.id = xmlSecTransformBase64Id
    · simp only [hid, if_true, Option.some.injEq] at h ⊢
      rw [← h]
      simp [hsub]
    · simp only [hid, if_false, if_true, Option.some.injEq] at h ⊢
      rw [← h]
      simp [hsub]
  · intro t req accepted hreq _ _
    exact ⟨req, rfl, rfl, rfl⟩
  · intro raw text h
    simp only [sampleEncEnv, base64Encoder, base64Decoder, xmlSecTransformCreate, if_true,
      Option.some.injEq] at h ⊢
    rw [← h]
    simp [hsub]
  · intro node raw text hel h
    simp only [sampleEncEnv, base64Encoder, xmlSecTransformCreate, if_true,
      Option.some.injEq] at h
    subst h
    refine ⟨?_, hlen raw⟩
    cases node with
    | text t => cases hel
    | element n ns d p c =>
      simp [sampleEncEnv, xmlNodeSetContentLen, xmlNode.setChildren, xmlNode.children, sampleText]

/-- C1, at a concrete input: the octets 0, 1, 2 encrypted into the sample template with the
sample cipher and the key `k`, then decrypted from the node the encryption left. -/
theorem binary_round_trip_witness :
    (templateCipherValue sampleTemplate).isSome = true ∧
    (xmlSecEncCtxBinaryEncrypt sampleEncEnv
      (freshEncCtx sampleEncEnv xmlEncCtxMode.xmlEncCtxModeEncryptedData none
        (some (sampleKey "k" 3)))
      (some sampleTemplate) (some [0, 1, 2])).ret = xmlSecResult.ok () ∧
    (xmlSecEncCtxDecryptToBuffer sampleEncEnv
      (freshEncCtx sampleEncEnv xmlEncCtxMode.xmlEncCtxModeEncryptedData none
        (some (sampleKey "k" 3)))
      (xmlSecEncCtxBinaryEncrypt sampleEncEnv
        (freshEncCtx sampleEncEnv xmlEncCtxMode.xmlEncCtxModeEncryptedData none
          (some (sampleKey "k" 3)))
        (some sampleTemplate) (some [0, 1, 2])).tmpl).ret = xmlSecResult.ok [0, 1, 2] :=
  ⟨by decide, by decide,
    binary_round_trip sampleEncEnv none (some (sampleKey "k" 3)) (sampleKey "k" 3) sampleTemplate
      [0, 1, 2] (sampleEncEnv_roundTrip (sampleKey "k" 3)) (by decide) (by decide) (by decide)⟩

/-! ### What the walk over the template leaves alone -/

theorem sameOutsideWalk_refl (a : xmlSecEncCtx) : a.sameOutsideWalk a :=
  ⟨rfl, rfl, rfl, rfl, rfl, rfl, rfl, rfl, rfl, rfl, rfl, rfl, rfl, rfl, rfl, rfl⟩

theorem sameOutsideWalk_trans (a b c : xmlSecEncCtx) (hab : a.sameOutsideWalk b)
    (hbc : b.sameOutsideWalk c) : a.sameOutsideWalk c := by
  obtain ⟨a1, a2, a3, a4, a5, a6, a7, a8, a9, a10, a11, a12, a13, a14, a15, a16⟩ := hab
  obtain ⟨b1, b2, b3, b4, b5, b6, b7, b8, b9, b10, b11, b12, b13, b14, b15, b16⟩ := hbc
  exact ⟨a1.trans b1, a2.trans b2, a3.trans b3, a4.trans b4, a5.trans b5, a6.trans b6,
    a7.trans b7, a8.trans b8, a9.trans b9, a10.trans b10, a11.trans b11, a12.trans b12,
    a13.trans b13, a14.trans b14, a15.trans b15, a16.trans b16⟩

/-- Shared: `xmlSecEncCtxCipherReferenceNodeRead` writes the transform pipeline only. -/
theorem cipherReferenceNodeRead_frame (env : EncEnv) (encCtx : xmlSecEncCtx) (node : xmlNodePtr) :
    encCtx.sameOutsideWalk (xmlSecEncCtxCipherReferenceNodeRead env encCtx node).2 := by
  unfold xmlSecEncCtxCipherReferenceNodeRead
  dsimp only
  repeat' split
  all_goals exact sameOutsideWalk_refl _

/-- Shared: `xmlSecEncCtxCipherDataNodeRead` writes `cipherValueNode` and the transform
pipeline only. -/
theorem cipherDataNodeRead_frame (env : EncEnv) (encCtx : xmlSecEncCtx) (node : xmlNodePtr) :
    encCtx.sameOutsideWalk (xmlSecEncCtxCipherDataNodeRead env encCtx node).2 := by
  unfold xmlSecEncCtxCipherDataNodeRead
  dsimp only
  split
  · exact sameOutsideWalk_refl _
  · split
    · split
      · split
        · exact sameOutsideWalk_refl _
        · rw [cipherDataNodeReadEnd_snd]; exact sameOutsideWalk_refl _
      · rw [cipherDataNodeReadEnd_snd]; exact sameOutsideWalk_refl _
    · split
      · split
        · split
          · rename_i n _
            have hm := cipherReferenceNodeRead_frame env encCtx
              { path := node.path ++ [0], node := n }
            split
            · rename_i heq
              rw [heq] at hm
              exact hm
            · rename_i heq
              rw [cipherDataNodeReadEnd_snd]
              rw [heq] at hm
              exact hm
          · rw [cipherDataNodeReadEnd_snd]; exact sameOutsideWalk_refl _
        · rw [cipherDataNodeReadEnd_snd]; exact sameOutsideWalk_refl _
      · rw [cipherDataNodeReadEnd_snd]; exact sameOutsideWalk_refl _

theorem encDataNodeReadTail_frame (env : EncEnv) (encCtx : xmlSecEncCtx) (cur : List xmlNode) :
    encCtx.sameOutsideWalk (xmlSecEncCtxEncDataNodeReadTail env encCtx cur).2 := by
  rw [encDataNodeReadTail_snd]
  exact sameOutsideWalk_refl _

theorem readFromKeyInfo_frame (env : EncEnv) (encCtx : xmlSecEncCtx) (node : xmlNodePtr)
    (idx : Nat) (cur : List xmlNode) :
    encCtx.sameOutsideWalk (xmlSecEncCtxEncDataNodeReadFromKeyInfo env encCtx node idx cur).2 := by
  unfold xmlSecEncCtxEncDataNodeReadFromKeyInfo
  split
  · exact sameOutsideWalk_refl _
  · dsimp only
    have hstep : encCtx.sameOutsideWalk
        (if xmlSecCheckNodeName cur.head? xmlSecNodeKeyInfo xmlSecDSigNs = true then
          { encCtx with
            keyInfoNode := cur.head?.map fun n => { path := node.path ++ [idx], node := n } }
        else encCtx) := by
      split <;> exact sameOutsideWalk_refl _
    generalize (if xmlSecCheckNodeName cur.head? xmlSecNodeKeyInfo xmlSecDSigNs = true then
          ({ encCtx with
            keyInfoNode := cur.head?.map fun n => { path := node.path ++ [idx], node := n } }
              : xmlSecEncCtx)
        else encCtx) = c1 at hstep ⊢
    split
    · exact hstep
    · split
      · exact hstep
      · rename_i cipherData next _ _
        split
        · rename_i reason subject c2 heq
          have hcd : c1.sameOutsideWalk c2 := by
            rw [← show (xmlSecEncCtxCipherDataNodeRead env c1 _).2 = c2 from
              congrArg Prod.snd heq]
            exact cipherDataNodeRead_frame env c1 _
          exact sameOutsideWalk_trans _ _ _ hstep hcd
        · rename_i u c2 heq
          have hcd : c1.sameOutsideWalk c2 := by
            rw [← show (xmlSecEncCtxCipherDataNodeRead env c1 _).2 = c2 from
              congrArg Prod.snd heq]
            exact cipherDataNodeRead_frame env c1 _
          exact sameOutsideWalk_trans _ _ _ (sameOutsideWalk_trans _ _ _ hstep hcd)
            (encDataNodeReadTail_frame env _ next)

theorem readChildren_frame (env : EncEnv) (encCtx : xmlSecEncCtx) (node : xmlNodePtr) :
    encCtx.sameOutsideWalk (xmlSecEncCtxEncDataNodeReadChildren env encCtx node).2 := by
  unfold xmlSecEncCtxEncDataNodeReadChildren
  dsimp only
  split
  · exact sameOutsideWalk_refl _
  · split
    · exact sameOutsideWalk_trans _ _ _ (by exact sameOutsideWalk_refl encCtx)
        (readFromKeyInfo_frame env
          { encCtx with
            encMethodNode := (xmlSecElementNodes node.node.children).head?.map fun n =>
              { path := node.path ++ [0], node := n } } node 1 _)
    · exact readFromKeyInfo_frame env encCtx node 0 _

/-- Shared: the structural phase of TemplateRead leaves the transform, the key, the
requirements, the result and the flags of the context as they are. -/
theorem readStructure_frame (env : EncEnv) (encCtx : xmlSecEncCtx) (node : xmlNodePtr) :
    (xmlSecEncCtxEncDataNodeReadStructure env encCtx node).2.mode = encCtx.mode ∧
    (xmlSecEncCtxEncDataNodeReadStructure env encCtx node).2.encrypt = encCtx.encrypt ∧
    (xmlSecEncCtxEncDataNodeReadStructure env encCtx node).2.encMethod = encCtx.encMethod ∧
    (xmlSecEncCtxEncDataNodeReadStructure env encCtx node).2.dontDestroyEncMethod =
      encCtx.dontDestroyEncMethod ∧
    (xmlSecEncCtxEncDataNodeReadStructure env encCtx node).2.keyInfoReadCtx =
      encCtx.keyInfoReadCtx ∧
    (xmlSecEncCtxEncDataNodeReadStructure env encCtx node).2.keyInfoWriteCtx =
      encCtx.keyInfoWriteCtx ∧
    (xmlSecEncCtxEncDataNodeReadStructure env encCtx node).2.encKey = encCtx.encKey ∧
    (xmlSecEncCtxEncDataNodeReadStructure env encCtx node).2.result = encCtx.result ∧
    (xmlSecEncCtxEncDataNodeReadStructure env encCtx node).2.resultBase64Encoded =
      encCtx.resultBase64Encoded ∧
    (xmlSecEncCtxEncDataNodeReadStructure env encCtx node).2.resultReplaced =
      encCtx.resultReplaced ∧
    (xmlSecEncCtxEncDataNodeReadStructure env encCtx node).2.allowedCipherReferenceUris =
      encCtx.allowedCipherReferenceUris := by
  unfold xmlSecEncCtxEncDataNodeReadStructure
  repeat' split
  all_goals first
    | exact ⟨rfl, rfl, rfl, rfl, rfl, rfl, rfl, rfl, rfl, rfl, rfl⟩
    | (obtain ⟨h1, h2, _, _, _, _, _, h8, h9, h10, h11, h12, h13, h14, h15, h16⟩ :=
        readChildren_frame env (xmlSecEncCtxEncDataNodeReadAttrs encCtx node.node) node
       exact ⟨h1.symm, h2.symm, h8.symm, h9.symm, h10.symm, h11.symm, h12.symm, h13.symm,
         h14.symm, h15.symm, h16.symm⟩)

/-- Shared: after a successful structural phase the context holds the `Type` attribute of the
node. -/
theorem readStructure_type (env : EncEnv) (encCtx mid : xmlSecEncCtx) (node : xmlNodePtr)
    (h : xmlSecEncCtxEncDataNodeReadStructure env encCtx node = (xmlSecResult.ok (), mid)) :
    mid.type = xmlGetProp node.node xmlSecAttrType := by
  unfold xmlSecEncCtxEncDataNodeReadStructure at h
  repeat' split at h
  all_goals first
    | cases h
    | (obtain ⟨_, _, _, h4, _⟩ :=
        readChildren_frame env (xmlSecEncCtxEncDataNodeReadAttrs encCtx node.node) node
       rw [h] at h4
       exact h4.symm)

/-- Shared: what `xmlSecEncCtxEncDataNodeReadBase64` leaves when it succeeds. -/
theorem readBase64_ok_eq (env : EncEnv) (encCtx after : xmlSecEncCtx)
    (h : xmlSecEncCtxEncDataNodeReadBase64 env encCtx = (xmlSecResult.ok (), after)) :
    after = { encCtx with
      encTransformCtx := { encCtx.encTransformCtx with
        chain := encCtx.encTransformCtx.chain ++
          (if (encCtx.encrypt && encCtx.cipherValueNode.isSome) = true then
            [xmlSecTransformPtr.owned base64Encoder] else []) }
      resultBase64Encoded :=
        (encCtx.encrypt && encCtx.cipherValueNode.isSome) || encCtx.resultBase64Encoded } := by
  unfold xmlSecEncCtxEncDataNodeReadBase64 at h
  by_cases hcond : encCtx.encrypt = true ∧ encCtx.cipherValueNode.isSome = true
  · rw [if_pos hcond] at h
    by_cases hok : env.xmlSecTransformCreateOk xmlSecTransformBase64Id = true
    · rw [if_pos hok] at h
      have h2 := (Prod.mk.inj h).2
      rw [← h2]
      simp only [hcond.1, hcond.2, Bool.and_self, if_true, Bool.true_or]
      rfl
    · rw [if_neg hok] at h
      cases h
  · rw [if_neg hcond] at h
    have h2 := (Prod.mk.inj h).2
    rw [← h2]
    have hb : (encCtx.encrypt && encCtx.cipherValueNode.isSome) = false := by
      cases he : encCtx.encrypt
      · rfl
      · cases hc : encCtx.cipherValueNode.isSome
        · rfl
        · exact absurd ⟨he, hc⟩ hcond
    rw [hb]
    simp only [Bool.false_eq_true, if_false, List.append_nil, Bool.false_or]

/-- Shared: what the key part of TemplateRead leaves when it succeeds. -/
theorem readKey_ok_eq (env : EncEnv) (encCtx after : xmlSecEncCtx) (t : xmlSecTransform)
    (h : xmlSecEncCtxEncDataNodeReadKey env encCtx t = (xmlSecResult.ok (), after)) :
    ∃ (accepted : xmlSecKeyReq) (key : xmlSecKey),
      env.xmlSecTransformSetKeyReq { t with encode := encCtx.encrypt }
        encCtx.keyInfoReadCtx.keyReq = some accepted ∧
      (xmlSecEncCtxEncDataNodeReadGetKey env
        { encCtx with
          encMethod := some { t with encode := encCtx.encrypt }
          keyInfoReadCtx := { encCtx.keyInfoReadCtx with keyReq := accepted } }).encKey =
        some key ∧
      env.xmlSecKeyMatch key none accepted = true ∧
      env.xmlSecTransformSetKeyOk { t with encode := encCtx.encrypt } key = true ∧
      after = { encCtx with
        encMethod := some { t with encode := encCtx.encrypt, key := some key }
        keyInfoReadCtx := { encCtx.keyInfoReadCtx with keyReq := accepted }
        encKey := some key
        encTransformCtx := { encCtx.encTransformCtx with
          chain := encCtx.encTransformCtx.chain ++
            (if (encCtx.encrypt && encCtx.cipherValueNode.isSome) = true then
              [xmlSecTransformPtr.owned base64Encoder] else []) }
        resultBase64Encoded :=
          (encCtx.encrypt && encCtx.cipherValueNode.isSome) || encCtx.resultBase64Encoded } := by
  unfold xmlSecEncCtxEncDataNodeReadKey at h
  dsimp only at h
  cases hreq : env.xmlSecTransformSetKeyReq { t with encode := encCtx.encrypt }
      encCtx.keyInfoReadCtx.keyReq with
  | none => rw [hreq] at h; cases h
  | some accepted =>
    rw [hreq] at h
    dsimp only at h
    rw [readGetKey_eq] at h
    generalize hfound : (xmlSecEncCtxEncDataNodeReadGetKey env _).encKey = found at h
    cases found with
    | none => cases h
    | some key =>
      dsimp only at h
      by_cases hmatch : env.xmlSecKeyMatch key none accepted = true
      · by_cases hset : env.xmlSecTransformSetKeyOk { t with encode := encCtx.encrypt } key = true
        · simp only [hmatch, hset, Bool.not_true, Bool.false_eq_true, if_false] at h
          have := readBase64_ok_eq env _ after h
          exact ⟨accepted, key, rfl, hfound, hmatch, hset, this⟩
        · simp [hmatch, hset] at h
      · simp [hmatch] at h

/-- Shared: what the second part of TemplateRead leaves when it succeeds. -/
theorem readResolve_ok_eq (env : EncEnv) (encCtx after : xmlSecEncCtx)
    (h : xmlSecEncCtxEncDataNodeReadResolve env encCtx = (xmlSecResult.ok (), after)) :
    ∃ (t : xmlSecTransform) (accepted : xmlSecKeyReq) (key : xmlSecKey),
      ((encCtx.encMethod = some t ∧ env.xmlSecTransformCtxAppendOk t = true) ∨
        (encCtx.encMethod = none ∧ ∃ methodNode : xmlNodePtr,
          encCtx.encMethodNode = some methodNode ∧
          env.xmlSecTransformCtxNodeRead methodNode.node xmlSecTransformUsageEncryptionMethod =
            some t)) ∧
      env.xmlSecTransformSetKeyReq { t with encode := encCtx.encrypt }
        encCtx.keyInfoReadCtx.keyReq = some accepted ∧
      env.xmlSecKeyMatch key none accepted = true ∧
      env.xmlSecTransformSetKeyOk { t with encode := encCtx.encrypt } key = true ∧
      after = { encCtx with
        encMethod := some { t with encode := encCtx.encrypt, key := some key }
        dontDestroyEncMethod := encCtx.encMethod.isNone || encCtx.dontDestroyEncMethod
        keyInfoReadCtx := { encCtx.keyInfoReadCtx with keyReq := accepted }
        encKey := some key
        encTransformCtx := { encCtx.encTransformCtx with
          chain := encCtx.encTransformCtx.chain ++ xmlSecTransformPtr.encMethod ::
            (if (encCtx.encrypt && encCtx.cipherValueNode.isSome) = true then
              [xmlSecTransformPtr.owned base64Encoder] else []) }
        resultBase64Encoded :=
          (encCtx.encrypt && encCtx.cipherValueNode.isSome) || encCtx.resultBase64Encoded } := by
  unfold xmlSecEncCtxEncDataNodeReadResolve at h
  split at h
  · rename_i methodNode hnone hnode
    split at h
    · cases h
    · rename_i t hread
      obtain ⟨accepted, key, hreq, _, hmatch, hset, hafter⟩ := readKey_ok_eq env _ after t h
      refine ⟨t, accepted, key, Or.inr ⟨hnone, methodNode, hnode, hread⟩, hreq, hmatch, hset, ?_⟩
      rw [hafter, hnone]
      simp only [List.append_assoc, List.singleton_append, Option.isNone_none, Bool.true_or]
  · rename_i t hsome
    by_cases hok : env.xmlSecTransformCtxAppendOk t = true
    · rw [if_pos hok] at h
      obtain ⟨accepted, key, hreq, _, hmatch, hset, hafter⟩ := readKey_ok_eq env _ after t h
      refine ⟨t, accepted, key, Or.inl ⟨hsome, hok⟩, hreq, hmatch, hset, ?_⟩
      rw [hafter, hsome]
      simp only [List.append_assoc, List.singleton_append, Option.isNone_some, Bool.false_or]
    · rw [if_neg hok] at h
      cases h
  · cases h

/-! ### The URI of a `CipherReference` -/

/-- Shared: `xmlSecEncCtxCipherDataNodeRead` on a `CipherData` whose first element child is a
`CipherReference`. -/
theorem cipherDataNodeRead_cipherReference (env : EncEnv) (encCtx : xmlSecEncCtx)
    (node : xmlNodePtr) (cipherReference : xmlNode) (more : List xmlNode)
    (hnull : encCtx.cipherValueNode = none)
    (hshape : xmlSecElementNodes node.node.children = cipherReference :: more)
    (hname : xmlSecCheckNodeName (some cipherReference) xmlSecNodeCipherReference xmlSecEncNs
      = true) :
    xmlSecEncCtxCipherDataNodeRead env encCtx node =
      if encCtx.encrypt = false then
        match xmlSecEncCtxCipherReferenceNodeRead env encCtx
            { path := node.path ++ [0], node := cipherReference } with
        | (xmlSecResult.fail reason subject, after) => (xmlSecResult.fail reason subject, after)
        | (xmlSecResult.ok _, after) => xmlSecEncCtxCipherDataNodeReadEnd after more
      else xmlSecEncCtxCipherDataNodeReadEnd encCtx more := by
  have hno : xmlSecCheckNodeName (some cipherReference) xmlSecNodeCipherValue xmlSecEncNs
      = false :=
    checkNodeName_exclusive cipherReference xmlSecNodeCipherReference xmlSecNodeCipherValue _ _
      (by decide) hname
  unfold xmlSecEncCtxCipherDataNodeRead
  simp only [hshape, hnull, List.head?_cons, hname, hno, List.tail_cons, Option.isSome_none,
    Bool.false_eq_true, if_false, if_true]

/-- Shared: with nothing allowed, `xmlSecEncCtxCipherReferenceNodeRead` rejects a `URI`
attribute and leaves the context as it is. -/
theorem cipherReferenceNodeRead_rejects (env : EncEnv) (encCtx : xmlSecEncCtx)
    (node : xmlNodePtr) (uri : String)
    (hpolicy : ∀ u : String, env.xmlSecUriTypeCheck 0 (some u) ≠ 1)
    (hallowed : encCtx.allowedCipherReferenceUris = 0)
    (huri : xmlGetProp node.node xmlSecAttrURI = some uri) :
    xmlSecEncCtxCipherReferenceNodeRead env encCtx node =
      (xmlSecResult.fail xmlSecErrorReason.INVALID_URI_TYPE "uri", encCtx) := by
  unfold xmlSecEncCtxCipherReferenceNodeRead
  dsimp only
  rw [hallowed, huri, if_pos (hpolicy uri)]

/-- Shared: the second part of TemplateRead leaves the input URI of the pipeline as it is. -/
theorem readResolve_uri (env : EncEnv) (encCtx : xmlSecEncCtx) :
    (xmlSecEncCtxEncDataNodeReadResolve env encCtx).2.encTransformCtx.uri =
      encCtx.encTransformCtx.uri := by
  have hb : ∀ c : xmlSecEncCtx, (xmlSecEncCtxEncDataNodeReadBase64 env c).2.encTransformCtx.uri
      = c.encTransformCtx.uri := by
    intro c
    unfold xmlSecEncCtxEncDataNodeReadBase64
    repeat' split
    all_goals rfl
  have hk : ∀ (c : xmlSecEncCtx) (t : xmlSecTransform),
      (xmlSecEncCtxEncDataNodeReadKey env c t).2.encTransformCtx.uri = c.encTransformCtx.uri := by
    intro c t
    unfold xmlSecEncCtxEncDataNodeReadKey
    dsimp only
    split
    · rfl
    · rw [readGetKey_eq]
      split
      · rfl
      · split
        · rfl
        · split
          · rfl
          · rw [hb]
  unfold xmlSecEncCtxEncDataNodeReadResolve
  split
  · split
    · rfl
    · rw [hk]
  · split
    · rw [hk]
    · rfl
  · rfl

/-- C11. With `allowedCipherReferenceUris` empty (and an empty set that allows no URI),
processing an `EncryptedData` / `EncryptedKey` node whose `CipherReference` carries a `URI`
attribute never sets the input URI of the pipeline from it, whatever the operation; when the
node is decrypted, TemplateRead, `xmlSecEncCtxDecryptToBuffer` and `xmlSecEncCtxDecrypt` fail
with `INVALID_URI_TYPE`. -/
theorem cipherReference_uri_rejected_when_none_allowed (env : EncEnv) (encCtx : xmlSecEncCtx)
    (node : xmlNode) (method keyInfo : Option xmlNode) (cipherData : xmlNode)
    (rest : List xmlNode) (cipherReference : xmlNode) (more : List xmlNode) (uri : String)
    (hpolicy : ∀ u : String, env.xmlSecUriTypeCheck 0 (some u) ≠ 1)
    (hallowed : encCtx.allowedCipherReferenceUris = 0)
    (hunread : encCtx.unread)
    (hroot : xmlSecCheckNodeName (some node) encCtx.mode.rootName xmlSecEncNs = true)
    (hshape : xmlSecElementNodes node.children =
      method.toList ++ keyInfo.toList ++ cipherData :: rest)
    (hm : ∀ n ∈ method,
      xmlSecCheckNodeName (some n) xmlSecNodeEncryptionMethod xmlSecEncNs = true)
    (hki : ∀ n ∈ keyInfo, xmlSecCheckNodeName (some n) xmlSecNodeKeyInfo xmlSecDSigNs = true)
    (hcd : xmlSecCheckNodeName (some cipherData) xmlSecNodeCipherData xmlSecEncNs = true)
    (hcdshape : xmlSecElementNodes cipherData.children = cipherReference :: more)
    (hcr : xmlSecCheckNodeName (some cipherReference) xmlSecNodeCipherReference xmlSecEncNs
      = true)
    (huri : xmlGetProp cipherReference xmlSecAttrURI = some uri) :
    (xmlSecEncCtxEncDataNodeRead env encCtx { path := [], node := node }).2.encTransformCtx.uri
      = encCtx.encTransformCtx.uri ∧
    (encCtx.encrypt = false →
      (xmlSecEncCtxEncDataNodeRead env encCtx { path := [], node := node }).1 =
        xmlSecResult.fail xmlSecErrorReason.INVALID_URI_TYPE "uri") ∧
    (encCtx.result = none →
      (xmlSecEncCtxDecryptToBuffer env encCtx (some node)).ret =
        xmlSecResult.fail xmlSecErrorReason.INVALID_URI_TYPE "uri" ∧
      (xmlSecEncCtxDecryptToBuffer env encCtx (some node)).ctx.encTransformCtx.uri =
        encCtx.encTransformCtx.uri ∧
      (xmlSecEncCtxDecrypt env encCtx (some node)).ret =
        xmlSecResult.fail xmlSecErrorReason.INVALID_URI_TYPE "uri" ∧
      (xmlSecEncCtxDecrypt env encCtx (some node)).ctx.encTransformCtx.uri =
        encCtx.encTransformCtx.uri ∧
      (xmlSecEncCtxDecrypt env encCtx (some node)).dom = []) := by
  -- the structural phase on any context with these settings
  have hstruct : ∀ c : xmlSecEncCtx, c.unread → c.mode = encCtx.mode →
      c.allowedCipherReferenceUris = 0 →
      (c.encrypt = false →
        ∃ after : xmlSecEncCtx,
          xmlSecEncCtxEncDataNodeReadStructure env c { path := [], node := node } =
            (xmlSecResult.fail xmlSecErrorReason.INVALID_URI_TYPE "uri", after) ∧
          after.encTransformCtx = c.encTransformCtx) ∧
      (c.encrypt = true →
        (xmlSecEncCtxEncDataNodeReadStructure env c
          { path := [], node := node }).2.encTransformCtx = c.encTransformCtx) := by
    intro c hun hmode hall
    have hcvn : c.cipherValueNode = none := hun.2.2.2.2.2.2.2.2
    have hmn : c.encMethodNode = none := hun.2.2.2.2.2.2.1
    have hkn : c.keyInfoNode = none := hun.2.2.2.2.2.2.2.1
    have hroot' : xmlSecCheckNodeName (some ({ path := [], node := node } : xmlNodePtr).node)
        c.mode.rootName xmlSecEncNs = true := by rw [hmode]; exact hroot
    rw [readStructure_eq_children env c _ hroot' hun,
      readChildren_of_shape env (xmlSecEncCtxEncDataNodeReadAttrs c node)
        { path := [], node := node } method keyInfo cipherData rest hshape hmn hkn hm hki hcd]
    generalize hc1 : ({ xmlSecEncCtxEncDataNodeReadAttrs c node with
        encMethodNode := method.map fun n =>
          { path := ({ path := [], node := node } : xmlNodePtr).path ++ [0], node := n }
        keyInfoNode := keyInfo.map fun n =>
          { path := ({ path := [], node := node } : xmlNodePtr).path ++ [method.toList.length],
            node := n } } : xmlSecEncCtx) = c1
    have hc1cv : c1.cipherValueNode = none := by rw [← hc1]; exact hcvn
    have hc1enc : c1.encrypt = c.encrypt := by rw [← hc1]; rfl
    have hc1all : c1.allowedCipherReferenceUris = 0 := by rw [← hc1]; exact hall
    have hc1t : c1.encTransformCtx = c.encTransformCtx := by rw [← hc1]; rfl
    rw [cipherDataNodeRead_cipherReference env c1 _ cipherReference more hc1cv hcdshape hcr]
    constructor
    · intro henc
      rw [hc1enc, if_pos henc,
        cipherReferenceNodeRead_rejects env c1 _ uri hpolicy hc1all huri]
      exact ⟨c1, rfl, hc1t⟩
    · intro henc
      rw [hc1enc, if_neg (by rw [henc]; decide)]
      cases more with
      | cons extra more => exact hc1t
      | nil =>
        show (xmlSecEncCtxEncDataNodeReadTail env c1 rest).2.encTransformCtx = _
        rw [encDataNodeReadTail_snd]
        exact hc1t
  -- TemplateRead on any context with these settings
  have hread : ∀ c : xmlSecEncCtx, c.unread → c.mode = encCtx.mode →
      c.allowedCipherReferenceUris = 0 →
      (xmlSecEncCtxEncDataNodeRead env c { path := [], node := node }).2.encTransformCtx.uri
        = c.encTransformCtx.uri ∧
      (c.encrypt = false →
        (xmlSecEncCtxEncDataNodeRead env c { path := [], node := node }).1 =
          xmlSecResult.fail xmlSecErrorReason.INVALID_URI_TYPE "uri") := by
    intro c hun hmode hall
    obtain ⟨hdec, hencr⟩ := hstruct c hun hmode hall
    cases henc : c.encrypt with
    | false =>
      obtain ⟨after, hs, ht⟩ := hdec henc
      unfold xmlSecEncCtxEncDataNodeRead
      rw [hs]
      exact ⟨by rw [← ht], fun _ => rfl⟩
    | true =>
      have ht := hencr henc
      refine ⟨?_, fun h => by cases h⟩
      unfold xmlSecEncCtxEncDataNodeRead
      generalize xmlSecEncCtxEncDataNodeReadStructure env c { path := [], node := node } = r
        at ht
      obtain ⟨status, mid⟩ := r
      cases status with
      | fail reason subject => exact congrArg xmlSecTransformCtx.uri ht
      | ok u =>
        show (xmlSecEncCtxEncDataNodeReadResolve env mid).2.encTransformCtx.uri = _
        rw [readResolve_uri]
        exact congrArg xmlSecTransformCtx.uri ht
  refine ⟨(hread encCtx hunread rfl hallowed).1, (hread encCtx hunread rfl hallowed).2, ?_⟩
  intro hres
  obtain ⟨huriD, hfailD⟩ := hread { encCtx with encrypt := false } hunread rfl hallowed
  have hfail := hfailD rfl
  have hs : encCtx.result.isSome = false := by rw [hres]; rfl
  have hbuf : (xmlSecEncCtxDecryptToBuffer env encCtx (some node)).ret =
        xmlSecResult.fail xmlSecErrorReason.INVALID_URI_TYPE "uri" ∧
      (xmlSecEncCtxDecryptToBuffer env encCtx (some node)).ctx.encTransformCtx.uri =
        encCtx.encTransformCtx.uri := by
    unfold xmlSecEncCtxDecryptToBuffer
    simp only [hs, Bool.false_eq_true, if_false]
    generalize xmlSecEncCtxEncDataNodeRead env { encCtx with encrypt := false }
      { path := [], node := node } = r at huriD hfail
    obtain ⟨status, after⟩ := r
    simp only at hfail huriD
    subst hfail
    exact ⟨rfl, huriD⟩
  refine ⟨hbuf.1, hbuf.2, ?_⟩
  unfold xmlSecEncCtxDecrypt
  dsimp only
  rw [hbuf.1]
  exact ⟨rfl, hbuf.2, rfl⟩

/-- C11, at a concrete input: the sample node with `CipherReference URI="cid:blob"`, handed
to `xmlSecEncCtxDecryptToBuffer` and `xmlSecEncCtxDecrypt` on a context that allows no URI. -/
theorem cipherReference_uri_rejected_when_none_allowed_witness :
    (xmlSecEncCtxDecryptToBuffer sampleEncEnv
      { freshEncCtx sampleEncEnv xmlEncCtxMode.xmlEncCtxModeEncryptedData none
          (some (sampleKey "k" 3)) with allowedCipherReferenceUris := 0 }
      (some sampleCipherReferenceNode)).ret =
        xmlSecResult.fail xmlSecErrorReason.INVALID_URI_TYPE "uri" ∧
    (xmlSecEncCtxDecryptToBuffer sampleEncEnv
      { freshEncCtx sampleEncEnv xmlEncCtxMode.xmlEncCtxModeEncryptedData none
          (some (sampleKey "k" 3)) with allowedCipherReferenceUris := 0 }
      (some sampleCipherReferenceNode)).ctx.encTransformCtx.uri = none ∧
    (xmlSecEncCtxDecrypt sampleEncEnv
      { freshEncCtx sampleEncEnv xmlEncCtxMode.xmlEncCtxModeEncryptedData none
          (some (sampleKey "k" 3)) with allowedCipherReferenceUris := 0 }
      (some sampleCipherReferenceNode)).ret =
        xmlSecResult.fail xmlSecErrorReason.INVALID_URI_TYPE "uri" ∧
    (xmlSecEncCtxDecrypt sampleEncEnv
      { freshEncCtx sampleEncEnv xmlEncCtxMode.xmlEncCtxModeEncryptedData none
          (some (sampleKey "k" 3)) with allowedCipherReferenceUris := 0 }
      (some sampleCipherReferenceNode)).ctx.encTransformCtx.uri = none ∧
    (xmlSecEncCtxDecrypt sampleEncEnv
      { freshEncCtx sampleEncEnv xmlEncCtxMode.xmlEncCtxModeEncryptedData none
          (some (sampleKey "k" 3)) with allowedCipherReferenceUris := 0 }
      (some sampleCipherReferenceNode)).dom = [] :=
  (cipherReference_uri_rejected_when_none_allowed sampleEncEnv
    { freshEncCtx sampleEncEnv xmlEncCtxMode.xmlEncCtxModeEncryptedData none
        (some (sampleKey "k" 3)) with allowedCipherReferenceUris := 0 }
    sampleCipherReferenceNode (some sampleEncryptionMethod) none
    (encElement "CipherData"
      [xmlNode.element "CipherReference" (some xmlSecEncNs) [] [("URI", "cid:blob")] []])
    []
    (xmlNode.element "CipherReference" (some xmlSecEncNs) [] [("URI", "cid:blob")] [])
    [] "cid:blob"
    (by intro u; simp [sampleEncEnv])
    rfl ⟨rfl, rfl, rfl, rfl, rfl, rfl, rfl, rfl, rfl⟩ (by decide) rfl
    (by intro n hn; cases hn; decide) (by intro n hn; cases hn) (by decide) rfl (by decide)
    (by decide)).2.2 rfl

/-! ### The key TemplateRead resolves -/

theorem cipherReferenceNodeRead_reason (env : EncEnv) (encCtx : xmlSecEncCtx)
    (node : xmlNodePtr) (reason : xmlSecErrorReason) (subject : String)
    (h : (xmlSecEncCtxCipherReferenceNodeRead env encCtx node).1 =
      xmlSecResult.fail reason subject) :
    reason ≠ xmlSecErrorReason.KEY_NOT_FOUND := by
  unfold xmlSecEncCtxCipherReferenceNodeRead at h
  dsimp only at h
  repeat' split at h
  all_goals (cases h; try decide)

theorem cipherDataNodeReadEnd_reason (encCtx : xmlSecEncCtx) (cur : List xmlNode)
    (reason : xmlSecErrorReason) (subject : String)
    (h : (xmlSecEncCtxCipherDataNodeReadEnd encCtx cur).1 = xmlSecResult.fail reason subject) :
    reason ≠ xmlSecErrorReason.KEY_NOT_FOUND := by
  unfold xmlSecEncCtxCipherDataNodeReadEnd at h
  split at h
  all_goals (cases h; try decide)

theorem cipherDataNodeRead_reason (env : EncEnv) (encCtx : xmlSecEncCtx) (node : xmlNodePtr)
    (reason : xmlSecErrorReason) (subject : String)
    (h : (xmlSecEncCtxCipherDataNodeRead env encCtx node).1 = xmlSecResult.fail reason subject) :
    reason ≠ xmlSecErrorReason.KEY_NOT_FOUND := by
  unfold xmlSecEncCtxCipherDataNodeRead at h
  dsimp only at h
  repeat' split at h
  all_goals first
    | exact cipherDataNodeReadEnd_reason _ _ reason subject h
    | (rename_i heq
       cases h
       exact cipherReferenceNodeRead_reason env _ _ _ _ (congrArg Prod.fst heq))
    | (cases h; decide)

theorem encDataNodeReadTail_reason (env : EncEnv) (encCtx : xmlSecEncCtx) (cur : List xmlNode)
    (reason : xmlSecErrorReason) (subject : String)
    (h : (xmlSecEncCtxEncDataNodeReadTail env encCtx cur).1 = xmlSecResult.fail reason subject) :
    reason ≠ xmlSecErrorReason.KEY_NOT_FOUND := by
  unfold xmlSecEncCtxEncDataNodeReadTail xmlSecEncCtxEncDataNodeReadKeyTail
    xmlSecEncCtxEncDataNodeReadEnd at h
  dsimp only at h
  repeat' split at h
  all_goals (cases h; try decide)

theorem readFromKeyInfo_reason (env : EncEnv) (encCtx : xmlSecEncCtx) (node : xmlNodePtr)
    (idx : Nat) (cur : List xmlNode) (reason : xmlSecErrorReason) (subject : String)
    (h : (xmlSecEncCtxEncDataNodeReadFromKeyInfo env encCtx node idx cur).1 =
      xmlSecResult.fail reason subject) :
    reason ≠ xmlSecErrorReason.KEY_NOT_FOUND := by
  unfold xmlSecEncCtxEncDataNodeReadFromKeyInfo at h
  split at h
  · cases h; decide
  · dsimp only at h
    split at h
    · cases h; decide
    · split at h
      · cases h; decide
      · split at h
        · rename_i heq
          cases h
          exact cipherDataNodeRead_reason env _ _ _ _ (congrArg Prod.fst heq)
        · exact encDataNodeReadTail_reason env _ _ reason subject h

theorem readStructure_reason (env : EncEnv) (encCtx : xmlSecEncCtx) (node : xmlNodePtr)
    (reason : xmlSecErrorReason) (subject : String)
    (h : (xmlSecEncCtxEncDataNodeReadStructure env encCtx node).1 =
      xmlSecResult.fail reason subject) :
    reason ≠ xmlSecErrorReason.KEY_NOT_FOUND := by
  unfold xmlSecEncCtxEncDataNodeReadStructure xmlSecEncCtxEncDataNodeReadChildren at h
  dsimp only at h
  repeat' split at h
  all_goals first
    | exact readFromKeyInfo_reason env _ _ _ _ reason subject h
    | (cases h; decide)

/-- Shared: the key part of TemplateRead, once the transform has given its requirements: it
fails with `KEY_NOT_FOUND` exactly when the key the context holds after the key lookup is
`NULL` or does not match the requirements; the context it returns holds that key. -/
theorem readKey_key_not_found_iff (env : EncEnv) (encCtx : xmlSecEncCtx) (t : xmlSecTransform)
    (accepted : xmlSecKeyReq)
    (hreq : env.xmlSecTransformSetKeyReq { t with encode := encCtx.encrypt }
      encCtx.keyInfoReadCtx.keyReq = some accepted) :
    (xmlSecEncCtxEncDataNodeReadKey env encCtx t).2.encKey =
      (xmlSecEncCtxEncDataNodeReadGetKey env
        { encCtx with
          encMethod := some { t with encode := encCtx.encrypt }
          keyInfoReadCtx := { encCtx.keyInfoReadCtx with keyReq := accepted } }).encKey ∧
    (xmlSecEncCtxEncDataNodeReadKey env encCtx t).2.keyInfoReadCtx.keyReq = accepted ∧
    ((xmlSecEncCtxEncDataNodeReadKey env encCtx t).1 =
        xmlSecResult.fail xmlSecErrorReason.KEY_NOT_FOUND "" ↔
      (xmlSecEncCtxEncDataNodeReadKey env encCtx t).2.encKey = none ∨
      ∃ key : xmlSecKey, (xmlSecEncCtxEncDataNodeReadKey env encCtx t).2.encKey = some key ∧
        env.xmlSecKeyMatch key none accepted = false) := by
  have hb : ∀ c : xmlSecEncCtx,
      (xmlSecEncCtxEncDataNodeReadBase64 env c).2.encKey = c.encKey ∧
      (xmlSecEncCtxEncDataNodeReadBase64 env c).2.keyInfoReadCtx = c.keyInfoReadCtx ∧
      (xmlSecEncCtxEncDataNodeReadBase64 env c).1 ≠
        xmlSecResult.fail xmlSecErrorReason.KEY_NOT_FOUND "" := by
    intro c
    unfold xmlSecEncCtxEncDataNodeReadBase64
    repeat' split
    all_goals exact ⟨rfl, rfl, by intro h; cases h⟩
  unfold xmlSecEncCtxEncDataNodeReadKey
  dsimp only
  rw [hreq]
  dsimp only
  rw [readGetKey_eq]
  generalize (xmlSecEncCtxEncDataNodeReadGetKey env _).encKey = found
  cases found with
  | none => exact ⟨rfl, rfl, fun _ => Or.inl rfl, fun _ => rfl⟩
  | some key =>
    dsimp only
    by_cases hmatch : env.xmlSecKeyMatch key none accepted = true
    · have hnot : ¬ (∃ k : xmlSecKey, some key = some k ∧
          env.xmlSecKeyMatch k none accepted = false) := by
        rintro ⟨k, hk, hm⟩
        cases hk
        rw [hmatch] at hm
        cases hm
      by_cases hset : env.xmlSecTransformSetKeyOk { t with encode := encCtx.encrypt } key = true
      · simp only [hmatch, hset, Bool.not_true, Bool.false_eq_true, if_false]
        obtain ⟨h1, h2, h3⟩ := hb
          { encCtx with
            encMethod := some { t with encode := encCtx.encrypt, key := some key }
            keyInfoReadCtx := { encCtx.keyInfoReadCtx with keyReq := accepted }
            encKey := some key }
        refine ⟨h1, by rw [h2], fun h => absurd h h3, ?_⟩
        rintro (h | ⟨k, hk, hm⟩)
        · rw [h1] at h; cases h
        · rw [h1] at hk
          exact absurd ⟨k, hk, hm⟩ hnot
      · simp only [hmatch, hset, Bool.not_true, Bool.not_false, Bool.false_eq_true, if_false,
          if_true]
        refine ⟨trivial, trivial, ?_⟩
        constructor
        · intro h; cases h
        · rintro (h | h)
          · cases h
          · exact absurd h hnot
    · have hm : env.xmlSecKeyMatch key none accepted = false := by
        cases h : env.xmlSecKeyMatch key none accepted
        · rfl
        · exact absurd h hmatch
      simp only [hm, Bool.not_false, if_true]
      exact ⟨trivial, trivial, fun _ => Or.inr ⟨key, rfl, hm⟩, fun _ => trivial⟩

/-- Shared: the key part of TemplateRead never replaces a key the context holds. -/
theorem readKey_preset (env : EncEnv) (encCtx : xmlSecEncCtx) (t : xmlSecTransform)
    (key : xmlSecKey) (hkey : encCtx.encKey = some key) :
    (xmlSecEncCtxEncDataNodeReadKey env encCtx t).2.encKey = some key := by
  cases hreq : env.xmlSecTransformSetKeyReq { t with encode := encCtx.encrypt }
      encCtx.keyInfoReadCtx.keyReq with
  | none =>
    unfold xmlSecEncCtxEncDataNodeReadKey
    dsimp only
    rw [hreq]
    exact hkey
  | some accepted =>
    rw [(readKey_key_not_found_iff env encCtx t accepted hreq).1,
      readGetKey_of_key env _ key (by exact hkey)]
    exact hkey

theorem readResolve_preset (env : EncEnv) (encCtx : xmlSecEncCtx) (key : xmlSecKey)
    (hkey : encCtx.encKey = some key) :
    (xmlSecEncCtxEncDataNodeReadResolve env encCtx).2.encKey = some key := by
  unfold xmlSecEncCtxEncDataNodeReadResolve
  split
  · split
    · exact hkey
    · exact readKey_preset env _ _ key (by exact hkey)
  · split
    · exact readKey_preset env _ _ key (by exact hkey)
    · exact hkey
  · exact hkey

/-- Shared: when the second part of TemplateRead fails with `KEY_NOT_FOUND`, the key of the
context it returns is `NULL` or does not match the requirements it returns. -/
theorem readResolve_key_not_found (env : EncEnv) (encCtx : xmlSecEncCtx) (subject : String)
    (h : (xmlSecEncCtxEncDataNodeReadResolve env encCtx).1 =
      xmlSecResult.fail xmlSecErrorReason.KEY_NOT_FOUND subject) :
    (xmlSecEncCtxEncDataNodeReadResolve env encCtx).2.encKey = none ∨
    ∃ key : xmlSecKey, (xmlSecEncCtxEncDataNodeReadResolve env encCtx).2.encKey = some key ∧
      env.xmlSecKeyMatch key none
        (xmlSecEncCtxEncDataNodeReadResolve env encCtx).2.keyInfoReadCtx.keyReq = false := by
  have hk : ∀ (c : xmlSecEncCtx) (t : xmlSecTransform),
      (xmlSecEncCtxEncDataNodeReadKey env c t).1 =
        xmlSecResult.fail xmlSecErrorReason.KEY_NOT_FOUND subject →
      (xmlSecEncCtxEncDataNodeReadKey env c t).2.encKey = none ∨
      ∃ key : xmlSecKey, (xmlSecEncCtxEncDataNodeReadKey env c t).2.encKey = some key ∧
        env.xmlSecKeyMatch key none
          (xmlSecEncCtxEncDataNodeReadKey env c t).2.keyInfoReadCtx.keyReq = false := by
    intro c t hf
    cases hreq : env.xmlSecTransformSetKeyReq { t with encode := c.encrypt }
        c.keyInfoReadCtx.keyReq with
    | none =>
      unfold xmlSecEncCtxEncDataNodeReadKey at hf
      dsimp only at hf
      rw [hreq] at hf
      cases hf
    | some accepted =>
      obtain ⟨_, h2, h3⟩ := readKey_key_not_found_iff env c t accepted hreq
      have hsub : subject = "" := by
        unfold xmlSecEncCtxEncDataNodeReadKey xmlSecEncCtxEncDataNodeReadBase64 at hf
        dsimp only at hf
        rw [hreq] at hf
        dsimp only at hf
        repeat' split at hf
        all_goals first
          | (cases hf; rfl)
          | cases hf
      subst hsub
      rw [h2]
      exact h3.mp hf
  have key : ∀ r : xmlSecResult Unit × xmlSecEncCtx,
      xmlSecEncCtxEncDataNodeReadResolve env encCtx = r →
      r.1 = xmlSecResult.fail xmlSecErrorReason.KEY_NOT_FOUND subject →
      r.2.encKey = none ∨
      ∃ key : xmlSecKey, r.2.encKey = some key ∧
        env.xmlSecKeyMatch key none r.2.keyInfoReadCtx.keyReq = false := by
    intro r hr hf
    unfold xmlSecEncCtxEncDataNodeReadResolve at hr
    split at hr
    · split at hr
      · subst hr; cases hf
      · subst hr; exact hk _ _ hf
    · split at hr
      · subst hr; exact hk _ _ hf
      · subst hr; cases hf
    · subst hr; cases hf
  exact key _ rfl h

/-- C12. TemplateRead fails with `KEY_NOT_FOUND` only when, after the optional `getKey`
call, `encKey` is `NULL` or does not match `keyInfoReadCtx.keyReq`; and once the transform has
given its requirements, the key part of TemplateRead fails with `KEY_NOT_FOUND` if and only if
the key the context holds after the optional `getKey` call is `NULL` or does not match them.
Whenever TemplateRead succeeds, `encKey` is not `NULL` and matches `keyInfoReadCtx.keyReq`.  A
key set before the call is in the context after it, whatever the outcome. -/
theorem templateRead_key_not_found_iff (env : EncEnv) (encCtx : xmlSecEncCtx)
    (node : xmlNodePtr) :
    (∀ subject : String,
      (xmlSecEncCtxEncDataNodeRead env encCtx node).1 =
        xmlSecResult.fail xmlSecErrorReason.KEY_NOT_FOUND subject →
      (xmlSecEncCtxEncDataNodeRead env encCtx node).2.encKey = none ∨
      ∃ key : xmlSecKey, (xmlSecEncCtxEncDataNodeRead env encCtx node).2.encKey = some key ∧
        env.xmlSecKeyMatch key none
          (xmlSecEncCtxEncDataNodeRead env encCtx node).2.keyInfoReadCtx.keyReq = false) ∧
    (∀ (c : xmlSecEncCtx) (t : xmlSecTransform) (accepted : xmlSecKeyReq),
      env.xmlSecTransformSetKeyReq { t with encode := c.encrypt } c.keyInfoReadCtx.keyReq =
        some accepted →
      ((xmlSecEncCtxEncDataNodeReadKey env c t).1 =
          xmlSecResult.fail xmlSecErrorReason.KEY_NOT_FOUND "" ↔
        (xmlSecEncCtxEncDataNodeReadGetKey env
          { c with
            encMethod := some { t with encode := c.encrypt }
            keyInfoReadCtx := { c.keyInfoReadCtx with keyReq := accepted } }).encKey = none ∨
        ∃ key : xmlSecKey,
          (xmlSecEncCtxEncDataNodeReadGetKey env
            { c with
              encMethod := some { t with encode := c.encrypt }
              keyInfoReadCtx := { c.keyInfoReadCtx with keyReq := accepted } }).encKey =
            some key ∧
          env.xmlSecKeyMatch key none accepted = false)) ∧
    (∀ after : xmlSecEncCtx,
      xmlSecEncCtxEncDataNodeRead env encCtx node = (xmlSecResult.ok (), after) →
      ∃ key : xmlSecKey, after.encKey = some key ∧
        env.xmlSecKeyMatch key none after.keyInfoReadCtx.keyReq = true) ∧
    (∀ key : xmlSecKey, encCtx.encKey = some key →
      (xmlSecEncCtxEncDataNodeRead env encCtx node).2.encKey = some key) := by
  refine ⟨?_, ?_, ?_, ?_⟩
  · intro subject h
    unfold xmlSecEncCtxEncDataNodeRead at h ⊢
    cases hs : xmlSecEncCtxEncDataNodeReadStructure env encCtx node with
    | mk status mid =>
      rw [hs] at h
      cases status with
      | fail reason subj =>
        have hr := readStructure_reason env encCtx node reason subj (by rw [hs])
        cases h
        exact absurd rfl hr
      | ok u => exact readResolve_key_not_found env mid subject h
  · intro c t accepted hreq
    obtain ⟨h1, _, h3⟩ := readKey_key_not_found_iff env c t accepted hreq
    rw [h1] at h3
    exact h3
  · intro after h
    obtain ⟨mid, _, hres⟩ := encDataNodeRead_ok_inv env encCtx after node h
    obtain ⟨t, accepted, key, _, _, hmatch, _, hafter⟩ := readResolve_ok_eq env mid after hres
    rw [hafter]
    exact ⟨key, rfl, hmatch⟩
  · intro key hkey
    have hframe := (readStructure_frame env encCtx node).2.2.2.2.2.2.1
    unfold xmlSecEncCtxEncDataNodeRead
    cases hs : xmlSecEncCtxEncDataNodeReadStructure env encCtx node with
    | mk status mid =>
      rw [hs] at hframe
      cases status with
      | fail reason subj => exact hframe.trans hkey
      | ok u => exact readResolve_preset env mid key (hframe.trans hkey)

/-! ### Key resolution against the simple store -/

theorem findKeyLoop_mem (env : KeysMngrEnv) (ctx : xmlSecKeysMngrCtx) :
    ∀ (keys : List xmlSecKey) (found : xmlSecKey),
      xmlSecSimpleKeysMngrFindKeyLoop env ctx keys = some found → found ∈ keys := by
  intro keys
  induction keys with
  | nil => intro found h; cases h
  | cons k rest ih =>
    intro found h
    unfold xmlSecSimpleKeysMngrFindKeyLoop at h
    by_cases hk : env.xmlSecKeyCheck k ctx.keyName ctx.keyId ctx.keyType = 1
    · rw [if_pos hk] at h
      unfold xmlSecKeyDuplicate at h
      by_cases hd : env.xmlSecKeyDuplicateOk k = true
      · rw [if_pos hd] at h
        cases h
        exact List.mem_cons_self _ _
      · rw [if_neg hd] at h
        cases h
    · rw [if_neg hk] at h
      exact List.mem_cons_of_mem _ (ih found h)

/-- Shared: the lookup passes over stored keys that do not satisfy the match predicate. -/
theorem findKeyLoop_append_no_match (env : KeysMngrEnv) (ctx : xmlSecKeysMngrCtx)
    (rest : List xmlSecKey) :
    ∀ front : List xmlSecKey, (∀ k ∈ front, ¬ keyMatches env ctx k) →
      xmlSecSimpleKeysMngrFindKeyLoop env ctx (front ++ rest) =
        xmlSecSimpleKeysMngrFindKeyLoop env ctx rest := by
  intro front
  induction front with
  | nil => intro _; rfl
  | cons k more ih =>
    intro h
    have hk : ¬ env.xmlSecKeyCheck k ctx.keyName ctx.keyId ctx.keyType = 1 :=
      h k (List.mem_cons_self k more)
    simp only [List.cons_append, xmlSecSimpleKeysMngrFindKeyLoop, hk, if_false]
    exact ih (fun key hkey => h key (List.mem_cons_of_mem k hkey))

/-- Shared: the lookup stops at the first stored key that satisfies the match predicate, so
keys stored behind it are not looked at. -/
theorem findKeyLoop_append_match (env : KeysMngrEnv) (ctx : xmlSecKeysMngrCtx)
    (rest : List xmlSecKey) :
    ∀ front : List xmlSecKey, (∃ k ∈ front, keyMatches env ctx k) →
      xmlSecSimpleKeysMngrFindKeyLoop env ctx (front ++ rest) =
        xmlSecSimpleKeysMngrFindKeyLoop env ctx front := by
  intro front
  induction front with
  | nil => rintro ⟨k, hk, _⟩; cases hk
  | cons k more ih =>
    rintro ⟨m, hm, hmatch⟩
    by_cases hk : env.xmlSecKeyCheck k ctx.keyName ctx.keyId ctx.keyType = 1
    · simp only [List.cons_append, xmlSecSimpleKeysMngrFindKeyLoop, hk, if_true]
    · simp only [List.cons_append, xmlSecSimpleKeysMngrFindKeyLoop, hk, if_false]
      apply ih
      rcases List.mem_cons.mp hm with h | h
      · subst h; exact absurd hmatch hk
      · exact ⟨m, h, hmatch⟩

/-- Shared: the key a context without a key holds after the lookup, when it is bound to a
simple keys manager: what the store lookup returns. -/
theorem readGetKey_withKeysMngr (env : EncEnv) (kenv : KeysMngrEnv)
    (keysData : xmlSecSimpleKeysData) (keyName : Option xmlNode → Option String)
    (encCtx : xmlSecEncCtx) (hnokey : encCtx.encKey = none) :
    (xmlSecEncCtxEncDataNodeReadGetKey
      (env.withKeysMngr kenv (some { keysData := some keysData }) keyName) encCtx).encKey =
      xmlSecSimpleKeysMngrFindKeyLoop kenv
        { keysMngr := some { keysData := some keysData }
          keyName := keyName (encCtx.keyInfoNode.map xmlNodePtr.node)
          keyId := encCtx.keyInfoReadCtx.keyReq.keyId
          keyType := encCtx.keyInfoReadCtx.keyReq.keyType
          allowedOrigins := xmlSecKeyOriginAll }
        keysData.keys := by
  unfold xmlSecEncCtxEncDataNodeReadGetKey EncEnv.withKeysMngr
  rw [hnokey]
  rfl

/-- Shared: the key part of TemplateRead succeeds with the key the lookup gives when the
transform accepts it. -/
theorem readKey_ok_of_found (env : EncEnv) (encCtx : xmlSecEncCtx) (t : xmlSecTransform)
    (accepted : xmlSecKeyReq) (key : xmlSecKey)
    (hreq : env.xmlSecTransformSetKeyReq { t with encode := encCtx.encrypt }
      encCtx.keyInfoReadCtx.keyReq = some accepted)
    (hfound : (xmlSecEncCtxEncDataNodeReadGetKey env
        { encCtx with
          encMethod := some { t with encode := encCtx.encrypt }
          keyInfoReadCtx := { encCtx.keyInfoReadCtx with keyReq := accepted } }).encKey =
      some key)
    (hmatch : env.xmlSecKeyMatch key none accepted = true)
    (hset : env.xmlSecTransformSetKeyOk { t with encode := encCtx.encrypt } key = true)
    (hcreate : env.xmlSecTransformCreateOk xmlSecTransformBase64Id = true) :
    (xmlSecEncCtxEncDataNodeReadKey env encCtx t).1 = xmlSecResult.ok () ∧
    (xmlSecEncCtxEncDataNodeReadKey env encCtx t).2.encKey = some key := by
  obtain ⟨h1, _, _⟩ := readKey_key_not_found_iff env encCtx t accepted hreq
  refine ⟨?_, by rw [h1, hfound]⟩
  unfold xmlSecEncCtxEncDataNodeReadKey
  dsimp only
  rw [hreq]
  dsimp only
  rw [readGetKey_eq, hfound]
  dsimp only
  simp only [hmatch, hset, Bool.not_true, Bool.false_eq_true, if_false]
  unfold xmlSecEncCtxEncDataNodeReadBase64
  simp only [hcreate, if_true]
  split <;> rfl

/-- C13 (as stated) fails: the transform demands a symmetric key of algorithm 7 with 128 bits,
and the store holds the 256-bit key named `k` of that algorithm; TemplateRead fails with
`KEY_NOT_FOUND`.  The 128-bit key named `k`, which matches the requirements, is added to the
store; the next TemplateRead still fails with `KEY_NOT_FOUND`, because the lookup by name,
algorithm and key type returns the key stored first. -/
theorem resolution_still_fails_after_matching_key_added :
    (xmlSecEncCtxEncDataNodeRead (sampleStoreEncEnv sampleMngr256)
      (freshEncCtx sampleEncEnv xmlEncCtxMode.xmlEncCtxModeEncryptedData none none)
      { path := [], node := sampleTemplate }).1 =
        xmlSecResult.fail xmlSecErrorReason.KEY_NOT_FOUND "" ∧
    (xmlSecSimpleKeysMngrAddKey sampleSpecKeysEnv sampleMngr256 (some (sampleSizedKey 16))).1
      = 0 ∧
    storedKeys
      (xmlSecSimpleKeysMngrAddKey sampleSpecKeysEnv sampleMngr256 (some (sampleSizedKey 16))).2
      = [sampleSizedKey 32, sampleSizedKey 16] ∧
    specKeyMatch (sampleSizedKey 16) none { keyId := 7, keyType := 1, keyBitsSize := 128 }
      = true ∧
    specKeyMatch (sampleSizedKey 32) none { keyId := 7, keyType := 1, keyBitsSize := 128 }
      = false ∧
    (xmlSecEncCtxEncDataNodeRead
      (sampleStoreEncEnv
        (xmlSecSimpleKeysMngrAddKey sampleSpecKeysEnv sampleMngr256
          (some (sampleSizedKey 16))).2)
      (freshEncCtx sampleEncEnv xmlEncCtxMode.xmlEncCtxModeEncryptedData none none)
      { path := [], node := sampleTemplate }).1 =
        xmlSecResult.fail xmlSecErrorReason.KEY_NOT_FOUND "" := by
  refine ⟨by decide, by decide, by decide, by decide, by decide, by decide⟩

/-- C13 (as amended). The context has no key and is bound to a simple keys manager, the
transform has given its requirements, and no stored key satisfies them (the 256-bit key with
the requested name): the key part of TemplateRead fails with `KEY_NOT_FOUND`.  After a key
that satisfies the lookup and the requirements is added, the next attempt succeeds with a
duplicate of that key when no key stored before it satisfies the match predicate of the
lookup (name, algorithm id, key type); when one does, the attempt fails with `KEY_NOT_FOUND`
again. -/
theorem resolution_after_matching_key_added (env : EncEnv) (kenv : KeysMngrEnv)
    (keysData : xmlSecSimpleKeysData) (keyName : Option xmlNode → Option String)
    (encCtx : xmlSecEncCtx) (t : xmlSecTransform) (req : xmlSecKeyReq) (key : xmlSecKey)
    (hnokey : encCtx.encKey = none)
    (hreq : env.xmlSecTransformSetKeyReq { t with encode := encCtx.encrypt }
      encCtx.keyInfoReadCtx.keyReq = some req)
    (hstored : ∀ k ∈ keysData.keys, env.xmlSecKeyMatch k none req = false)
    (hmalloc : ∀ n, kenv.xmlMalloc n = true) (hrealloc : ∀ n, kenv.xmlRealloc n = true)
    (hcheck : kenv.xmlSecKeyCheck key (keyName (encCtx.keyInfoNode.map xmlNodePtr.node))
      req.keyId req.keyType = 1)
    (hdup : kenv.xmlSecKeyDuplicateOk key = true)
    (hmatch : env.xmlSecKeyMatch key none req = true)
    (hset : env.xmlSecTransformSetKeyOk { t with encode := encCtx.encrypt } key = true)
    (hcreate : env.xmlSecTransformCreateOk xmlSecTransformBase64Id = true) :
    (xmlSecEncCtxEncDataNodeReadKey
      (env.withKeysMngr kenv (some { keysData := some keysData }) keyName) encCtx t).1 =
        xmlSecResult.fail xmlSecErrorReason.KEY_NOT_FOUND "" ∧
    ∃ grown : xmlSecSimpleKeysData,
      xmlSecSimpleKeysMngrAddKey kenv (some { keysData := some keysData }) (some key) =
        (0, some { keysData := some grown }) ∧
      grown.keys = keysData.keys ++ [key] ∧
      ((∀ k ∈ keysData.keys,
          kenv.xmlSecKeyCheck k (keyName (encCtx.keyInfoNode.map xmlNodePtr.node))
            req.keyId req.keyType ≠ 1) →
        (xmlSecEncCtxEncDataNodeReadKey
          (env.withKeysMngr kenv (some { keysData := some grown }) keyName) encCtx t).1 =
            xmlSecResult.ok () ∧
        (xmlSecEncCtxEncDataNodeReadKey
          (env.withKeysMngr kenv (some { keysData := some grown }) keyName) encCtx t).2.encKey =
            some key) ∧
      ((∃ k ∈ keysData.keys,
          kenv.xmlSecKeyCheck k (keyName (encCtx.keyInfoNode.map xmlNodePtr.node))
            req.keyId req.keyType = 1) →
        (xmlSecEncCtxEncDataNodeReadKey
          (env.withKeysMngr kenv (some { keysData := some grown }) keyName) encCtx t).1 =
            xmlSecResult.fail xmlSecErrorReason.KEY_NOT_FOUND "") := by
  -- the key the context holds after the lookup in a store
  have hfound : ∀ store : xmlSecSimpleKeysData,
      (xmlSecEncCtxEncDataNodeReadGetKey
        (env.withKeysMngr kenv (some { keysData := some store }) keyName)
        { encCtx with
          encMethod := some { t with encode := encCtx.encrypt }
          keyInfoReadCtx := { encCtx.keyInfoReadCtx with keyReq := req } }).encKey =
        xmlSecSimpleKeysMngrFindKeyLoop kenv
          { keysMngr := some { keysData := some store }
            keyName := keyName (encCtx.keyInfoNode.map xmlNodePtr.node)
            keyId := req.keyId
            keyType := req.keyType
            allowedOrigins := xmlSecKeyOriginAll }
          store.keys := fun store =>
    readGetKey_withKeysMngr env kenv store keyName _ (by exact hnokey)
  -- the lookup does not depend on the manager the criteria point to
  have hloop : ∀ (m : Option xmlSecKeysMngr) (keys : List xmlSecKey),
      xmlSecSimpleKeysMngrFindKeyLoop kenv
          { keysMngr := m
            keyName := keyName (encCtx.keyInfoNode.map xmlNodePtr.node)
            keyId := req.keyId
            keyType := req.keyType
            allowedOrigins := xmlSecKeyOriginAll } keys =
        xmlSecSimpleKeysMngrFindKeyLoop kenv
          { keysMngr := none
            keyName := keyName (encCtx.keyInfoNode.map xmlNodePtr.node)
            keyId := req.keyId
            keyType := req.keyType
            allowedOrigins := xmlSecKeyOriginAll } keys := by
    intro m keys
    induction keys with
    | nil => rfl
    | cons k rest ih =>
      unfold xmlSecSimpleKeysMngrFindKeyLoop
      rw [ih]
  -- a key found among the stored keys does not satisfy the requirements
  have hfail : ∀ store : xmlSecSimpleKeysData,
      (∀ found : xmlSecKey,
        xmlSecSimpleKeysMngrFindKeyLoop kenv
          { keysMngr := none
            keyName := keyName (encCtx.keyInfoNode.map xmlNodePtr.node)
            keyId := req.keyId
            keyType := req.keyType
            allowedOrigins := xmlSecKeyOriginAll } store.keys = some found →
        found ∈ keysData.keys) →
      (xmlSecEncCtxEncDataNodeReadKey
        (env.withKeysMngr kenv (some { keysData := some store }) keyName) encCtx t).1 =
          xmlSecResult.fail xmlSecErrorReason.KEY_NOT_FOUND "" := by
    intro store hin
    obtain ⟨h1, _, h3⟩ := readKey_key_not_found_iff
      (env.withKeysMngr kenv (some { keysData := some store }) keyName) encCtx t req hreq
    rw [h3, h1, hfound store, hloop]
    cases hl : xmlSecSimpleKeysMngrFindKeyLoop kenv
        { keysMngr := none
          keyName := keyName (encCtx.keyInfoNode.map xmlNodePtr.node)
          keyId := req.keyId
          keyType := req.keyType
          allowedOrigins := xmlSecKeyOriginAll } store.keys with
    | none => exact Or.inl rfl
    | some found => exact Or.inr ⟨found, rfl, hstored found (hin found hl)⟩
  refine ⟨hfail keysData (fun found h => findKeyLoop_mem kenv _ _ found h), ?_⟩
  obtain ⟨grown, hadd, hkeys⟩ := addKey_ok_of_memory kenv keysData key hmalloc hrealloc
  refine ⟨grown, hadd, hkeys, ?_, ?_⟩
  · intro hnone
    apply readKey_ok_of_found
      (env.withKeysMngr kenv (some { keysData := some grown }) keyName) encCtx t req key hreq
      ?_ hmatch hset hcreate
    rw [hfound grown, hloop, hkeys, findKeyLoop_append_no_match kenv
      ({ keysMngr := none, keyName := keyName (encCtx.keyInfoNode.map xmlNodePtr.node),
         keyId := req.keyId, keyType := req.keyType,
         allowedOrigins := xmlSecKeyOriginAll } : xmlSecKeysMngrCtx)
      [key] keysData.keys (by exact hnone)]
    unfold xmlSecSimpleKeysMngrFindKeyLoop xmlSecKeyDuplicate
    rw [if_pos (by exact hcheck), if_pos hdup]
  · intro hsome
    apply hfail grown
    intro found h
    rw [hkeys, findKeyLoop_append_match kenv
      ({ keysMngr := none, keyName := keyName (encCtx.keyInfoNode.map xmlNodePtr.node),
         keyId := req.keyId, keyType := req.keyType,
         allowedOrigins := xmlSecKeyOriginAll } : xmlSecKeysMngrCtx)
      [key] keysData.keys (by exact hsome)] at h
    exact findKeyLoop_mem kenv _ _ found h

/-- C13, at a concrete input: the store holds a 256-bit key named `k` of another algorithm,
which the lookup passes over; after the 128-bit key is added the attempt succeeds with it. -/
theorem resolution_after_matching_key_added_witness :
    ∃ grown : xmlSecSimpleKeysData,
      grown.keys = [{ sampleSizedKey 32 with id := 9 }, sampleSizedKey 16] ∧
      (xmlSecEncCtxEncDataNodeReadKey
        (sampleStoreEncEnv (some { keysData := some grown }))
        (freshEncCtx sampleEncEnv xmlEncCtxMode.xmlEncCtxModeEncryptedData none none)
        (xmlSecTransformCreate "sample-cipher")).2.encKey = some (sampleSizedKey 16) := by
  obtain ⟨_, grown, _, hkeys, hok, _⟩ :=
    resolution_after_matching_key_added (sampleStoreEncEnv none) sampleSpecKeysEnv
      { keys := [{ sampleSizedKey 32 with id := 9 }], maxSize := 16 } (fun _ => some "k")
      (freshEncCtx sampleEncEnv xmlEncCtxMode.xmlEncCtxModeEncryptedData none none)
      (xmlSecTransformCreate "sample-cipher") { keyId := 7, keyType := 1, keyBitsSize := 128 }
      (sampleSizedKey 16) rfl rfl (by decide) (fun _ => rfl) (fun _ => rfl) (by decide) rfl
      (by decide) rfl rfl
  exact ⟨grown, hkeys, (hok (by decide)).2⟩

/-! ### Who destroys the encryption transform -/

/-- Shared: `xmlSecEncCtxFinalize` calls `xmlSecTransformDestroy` on a transform exactly when
`encMethod` points to it and `dontDestroyEncMethod` is `0`. -/
theorem finalize_transform_mem (encCtx : xmlSecEncCtx) (t : xmlSecTransform) :
    Released.transform t ∈ (xmlSecEncCtxFinalize encCtx).1 ↔
      encCtx.dontDestroyEncMethod = false ∧ encCtx.encMethod = some t := by
  unfold xmlSecEncCtxFinalize
  simp only [List.mem_append, List.mem_cons, List.mem_singleton, List.not_mem_nil, or_false,
    false_or, reduceCtorEq]
  have hkey : ¬ Released.transform t ∈
      (match encCtx.encKey with
        | some k => [Released.key k]
        | none => []) := by
    split <;> simp
  have hstr : ∀ (c : Prop) [Decidable c] (s : String),
      ¬ Released.transform t ∈ (if c then [Released.string s] else []) := by
    intro c _ s
    split <;> simp
  constructor
  · intro h
    rcases h with (((((((h | h) | h) | h) | h) | h) | h) | h)
    · revert h
      split
      · rename_i hflag hm
        intro h
        simp only [List.mem_singleton, Released.transform.injEq] at h
        exact ⟨hflag, by rw [hm, h]⟩
      · intro h
        cases h
    · exact absurd h hkey
    · exact absurd h (hstr _ _)
    · exact absurd h (hstr _ _)
    · exact absurd h (hstr _ _)
    · exact absurd h (hstr _ _)
    · exact absurd h (hstr _ _)
    · exact absurd h (hstr _ _)
  · rintro ⟨hflag, hm⟩
    rw [hflag, hm]
    simp

/-- Shared: `xmlSecEncCtxFinalize` releases the transform pipeline of the context. -/
theorem finalize_transformCtx_mem (encCtx : xmlSecEncCtx) :
    Released.transformCtx encCtx.encTransformCtx ∈ (xmlSecEncCtxFinalize encCtx).1 := by
  unfold xmlSecEncCtxFinalize
  simp

/-- C14 (as stated) fails: the caller supplies the transform `sample-cipher` and a key, and
encrypts with the sample template; `xmlSecEncCtxFinalize` releases the pipeline and then
destroys the transform of the caller, because `dontDestroyEncMethod` is `0`.  The same holds
for a context that is finalized before any operation. -/
theorem finalize_destroys_caller_supplied_transform :
    (xmlSecEncCtxBinaryEncrypt sampleEncEnv
      (freshEncCtx sampleEncEnv xmlEncCtxMode.xmlEncCtxModeEncryptedData
        (some (xmlSecTransformCreate "sample-cipher")) (some (sampleKey "k" 3)))
      (some sampleTemplate) (some [1, 2, 3])).ret = xmlSecResult.ok () ∧
    (xmlSecEncCtxBinaryEncrypt sampleEncEnv
      (freshEncCtx sampleEncEnv xmlEncCtxMode.xmlEncCtxModeEncryptedData
        (some (xmlSecTransformCreate "sample-cipher")) (some (sampleKey "k" 3)))
      (some sampleTemplate) (some [1, 2, 3])).ctx.dontDestroyEncMethod = false ∧
    (xmlSecEncCtxBinaryEncrypt sampleEncEnv
      (freshEncCtx sampleEncEnv xmlEncCtxMode.xmlEncCtxModeEncryptedData
        (some (xmlSecTransformCreate "sample-cipher")) (some (sampleKey "k" 3)))
      (some sampleTemplate) (some [1, 2, 3])).ctx.encMethod =
        some { id := "sample-cipher", encode := true, key := some (sampleKey "k" 3) } ∧
    Released.transform { id := "sample-cipher", encode := true, key := some (sampleKey "k" 3) } ∈
      (xmlSecEncCtxFinalize
        (xmlSecEncCtxBinaryEncrypt sampleEncEnv
          (freshEncCtx sampleEncEnv xmlEncCtxMode.xmlEncCtxModeEncryptedData
            (some (xmlSecTransformCreate "sample-cipher")) (some (sampleKey "k" 3)))
          (some sampleTemplate) (some [1, 2, 3])).ctx).1 ∧
    Released.transform (xmlSecTransformCreate "sample-cipher") ∈
      (xmlSecEncCtxFinalize
        (freshEncCtx sampleEncEnv xmlEncCtxMode.xmlEncCtxModeEncryptedData
          (some (xmlSecTransformCreate "sample-cipher")) (some (sampleKey "k" 3)))).1 := by
  refine ⟨by decide, by decide, by decide, by decide, by decide⟩

/-- C14 (as amended). On a context whose `dontDestroyEncMethod` is `0`, as
`xmlSecEncCtxInitialize` leaves it, after a successful TemplateRead: `dontDestroyEncMethod`
is `1` exactly when the caller had supplied no transform, so that the context created
`encMethod` from the `EncryptionMethod` node.  In that case `xmlSecEncCtxFinalize` releases
the transform with the pipeline, whose chain holds it, and does not destroy it a second time.
A transform supplied by the caller is destroyed by `xmlSecEncCtxFinalize`. -/
theorem encMethod_ownership (env : EncEnv) (encCtx after : xmlSecEncCtx) (node : xmlNodePtr)
    (hflag : encCtx.dontDestroyEncMethod = false)
    (h : xmlSecEncCtxEncDataNodeRead env encCtx node = (xmlSecResult.ok (), after)) :
    (after.dontDestroyEncMethod = true ↔ encCtx.encMethod = none) ∧
    (encCtx.encMethod = none →
      ∃ (methodNode : xmlNodePtr) (t created : xmlSecTransform),
        env.xmlSecTransformCtxNodeRead methodNode.node xmlSecTransformUsageEncryptionMethod =
          some t ∧
        after.encMethod = some created ∧ created.id = t.id ∧
        xmlSecTransformPtr.encMethod ∈ after.encTransformCtx.chain ∧
        Released.transformCtx after.encTransformCtx ∈ (xmlSecEncCtxFinalize after).1 ∧
        ∀ other : xmlSecTransform, Released.transform other ∉ (xmlSecEncCtxFinalize after).1) ∧
    (∀ supplied : xmlSecTransform, encCtx.encMethod = some supplied →
      ∃ held : xmlSecTransform, after.encMethod = some held ∧ held.id = supplied.id ∧
        xmlSecTransformPtr.encMethod ∈ after.encTransformCtx.chain ∧
        Released.transform held ∈ (xmlSecEncCtxFinalize after).1) := by
  obtain ⟨mid, hstruct, hres⟩ := encDataNodeRead_ok_inv env encCtx after node h
  obtain ⟨_, _, hm, hd, _⟩ := readStructure_frame env encCtx node
  rw [hstruct] at hm hd
  change mid.encMethod = encCtx.encMethod at hm
  change mid.dontDestroyEncMethod = encCtx.dontDestroyEncMethod at hd
  obtain ⟨t, accepted, key, hsrc, _, _, _, hafter⟩ := readResolve_ok_eq env mid after hres
  have hmethod : after.encMethod = some { t with encode := mid.encrypt, key := some key } := by
    rw [hafter]
  have hdont : after.dontDestroyEncMethod = (encCtx.encMethod.isNone || false) := by
    rw [hafter, ← hm, ← hflag, ← hd]
  have hchain : xmlSecTransformPtr.encMethod ∈ after.encTransformCtx.chain := by
    rw [hafter]
    simp
  refine ⟨?_, ?_, ?_⟩
  · rw [hdont]
    cases encCtx.encMethod <;> simp
  · intro hnone
    rcases hsrc with ⟨hsome, _⟩ | ⟨_, methodNode, _, hread⟩
    · rw [hm, hnone] at hsome
      cases hsome
    · refine ⟨methodNode, t, _, hread, hmethod, rfl, hchain, finalize_transformCtx_mem after, ?_⟩
      intro other hmem
      have := ((finalize_transform_mem after other).1 hmem).1
      rw [hdont, hnone] at this
      cases this
  · intro supplied hsupplied
    rcases hsrc with ⟨hsome, _⟩ | ⟨hnone, _⟩
    · rw [hm, hsupplied] at hsome
      cases hsome
      refine ⟨_, hmethod, rfl, hchain, (finalize_transform_mem after _).2 ⟨?_, hmethod⟩⟩
      rw [hdont, hsupplied]
      rfl
    · rw [hm, hsupplied] at hnone
      cases hnone

/-- C14, at a concrete input: the sample template is read on a context without a transform;
the flag is set, and `xmlSecEncCtxFinalize` destroys no transform itself. -/
theorem encMethod_ownership_witness :
    (xmlSecEncCtxEncDataNodeRead sampleEncEnv
      (freshEncCtx sampleEncEnv xmlEncCtxMode.xmlEncCtxModeEncryptedData none
        (some (sampleKey "k" 3)))
      { path := [], node := sampleTemplate }).2.dontDestroyEncMethod = true ∧
    ∀ other : xmlSecTransform, Released.transform other ∉
      (xmlSecEncCtxFinalize
        (xmlSecEncCtxEncDataNodeRead sampleEncEnv
          (freshEncCtx sampleEncEnv xmlEncCtxMode.xmlEncCtxModeEncryptedData none
            (some (sampleKey "k" 3)))
          { path := [], node := sampleTemplate }).2).1 := by
  obtain ⟨h1, h2, _⟩ := encMethod_ownership sampleEncEnv
    (freshEncCtx sampleEncEnv xmlEncCtxMode.xmlEncCtxModeEncryptedData none
      (some (sampleKey "k" 3)))
    (xmlSecEncCtxEncDataNodeRead sampleEncEnv
      (freshEncCtx sampleEncEnv xmlEncCtxMode.xmlEncCtxModeEncryptedData none
        (some (sampleKey "k" 3)))
      { path := [], node := sampleTemplate }).2
    { path := [], node := sampleTemplate } rfl (Prod.ext (by decide) rfl)
  obtain ⟨_, _, _, _, _, _, _, _, h3⟩ := h2 rfl
  exact ⟨h1.2 rfl, h3⟩

/-! ### What a failing call leaves of the documents -/

/-- Shared: `xmlSecEncCtxBinaryEncrypt` makes no substitution in a document, and hands the
template back as it was unless it has stored the result in the context. -/
theorem binaryEncrypt_template (env : EncEnv) (encCtx : xmlSecEncCtx) (tmpl : Option xmlNode)
    (data : Option Bytes) :
    (xmlSecEncCtxBinaryEncrypt env encCtx tmpl data).dom = [] ∧
    ((xmlSecEncCtxBinaryEncrypt env encCtx tmpl data).ctx.result = encCtx.result →
      (xmlSecEncCtxBinaryEncrypt env encCtx tmpl data).tmpl = tmpl) := by
  unfold xmlSecEncCtxBinaryEncrypt
  split
  · exact ⟨rfl, fun _ => rfl⟩
  · rename_i hres
    split
    · exact ⟨rfl, fun _ => rfl⟩
    · exact ⟨rfl, fun _ => rfl⟩
    · try dsimp only
      split
      · exact ⟨rfl, fun _ => rfl⟩
      · split
        · exact ⟨rfl, fun _ => rfl⟩
        · try dsimp only
          split
          · exact ⟨rfl, fun _ => rfl⟩
          · rename_i tctx _ hsome
            refine ⟨rfl, fun h => ?_⟩
            exfalso
            dsimp only at h
            rw [encDataNodeWrite_result] at h
            dsimp only at h
            rw [h] at hsome
            cases hr : encCtx.result with
            | none => simp [hr] at hsome
            | some _ => simp [hr] at hres

/-- Shared: the same for `xmlSecEncCtxUriEncrypt`. -/
theorem uriEncrypt_template (env : EncEnv) (encCtx : xmlSecEncCtx) (tmpl : Option xmlNode)
    (uri : Option String) :
    (xmlSecEncCtxUriEncrypt env encCtx tmpl uri).dom = [] ∧
    ((xmlSecEncCtxUriEncrypt env encCtx tmpl uri).ctx.result = encCtx.result →
      (xmlSecEncCtxUriEncrypt env encCtx tmpl uri).tmpl = tmpl) := by
  unfold xmlSecEncCtxUriEncrypt
  split
  · exact ⟨rfl, fun _ => rfl⟩
  · rename_i hres
    split
    · exact ⟨rfl, fun _ => rfl⟩
    · exact ⟨rfl, fun _ => rfl⟩
    · try dsimp only
      split
      · exact ⟨rfl, fun _ => rfl⟩
      · try dsimp only
        split
        · exact ⟨rfl, fun _ => rfl⟩
        · split
          · exact ⟨rfl, fun _ => rfl⟩
          · try dsimp only
            split
            · exact ⟨rfl, fun _ => rfl⟩
            · rename_i tctx _ hsome
              refine ⟨rfl, fun h => ?_⟩
              exfalso
              dsimp only at h
              rw [encDataNodeWrite_result] at h
              dsimp only at h
              rw [h] at hsome
              cases hr : encCtx.result with
              | none => simp [hr] at hsome
              | some _ => simp [hr] at hres

/-- Shared: the substitution `xmlSecEncCtxXmlEncrypt` ends with is made by a call that
succeeds only. -/
theorem xmlEncryptReplace_dom (env : EncEnv) (encCtx : xmlSecEncCtx) (written : xmlNode)
    (h : (xmlSecEncCtxXmlEncryptReplace env encCtx written).ret.failed = true) :
    (xmlSecEncCtxXmlEncryptReplace env encCtx written).dom = [] := by
  unfold xmlSecEncCtxXmlEncryptReplace at h ⊢
  repeat' split
  all_goals first
    | rfl
    | (exfalso
       simp_all [xmlSecResult.failed])

/-- Shared: the part of `xmlSecEncCtxXmlEncrypt` from TemplateWrite on stores the output of
the pipeline in `result`; when it fails no substitution was made, and when there was no output
the template is as it was. -/
theorem xmlEncryptWrite_template (env : EncEnv) (encCtx : xmlSecEncCtx) (tmplNode : xmlNode) :
    (xmlSecEncCtxXmlEncryptWrite env encCtx tmplNode).ctx.result =
      encCtx.encTransformCtx.result ∧
    ((xmlSecEncCtxXmlEncryptWrite env encCtx tmplNode).ret.failed = true →
      (xmlSecEncCtxXmlEncryptWrite env encCtx tmplNode).dom = []) ∧
    (encCtx.encTransformCtx.result = none →
      (xmlSecEncCtxXmlEncryptWrite env encCtx tmplNode).tmpl = some tmplNode) := by
  unfold xmlSecEncCtxXmlEncryptWrite
  dsimp only
  split
  · exact ⟨rfl, fun _ => rfl, fun _ => rfl⟩
  · rename_i hsome
    have hnot : encCtx.encTransformCtx.result ≠ none := by
      intro hn
      rw [hn] at hsome
      exact hsome rfl
    split
    · refine ⟨?_, fun _ => rfl, fun hn => absurd hn hnot⟩
      rw [encDataNodeWrite_result]
    · refine ⟨?_, fun hf => xmlEncryptReplace_dom env _ _ hf, fun hn => absurd hn hnot⟩
      rw [xmlEncryptReplace_result, encDataNodeWrite_result]

/-- Shared: a failing `xmlSecEncCtxXmlEncrypt` makes no substitution in the document of the
source node, and hands the template back as it was unless it has stored the result in the
context. -/
theorem xmlEncrypt_template (env : EncEnv) (encCtx : xmlSecEncCtx) (tmpl node : Option xmlNode)
    (nodeDoc : Option xmlDoc)
    (hfail : (xmlSecEncCtxXmlEncrypt env encCtx tmpl node nodeDoc).ret.failed = true) :
    (xmlSecEncCtxXmlEncrypt env encCtx tmpl node nodeDoc).dom = [] ∧
    ((xmlSecEncCtxXmlEncrypt env encCtx tmpl node nodeDoc).ctx.result = encCtx.result →
      (xmlSecEncCtxXmlEncrypt env encCtx tmpl node nodeDoc).tmpl = tmpl) := by
  have key : ∀ out : EncOutcome Unit, xmlSecEncCtxXmlEncrypt env encCtx tmpl node nodeDoc = out →
      out.ret.failed = true →
      out.dom = [] ∧ (out.ctx.result = encCtx.result → out.tmpl = tmpl) := by
    intro out hout hf
    unfold xmlSecEncCtxXmlEncrypt at hout
    split at hout
    · subst hout
      exact ⟨rfl, fun _ => rfl⟩
    · rename_i hres
      have hnone : encCtx.result = none := by
        cases hr : encCtx.result with
        | none => rfl
        | some _ => simp [hr] at hres
      split at hout
      · subst hout
        exact ⟨rfl, fun _ => rfl⟩
      · subst hout
        exact ⟨rfl, fun _ => rfl⟩
      · subst hout
        exact ⟨rfl, fun _ => rfl⟩
      · try dsimp only at hout
        split at hout
        · subst hout
          exact ⟨rfl, fun _ => rfl⟩
        · split at hout
          · subst hout
            exact ⟨rfl, fun _ => rfl⟩
          · split at hout
            · subst hout
              exact ⟨rfl, fun _ => rfl⟩
            · split at hout
              · subst hout
                exact ⟨rfl, fun _ => rfl⟩
              · split at hout
                · subst hout
                  obtain ⟨h1, h2, h3⟩ := xmlEncryptWrite_template env _ _
                  refine ⟨h2 hf, fun h => h3 ?_⟩
                  rw [← h1, h, hnone]
                · split at hout
                  · subst hout
                    obtain ⟨h1, h2, h3⟩ := xmlEncryptWrite_template env _ _
                    refine ⟨h2 hf, fun h => h3 ?_⟩
                    rw [← h1, h, hnone]
                  · subst hout
                    exact ⟨rfl, fun _ => rfl⟩
  exact key _ rfl hfail

/-- Shared: `xmlSecEncCtxDecryptToBuffer` makes no substitution and hands the node back. -/
theorem decryptToBuffer_template (env : EncEnv) (encCtx : xmlSecEncCtx) (node : Option xmlNode) :
    (xmlSecEncCtxDecryptToBuffer env encCtx node).dom = [] ∧
    (xmlSecEncCtxDecryptToBuffer env encCtx node).tmpl = node := by
  unfold xmlSecEncCtxDecryptToBuffer
  split
  · exact ⟨rfl, rfl⟩
  · split
    · exact ⟨rfl, rfl⟩
    · try dsimp only
      split
      · exact ⟨rfl, rfl⟩
      · split
        · exact ⟨rfl, rfl⟩
        · try dsimp only
          split
          · exact ⟨rfl, rfl⟩
          · exact ⟨rfl, rfl⟩

/-- Shared: a failing `xmlSecEncCtxDecrypt` makes no substitution and hands the node back. -/
theorem decrypt_template (env : EncEnv) (encCtx : xmlSecEncCtx) (node : Option xmlNode)
    (hfail : (xmlSecEncCtxDecrypt env encCtx node).ret.failed = true) :
    (xmlSecEncCtxDecrypt env encCtx node).dom = [] ∧
    (xmlSecEncCtxDecrypt env encCtx node).tmpl = node := by
  have key : ∀ out : EncOutcome Unit, xmlSecEncCtxDecrypt env encCtx node = out →
      out.ret.failed = true → out.dom = [] ∧ out.tmpl = node := by
    intro out hout hf
    unfold xmlSecEncCtxDecrypt at hout
    split at hout
    · subst hout
      exact ⟨rfl, rfl⟩
    · split at hout
      · subst hout
        exact ⟨rfl, rfl⟩
      · subst hout
        unfold xmlSecEncCtxDecryptReplace at hf ⊢
        repeat' split
        all_goals first
          | exact ⟨rfl, rfl⟩
          | (exfalso
             simp_all [xmlSecResult.failed])
  exact key _ rfl hfail

/-- C15 (as stated) fails: the KeyInfo writer fails, so `xmlSecEncCtxBinaryEncrypt` on the
sample template fails; the `CipherValue` of the template, empty before the call, holds the
base64 text of the ciphertext after it. -/
theorem failing_encrypt_leaves_cipherValue_written :
    ((EntryCall.binaryEncrypt (some sampleTemplate) (some [1, 2, 3])).outcome
      sampleEncEnvNoKeyInfoWriter
      (freshEncCtx sampleEncEnv xmlEncCtxMode.xmlEncCtxModeEncryptedData none
        (some (sampleKey "k" 3)))).ret =
      xmlSecResult.fail xmlSecErrorReason.XMLSEC_FAILED "xmlSecKeyInfoNodeWrite" ∧
    (templateCipherValue sampleTemplate).map (fun n => sampleText n.children) = some [] ∧
    (((EntryCall.binaryEncrypt (some sampleTemplate) (some [1, 2, 3])).outcome
      sampleEncEnvNoKeyInfoWriter
      (freshEncCtx sampleEncEnv xmlEncCtxMode.xmlEncCtxModeEncryptedData none
        (some (sampleKey "k" 3)))).tmpl.bind templateCipherValue).map
          (fun n => sampleText n.children) = some [66, 69, 70, 71] := by
  refine ⟨by decide, by decide, by decide⟩

/-- C15 (as amended). For every failing call of an entry point, no substitution is made in
the document of the source node (for `xmlSecEncCtxDecrypt`, the encrypted node stays), and the
template is the same as before the call when the call fails before it stores the result in
the context, which it does right before TemplateWrite.  A failure of the KeyInfo writer, or
of the final swap of `xmlSecEncCtxXmlEncrypt`, comes after that and leaves the template
written. -/
theorem failing_call_leaves_dom (env : EncEnv) (encCtx : xmlSecEncCtx) (call : EntryCall)
    (hfail : (call.outcome env encCtx).ret.failed = true) :
    (call.outcome env encCtx).dom = [] ∧
    ((call.outcome env encCtx).ctx.result = encCtx.result →
      (call.outcome env encCtx).tmpl = call.tmpl) := by
  cases call with
  | binaryEncrypt tmpl data => exact binaryEncrypt_template env encCtx tmpl data
  | xmlEncrypt tmpl node nodeDoc => exact xmlEncrypt_template env encCtx tmpl node nodeDoc hfail
  | uriEncrypt tmpl uri => exact uriEncrypt_template env encCtx tmpl uri
  | decrypt node =>
    obtain ⟨h1, h2⟩ := decrypt_template env encCtx (some node) hfail
    exact ⟨h1, fun _ => h2⟩
  | decryptToBuffer node =>
    obtain ⟨h1, h2⟩ := decryptToBuffer_template env encCtx node
    exact ⟨h1, fun _ => h2⟩

/-- C15, at a concrete input: `xmlSecEncCtxBinaryEncrypt` on a node that is not an
`EncryptedData` fails in TemplateRead; nothing is substituted and the node is handed back as
it was. -/
theorem failing_call_leaves_dom_witness :
    ((EntryCall.binaryEncrypt (some (encElement "Other" [])) (some [1])).outcome sampleEncEnv
      (freshEncCtx sampleEncEnv xmlEncCtxMode.xmlEncCtxModeEncryptedData none
        (some (sampleKey "k" 3)))).dom = [] ∧
    ((EntryCall.binaryEncrypt (some (encElement "Other" [])) (some [1])).outcome sampleEncEnv
      (freshEncCtx sampleEncEnv xmlEncCtxMode.xmlEncCtxModeEncryptedData none
        (some (sampleKey "k" 3)))).tmpl = some (encElement "Other" []) := by
  obtain ⟨h1, h2⟩ := failing_call_leaves_dom sampleEncEnv
    (freshEncCtx sampleEncEnv xmlEncCtxMode.xmlEncCtxModeEncryptedData none
      (some (sampleKey "k" 3)))
    (EntryCall.binaryEncrypt (some (encElement "Other" [])) (some [1])) (by decide)
  exact ⟨h1, h2 rfl⟩

/-! ### The `Type` attribute and the final substitution -/

/-- Shared: the base64 step of TemplateRead writes the pipeline and `resultBase64Encoded`
only. -/
theorem readBase64_frame (env : EncEnv) (encCtx : xmlSecEncCtx) :
    (xmlSecEncCtxEncDataNodeReadBase64 env encCtx).2.sameOutsideResolve encCtx := by
  unfold xmlSecEncCtxEncDataNodeReadBase64
  repeat' split
  all_goals exact ⟨rfl, rfl, rfl, rfl, rfl, rfl, rfl, rfl, rfl, rfl, rfl, rfl, rfl, rfl, rfl⟩

/-- Shared: the key lookup of TemplateRead writes `encKey` only. -/
theorem readGetKey_frame (env : EncEnv) (encCtx : xmlSecEncCtx) :
    (xmlSecEncCtxEncDataNodeReadGetKey env encCtx).sameOutsideResolve encCtx := by
  unfold xmlSecEncCtxEncDataNodeReadGetKey
  split
  all_goals exact ⟨rfl, rfl, rfl, rfl, rfl, rfl, rfl, rfl, rfl, rfl, rfl, rfl, rfl, rfl, rfl⟩

/-- Shared: the key part of TemplateRead leaves the fields read from the node, the result
and its flags as they are, whether it succeeds or fails. -/
theorem readKey_frame (env : EncEnv) (encCtx : xmlSecEncCtx) (t : xmlSecTransform) :
    (xmlSecEncCtxEncDataNodeReadKey env encCtx t).2.sameOutsideResolve encCtx := by
  unfold xmlSecEncCtxEncDataNodeReadKey
  dsimp only
  split
  · exact ⟨rfl, rfl, rfl, rfl, rfl, rfl, rfl, rfl, rfl, rfl, rfl, rfl, rfl, rfl, rfl⟩
  · rename_i keyReq _
    have hg := readGetKey_frame env
      { encCtx with
        encMethod := some { t with encode := encCtx.encrypt }
        keyInfoReadCtx := { encCtx.keyInfoReadCtx with keyReq := keyReq } }
    split
    · exact hg
    · split
      · exact hg
      · split
        · exact hg
        · have hb := readBase64_frame env
            { xmlSecEncCtxEncDataNodeReadGetKey env
                { encCtx with
                  encMethod := some { t with encode := encCtx.encrypt }
                  keyInfoReadCtx := { encCtx.keyInfoReadCtx with keyReq := keyReq } } with
              encMethod := some { t with encode := encCtx.encrypt, key := some ‹xmlSecKey› } }
          obtain ⟨a1, a2, a3, a4, a5, a6, a7, a8, a9, a10, a11, a12, a13, a14, a15⟩ := hb
          obtain ⟨b1, b2, b3, b4, b5, b6, b7, b8, b9, b10, b11, b12, b13, b14, b15⟩ := hg
          exact ⟨a1.trans b1, a2.trans b2, a3.trans b3, a4.trans b4, a5.trans b5, a6.trans b6,
            a7.trans b7, a8.trans b8, a9.trans b9, a10.trans b10, a11.trans b11, a12.trans b12,
            a13.trans b13, a14.trans b14, a15.trans b15⟩

/-- Shared: the second part of TemplateRead leaves the fields read from the node, the result
and its flags as they are, whether it succeeds or fails. -/
theorem readResolve_frame (env : EncEnv) (encCtx : xmlSecEncCtx) :
    (xmlSecEncCtxEncDataNodeReadResolve env encCtx).2.sameOutsideResolve encCtx := by
  unfold xmlSecEncCtxEncDataNodeReadResolve
  split
  · split
    · exact ⟨rfl, rfl, rfl, rfl, rfl, rfl, rfl, rfl, rfl, rfl, rfl, rfl, rfl, rfl, rfl⟩
    · exact readKey_frame env _ _
  · split
    · exact readKey_frame env _ _
    · exact ⟨rfl, rfl, rfl, rfl, rfl, rfl, rfl, rfl, rfl, rfl, rfl, rfl, rfl, rfl, rfl⟩
  · exact ⟨rfl, rfl, rfl, rfl, rfl, rfl, rfl, rfl, rfl, rfl, rfl, rfl, rfl, rfl, rfl⟩

/-- Shared: TemplateRead leaves the mode, the direction, the write context of KeyInfo, the
result, `resultReplaced` and the allowed URI types as they are, whether it succeeds or
fails. -/
theorem templateRead_frame (env : EncEnv) (encCtx : xmlSecEncCtx) (node : xmlNodePtr) :
    (xmlSecEncCtxEncDataNodeRead env encCtx node).2.mode = encCtx.mode ∧
    (xmlSecEncCtxEncDataNodeRead env encCtx node).2.encrypt = encCtx.encrypt ∧
    (xmlSecEncCtxEncDataNodeRead env encCtx node).2.keyInfoWriteCtx = encCtx.keyInfoWriteCtx ∧
    (xmlSecEncCtxEncDataNodeRead env encCtx node).2.result = encCtx.result ∧
    (xmlSecEncCtxEncDataNodeRead env encCtx node).2.resultReplaced = encCtx.resultReplaced ∧
    (xmlSecEncCtxEncDataNodeRead env encCtx node).2.allowedCipherReferenceUris =
      encCtx.allowedCipherReferenceUris := by
  obtain ⟨s1, s2, _, _, _, s6, _, s8, _, s10, s11⟩ := readStructure_frame env encCtx node
  unfold xmlSecEncCtxEncDataNodeRead
  split
  · rename_i reason subject mid hs
    rw [hs] at s1 s2 s6 s8 s10 s11
    exact ⟨s1, s2, s6, s8, s10, s11⟩
  · rename_i mid hs
    rw [hs] at s1 s2 s6 s8 s10 s11
    obtain ⟨r1, r2, _, _, _, _, _, _, r9, r10, r11, r12, _⟩ := readResolve_frame env mid
    exact ⟨r1.trans s1, r2.trans s2, r9.trans s6, r10.trans s8, r11.trans s10, r12.trans s11⟩

/-- Shared: after a successful TemplateRead the context holds the `Type` attribute of the
node, and the chain of the pipeline is not empty. -/
theorem templateRead_ok_type (env : EncEnv) (encCtx after : xmlSecEncCtx) (node : xmlNodePtr)
    (h : xmlSecEncCtxEncDataNodeRead env encCtx node = (xmlSecResult.ok (), after)) :
    after.type = xmlGetProp node.node xmlSecAttrType ∧
    after.encTransformCtx.chain.isEmpty = false := by
  obtain ⟨mid, hstruct, hres⟩ := encDataNodeRead_ok_inv env encCtx after node h
  have ht := readStructure_type env encCtx mid node hstruct
  obtain ⟨_, _, _, r4, _⟩ := readResolve_frame env mid
  rw [hres] at r4
  obtain ⟨t, accepted, key, _, _, _, _, hafter⟩ := readResolve_ok_eq env mid after hres
  refine ⟨r4.trans ht, ?_⟩
  rw [hafter]
  simp

/-- Shared: TemplateWrite writes no field of the context but `resultReplaced`. -/
theorem encDataNodeWrite_ctx (env : EncEnv) (encCtx : xmlSecEncCtx) (tmpl : xmlNode) :
    (xmlSecEncCtxEncDataNodeWrite env encCtx tmpl).2.1 =
      { encCtx with
        resultReplaced := (xmlSecEncCtxEncDataNodeWrite env encCtx tmpl).2.1.resultReplaced } := by
  have hki : ∀ (c : xmlSecEncCtx) (k : xmlSecKey) (t : xmlNode),
      (xmlSecEncCtxEncDataNodeWriteKeyInfo env c k t).2.1 = c := by
    intro c k t
    unfold xmlSecEncCtxEncDataNodeWriteKeyInfo
    split
    · split <;> rfl
    · rfl
  unfold xmlSecEncCtxEncDataNodeWrite
  split
  · rfl
  · rfl
  · split
    · split
      · rfl
      · rw [hki]
    · rw [hki]

/-- Shared: the final swap of `xmlSecEncCtxXmlEncrypt` succeeds for the two values of `Type`
only, and then sets `resultReplaced` and substitutes the template. -/
theorem xmlEncryptReplace_ok (env : EncEnv) (encCtx : xmlSecEncCtx) (written : xmlNode)
    (h : (xmlSecEncCtxXmlEncryptReplace env encCtx written).ret = xmlSecResult.ok ()) :
    (encCtx.type = some xmlSecTypeEncElement ∨ encCtx.type = some xmlSecTypeEncContent) ∧
    (xmlSecEncCtxXmlEncryptReplace env encCtx written).ctx.type = encCtx.type ∧
    (xmlSecEncCtxXmlEncryptReplace env encCtx written).ctx.resultReplaced = true ∧
    (xmlSecEncCtxXmlEncryptReplace env encCtx written).dom =
      [if encCtx.type = some xmlSecTypeEncElement then DomOp.replaceNode written
        else DomOp.replaceContent written] := by
  have key : ∀ out : EncOutcome Unit, xmlSecEncCtxXmlEncryptReplace env encCtx written = out →
      out.ret = xmlSecResult.ok () →
      (encCtx.type = some xmlSecTypeEncElement ∨ encCtx.type = some xmlSecTypeEncContent) ∧
      out.ctx.type = encCtx.type ∧ out.ctx.resultReplaced = true ∧
      out.dom = [if encCtx.type = some xmlSecTypeEncElement then DomOp.replaceNode written
        else DomOp.replaceContent written] := by
    intro out hout hok
    unfold xmlSecEncCtxXmlEncryptReplace at hout
    split at hout
    · rename_i he
      have he2 : encCtx.type = some xmlSecTypeEncElement := of_decide_eq_true he
      split at hout
      · subst hout
        cases hok
      · subst hout
        exact ⟨Or.inl he2, rfl, rfl, by rw [if_pos he2]⟩
    · rename_i he
      have he2 : ¬ encCtx.type = some xmlSecTypeEncElement := fun h => he (decide_eq_true h)
      split at hout
      · rename_i hc
        have hc2 : encCtx.type = some xmlSecTypeEncContent := of_decide_eq_true hc
        split at hout
        · subst hout
          cases hok
        · subst hout
          exact ⟨Or.inr hc2, rfl, rfl, by rw [if_neg he2]⟩
      · subst hout
        cases hok
  exact key _ rfl h

/-- Shared: the part of `xmlSecEncCtxXmlEncrypt` from TemplateWrite on succeeds for the two
values of `Type` only, and then sets `resultReplaced`. -/
theorem xmlEncryptWrite_ok (env : EncEnv) (encCtx : xmlSecEncCtx) (tmplNode : xmlNode)
    (h : (xmlSecEncCtxXmlEncryptWrite env encCtx tmplNode).ret = xmlSecResult.ok ()) :
    (encCtx.type = some xmlSecTypeEncElement ∨ encCtx.type = some xmlSecTypeEncContent) ∧
    (xmlSecEncCtxXmlEncryptWrite env encCtx tmplNode).ctx.type = encCtx.type ∧
    (xmlSecEncCtxXmlEncryptWrite env encCtx tmplNode).ctx.resultReplaced = true ∧
    (xmlSecEncCtxXmlEncryptWrite env encCtx tmplNode).dom.length = 1 := by
  have key : ∀ out : EncOutcome Unit, xmlSecEncCtxXmlEncryptWrite env encCtx tmplNode = out →
      out.ret = xmlSecResult.ok () →
      (encCtx.type = some xmlSecTypeEncElement ∨ encCtx.type = some xmlSecTypeEncContent) ∧
      out.ctx.type = encCtx.type ∧ out.ctx.resultReplaced = true ∧ out.dom.length = 1 := by
    intro out hout hok
    unfold xmlSecEncCtxXmlEncryptWrite at hout
    dsimp only at hout
    split at hout
    · subst hout
      cases hok
    · split at hout
      · subst hout
        cases hok
      · subst hout
        obtain ⟨h1, h2, h3, h4⟩ := xmlEncryptReplace_ok env _ _ hok
        have hw : (xmlSecEncCtxEncDataNodeWrite env
            { encCtx with result := encCtx.encTransformCtx.result } tmplNode).2.1.type =
            encCtx.type := by
          rw [encDataNodeWrite_ctx]
        rw [hw] at h1 h2
        refine ⟨h1, h2, h3, ?_⟩
        rw [h4]
        rfl
  exact key _ rfl h

/-- C16. `xmlSecEncCtxXmlEncrypt` on a template whose `Type` attribute is absent or is
neither `...#Element` nor `...#Content` fails, and TemplateWrite is not reached: the template
is handed back as it was, nothing is substituted for the source node, and `result` and
`resultReplaced` are as before the call.  The failure is `INVALID_TYPE` whenever the call
gets as far as the source node, that is when the precondition holds, TemplateRead succeeds,
and the pipeline is prepared and gives an output buffer.  When the call succeeds, `Type` is
one of the two values, and `resultReplaced` is `1`. -/
theorem xmlEncrypt_type (env : EncEnv) (encCtx : xmlSecEncCtx) (tmpl source : xmlNode)
    (doc : xmlDoc) :
    ((xmlGetProp tmpl xmlSecAttrType ≠ some xmlSecTypeEncElement ∧
        xmlGetProp tmpl xmlSecAttrType ≠ some xmlSecTypeEncContent) →
      (xmlSecEncCtxXmlEncrypt env encCtx (some tmpl) (some source) (some doc)).ret.failed = true ∧
      (xmlSecEncCtxXmlEncrypt env encCtx (some tmpl) (some source) (some doc)).tmpl = some tmpl ∧
      (xmlSecEncCtxXmlEncrypt env encCtx (some tmpl) (some source) (some doc)).dom = [] ∧
      (xmlSecEncCtxXmlEncrypt env encCtx (some tmpl) (some source) (some doc)).ctx.result =
        encCtx.result ∧
      (xmlSecEncCtxXmlEncrypt env encCtx (some tmpl) (some source) (some doc)).ctx.resultReplaced =
        encCtx.resultReplaced ∧
      (encCtx.result = none →
        (xmlSecEncCtxEncDataNodeRead env { encCtx with encrypt := true }
          { path := [], node := tmpl }).1 = xmlSecResult.ok () →
        env.xmlSecTransformCtxPrepareOk = true →
        env.xmlSecTransformCreateOutputBufferOk = true →
        (xmlSecEncCtxXmlEncrypt env encCtx (some tmpl) (some source) (some doc)).ret =
          xmlSecResult.fail xmlSecErrorReason.INVALID_TYPE "type")) ∧
    ((xmlSecEncCtxXmlEncrypt env encCtx (some tmpl) (some source) (some doc)).ret =
        xmlSecResult.ok () →
      (xmlGetProp tmpl xmlSecAttrType = some xmlSecTypeEncElement ∨
        xmlGetProp tmpl xmlSecAttrType = some xmlSecTypeEncContent) ∧
      (xmlSecEncCtxXmlEncrypt env encCtx (some tmpl) (some source) (some doc)).ctx.type =
        xmlGetProp tmpl xmlSecAttrType ∧
      (xmlSecEncCtxXmlEncrypt env encCtx (some tmpl) (some source) (some doc)).ctx.resultReplaced =
        true ∧
      (xmlSecEncCtxXmlEncrypt env encCtx (some tmpl) (some source) (some doc)).dom.length = 1) := by
  have hframe := templateRead_frame env { encCtx with encrypt := true }
    { path := [], node := tmpl }
  have key : ∀ out : EncOutcome Unit,
      xmlSecEncCtxXmlEncrypt env encCtx (some tmpl) (some source) (some doc) = out →
      ((xmlGetProp tmpl xmlSecAttrType ≠ some xmlSecTypeEncElement ∧
          xmlGetProp tmpl xmlSecAttrType ≠ some xmlSecTypeEncContent) →
        out.ret.failed = true ∧ out.tmpl = some tmpl ∧ out.dom = [] ∧
        out.ctx.result = encCtx.result ∧ out.ctx.resultReplaced = encCtx.resultReplaced ∧
        (encCtx.result = none →
          (xmlSecEncCtxEncDataNodeRead env { encCtx with encrypt := true }
            { path := [], node := tmpl }).1 = xmlSecResult.ok () →
          env.xmlSecTransformCtxPrepareOk = true →
          env.xmlSecTransformCreateOutputBufferOk = true →
          out.ret = xmlSecResult.fail xmlSecErrorReason.INVALID_TYPE "type")) ∧
      (out.ret = xmlSecResult.ok () →
        (xmlGetProp tmpl xmlSecAttrType = some xmlSecTypeEncElement ∨
          xmlGetProp tmpl xmlSecAttrType = some xmlSecTypeEncContent) ∧
        out.ctx.type = xmlGetProp tmpl xmlSecAttrType ∧ out.ctx.resultReplaced = true ∧
        out.dom.length = 1) := by
    intro out hout
    unfold xmlSecEncCtxXmlEncrypt at hout
    split at hout
    · rename_i hres
      subst hout
      refine ⟨fun _ => ⟨rfl, rfl, rfl, rfl, rfl, fun hn => ?_⟩, fun h => by cases h⟩
      rw [hn] at hres
      cases hres
    · dsimp only at hout
      split at hout
      · rename_i reason subject read hread
        rw [hread] at hframe
        obtain ⟨_, _, _, f4, f5, _⟩ := hframe
        subst hout
        refine ⟨fun _ => ⟨rfl, rfl, rfl, f4, f5, fun _ hok => ?_⟩, fun h => by cases h⟩
        rw [hread] at hok
        cases hok
      · rename_i read hread
        obtain ⟨htype, hchain⟩ := templateRead_ok_type env _ read _ hread
        rw [hread] at hframe
        obtain ⟨_, _, _, f4, f5, _⟩ := hframe
        change read.result = encCtx.result at f4
        change read.resultReplaced = encCtx.resultReplaced at f5
        change read.type = xmlGetProp tmpl xmlSecAttrType at htype
        split at hout
        · rename_i hprep
          subst hout
          refine ⟨fun _ => ⟨rfl, rfl, rfl, f4, f5, fun _ _ hp => ?_⟩, fun h => by cases h⟩
          rw [hp] at hprep
          cases hprep
        · split at hout
          · rename_i hempty
            rw [hchain] at hempty
            cases hempty
          · split at hout
            · rename_i hbuf
              subst hout
              refine ⟨fun _ => ⟨rfl, rfl, rfl, f4, f5, fun _ _ _ hb => ?_⟩, fun h => by cases h⟩
              rw [hb] at hbuf
              cases hbuf
            · split at hout
              · rename_i he
                have he2 : xmlGetProp tmpl xmlSecAttrType = some xmlSecTypeEncElement := by
                  rw [← htype]
                  exact of_decide_eq_true he
                subst hout
                refine ⟨fun hbad => absurd he2 hbad.1, fun hok => ?_⟩
                obtain ⟨_, h2, h3, h4⟩ := xmlEncryptWrite_ok env _ _ hok
                exact ⟨Or.inl he2, h2.trans htype, h3, h4⟩
              · split at hout
                · rename_i hc
                  have hc2 : xmlGetProp tmpl xmlSecAttrType = some xmlSecTypeEncContent := by
                    rw [← htype]
                    exact of_decide_eq_true hc
                  subst hout
                  refine ⟨fun hbad => absurd hc2 hbad.2, fun hok => ?_⟩
                  obtain ⟨_, h2, h3, h4⟩ := xmlEncryptWrite_ok env _ _ hok
                  exact ⟨Or.inr hc2, h2.trans htype, h3, h4⟩
                · subst hout
                  exact ⟨fun _ => ⟨rfl, rfl, rfl, f4, f5, fun _ _ _ _ => rfl⟩,
                    fun h => by cases h⟩
  exact key _ rfl

/-- C16, at a concrete input: the sample template has no `Type` attribute; the call fails with
`INVALID_TYPE` and hands the template back as it was.  With `Type` set to `...#Element` the
call succeeds and `resultReplaced` is `1`. -/
theorem xmlEncrypt_type_witness :
    (xmlSecEncCtxXmlEncrypt sampleEncEnv
      (freshEncCtx sampleEncEnv xmlEncCtxMode.xmlEncCtxModeEncryptedData none
        (some (sampleKey "k" 3)))
      (some sampleTemplate) (some (encElement "Plain" [xmlNode.text [1, 2]]))
      (some { children := [] })).ret =
        xmlSecResult.fail xmlSecErrorReason.INVALID_TYPE "type" ∧
    (xmlSecEncCtxXmlEncrypt sampleEncEnv
      (freshEncCtx sampleEncEnv xmlEncCtxMode.xmlEncCtxModeEncryptedData none
        (some (sampleKey "k" 3)))
      (some sampleTemplate) (some (encElement "Plain" [xmlNode.text [1, 2]]))
      (some { children := [] })).tmpl = some sampleTemplate ∧
    (xmlSecEncCtxXmlEncrypt sampleEncEnv
      (freshEncCtx sampleEncEnv xmlEncCtxMode.xmlEncCtxModeEncryptedData none
        (some (sampleKey "k" 3)))
      (some (sampleTypedTemplate xmlSecTypeEncElement))
      (some (encElement "Plain" [xmlNode.text [1, 2]]))
      (some { children := [] })).ctx.resultReplaced = true :=
  ⟨((xmlEncrypt_type sampleEncEnv
      (freshEncCtx sampleEncEnv xmlEncCtxMode.xmlEncCtxModeEncryptedData none
        (some (sampleKey "k" 3)))
      sampleTemplate (encElement "Plain" [xmlNode.text [1, 2]]) { children := [] }).1
      ⟨by decide, by decide⟩).2.2.2.2.2 rfl (by decide) rfl rfl,
   ((xmlEncrypt_type sampleEncEnv
      (freshEncCtx sampleEncEnv xmlEncCtxMode.xmlEncCtxModeEncryptedData none
        (some (sampleKey "k" 3)))
      sampleTemplate (encElement "Plain" [xmlNode.text [1, 2]]) { children := [] }).1
      ⟨by decide, by decide⟩).2.1,
   ((xmlEncrypt_type sampleEncEnv
      (freshEncCtx sampleEncEnv xmlEncCtxMode.xmlEncCtxModeEncryptedData none
        (some (sampleKey "k" 3)))
      (sampleTypedTemplate xmlSecTypeEncElement) (encElement "Plain" [xmlNode.text [1, 2]])
      { children := [] }).2 (by decide)).2.2.1⟩

/-! ### The substitution `xmlSecEncCtxDecrypt` ends with -/

/-- Shared: after a successful `xmlSecEncCtxDecryptToBuffer` the context holds the `Type`
attribute of the node and the buffer returned, and `resultReplaced` is as before. -/
theorem decryptToBuffer_ok_fields (env : EncEnv) (encCtx : xmlSecEncCtx) (node : xmlNode)
    (buffer : Bytes)
    (h : (xmlSecEncCtxDecryptToBuffer env encCtx (some node)).ret = xmlSecResult.ok buffer) :
    (xmlSecEncCtxDecryptToBuffer env encCtx (some node)).ctx.type =
      xmlGetProp node xmlSecAttrType ∧
    (xmlSecEncCtxDecryptToBuffer env encCtx (some node)).ctx.resultReplaced =
      encCtx.resultReplaced ∧
    (xmlSecEncCtxDecryptToBuffer env encCtx (some node)).ctx.result = some buffer := by
  have hframe := templateRead_frame env { encCtx with encrypt := false }
    { path := [], node := node }
  have key : ∀ out : EncOutcome Bytes,
      xmlSecEncCtxDecryptToBuffer env encCtx (some node) = out →
      out.ret = xmlSecResult.ok buffer →
      out.ctx.type = xmlGetProp node xmlSecAttrType ∧
      out.ctx.resultReplaced = encCtx.resultReplaced ∧ out.ctx.result = some buffer := by
    intro out hout hok
    unfold xmlSecEncCtxDecryptToBuffer at hout
    split at hout
    · subst hout
      cases hok
    · try dsimp only at hout
      split at hout
      · subst hout
        cases hok
      · rename_i read hread
        obtain ⟨htype, _⟩ := templateRead_ok_type env _ read _ hread
        rw [hread] at hframe
        obtain ⟨_, _, _, _, f5, _⟩ := hframe
        split at hout
        · subst hout
          cases hok
        · try dsimp only at hout
          split at hout
          · subst hout
            cases hok
          · rename_i hres
            subst hout
            cases hok
            exact ⟨htype, f5, hres⟩
  exact key _ rfl h

/-- C17. For every successful `xmlSecEncCtxDecrypt` call on a context whose `resultReplaced`
is `0`, as `xmlSecEncCtxInitialize` leaves it: `xmlSecEncCtxDecryptToBuffer` returned a
buffer, and the context holds the `Type` attribute of the node.  When `Type` is `...#Element`
or `...#Content` the buffer is substituted for the encrypted node with
`xmlSecReplaceNodeBuffer`, the same call for the two values, and `resultReplaced` is `1`;
for any other or absent `Type` nothing is substituted and `resultReplaced` is `0`. -/
theorem decrypt_substitution (env : EncEnv) (encCtx : xmlSecEncCtx) (node : xmlNode)
    (hinit : encCtx.resultReplaced = false)
    (hok : (xmlSecEncCtxDecrypt env encCtx (some node)).ret = xmlSecResult.ok ()) :
    ∃ buffer : Bytes,
      (xmlSecEncCtxDecryptToBuffer env encCtx (some node)).ret = xmlSecResult.ok buffer ∧
      (xmlSecEncCtxDecrypt env encCtx (some node)).ctx.result = some buffer ∧
      (xmlSecEncCtxDecrypt env encCtx (some node)).ctx.type = xmlGetProp node xmlSecAttrType ∧
      ((xmlGetProp node xmlSecAttrType = some xmlSecTypeEncElement ∨
          xmlGetProp node xmlSecAttrType = some xmlSecTypeEncContent) →
        env.xmlSecReplaceNodeBufferOk buffer = true ∧
        (xmlSecEncCtxDecrypt env encCtx (some node)).dom = [DomOp.replaceNodeBuffer buffer] ∧
        (xmlSecEncCtxDecrypt env encCtx (some node)).ctx.resultReplaced = true) ∧
      (¬ (xmlGetProp node xmlSecAttrType = some xmlSecTypeEncElement ∨
          xmlGetProp node xmlSecAttrType = some xmlSecTypeEncContent) →
        (xmlSecEncCtxDecrypt env encCtx (some node)).dom = [] ∧
        (xmlSecEncCtxDecrypt env encCtx (some node)).ctx.resultReplaced = false) := by
  have key : ∀ out : EncOutcome Unit, xmlSecEncCtxDecrypt env encCtx (some node) = out →
      out.ret = xmlSecResult.ok () →
      ∃ buffer : Bytes,
        (xmlSecEncCtxDecryptToBuffer env encCtx (some node)).ret = xmlSecResult.ok buffer ∧
        out.ctx.result = some buffer ∧
        out.ctx.type = xmlGetProp node xmlSecAttrType ∧
        ((xmlGetProp node xmlSecAttrType = some xmlSecTypeEncElement ∨
            xmlGetProp node xmlSecAttrType = some xmlSecTypeEncContent) →
          env.xmlSecReplaceNodeBufferOk buffer = true ∧
          out.dom = [DomOp.replaceNodeBuffer buffer] ∧ out.ctx.resultReplaced = true) ∧
        (¬ (xmlGetProp node xmlSecAttrType = some xmlSecTypeEncElement ∨
            xmlGetProp node xmlSecAttrType = some xmlSecTypeEncContent) →
          out.dom = [] ∧ out.ctx.resultReplaced = false) := by
    intro out hout hret
    unfold xmlSecEncCtxDecrypt at hout
    dsimp only at hout
    split at hout
    · subst hout
      cases hret
    · rename_i buffer hbuf
      obtain ⟨htype, hrep, hres⟩ := decryptToBuffer_ok_fields env encCtx node buffer hbuf
      rw [hinit] at hrep
      refine ⟨buffer, hbuf, ?_⟩
      unfold xmlSecEncCtxDecryptReplace at hout
      split at hout
      · rename_i he
        have he2 : xmlGetProp node xmlSecAttrType = some xmlSecTypeEncElement := by
          rw [← htype]
          exact of_decide_eq_true he
        split at hout
        · subst hout
          cases hret
        · rename_i hbufok
          subst hout
          refine ⟨hres, htype, fun _ => ⟨?_, rfl, rfl⟩, fun hn => absurd (Or.inl he2) hn⟩
          cases hb : env.xmlSecReplaceNodeBufferOk buffer with
          | true => rfl
          | false => simp [hb] at hbufok
      · rename_i he
        have he2 : ¬ xmlGetProp node xmlSecAttrType = some xmlSecTypeEncElement := by
          rw [← htype]
          exact fun h => he (decide_eq_true h)
        split at hout
        · rename_i hc
          have hc2 : xmlGetProp node xmlSecAttrType = some xmlSecTypeEncContent := by
            rw [← htype]
            exact of_decide_eq_true hc
          split at hout
          · subst hout
            cases hret
          · rename_i hbufok
            subst hout
            refine ⟨hres, htype, fun _ => ⟨?_, rfl, rfl⟩, fun hn => absurd (Or.inr hc2) hn⟩
            cases hb : env.xmlSecReplaceNodeBufferOk buffer with
            | true => rfl
            | false => simp [hb] at hbufok
        · rename_i hc
          have hc2 : ¬ xmlGetProp node xmlSecAttrType = some xmlSecTypeEncContent := by
            rw [← htype]
            exact fun h => hc (decide_eq_true h)
          subst hout
          refine ⟨hres, htype, fun hg => ?_, fun _ => ⟨rfl, hrep⟩⟩
          rcases hg with hg | hg
          · exact absurd hg he2
          · exact absurd hg hc2
  exact key _ rfl hok

/-- C17, at a concrete input: the sample encrypted node with `Type="...#Element"` is
decrypted; the buffer is substituted for the node and `resultReplaced` is `1`. -/
theorem decrypt_substitution_witness :
    ∃ buffer : Bytes,
      (xmlSecEncCtxDecrypt sampleEncEnv
        (freshEncCtx sampleEncEnv xmlEncCtxMode.xmlEncCtxModeEncryptedData none
          (some (sampleKey "k" 3)))
        (some (sampleEncryptedNode [("Type", xmlSecTypeEncElement)]))).ctx.result =
          some buffer ∧
      (xmlSecEncCtxDecrypt sampleEncEnv
        (freshEncCtx sampleEncEnv xmlEncCtxMode.xmlEncCtxModeEncryptedData none
          (some (sampleKey "k" 3)))
        (some (sampleEncryptedNode [("Type", xmlSecTypeEncElement)]))).dom =
          [DomOp.replaceNodeBuffer buffer] ∧
      (xmlSecEncCtxDecrypt sampleEncEnv
        (freshEncCtx sampleEncEnv xmlEncCtxMode.xmlEncCtxModeEncryptedData none
          (some (sampleKey "k" 3)))
        (some (sampleEncryptedNode [("Type", xmlSecTypeEncElement)]))).ctx.resultReplaced =
          true := by
  obtain ⟨buffer, _, h2, _, h4, _⟩ := decrypt_substitution sampleEncEnv
    (freshEncCtx sampleEncEnv xmlEncCtxMode.xmlEncCtxModeEncryptedData none
      (some (sampleKey "k" 3)))
    (sampleEncryptedNode [("Type", xmlSecTypeEncElement)]) rfl (by decide)
  exact ⟨buffer, h2, (h4 (Or.inl (by decide))).2.1, (h4 (Or.inl (by decide))).2.2⟩

/-! ### TemplateWrite -/

/-- Shared: the end of TemplateWrite.  Without a `KeyInfo` node it succeeds and leaves the
template; with one, it succeeds exactly when the KeyInfo writer, called on that node with the
key and `keyInfoWriteCtx`, does, and the node then has the children the writer leaves. -/
theorem encDataNodeWriteKeyInfo_cases (env : EncEnv) (encCtx : xmlSecEncCtx) (key : xmlSecKey)
    (tmpl : xmlNode) :
    (encCtx.keyInfoNode = none →
      (xmlSecEncCtxEncDataNodeWriteKeyInfo env encCtx key tmpl).1 = xmlSecResult.ok () ∧
      (xmlSecEncCtxEncDataNodeWriteKeyInfo env encCtx key tmpl).2.2 = tmpl) ∧
    (∀ keyInfo : xmlNodePtr, encCtx.keyInfoNode = some keyInfo →
      (env.xmlSecKeyInfoNodeWrite keyInfo.node key encCtx.keyInfoWriteCtx = none →
        (xmlSecEncCtxEncDataNodeWriteKeyInfo env encCtx key tmpl).1 =
          xmlSecResult.fail xmlSecErrorReason.XMLSEC_FAILED "xmlSecKeyInfoNodeWrite" ∧
        (xmlSecEncCtxEncDataNodeWriteKeyInfo env encCtx key tmpl).2.2 = tmpl) ∧
      (∀ written : List xmlNode,
        env.xmlSecKeyInfoNodeWrite keyInfo.node key encCtx.keyInfoWriteCtx = some written →
        (xmlSecEncCtxEncDataNodeWriteKeyInfo env encCtx key tmpl).1 = xmlSecResult.ok () ∧
        (xmlSecEncCtxEncDataNodeWriteKeyInfo env encCtx key tmpl).2.2 =
          updateAt (fun n => n.setChildren written) keyInfo.path tmpl)) := by
  unfold xmlSecEncCtxEncDataNodeWriteKeyInfo
  cases hk : encCtx.keyInfoNode with
  | none =>
    refine ⟨fun _ => ⟨rfl, rfl⟩, fun keyInfo h => (by cases h)⟩
  | some ki =>
    refine ⟨fun h => (by cases h), fun keyInfo h => ?_⟩
    cases h
    dsimp only
    cases hw : env.xmlSecKeyInfoNodeWrite ki.node key encCtx.keyInfoWriteCtx with
    | none => exact ⟨fun _ => ⟨rfl, rfl⟩, fun written h => (by cases h)⟩
    | some w =>
      refine ⟨fun h => (by cases h), fun written h => ?_⟩
      cases h
      exact ⟨rfl, rfl⟩

/-- C18. TemplateWrite, on a context that holds a result whose data is not `NULL` and a key.
If `cipherValueNode` is not `NULL`, the content of that node is set to exactly the octets of
`result`, and `resultReplaced` becomes `1`; if it is `NULL`, the text of the template is
untouched and `resultReplaced` is unchanged.  The KeyInfo writer is called, on `keyInfoNode`
with the key and `keyInfoWriteCtx`, exactly when `keyInfoNode` is not `NULL`: without the
node the call succeeds whatever the writer would do and leaves the template at that; with it
the call succeeds exactly when the writer does, and the node gets the children the writer
leaves. -/
theorem templateWrite_effect (env : EncEnv) (encCtx : xmlSecEncCtx) (tmpl : xmlNode)
    (result : Bytes) (key : xmlSecKey)
    (hres : encCtx.result = some result) (hkey : encCtx.encKey = some key)
    (hdata : env.xmlSecBufferDataNull result = false) :
    ∃ withCipherValue : xmlNode,
      (∀ cipherValue : xmlNodePtr, encCtx.cipherValueNode = some cipherValue →
        withCipherValue =
          updateAt (fun n => n.setChildren [xmlNode.text result]) cipherValue.path tmpl ∧
        (xmlSecEncCtxEncDataNodeWrite env encCtx tmpl).2.1.resultReplaced = true) ∧
      (encCtx.cipherValueNode = none →
        withCipherValue = tmpl ∧
        (xmlSecEncCtxEncDataNodeWrite env encCtx tmpl).2.1.resultReplaced =
          encCtx.resultReplaced) ∧
      (encCtx.keyInfoNode = none →
        (xmlSecEncCtxEncDataNodeWrite env encCtx tmpl).1 = xmlSecResult.ok () ∧
        (xmlSecEncCtxEncDataNodeWrite env encCtx tmpl).2.2 = withCipherValue) ∧
      (∀ keyInfo : xmlNodePtr, encCtx.keyInfoNode = some keyInfo →
        (env.xmlSecKeyInfoNodeWrite keyInfo.node key encCtx.keyInfoWriteCtx = none →
          (xmlSecEncCtxEncDataNodeWrite env encCtx tmpl).1 =
            xmlSecResult.fail xmlSecErrorReason.XMLSEC_FAILED "xmlSecKeyInfoNodeWrite" ∧
          (xmlSecEncCtxEncDataNodeWrite env encCtx tmpl).2.2 = withCipherValue) ∧
        (∀ written : List xmlNode,
          env.xmlSecKeyInfoNodeWrite keyInfo.node key encCtx.keyInfoWriteCtx = some written →
          (xmlSecEncCtxEncDataNodeWrite env encCtx tmpl).1 = xmlSecResult.ok () ∧
          (xmlSecEncCtxEncDataNodeWrite env encCtx tmpl).2.2 =
            updateAt (fun n => n.setChildren written) keyInfo.path withCipherValue)) := by
  have hki : ∀ (c : xmlSecEncCtx) (k : xmlSecKey) (t : xmlNode),
      (xmlSecEncCtxEncDataNodeWriteKeyInfo env c k t).2.1 = c := by
    intro c k t
    unfold xmlSecEncCtxEncDataNodeWriteKeyInfo
    split
    · split <;> rfl
    · rfl
  have htake : List.take result.length result = result := List.take_length result
  cases hcv : encCtx.cipherValueNode with
  | none =>
    have hw : xmlSecEncCtxEncDataNodeWrite env encCtx tmpl =
        xmlSecEncCtxEncDataNodeWriteKeyInfo env encCtx key tmpl := by
      unfold xmlSecEncCtxEncDataNodeWrite
      rw [hres, hkey]
      dsimp only
      rw [hcv]
    rw [hw]
    obtain ⟨k1, k2⟩ := encDataNodeWriteKeyInfo_cases env encCtx key tmpl
    refine ⟨tmpl, fun cv h => (by cases h), fun _ => ⟨rfl, ?_⟩, k1, k2⟩
    rw [hki]
  | some cv =>
    have hw : xmlSecEncCtxEncDataNodeWrite env encCtx tmpl =
        xmlSecEncCtxEncDataNodeWriteKeyInfo env { encCtx with resultReplaced := true } key
          (updateAt (fun n => n.setChildren [xmlNode.text result]) cv.path tmpl) := by
      unfold xmlSecEncCtxEncDataNodeWrite
      rw [hres, hkey]
      dsimp only
      rw [hcv]
      dsimp only
      rw [if_neg (by rw [hdata]; exact Bool.false_ne_true)]
      unfold xmlNodeSetContentLen
      rw [htake]
    rw [hw]
    obtain ⟨k1, k2⟩ := encDataNodeWriteKeyInfo_cases env { encCtx with resultReplaced := true }
      key (updateAt (fun n => n.setChildren [xmlNode.text result]) cv.path tmpl)
    refine ⟨_, fun cv2 h => ?_, fun h => (by cases h), k1, k2⟩
    cases h
    refine ⟨rfl, ?_⟩
    rw [hki]

/-- C18, at a concrete input: the context has read the sample template and holds the result
`[66, 69]`; TemplateWrite succeeds, sets `resultReplaced`, and the `CipherValue` of the
template holds these two octets. -/
theorem templateWrite_effect_witness :
    (xmlSecEncCtxEncDataNodeWrite sampleEncEnv
      { (xmlSecEncCtxEncDataNodeRead sampleEncEnv
          { freshEncCtx sampleEncEnv xmlEncCtxMode.xmlEncCtxModeEncryptedData none
              (some (sampleKey "k" 3)) with encrypt := true }
          { path := [], node := sampleTemplate }).2 with result := some [66, 69] }
      sampleTemplate).1 = xmlSecResult.ok () ∧
    (xmlSecEncCtxEncDataNodeWrite sampleEncEnv
      { (xmlSecEncCtxEncDataNodeRead sampleEncEnv
          { freshEncCtx sampleEncEnv xmlEncCtxMode.xmlEncCtxModeEncryptedData none
              (some (sampleKey "k" 3)) with encrypt := true }
          { path := [], node := sampleTemplate }).2 with result := some [66, 69] }
      sampleTemplate).2.1.resultReplaced = true ∧
    (templateCipherValue
      (xmlSecEncCtxEncDataNodeWrite sampleEncEnv
        { (xmlSecEncCtxEncDataNodeRead sampleEncEnv
            { freshEncCtx sampleEncEnv xmlEncCtxMode.xmlEncCtxModeEncryptedData none
                (some (sampleKey "k" 3)) with encrypt := true }
            { path := [], node := sampleTemplate }).2 with result := some [66, 69] }
        sampleTemplate).2.2).map (fun n => sampleText n.children) = some [66, 69] := by
  obtain ⟨withCipherValue, h1, _, _, h4⟩ := templateWrite_effect sampleEncEnv
    { (xmlSecEncCtxEncDataNodeRead sampleEncEnv
        { freshEncCtx sampleEncEnv xmlEncCtxMode.xmlEncCtxModeEncryptedData none
            (some (sampleKey "k" 3)) with encrypt := true }
        { path := [], node := sampleTemplate }).2 with result := some [66, 69] }
    sampleTemplate [66, 69] (sampleKey "k" 3) rfl (by decide) (by decide)
  exact ⟨by decide, (h1 _ rfl).2, by decide⟩

/-! ### The choice of the transform -/

/-- Shared: the base64 step of TemplateRead leaves the transform and its ownership flag, and
adds to the tail of the chain only. -/
theorem readBase64_method (env : EncEnv) (encCtx : xmlSecEncCtx) :
    (xmlSecEncCtxEncDataNodeReadBase64 env encCtx).2.encMethod = encCtx.encMethod ∧
    (xmlSecEncCtxEncDataNodeReadBase64 env encCtx).2.dontDestroyEncMethod =
      encCtx.dontDestroyEncMethod ∧
    ∃ extra : List xmlSecTransformPtr,
      (xmlSecEncCtxEncDataNodeReadBase64 env encCtx).2.encTransformCtx.chain =
        encCtx.encTransformCtx.chain ++ extra := by
  unfold xmlSecEncCtxEncDataNodeReadBase64
  split
  · split
    · exact ⟨rfl, rfl, _, rfl⟩
    · exact ⟨rfl, rfl, [], (List.append_nil _).symm⟩
  · exact ⟨rfl, rfl, [], (List.append_nil _).symm⟩

/-- Shared: whatever the key part of TemplateRead returns, `encMethod` points to the
transform it was given, with `encode` set to the `encrypt` flag of the context; the ownership
flag is as before, and the chain has grown at its tail only. -/
theorem readKey_method (env : EncEnv) (encCtx : xmlSecEncCtx) (t : xmlSecTransform) :
    (xmlSecEncCtxEncDataNodeReadKey env encCtx t).2.dontDestroyEncMethod =
      encCtx.dontDestroyEncMethod ∧
    (∃ held : xmlSecTransform,
      (xmlSecEncCtxEncDataNodeReadKey env encCtx t).2.encMethod = some held ∧
      held.id = t.id ∧ held.encode = encCtx.encrypt) ∧
    ∃ extra : List xmlSecTransformPtr,
      (xmlSecEncCtxEncDataNodeReadKey env encCtx t).2.encTransformCtx.chain =
        encCtx.encTransformCtx.chain ++ extra := by
  unfold xmlSecEncCtxEncDataNodeReadKey
  dsimp only
  split
  · exact ⟨rfl, ⟨_, rfl, rfl, rfl⟩, [], (List.append_nil _).symm⟩
  · rename_i keyReq _
    rw [readGetKey_eq]
    dsimp only
    split
    · exact ⟨rfl, ⟨_, rfl, rfl, rfl⟩, [], (List.append_nil _).symm⟩
    · split
      · exact ⟨rfl, ⟨_, rfl, rfl, rfl⟩, [], (List.append_nil _).symm⟩
      · split
        · exact ⟨rfl, ⟨_, rfl, rfl, rfl⟩, [], (List.append_nil _).symm⟩
        · rename_i key _ _ _
          obtain ⟨b1, b2, extra, b3⟩ := readBase64_method env
            { encCtx with
              encMethod := some { t with encode := encCtx.encrypt, key := some key }
              keyInfoReadCtx := { encCtx.keyInfoReadCtx with keyReq := keyReq }
              encKey := (xmlSecEncCtxEncDataNodeReadGetKey env
                { encCtx with
                  encMethod := some { t with encode := encCtx.encrypt }
                  keyInfoReadCtx := { encCtx.keyInfoReadCtx with keyReq := keyReq } }).encKey }
          exact ⟨b2, ⟨_, b1, rfl, rfl⟩, extra, b3⟩

/-- C19. Transform resolution in TemplateRead, once the structure of the node has been read
into the context `mid`, is a three-way choice.  If `encMethod` is `NULL` and an
`EncryptionMethod` node was recorded, the transform is read from that node: when the read
fails TemplateRead fails, otherwise `dontDestroyEncMethod` is set to `1`.  Otherwise, if
`encMethod` was preset, it is appended to the pipeline: when that fails TemplateRead fails,
otherwise the preset transform stays the one in use, whatever node was recorded, and
`dontDestroyEncMethod` is left unchanged.  Otherwise TemplateRead fails with `INVALID_DATA`.
In the two cases that go on, `encMethod` is in the chain of the pipeline and its `encode` is
the `encrypt` flag of the context. -/
theorem transform_resolution (env : EncEnv) (encCtx mid : xmlSecEncCtx) (node : xmlNodePtr)
    (hstruct : xmlSecEncCtxEncDataNodeReadStructure env encCtx node = (xmlSecResult.ok (), mid)) :
    (encCtx.encMethod = none → ∀ methodNode : xmlNodePtr, mid.encMethodNode = some methodNode →
      (env.xmlSecTransformCtxNodeRead methodNode.node xmlSecTransformUsageEncryptionMethod =
          none →
        (xmlSecEncCtxEncDataNodeRead env encCtx node).1 =
          xmlSecResult.fail xmlSecErrorReason.XMLSEC_FAILED "xmlSecTransformCtxNodeRead") ∧
      (∀ t : xmlSecTransform,
        env.xmlSecTransformCtxNodeRead methodNode.node xmlSecTransformUsageEncryptionMethod =
          some t →
        (xmlSecEncCtxEncDataNodeRead env encCtx node).2.dontDestroyEncMethod = true ∧
        xmlSecTransformPtr.encMethod ∈
          (xmlSecEncCtxEncDataNodeRead env encCtx node).2.encTransformCtx.chain ∧
        ∃ held : xmlSecTransform,
          (xmlSecEncCtxEncDataNodeRead env encCtx node).2.encMethod = some held ∧
          held.id = t.id ∧ held.encode = encCtx.encrypt)) ∧
    (∀ preset : xmlSecTransform, encCtx.encMethod = some preset →
      (env.xmlSecTransformCtxAppendOk preset = false →
        (xmlSecEncCtxEncDataNodeRead env encCtx node).1 =
          xmlSecResult.fail xmlSecErrorReason.XMLSEC_FAILED "xmlSecTransformCtxAppend") ∧
      (env.xmlSecTransformCtxAppendOk preset = true →
        (xmlSecEncCtxEncDataNodeRead env encCtx node).2.dontDestroyEncMethod =
          encCtx.dontDestroyEncMethod ∧
        xmlSecTransformPtr.encMethod ∈
          (xmlSecEncCtxEncDataNodeRead env encCtx node).2.encTransformCtx.chain ∧
        ∃ held : xmlSecTransform,
          (xmlSecEncCtxEncDataNodeRead env encCtx node).2.encMethod = some held ∧
          held.id = preset.id ∧ held.encode = encCtx.encrypt)) ∧
    (encCtx.encMethod = none → mid.encMethodNode = none →
      (xmlSecEncCtxEncDataNodeRead env encCtx node).1 =
        xmlSecResult.fail xmlSecErrorReason.INVALID_DATA "encryption method not specified" ∧
      (xmlSecEncCtxEncDataNodeRead env encCtx node).2.encMethod = none ∧
      (xmlSecEncCtxEncDataNodeRead env encCtx node).2.dontDestroyEncMethod =
        encCtx.dontDestroyEncMethod) := by
  obtain ⟨_, henc, hm, hd, _⟩ := readStructure_frame env encCtx node
  rw [hstruct] at henc hm hd
  change mid.encrypt = encCtx.encrypt at henc
  change mid.encMethod = encCtx.encMethod at hm
  change mid.dontDestroyEncMethod = encCtx.dontDestroyEncMethod at hd
  have hread : xmlSecEncCtxEncDataNodeRead env encCtx node =
      xmlSecEncCtxEncDataNodeReadResolve env mid := by
    unfold xmlSecEncCtxEncDataNodeRead
    rw [hstruct]
  rw [hread]
  refine ⟨fun hnone methodNode hnode => ⟨fun hfail => ?_, fun t ht => ?_⟩,
    fun preset hpreset => ⟨fun hfail => ?_, fun hok => ?_⟩, fun hnone hnode => ?_⟩
  · unfold xmlSecEncCtxEncDataNodeReadResolve
    rw [hm, hnone, hnode]
    dsimp only
    rw [hfail]
  · have hres : xmlSecEncCtxEncDataNodeReadResolve env mid =
        xmlSecEncCtxEncDataNodeReadKey env
          { mid with
            encMethod := some t
            encTransformCtx := { mid.encTransformCtx with
              chain := mid.encTransformCtx.chain ++ [xmlSecTransformPtr.encMethod] }
            dontDestroyEncMethod := true } t := by
      unfold xmlSecEncCtxEncDataNodeReadResolve
      rw [hm, hnone, hnode]
      dsimp only
      rw [ht]
    rw [hres]
    obtain ⟨k1, ⟨held, k2, k3, k4⟩, extra, k5⟩ := readKey_method env
      { mid with
        encMethod := some t
        encTransformCtx := { mid.encTransformCtx with
          chain := mid.encTransformCtx.chain ++ [xmlSecTransformPtr.encMethod] }
        dontDestroyEncMethod := true } t
    refine ⟨k1, ?_, held, k2, k3, k4.trans henc⟩
    rw [k5]
    simp
  · unfold xmlSecEncCtxEncDataNodeReadResolve
    rw [hm, hpreset]
    dsimp only
    rw [if_neg (by rw [hfail]; exact Bool.false_ne_true)]
  · have hres : xmlSecEncCtxEncDataNodeReadResolve env mid =
        xmlSecEncCtxEncDataNodeReadKey env
          { mid with
            encTransformCtx := { mid.encTransformCtx with
              chain := mid.encTransformCtx.chain ++ [xmlSecTransformPtr.encMethod] } }
          preset := by
      unfold xmlSecEncCtxEncDataNodeReadResolve
      rw [hm, hpreset]
      dsimp only
      rw [if_pos hok]
    rw [hres]
    obtain ⟨k1, ⟨held, k2, k3, k4⟩, extra, k5⟩ := readKey_method env
      { mid with
        encTransformCtx := { mid.encTransformCtx with
          chain := mid.encTransformCtx.chain ++ [xmlSecTransformPtr.encMethod] } } preset
    refine ⟨k1.trans hd, ?_, held, k2, k3, k4.trans henc⟩
    rw [k5]
    simp
  · have hres : xmlSecEncCtxEncDataNodeReadResolve env mid =
        (xmlSecResult.fail xmlSecErrorReason.INVALID_DATA "encryption method not specified",
          mid) := by
      unfold xmlSecEncCtxEncDataNodeReadResolve
      rw [hm, hnone, hnode]
    rw [hres]
    exact ⟨rfl, hm.trans hnone, hd⟩

/-- C19, at a concrete input: the sample template, with an `EncryptionMethod` node, is read
for an encryption on a context without a transform; the transform named in the node is in
use with `encode` set, and `dontDestroyEncMethod` is `1`. -/
theorem transform_resolution_witness :
    (xmlSecEncCtxEncDataNodeRead sampleEncEnv
      { freshEncCtx sampleEncEnv xmlEncCtxMode.xmlEncCtxModeEncryptedData none
          (some (sampleKey "k" 3)) with encrypt := true }
      { path := [], node := sampleTemplate }).2.dontDestroyEncMethod = true ∧
    ∃ held : xmlSecTransform,
      (xmlSecEncCtxEncDataNodeRead sampleEncEnv
        { freshEncCtx sampleEncEnv xmlEncCtxMode.xmlEncCtxModeEncryptedData none
            (some (sampleKey "k" 3)) with encrypt := true }
        { path := [], node := sampleTemplate }).2.encMethod = some held ∧
      held.id = "sample-cipher" ∧ held.encode = true := by
  obtain ⟨h1, _, _⟩ := transform_resolution sampleEncEnv
    { freshEncCtx sampleEncEnv xmlEncCtxMode.xmlEncCtxModeEncryptedData none
        (some (sampleKey "k" 3)) with encrypt := true }
    (xmlSecEncCtxEncDataNodeReadStructure sampleEncEnv
      { freshEncCtx sampleEncEnv xmlEncCtxMode.xmlEncCtxModeEncryptedData none
          (some (sampleKey "k" 3)) with encrypt := true }
      { path := [], node := sampleTemplate }).2
    { path := [], node := sampleTemplate } (Prod.ext (by decide) rfl)
  obtain ⟨a, _, held, b, c, d⟩ :=
    (h1 rfl { path := [0], node := sampleEncryptionMethod } rfl).2
      (xmlSecTransformCreate "sample-cipher") rfl
  exact ⟨a, held, b, c, d⟩

/-! ### The base64 transforms of the pipeline -/

/-- C20. After every successful TemplateRead on a context whose `resultBase64Encoded` is `0`,
as `xmlSecEncCtxInitialize` leaves it: `resultBase64Encoded` is `1` if and only if the
operation is an encryption and `cipherValueNode` is not `NULL`, and exactly in that case the
last element of the chain of the pipeline is a base64 transform with `encode = 1`, which then
comes right after the cipher transform; in the other case the cipher transform is last. -/
theorem base64_encoder_iff (env : EncEnv) (encCtx after : xmlSecEncCtx) (node : xmlNodePtr)
    (hinit : encCtx.resultBase64Encoded = false)
    (h : xmlSecEncCtxEncDataNodeRead env encCtx node = (xmlSecResult.ok (), after)) :
    (after.resultBase64Encoded = true ↔
      (encCtx.encrypt = true ∧ after.cipherValueNode.isSome = true)) ∧
    (after.encTransformCtx.chain.getLast? = some (xmlSecTransformPtr.owned base64Encoder) ↔
      (encCtx.encrypt = true ∧ after.cipherValueNode.isSome = true)) ∧
    ((encCtx.encrypt = true ∧ after.cipherValueNode.isSome = true) →
      ∃ before : List xmlSecTransformPtr,
        after.encTransformCtx.chain =
          before ++ [xmlSecTransformPtr.encMethod, xmlSecTransformPtr.owned base64Encoder]) ∧
    (¬ (encCtx.encrypt = true ∧ after.cipherValueNode.isSome = true) →
      ∃ before : List xmlSecTransformPtr,
        after.encTransformCtx.chain = before ++ [xmlSecTransformPtr.encMethod]) ∧
    base64Encoder.id = xmlSecTransformBase64Id ∧ base64Encoder.encode = true := by
  obtain ⟨mid, hstruct, hres⟩ := encDataNodeRead_ok_inv env encCtx after node h
  obtain ⟨_, henc, _, _, _, _, _, _, hb, _⟩ := readStructure_frame env encCtx node
  rw [hstruct] at henc hb
  change mid.encrypt = encCtx.encrypt at henc
  change mid.resultBase64Encoded = encCtx.resultBase64Encoded at hb
  obtain ⟨t, accepted, key, _, _, _, _, hafter⟩ := readResolve_ok_eq env mid after hres
  have hcv : after.cipherValueNode = mid.cipherValueNode := by rw [hafter]
  have hflag : after.resultBase64Encoded =
      ((mid.encrypt && mid.cipherValueNode.isSome) || mid.resultBase64Encoded) := by
    rw [hafter]
  have hchain : after.encTransformCtx.chain =
      mid.encTransformCtx.chain ++ xmlSecTransformPtr.encMethod ::
        (if (mid.encrypt && mid.cipherValueNode.isSome) = true then
          [xmlSecTransformPtr.owned base64Encoder] else []) := by
    rw [hafter]
  rw [hcv, hflag, hchain, hb, hinit, henc]
  by_cases hcond : encCtx.encrypt = true ∧ mid.cipherValueNode.isSome = true
  · have hbool : (encCtx.encrypt && mid.cipherValueNode.isSome) = true := by
      rw [hcond.1, hcond.2]
      rfl
    rw [hbool]
    refine ⟨⟨fun _ => hcond, fun _ => rfl⟩, ⟨fun _ => hcond, fun _ => ?_⟩,
      fun _ => ⟨mid.encTransformCtx.chain, ?_⟩, fun hn => absurd hcond hn, rfl, rfl⟩
    · simp
    · simp
  · have hbool : (encCtx.encrypt && mid.cipherValueNode.isSome) = false := by
      cases he : encCtx.encrypt
      · rfl
      · cases hc : mid.cipherValueNode.isSome
        · rfl
        · exact absurd ⟨he, hc⟩ hcond
    rw [hbool]
    refine ⟨⟨fun hf => ?_, fun hc => absurd hc hcond⟩, ⟨fun hl => ?_, fun hc => absurd hc hcond⟩,
      fun hc => absurd hc hcond, fun _ => ⟨mid.encTransformCtx.chain, ?_⟩, rfl, rfl⟩
    · simp at hf
    · simp at hl
    · simp

/-- C20, at a concrete input: the sample template, which has a `CipherValue`, is read for an
encryption; `resultBase64Encoded` is `1` and the base64 encoder is last in the chain. -/
theorem base64_encoder_iff_witness :
    (xmlSecEncCtxEncDataNodeRead sampleEncEnv
      { freshEncCtx sampleEncEnv xmlEncCtxMode.xmlEncCtxModeEncryptedData none
          (some (sampleKey "k" 3)) with encrypt := true }
      { path := [], node := sampleTemplate }).2.resultBase64Encoded = true ∧
    (xmlSecEncCtxEncDataNodeRead sampleEncEnv
      { freshEncCtx sampleEncEnv xmlEncCtxMode.xmlEncCtxModeEncryptedData none
          (some (sampleKey "k" 3)) with encrypt := true }
      { path := [], node := sampleTemplate }).2.encTransformCtx.chain.getLast? =
        some (xmlSecTransformPtr.owned base64Encoder) := by
  obtain ⟨h1, h2, _⟩ := base64_encoder_iff sampleEncEnv
    { freshEncCtx sampleEncEnv xmlEncCtxMode.xmlEncCtxModeEncryptedData none
        (some (sampleKey "k" 3)) with encrypt := true }
    (xmlSecEncCtxEncDataNodeRead sampleEncEnv
      { freshEncCtx sampleEncEnv xmlEncCtxMode.xmlEncCtxModeEncryptedData none
          (some (sampleKey "k" 3)) with encrypt := true }
      { path := [], node := sampleTemplate }).2
    { path := [], node := sampleTemplate } rfl (Prod.ext (by decide) rfl)
  exact ⟨h1.2 ⟨rfl, by decide⟩, h2.2 ⟨rfl, by decide⟩⟩

/-! ### What the walk does to the pipeline -/

/-- Shared: `xmlSecEncCtxCipherReferenceNodeRead` leaves `cipherValueNode` and the direction
as they are. -/
theorem cipherReferenceNodeRead_cipherValueNode (env : EncEnv) (encCtx : xmlSecEncCtx)
    (node : xmlNodePtr) :
    (xmlSecEncCtxCipherReferenceNodeRead env encCtx node).2.cipherValueNode =
      encCtx.cipherValueNode := by
  unfold xmlSecEncCtxCipherReferenceNodeRead
  dsimp only
  repeat' split
  all_goals rfl

/-- Shared: what `xmlSecEncCtxCipherDataNodeRead` does to the pipeline. -/
theorem cipherDataNodeRead_pipeline (env : EncEnv) (encCtx : xmlSecEncCtx) (node : xmlNodePtr) :
    pipelineAfterWalk encCtx (xmlSecEncCtxCipherDataNodeRead env encCtx node) := by
  have key : ∀ r : xmlSecResult Unit × xmlSecEncCtx,
      xmlSecEncCtxCipherDataNodeRead env encCtx node = r → pipelineAfterWalk encCtx r := by
    intro r hr
    unfold xmlSecEncCtxCipherDataNodeRead at hr
    dsimp only at hr
    split at hr
    · subst hr
      exact ⟨fun _ => rfl, fun h => by cases h⟩
    · rename_i hcv
      have hnone : encCtx.cipherValueNode.isSome = false := by
        cases h : encCtx.cipherValueNode.isSome
        · rfl
        · exact absurd h hcv
      split at hr
      · split at hr
        · rename_i hdec
          split at hr
          · subst hr
            exact ⟨fun _ => rfl, fun h => by cases h⟩
          · rename_i tctx hpre
            have htctx : tctx = { encCtx.encTransformCtx with
                chain := xmlSecTransformPtr.owned base64Decoder ::
                  encCtx.encTransformCtx.chain } := by
              unfold xmlSecTransformCtxCreateAndPrepend at hpre
              split at hpre
              · cases hpre
                rfl
              · cases hpre
            refine ⟨fun henc => ?_, fun _ _ _ => ?_⟩
            · rw [hdec] at henc
              cases henc
            · rw [← hr, cipherDataNodeReadEnd_snd]
              exact htctx
        · rename_i hdec
          refine ⟨fun _ => ?_, fun _ hd => absurd hd hdec⟩
          rw [← hr, cipherDataNodeReadEnd_snd]
      · have hrest : ∀ (c : xmlSecEncCtx) (cur : List xmlNode),
            c.encTransformCtx = encCtx.encTransformCtx →
            c.cipherValueNode = encCtx.cipherValueNode →
            pipelineAfterWalk encCtx (xmlSecEncCtxCipherDataNodeReadEnd c cur) := by
          intro c cur ht hc
          refine ⟨fun _ => ?_, fun _ _ hsome => ?_⟩
          · rw [cipherDataNodeReadEnd_snd]
            exact ht
          · rw [cipherDataNodeReadEnd_snd, hc, hnone] at hsome
            cases hsome
        split at hr
        · split at hr
          · rename_i hdec
            split at hr
            · rename_i n _
              have hcr := cipherReferenceNodeRead_cipherValueNode env encCtx
                { path := node.path ++ [0], node := n }
              split at hr
              · subst hr
                exact ⟨fun henc => (by rw [hdec] at henc; cases henc), fun h => (by cases h)⟩
              · rename_i u c2 heq
                rw [heq] at hcr
                refine ⟨fun henc => (by rw [hdec] at henc; cases henc), fun _ _ hsome => ?_⟩
                rw [← hr, cipherDataNodeReadEnd_snd] at hsome
                change c2.cipherValueNode = encCtx.cipherValueNode at hcr
                rw [hcr, hnone] at hsome
                cases hsome
            · rw [← hr]
              exact hrest _ _ rfl rfl
          · rw [← hr]
            exact hrest _ _ rfl rfl
        · rw [← hr]
          exact hrest _ _ rfl rfl
  exact key _ rfl

/-- Shared: a step that leaves the direction, `cipherValueNode` and the pipeline as they are
may come before the walk. -/
theorem pipelineAfterWalk_of_before (a b : xmlSecEncCtx)
    (r : xmlSecResult Unit × xmlSecEncCtx) (henc : b.encrypt = a.encrypt)
    (ht : b.encTransformCtx = a.encTransformCtx) (h : pipelineAfterWalk b r) :
    pipelineAfterWalk a r := by
  obtain ⟨h1, h2⟩ := h
  rw [henc, ht] at h1 h2
  exact ⟨h1, h2⟩

/-- Shared: a step that leaves `cipherValueNode` and the pipeline as they are may come after
the walk. -/
theorem pipelineAfterWalk_of_after (a c2 : xmlSecEncCtx)
    (r : xmlSecResult Unit × xmlSecEncCtx)
    (hcv : r.2.cipherValueNode = c2.cipherValueNode)
    (ht : r.2.encTransformCtx = c2.encTransformCtx)
    (h : pipelineAfterWalk a (xmlSecResult.ok (), c2)) :
    pipelineAfterWalk a r := by
  obtain ⟨h1, h2⟩ := h
  rw [pipelineAfterWalk, hcv, ht]
  exact ⟨h1, fun _ hd hs => h2 rfl hd hs⟩

/-- Shared: what the walk from the optional `KeyInfo` on does to the pipeline. -/
theorem readFromKeyInfo_pipeline (env : EncEnv) (encCtx : xmlSecEncCtx) (node : xmlNodePtr)
    (idx : Nat) (cur : List xmlNode) :
    pipelineAfterWalk encCtx (xmlSecEncCtxEncDataNodeReadFromKeyInfo env encCtx node idx cur) := by
  unfold xmlSecEncCtxEncDataNodeReadFromKeyInfo
  split
  · exact ⟨fun _ => rfl, fun h => by cases h⟩
  · dsimp only
    have hstep : (if xmlSecCheckNodeName cur.head? xmlSecNodeKeyInfo xmlSecDSigNs = true then
          ({ encCtx with
            keyInfoNode := cur.head?.map fun n => { path := node.path ++ [idx], node := n } }
              : xmlSecEncCtx)
        else encCtx).encrypt = encCtx.encrypt ∧
        (if xmlSecCheckNodeName cur.head? xmlSecNodeKeyInfo xmlSecDSigNs = true then
          ({ encCtx with
            keyInfoNode := cur.head?.map fun n => { path := node.path ++ [idx], node := n } }
              : xmlSecEncCtx)
        else encCtx).encTransformCtx = encCtx.encTransformCtx := by
      split <;> exact ⟨rfl, rfl⟩
    generalize (if xmlSecCheckNodeName cur.head? xmlSecNodeKeyInfo xmlSecDSigNs = true then
          ({ encCtx with
            keyInfoNode := cur.head?.map fun n => { path := node.path ++ [idx], node := n } }
              : xmlSecEncCtx)
        else encCtx) = c1 at hstep ⊢
    obtain ⟨s1, s2⟩ := hstep
    split
    · exact ⟨fun _ => s2, fun h => by cases h⟩
    · split
      · exact ⟨fun _ => s2, fun h => by cases h⟩
      · rename_i cipherData next _ _
        have hcd := cipherDataNodeRead_pipeline env c1
          { path := node.path ++
              [if xmlSecCheckNodeName cur.head? xmlSecNodeKeyInfo xmlSecDSigNs = true
                then idx + 1 else idx], node := cipherData }
        split
        · rename_i reason subject c2 heq
          rw [heq] at hcd
          exact pipelineAfterWalk_of_before _ _ _ s1 s2
            ⟨hcd.1, fun h => by cases h⟩
        · rename_i u c2 heq
          rw [heq] at hcd
          apply pipelineAfterWalk_of_before _ _ _ s1 s2
          apply pipelineAfterWalk_of_after c1 c2 _ _ _ hcd
          · rw [encDataNodeReadTail_snd]
          · rw [encDataNodeReadTail_snd]

/-- Shared: what the walk over the children of the root does to the pipeline. -/
theorem readChildren_pipeline (env : EncEnv) (encCtx : xmlSecEncCtx) (node : xmlNodePtr) :
    pipelineAfterWalk encCtx (xmlSecEncCtxEncDataNodeReadChildren env encCtx node) := by
  unfold xmlSecEncCtxEncDataNodeReadChildren
  dsimp only
  split
  · exact ⟨fun _ => rfl, fun h => by cases h⟩
  · split
    · exact pipelineAfterWalk_of_before encCtx _ _ rfl rfl
        (readFromKeyInfo_pipeline env
          { encCtx with
            encMethodNode := (xmlSecElementNodes node.node.children).head?.map fun n =>
              { path := node.path ++ [0], node := n } } node 1 _)
    · exact readFromKeyInfo_pipeline env encCtx node 0 _

/-- Shared: what the structural phase of TemplateRead does to the pipeline. -/
theorem readStructure_pipeline (env : EncEnv) (encCtx : xmlSecEncCtx) (node : xmlNodePtr) :
    pipelineAfterWalk encCtx (xmlSecEncCtxEncDataNodeReadStructure env encCtx node) := by
  unfold xmlSecEncCtxEncDataNodeReadStructure
  repeat' split
  all_goals first
    | exact ⟨fun _ => rfl, fun h => by cases h⟩
    | exact pipelineAfterWalk_of_before encCtx _ _ rfl rfl
        (readChildren_pipeline env (xmlSecEncCtxEncDataNodeReadAttrs encCtx node.node) node)

/-- C21. After a successful TemplateRead: on decryption of a node whose `CipherData` holds a
`CipherValue`, the chain of the pipeline is the base64 transform in decode mode at its head,
then what the chain held before the call, then the cipher transform; on a context whose chain
was empty, as `xmlSecEncCtxInitialize` leaves it, the pipeline holds exactly these two
transforms, one base64 transform followed by the cipher.  On encryption the chain is what it
held before, the cipher transform, and the base64 encoder when there is a `CipherValue`: no
base64 decoder is inserted. -/
theorem base64_decoder_at_head (env : EncEnv) (encCtx after : xmlSecEncCtx) (node : xmlNodePtr)
    (h : xmlSecEncCtxEncDataNodeRead env encCtx node = (xmlSecResult.ok (), after)) :
    (encCtx.encrypt = false → after.cipherValueNode.isSome = true →
      after.encTransformCtx.chain =
        xmlSecTransformPtr.owned base64Decoder ::
          (encCtx.encTransformCtx.chain ++ [xmlSecTransformPtr.encMethod]) ∧
      (encCtx.encTransformCtx.chain = [] →
        after.encTransformCtx.chain =
          [xmlSecTransformPtr.owned base64Decoder, xmlSecTransformPtr.encMethod])) ∧
    (encCtx.encrypt = true →
      after.encTransformCtx.chain =
        encCtx.encTransformCtx.chain ++ xmlSecTransformPtr.encMethod ::
          (if after.cipherValueNode.isSome = true then
            [xmlSecTransformPtr.owned base64Encoder] else []) ∧
      (xmlSecTransformPtr.owned base64Decoder ∈ after.encTransformCtx.chain →
        xmlSecTransformPtr.owned base64Decoder ∈ encCtx.encTransformCtx.chain)) ∧
    base64Decoder.id = xmlSecTransformBase64Id ∧ base64Decoder.encode = false := by
  obtain ⟨mid, hstruct, hres⟩ := encDataNodeRead_ok_inv env encCtx after node h
  obtain ⟨_, henc, _⟩ := readStructure_frame env encCtx node
  have hpipe := readStructure_pipeline env encCtx node
  rw [hstruct] at henc hpipe
  change mid.encrypt = encCtx.encrypt at henc
  obtain ⟨p1, p2⟩ := hpipe
  obtain ⟨t, accepted, key, _, _, _, _, hafter⟩ := readResolve_ok_eq env mid after hres
  have hcv : after.cipherValueNode = mid.cipherValueNode := by rw [hafter]
  have hchain : after.encTransformCtx.chain =
      mid.encTransformCtx.chain ++ xmlSecTransformPtr.encMethod ::
        (if (mid.encrypt && mid.cipherValueNode.isSome) = true then
          [xmlSecTransformPtr.owned base64Encoder] else []) := by
    rw [hafter]
  refine ⟨fun hdec hsome => ?_, fun hen => ?_, rfl, rfl⟩
  · rw [hcv] at hsome
    have hm := p2 rfl hdec hsome
    change mid.encTransformCtx = _ at hm
    have hc : after.encTransformCtx.chain =
        xmlSecTransformPtr.owned base64Decoder ::
          (encCtx.encTransformCtx.chain ++ [xmlSecTransformPtr.encMethod]) := by
      rw [hchain, henc, hdec, hm]
      simp
    refine ⟨hc, fun hempty => ?_⟩
    rw [hc, hempty]
    rfl
  · have hm := p1 hen
    change mid.encTransformCtx = _ at hm
    have hc : after.encTransformCtx.chain =
        encCtx.encTransformCtx.chain ++ xmlSecTransformPtr.encMethod ::
          (if after.cipherValueNode.isSome = true then
            [xmlSecTransformPtr.owned base64Encoder] else []) := by
      rw [hchain, henc, hen, hm, hcv]
      simp
    refine ⟨hc, fun hmem => ?_⟩
    rw [hc] at hmem
    rcases List.mem_append.1 hmem with hmem | hmem
    · exact hmem
    · exfalso
      rcases List.mem_cons.1 hmem with hmem | hmem
      · cases hmem
      · split at hmem
        · rcases List.mem_singleton.1 hmem with hmem
          exact absurd hmem (by decide)
        · cases hmem

/-- C21, at a concrete input: the sample encrypted node is read for a decryption on a fresh
context; the pipeline holds the base64 decoder followed by the cipher transform. -/
theorem base64_decoder_at_head_witness :
    (xmlSecEncCtxEncDataNodeRead sampleEncEnv
      (freshEncCtx sampleEncEnv xmlEncCtxMode.xmlEncCtxModeEncryptedData none
        (some (sampleKey "k" 3)))
      { path := [], node := sampleEncryptedNode [] }).2.encTransformCtx.chain =
        [xmlSecTransformPtr.owned base64Decoder, xmlSecTransformPtr.encMethod] :=
  ((base64_decoder_at_head sampleEncEnv
    (freshEncCtx sampleEncEnv xmlEncCtxMode.xmlEncCtxModeEncryptedData none
      (some (sampleKey "k" 3)))
    (xmlSecEncCtxEncDataNodeRead sampleEncEnv
      (freshEncCtx sampleEncEnv xmlEncCtxMode.xmlEncCtxModeEncryptedData none
        (some (sampleKey "k" 3)))
      { path := [], node := sampleEncryptedNode [] }).2
    { path := [], node := sampleEncryptedNode [] } (Prod.ext (by decide) rfl)).1 rfl
      (by decide)).2 rfl

/-- C22. On a `CipherData` whose first element child is a `CipherReference`: on encryption
`xmlSecEncCtxCipherDataNodeRead` goes straight to the check that no sibling follows, so the
child is accepted without being read; what is returned does not depend on the check of the
URI, and the context, with the input URI and the chain of the pipeline, is left as it is.  On
decryption `xmlSecEncCtxCipherReferenceNodeRead` is run on the child: its failure is the
failure of the call, and after its success the check of the siblings follows on the context
it leaves.  On encryption the whole walk over a template leaves the pipeline as it is. -/
theorem cipherReference_read_on_decryption_only (env : EncEnv) (encCtx : xmlSecEncCtx)
    (node : xmlNodePtr) (cipherReference : xmlNode) (more : List xmlNode)
    (hnull : encCtx.cipherValueNode = none)
    (hshape : xmlSecElementNodes node.node.children = cipherReference :: more)
    (hname : xmlSecCheckNodeName (some cipherReference) xmlSecNodeCipherReference xmlSecEncNs
      = true) :
    (encCtx.encrypt = true →
      xmlSecEncCtxCipherDataNodeRead env encCtx node =
        xmlSecEncCtxCipherDataNodeReadEnd encCtx more ∧
      (xmlSecEncCtxCipherDataNodeRead env encCtx node).2 = encCtx ∧
      (more = [] →
        xmlSecEncCtxCipherDataNodeRead env encCtx node = (xmlSecResult.ok (), encCtx))) ∧
    (encCtx.encrypt = false →
      (∀ (reason : xmlSecErrorReason) (subject : String),
        (xmlSecEncCtxCipherReferenceNodeRead env encCtx
          { path := node.path ++ [0], node := cipherReference }).1 =
            xmlSecResult.fail reason subject →
        xmlSecEncCtxCipherDataNodeRead env encCtx node =
          (xmlSecResult.fail reason subject,
            (xmlSecEncCtxCipherReferenceNodeRead env encCtx
              { path := node.path ++ [0], node := cipherReference }).2)) ∧
      ((xmlSecEncCtxCipherReferenceNodeRead env encCtx
          { path := node.path ++ [0], node := cipherReference }).1 = xmlSecResult.ok () →
        xmlSecEncCtxCipherDataNodeRead env encCtx node =
          xmlSecEncCtxCipherDataNodeReadEnd
            (xmlSecEncCtxCipherReferenceNodeRead env encCtx
              { path := node.path ++ [0], node := cipherReference }).2 more)) ∧
    (encCtx.encrypt = true → ∀ root : xmlNodePtr,
      (xmlSecEncCtxEncDataNodeReadStructure env encCtx root).2.encTransformCtx =
        encCtx.encTransformCtx) := by
  have heq := cipherDataNodeRead_cipherReference env encCtx node cipherReference more hnull
    hshape hname
  refine ⟨fun henc => ?_, fun hdec => ⟨fun reason subject hfail => ?_, fun hok => ?_⟩,
    fun henc root => (readStructure_pipeline env encCtx root).1 henc⟩
  · have h1 : xmlSecEncCtxCipherDataNodeRead env encCtx node =
        xmlSecEncCtxCipherDataNodeReadEnd encCtx more := by
      rw [heq, if_neg (by rw [henc]; exact fun h => Bool.noConfusion h)]
    refine ⟨h1, ?_, fun hmore => ?_⟩
    · rw [h1, cipherDataNodeReadEnd_snd]
    · rw [h1, hmore]
      rfl
  · rw [heq, if_pos hdec]
    generalize xmlSecEncCtxCipherReferenceNodeRead env encCtx
      { path := node.path ++ [0], node := cipherReference } = r at hfail ⊢
    obtain ⟨r1, r2⟩ := r
    cases hfail
    rfl
  · rw [heq, if_pos hdec]
    generalize xmlSecEncCtxCipherReferenceNodeRead env encCtx
      { path := node.path ++ [0], node := cipherReference } = r at hok ⊢
    obtain ⟨r1, r2⟩ := r
    cases hok
    rfl

/-- C22, at a concrete input: the `CipherData` of the sample node with a `CipherReference` is
read for an encryption on a context that allows no URI; the child is accepted, and the
pipeline has no input URI. -/
theorem cipherReference_read_on_decryption_only_witness :
    xmlSecEncCtxCipherDataNodeRead sampleEncEnv
      { freshEncCtx sampleEncEnv xmlEncCtxMode.xmlEncCtxModeEncryptedData none
          (some (sampleKey "k" 3)) with encrypt := true, allowedCipherReferenceUris := 0 }
      { path := [1],
        node := encElement "CipherData"
          [xmlNode.element "CipherReference" (some xmlSecEncNs) [] [("URI", "cid:blob")] []] } =
      (xmlSecResult.ok (),
        { freshEncCtx sampleEncEnv xmlEncCtxMode.xmlEncCtxModeEncryptedData none
            (some (sampleKey "k" 3)) with encrypt := true, allowedCipherReferenceUris := 0 }) :=
  ((cipherReference_read_on_decryption_only sampleEncEnv
    { freshEncCtx sampleEncEnv xmlEncCtxMode.xmlEncCtxModeEncryptedData none
        (some (sampleKey "k" 3)) with encrypt := true, allowedCipherReferenceUris := 0 }
    { path := [1],
      node := encElement "CipherData"
        [xmlNode.element "CipherReference" (some xmlSecEncNs) [] [("URI", "cid:blob")] []] }
    (xmlNode.element "CipherReference" (some xmlSecEncNs) [] [("URI", "cid:blob")] []) []
    rfl rfl (by decide)).1 rfl).2.2 rfl

/-! ### How an extra sibling is reported -/

/-- C23 (the code diverges). An element after the `CipherValue` or `CipherReference` inside
`CipherData` is rejected with `INVALID_NODE`, not `UNEXPECTED_NODE`: so it is for every
`CipherData` read for an encryption whose first element child is one of the two and has a
sibling, and on the sample `EncryptedData` whose `CipherData` holds a `CipherValue` and an
element `Extra`.  The two other places report `UNEXPECTED_NODE`: an element `Extra` after
`CipherData` in `EncryptedData`, and an element `Extra` after `Transforms` inside a
`CipherReference` that is read for a decryption. -/
theorem cipherData_extra_sibling_reported_invalid_node :
    (∀ (env : EncEnv) (encCtx : xmlSecEncCtx) (node : xmlNodePtr) (first extra : xmlNode)
        (more : List xmlNode),
      encCtx.cipherValueNode = none → encCtx.encrypt = true →
      xmlSecElementNodes node.node.children = first :: extra :: more →
      (xmlSecCheckNodeName (some first) xmlSecNodeCipherValue xmlSecEncNs = true ∨
        xmlSecCheckNodeName (some first) xmlSecNodeCipherReference xmlSecEncNs = true) →
      (xmlSecEncCtxCipherDataNodeRead env encCtx node).1 =
        xmlSecResult.fail xmlSecErrorReason.INVALID_NODE (xmlSecNodeGetName (some extra))) ∧
    (xmlSecEncCtxEncDataNodeRead sampleEncEnv
      { freshEncCtx sampleEncEnv xmlEncCtxMode.xmlEncCtxModeEncryptedData none
          (some (sampleKey "k" 3)) with encrypt := true }
      { path := [],
        node := encElement "EncryptedData"
          [sampleEncryptionMethod,
            encElement "CipherData" [encElement "CipherValue" [], encElement "Extra" []]] }).1 =
      xmlSecResult.fail xmlSecErrorReason.INVALID_NODE "Extra" ∧
    (xmlSecEncCtxEncDataNodeRead sampleEncEnv
      { freshEncCtx sampleEncEnv xmlEncCtxMode.xmlEncCtxModeEncryptedData none
          (some (sampleKey "k" 3)) with encrypt := true }
      { path := [],
        node := encElement "EncryptedData"
          [sampleEncryptionMethod, encElement "CipherData" [encElement "CipherValue" []],
            encElement "Extra" []] }).1 =
      xmlSecResult.fail xmlSecErrorReason.UNEXPECTED_NODE "Extra" ∧
    (xmlSecEncCtxEncDataNodeRead sampleEncEnv
      (freshEncCtx sampleEncEnv xmlEncCtxMode.xmlEncCtxModeEncryptedData none
        (some (sampleKey "k" 3)))
      { path := [],
        node := encElement "EncryptedData"
          [sampleEncryptionMethod,
            encElement "CipherData"
              [encElement "CipherReference"
                [encElement "Transforms" [], encElement "Extra" []]]] }).1 =
      xmlSecResult.fail xmlSecErrorReason.UNEXPECTED_NODE "Extra" := by
  refine ⟨?_, by decide, by decide, by decide⟩
  intro env encCtx node first extra more hnull henc hshape hfirst
  have hend : ∀ c : xmlSecEncCtx,
      (xmlSecEncCtxCipherDataNodeReadEnd c (extra :: more)).1 =
        xmlSecResult.fail xmlSecErrorReason.INVALID_NODE (xmlSecNodeGetName (some extra)) := by
    intro c
    rfl
  rcases hfirst with hcv | hcr
  · rw [cipherDataNodeRead_cipherValue env encCtx node first (extra :: more) hnull hshape hcv,
      if_neg (by rw [henc]; exact fun h => Bool.noConfusion h)]
    exact hend _
  · rw [cipherDataNodeRead_cipherReference env encCtx node first (extra :: more) hnull hshape
      hcr, if_neg (by rw [henc]; exact fun h => Bool.noConfusion h)]
    exact hend _

/-! ### `recipient` and `carriedKeyName` in mode `EncryptedData` -/

/-- Shared: `xmlSecEncCtxCipherReferenceNodeRead` leaves `carriedKeyName` as it is. -/
theorem cipherReferenceNodeRead_carriedKeyName (env : EncEnv) (encCtx : xmlSecEncCtx)
    (node : xmlNodePtr) :
    (xmlSecEncCtxCipherReferenceNodeRead env encCtx node).2.carriedKeyName =
      encCtx.carriedKeyName := by
  unfold xmlSecEncCtxCipherReferenceNodeRead
  dsimp only
  repeat' split
  all_goals rfl

/-- Shared: `xmlSecEncCtxCipherDataNodeRead` leaves `carriedKeyName` as it is. -/
theorem cipherDataNodeRead_carriedKeyName (env : EncEnv) (encCtx : xmlSecEncCtx)
    (node : xmlNodePtr) :
    (xmlSecEncCtxCipherDataNodeRead env encCtx node).2.carriedKeyName =
      encCtx.carriedKeyName := by
  unfold xmlSecEncCtxCipherDataNodeRead
  dsimp only
  split
  · rfl
  · split
    · split
      · split
        · rfl
        · rw [cipherDataNodeReadEnd_snd]
      · rw [cipherDataNodeReadEnd_snd]
    · split
      · split
        · split
          · rename_i n _
            have hm := cipherReferenceNodeRead_carriedKeyName env encCtx
              { path := node.path ++ [0], node := n }
            split
            · rename_i heq
              rw [heq] at hm
              exact hm
            · rename_i heq
              rw [cipherDataNodeReadEnd_snd]
              rw [heq] at hm
              exact hm
          · rw [cipherDataNodeReadEnd_snd]
        · rw [cipherDataNodeReadEnd_snd]
      · rw [cipherDataNodeReadEnd_snd]

/-- Shared: in mode `EncryptedData` the children after `CipherData` are the optional
`EncryptionProperties` and nothing else, and the context is left as it is. -/
theorem encDataNodeReadTail_data_eq (env : EncEnv) (encCtx : xmlSecEncCtx) (cur : List xmlNode)
    (hmode : encCtx.mode = xmlEncCtxMode.xmlEncCtxModeEncryptedData) :
    xmlSecEncCtxEncDataNodeReadTail env encCtx cur =
      xmlSecEncCtxEncDataNodeReadEnd encCtx
        (if xmlSecCheckNodeName cur.head? xmlSecNodeEncryptionProperties xmlSecEncNs = true
          then cur.tail else cur) := by
  unfold xmlSecEncCtxEncDataNodeReadTail
  dsimp only
  rw [if_neg (by rw [hmode]; exact fun h => xmlEncCtxMode.noConfusion h)]

/-- Shared: in mode `EncryptedData` the walk from the optional `KeyInfo` on leaves
`carriedKeyName` as it is. -/
theorem readFromKeyInfo_carriedKeyName (env : EncEnv) (encCtx : xmlSecEncCtx)
    (node : xmlNodePtr) (idx : Nat) (cur : List xmlNode)
    (hmode : encCtx.mode = xmlEncCtxMode.xmlEncCtxModeEncryptedData) :
    (xmlSecEncCtxEncDataNodeReadFromKeyInfo env encCtx node idx cur).2.carriedKeyName =
      encCtx.carriedKeyName := by
  unfold xmlSecEncCtxEncDataNodeReadFromKeyInfo
  split
  · rfl
  · dsimp only
    have hstep : (if xmlSecCheckNodeName cur.head? xmlSecNodeKeyInfo xmlSecDSigNs = true then
          ({ encCtx with
            keyInfoNode := cur.head?.map fun n => { path := node.path ++ [idx], node := n } }
              : xmlSecEncCtx)
        else encCtx).carriedKeyName = encCtx.carriedKeyName ∧
        (if xmlSecCheckNodeName cur.head? xmlSecNodeKeyInfo xmlSecDSigNs = true then
          ({ encCtx with
            keyInfoNode := cur.head?.map fun n => { path := node.path ++ [idx], node := n } }
              : xmlSecEncCtx)
        else encCtx).mode = encCtx.mode := by
      split <;> exact ⟨rfl, rfl⟩
    generalize (if xmlSecCheckNodeName cur.head? xmlSecNodeKeyInfo xmlSecDSigNs = true then
          ({ encCtx with
            keyInfoNode := cur.head?.map fun n => { path := node.path ++ [idx], node := n } }
              : xmlSecEncCtx)
        else encCtx) = c1 at hstep ⊢
    obtain ⟨s1, s2⟩ := hstep
    split
    · exact s1
    · split
      · exact s1
      · rename_i cipherData next _ _
        have hcd := cipherDataNodeRead_carriedKeyName env c1
          { path := node.path ++
              [if xmlSecCheckNodeName cur.head? xmlSecNodeKeyInfo xmlSecDSigNs = true
                then idx + 1 else idx], node := cipherData }
        have hcm := cipherDataNodeRead_mode env c1
          { path := node.path ++
              [if xmlSecCheckNodeName cur.head? xmlSecNodeKeyInfo xmlSecDSigNs = true
                then idx + 1 else idx], node := cipherData }
        split
        · rename_i reason subject c2 heq
          rw [heq] at hcd
          exact hcd.trans s1
        · rename_i u c2 heq
          rw [heq] at hcd hcm
          change c2.carriedKeyName = c1.carriedKeyName at hcd
          change c2.mode = c1.mode at hcm
          rw [encDataNodeReadTail_data_eq env c2 next (by rw [hcm, s2, hmode]),
            encDataNodeReadEnd_snd]
          exact hcd.trans s1

/-- Shared: in mode `EncryptedData` the structural phase of TemplateRead leaves `recipient`
and `carriedKeyName` as they are. -/
theorem readStructure_data_names (env : EncEnv) (encCtx : xmlSecEncCtx) (node : xmlNodePtr)
    (hmode : encCtx.mode = xmlEncCtxMode.xmlEncCtxModeEncryptedData) :
    (xmlSecEncCtxEncDataNodeReadStructure env encCtx node).2.recipient = encCtx.recipient ∧
    (xmlSecEncCtxEncDataNodeReadStructure env encCtx node).2.carriedKeyName =
      encCtx.carriedKeyName := by
  have hattrs : (xmlSecEncCtxEncDataNodeReadAttrs encCtx node.node).recipient =
      encCtx.recipient := by
    unfold xmlSecEncCtxEncDataNodeReadAttrs
    dsimp only
    rw [if_neg (by rw [hmode]; exact fun h => xmlEncCtxMode.noConfusion h)]
  have hchildren : ∀ c : xmlSecEncCtx, c.mode = xmlEncCtxMode.xmlEncCtxModeEncryptedData →
      (xmlSecEncCtxEncDataNodeReadChildren env c node).2.carriedKeyName = c.carriedKeyName := by
    intro c hc
    unfold xmlSecEncCtxEncDataNodeReadChildren
    dsimp only
    split
    · rfl
    · split
      · exact readFromKeyInfo_carriedKeyName env _ node 1 _ hc
      · exact readFromKeyInfo_carriedKeyName env c node 0 _ hc
  unfold xmlSecEncCtxEncDataNodeReadStructure
  repeat' split
  all_goals first
    | exact ⟨rfl, rfl⟩
    | (obtain ⟨_, _, _, _, _, _, h7, _⟩ :=
        readChildren_frame env (xmlSecEncCtxEncDataNodeReadAttrs encCtx node.node) node
       exact ⟨h7.symm.trans hattrs,
         hchildren (xmlSecEncCtxEncDataNodeReadAttrs encCtx node.node) hmode⟩)

/-- C24. In mode `EncryptedData`, for every node and every outcome of TemplateRead,
`recipient` and `carriedKeyName` are what they were before the call, so they stay `NULL` on a
context that has them `NULL`, as `xmlSecEncCtxInitialize` leaves it: the `Recipient`
attribute is not read, and the walk over the children after `CipherData`, with or without an
`EncryptionProperties` first, rejects a `ReferenceList` or `CarriedKeyName` child as an
unexpected node and leaves the context as it is. -/
theorem encryptedData_leaves_recipient_and_name (env : EncEnv) (encCtx : xmlSecEncCtx)
    (node : xmlNodePtr) (hmode : encCtx.mode = xmlEncCtxMode.xmlEncCtxModeEncryptedData) :
    (xmlSecEncCtxEncDataNodeRead env encCtx node).2.recipient = encCtx.recipient ∧
    (xmlSecEncCtxEncDataNodeRead env encCtx node).2.carriedKeyName = encCtx.carriedKeyName ∧
    (encCtx.recipient = none → encCtx.carriedKeyName = none →
      (xmlSecEncCtxEncDataNodeRead env encCtx node).2.recipient = none ∧
      (xmlSecEncCtxEncDataNodeRead env encCtx node).2.carriedKeyName = none) ∧
    (∀ (props : Option xmlNode) (child : xmlNode) (rest : List xmlNode),
      (∀ p ∈ props,
        xmlSecCheckNodeName (some p) xmlSecNodeEncryptionProperties xmlSecEncNs = true) →
      (xmlSecCheckNodeName (some child) xmlSecNodeReferenceList xmlSecEncNs = true ∨
        xmlSecCheckNodeName (some child) xmlSecNodeCarriedKeyName xmlSecEncNs = true) →
      xmlSecEncCtxEncDataNodeReadTail env encCtx (props.toList ++ child :: rest) =
        (xmlSecResult.fail xmlSecErrorReason.UNEXPECTED_NODE (xmlSecNodeGetName (some child)),
          encCtx)) := by
  have hnames : (xmlSecEncCtxEncDataNodeRead env encCtx node).2.recipient = encCtx.recipient ∧
      (xmlSecEncCtxEncDataNodeRead env encCtx node).2.carriedKeyName =
        encCtx.carriedKeyName := by
    obtain ⟨s1, s2⟩ := readStructure_data_names env encCtx node hmode
    unfold xmlSecEncCtxEncDataNodeRead
    split
    · rename_i reason subject mid hs
      rw [hs] at s1 s2
      exact ⟨s1, s2⟩
    · rename_i mid hs
      rw [hs] at s1 s2
      obtain ⟨_, _, _, _, _, _, r7, r8, _⟩ := readResolve_frame env mid
      exact ⟨r7.trans s1, r8.trans s2⟩
  refine ⟨hnames.1, hnames.2, fun h1 h2 => ⟨hnames.1.trans h1, hnames.2.trans h2⟩, ?_⟩
  intro props child rest hprops hchild
  have hnot : xmlSecCheckNodeName (some child) xmlSecNodeEncryptionProperties xmlSecEncNs =
      false := by
    rcases hchild with h | h
    · exact checkNodeName_exclusive child xmlSecNodeReferenceList
        xmlSecNodeEncryptionProperties _ _ (by decide) h
    · exact checkNodeName_exclusive child xmlSecNodeCarriedKeyName
        xmlSecNodeEncryptionProperties _ _ (by decide) h
  rw [encDataNodeReadTail_data_eq env encCtx _ hmode]
  cases props with
  | none =>
    simp only [Option.toList_none, List.nil_append, List.head?_cons, hnot, Bool.false_eq_true,
      if_false]
    rfl
  | some p =>
    have hp := hprops p rfl
    simp only [Option.toList_some, List.singleton_append, List.head?_cons, hp, if_true,
      List.tail_cons]
    rfl

/-- C24, at a concrete input: in mode `EncryptedData` a node with the attribute `Recipient`
and a `CarriedKeyName` child after `CipherData` is read on a fresh context; TemplateRead
fails, and `recipient` and `carriedKeyName` are `NULL` after it. -/
theorem encryptedData_leaves_recipient_and_name_witness :
    (xmlSecEncCtxEncDataNodeRead sampleEncEnv
      (freshEncCtx sampleEncEnv xmlEncCtxMode.xmlEncCtxModeEncryptedData none
        (some (sampleKey "k" 3)))
      { path := [],
        node := xmlNode.element "EncryptedData" (some xmlSecEncNs) [] [("Recipient", "r")]
          [sampleEncryptionMethod,
            encElement "CipherData" [encElement "CipherValue" [xmlNode.text [66]]],
            encElement "CarriedKeyName" [xmlNode.text [110]]] }).2.recipient = none ∧
    (xmlSecEncCtxEncDataNodeRead sampleEncEnv
      (freshEncCtx sampleEncEnv xmlEncCtxMode.xmlEncCtxModeEncryptedData none
        (some (sampleKey "k" 3)))
      { path := [],
        node := xmlNode.element "EncryptedData" (some xmlSecEncNs) [] [("Recipient", "r")]
          [sampleEncryptionMethod,
            encElement "CipherData" [encElement "CipherValue" [xmlNode.text [66]]],
            encElement "CarriedKeyName" [xmlNode.text [110]]] }).2.carriedKeyName = none :=
  (encryptedData_leaves_recipient_and_name sampleEncEnv
    (freshEncCtx sampleEncEnv xmlEncCtxMode.xmlEncCtxModeEncryptedData none
      (some (sampleKey "k" 3)))
    { path := [],
      node := xmlNode.element "EncryptedData" (some xmlSecEncNs) [] [("Recipient", "r")]
        [sampleEncryptionMethod,
          encElement "CipherData" [encElement "CipherValue" [xmlNode.text [66]]],
          encElement "CarriedKeyName" [xmlNode.text [110]]] }
    rfl).2.2.1 rfl rfl

/-! ### A context left by a failed TemplateRead -/

theorem keepsRead_refl (a : xmlSecEncCtx) : a.keepsRead a :=
  ⟨fun _ => rfl, fun _ => rfl, fun _ => rfl, fun _ => rfl, fun _ => rfl, fun _ => rfl,
    fun _ => rfl⟩

/-- Shared: a context in which a field stays set stays poisoned. -/
theorem poisoned_of_keepsRead (a b : xmlSecEncCtx) (h : a.keepsRead b) (hp : a.poisoned) :
    b.poisoned := by
  obtain ⟨k1, k2, k3, k4, k5, k6, k7⟩ := h
  rcases hp with h | h | h | h | h | h | h
  · exact Or.inl (by rw [k1 h]; exact h)
  · exact Or.inr (Or.inl (by rw [k2 h]; exact h))
  · exact Or.inr (Or.inr (Or.inl (by rw [k3 h]; exact h)))
  · exact Or.inr (Or.inr (Or.inr (Or.inl (by rw [k4 h]; exact h))))
  · exact Or.inr (Or.inr (Or.inr (Or.inr (Or.inl (by rw [k5 h]; exact h)))))
  · exact Or.inr (Or.inr (Or.inr (Or.inr (Or.inr (Or.inl (by rw [k6 h]; exact h))))))
  · exact Or.inr (Or.inr (Or.inr (Or.inr (Or.inr (Or.inr (by rw [k7 h]; exact h))))))

theorem keepsRead_trans (a b c : xmlSecEncCtx) (hab : a.keepsRead b) (hbc : b.keepsRead c) :
    a.keepsRead c := by
  obtain ⟨a1, a2, a3, a4, a5, a6, a7⟩ := hab
  obtain ⟨b1, b2, b3, b4, b5, b6, b7⟩ := hbc
  refine ⟨fun h => ?_, fun h => ?_, fun h => ?_, fun h => ?_, fun h => ?_, fun h => ?_,
    fun h => ?_⟩
  · rw [b1 (by rw [a1 h]; exact h), a1 h]
  · rw [b2 (by rw [a2 h]; exact h), a2 h]
  · rw [b3 (by rw [a3 h]; exact h), a3 h]
  · rw [b4 (by rw [a4 h]; exact h), a4 h]
  · rw [b5 (by rw [a5 h]; exact h), a5 h]
  · rw [b6 (by rw [a6 h]; exact h), a6 h]
  · rw [b7 (by rw [a7 h]; exact h), a7 h]

/-- Shared: on a context whose `cipherValueNode` is set, `xmlSecEncCtxCipherDataNodeRead`
fails at its assertion. -/
theorem cipherDataNodeRead_poisoned (env : EncEnv) (encCtx : xmlSecEncCtx) (node : xmlNodePtr)
    (h : encCtx.cipherValueNode.isSome = true) :
    xmlSecEncCtxCipherDataNodeRead env encCtx node =
      (assertionFailed "encCtx->cipherValueNode == NULL", encCtx) := by
  unfold xmlSecEncCtxCipherDataNodeRead
  dsimp only
  rw [if_pos h]

/-- Shared: on a context whose `keyInfoNode` or `cipherValueNode` is set, the walk from the
optional `KeyInfo` on fails, and leaves the node pointers that were set. -/
theorem readFromKeyInfo_poisoned (env : EncEnv) (encCtx : xmlSecEncCtx) (node : xmlNodePtr)
    (idx : Nat) (cur : List xmlNode)
    (h : encCtx.keyInfoNode.isSome = true ∨ encCtx.cipherValueNode.isSome = true) :
    (xmlSecEncCtxEncDataNodeReadFromKeyInfo env encCtx node idx cur).1.failed = true ∧
    (xmlSecEncCtxEncDataNodeReadFromKeyInfo env encCtx node idx cur).2.cipherValueNode =
      encCtx.cipherValueNode ∧
    (xmlSecEncCtxEncDataNodeReadFromKeyInfo env encCtx node idx cur).2.encMethodNode =
      encCtx.encMethodNode ∧
    (encCtx.keyInfoNode.isSome = true →
      xmlSecEncCtxEncDataNodeReadFromKeyInfo env encCtx node idx cur =
        (assertionFailed "encCtx->keyInfoNode == NULL", encCtx)) := by
  unfold xmlSecEncCtxEncDataNodeReadFromKeyInfo
  by_cases hk : encCtx.keyInfoNode.isSome = true
  · rw [if_pos hk]
    exact ⟨rfl, rfl, rfl, fun _ => rfl⟩
  · rw [if_neg hk]
    have hcv : encCtx.cipherValueNode.isSome = true := by
      rcases h with h | h
      · exact absurd h hk
      · exact h
    dsimp only
    have hstep : (if xmlSecCheckNodeName cur.head? xmlSecNodeKeyInfo xmlSecDSigNs = true then
          ({ encCtx with
            keyInfoNode := cur.head?.map fun n => { path := node.path ++ [idx], node := n } }
              : xmlSecEncCtx)
        else encCtx).cipherValueNode = encCtx.cipherValueNode ∧
        (if xmlSecCheckNodeName cur.head? xmlSecNodeKeyInfo xmlSecDSigNs = true then
          ({ encCtx with
            keyInfoNode := cur.head?.map fun n => { path := node.path ++ [idx], node := n } }
              : xmlSecEncCtx)
        else encCtx).encMethodNode = encCtx.encMethodNode := by
      split <;> exact ⟨rfl, rfl⟩
    generalize (if xmlSecCheckNodeName cur.head? xmlSecNodeKeyInfo xmlSecDSigNs = true then
          ({ encCtx with
            keyInfoNode := cur.head?.map fun n => { path := node.path ++ [idx], node := n } }
              : xmlSecEncCtx)
        else encCtx) = c1 at hstep ⊢
    obtain ⟨s1, s2⟩ := hstep
    split
    · exact ⟨rfl, s1, s2, fun hk2 => absurd hk2 hk⟩
    · split
      · exact ⟨rfl, s1, s2, fun hk2 => absurd hk2 hk⟩
      · rw [cipherDataNodeRead_poisoned env c1 _ (by rw [s1]; exact hcv)]
        exact ⟨rfl, s1, s2, fun hk2 => absurd hk2 hk⟩

/-- Shared: on a context one of whose node pointers is set, the walk over the children of the
root fails and leaves the pointers that were set; when `encMethodNode` or `keyInfoNode` is
set, it fails at the assertion on that field. -/
theorem readChildren_poisoned (env : EncEnv) (encCtx : xmlSecEncCtx) (node : xmlNodePtr)
    (h : encCtx.encMethodNode.isSome = true ∨ encCtx.keyInfoNode.isSome = true ∨
      encCtx.cipherValueNode.isSome = true) :
    (xmlSecEncCtxEncDataNodeReadChildren env encCtx node).1.failed = true ∧
    (xmlSecEncCtxEncDataNodeReadChildren env encCtx node).2.cipherValueNode =
      encCtx.cipherValueNode ∧
    (encCtx.encMethodNode.isSome = true →
      (xmlSecEncCtxEncDataNodeReadChildren env encCtx node).2.encMethodNode =
        encCtx.encMethodNode) ∧
    (encCtx.keyInfoNode.isSome = true →
      (xmlSecEncCtxEncDataNodeReadChildren env encCtx node).2.keyInfoNode =
        encCtx.keyInfoNode) ∧
    ((encCtx.encMethodNode.isSome = true ∨ encCtx.keyInfoNode.isSome = true) →
      ∃ subject ∈ readAssertions,
        (xmlSecEncCtxEncDataNodeReadChildren env encCtx node).1 =
          xmlSecResult.fail xmlSecErrorReason.ASSERTION subject) := by
  unfold xmlSecEncCtxEncDataNodeReadChildren
  dsimp only
  by_cases hm : encCtx.encMethodNode.isSome = true
  · rw [if_pos hm]
    exact ⟨rfl, rfl, fun _ => rfl, fun _ => rfl,
      fun _ => ⟨"encCtx->encMethodNode == NULL", by decide, rfl⟩⟩
  · rw [if_neg hm]
    have hrest : encCtx.keyInfoNode.isSome = true ∨ encCtx.cipherValueNode.isSome = true := by
      rcases h with h | h
      · exact absurd h hm
      · exact h
    have hone : ∀ (c : xmlSecEncCtx) (idx : Nat) (cur : List xmlNode),
        c.keyInfoNode = encCtx.keyInfoNode → c.cipherValueNode = encCtx.cipherValueNode →
        (xmlSecEncCtxEncDataNodeReadFromKeyInfo env c node idx cur).1.failed = true ∧
        (xmlSecEncCtxEncDataNodeReadFromKeyInfo env c node idx cur).2.cipherValueNode =
          encCtx.cipherValueNode ∧
        (encCtx.encMethodNode.isSome = true →
          (xmlSecEncCtxEncDataNodeReadFromKeyInfo env c node idx cur).2.encMethodNode =
            encCtx.encMethodNode) ∧
        (encCtx.keyInfoNode.isSome = true →
          (xmlSecEncCtxEncDataNodeReadFromKeyInfo env c node idx cur).2.keyInfoNode =
            encCtx.keyInfoNode) ∧
        ((encCtx.encMethodNode.isSome = true ∨ encCtx.keyInfoNode.isSome = true) →
          ∃ subject ∈ readAssertions,
            (xmlSecEncCtxEncDataNodeReadFromKeyInfo env c node idx cur).1 =
              xmlSecResult.fail xmlSecErrorReason.ASSERTION subject) := by
      intro c idx cur hk hcv
      obtain ⟨f1, f2, _, f4⟩ := readFromKeyInfo_poisoned env c node idx cur
        (by rw [hk, hcv]; exact hrest)
      refine ⟨f1, f2.trans hcv, fun h => absurd h hm, fun h => ?_, fun h => ?_⟩
      · rw [f4 (by rw [hk]; exact h)]
        exact hk
      · rcases h with h | h
        · exact absurd h hm
        · rw [f4 (by rw [hk]; exact h)]
          exact ⟨"encCtx->keyInfoNode == NULL", by decide, rfl⟩
    split
    · exact hone _ 1 _ rfl rfl
    · exact hone _ 0 _ rfl rfl

/-- Shared: on a poisoned context the structural phase of TemplateRead fails and leaves the
fields that were set.  On a node with the right root it fails at one of the assertions
`field == NULL`, when the field that is set is not `cipherValueNode` alone, or when the
children of the node have the shape that leads the walk to `CipherData`. -/
theorem readStructure_poisoned (env : EncEnv) (encCtx : xmlSecEncCtx) (node : xmlNodePtr)
    (hp : encCtx.poisoned) :
    (xmlSecEncCtxEncDataNodeReadStructure env encCtx node).1.failed = true ∧
    encCtx.keepsRead (xmlSecEncCtxEncDataNodeReadStructure env encCtx node).2 ∧
    (xmlSecCheckNodeName (some node.node) encCtx.mode.rootName xmlSecEncNs = true →
      ((encCtx.id.isSome = true ∨ encCtx.type.isSome = true ∨ encCtx.mimeType.isSome = true ∨
          encCtx.encoding.isSome = true ∨ encCtx.encMethodNode.isSome = true ∨
          encCtx.keyInfoNode.isSome = true) ∨
        ∃ (method keyInfo : Option xmlNode) (cipherData : xmlNode) (rest : List xmlNode),
          xmlSecElementNodes node.node.children =
            method.toList ++ keyInfo.toList ++ cipherData :: rest ∧
          (∀ n ∈ method,
            xmlSecCheckNodeName (some n) xmlSecNodeEncryptionMethod xmlSecEncNs = true) ∧
          (∀ n ∈ keyInfo, xmlSecCheckNodeName (some n) xmlSecNodeKeyInfo xmlSecDSigNs = true) ∧
          xmlSecCheckNodeName (some cipherData) xmlSecNodeCipherData xmlSecEncNs = true) →
      ∃ subject ∈ readAssertions,
        (xmlSecEncCtxEncDataNodeReadStructure env encCtx node).1 =
          xmlSecResult.fail xmlSecErrorReason.ASSERTION subject) := by
  unfold xmlSecEncCtxEncDataNodeReadStructure
  by_cases hroot : xmlSecCheckNodeName (some node.node) encCtx.mode.rootName xmlSecEncNs = true
  swap
  · rw [if_pos (by rw [Bool.not_eq_true] at hroot; rw [hroot]; rfl)]
    exact ⟨rfl, keepsRead_refl _, fun h => absurd h hroot⟩
  rw [if_neg (by rw [hroot]; exact fun h => Bool.noConfusion h)]
  by_cases h1 : encCtx.id.isSome = true
  · rw [if_pos h1]
    exact ⟨rfl, keepsRead_refl _, fun _ _ => ⟨"encCtx->id == NULL", by decide, rfl⟩⟩
  rw [if_neg h1]
  by_cases h2 : encCtx.type.isSome = true
  · rw [if_pos h2]
    exact ⟨rfl, keepsRead_refl _, fun _ _ => ⟨"encCtx->type == NULL", by decide, rfl⟩⟩
  rw [if_neg h2]
  by_cases h3 : encCtx.mimeType.isSome = true
  · rw [if_pos h3]
    exact ⟨rfl, keepsRead_refl _, fun _ _ => ⟨"encCtx->mimeType == NULL", by decide, rfl⟩⟩
  rw [if_neg h3]
  by_cases h4 : encCtx.encoding.isSome = true
  · rw [if_pos h4]
    exact ⟨rfl, keepsRead_refl _, fun _ _ => ⟨"encCtx->encoding == NULL", by decide, rfl⟩⟩
  rw [if_neg h4]
  by_cases h5 : encCtx.recipient.isSome = true
  · rw [if_pos h5]
    exact ⟨rfl, keepsRead_refl _, fun _ _ => ⟨"encCtx->recipient == NULL", by decide, rfl⟩⟩
  rw [if_neg h5]
  by_cases h6 : encCtx.carriedKeyName.isSome = true
  · rw [if_pos h6]
    exact ⟨rfl, keepsRead_refl _,
      fun _ _ => ⟨"encCtx->carriedKeyName == NULL", by decide, rfl⟩⟩
  rw [if_neg h6]
  have hptr : encCtx.encMethodNode.isSome = true ∨ encCtx.keyInfoNode.isSome = true ∨
      encCtx.cipherValueNode.isSome = true := by
    rcases hp with h | h | h | h | h | h | h
    · exact absurd h h1
    · exact absurd h h2
    · exact absurd h h3
    · exact absurd h h4
    · exact Or.inl h
    · exact Or.inr (Or.inl h)
    · exact Or.inr (Or.inr h)
  obtain ⟨c1, c2, c3, c4, c5⟩ :=
    readChildren_poisoned env (xmlSecEncCtxEncDataNodeReadAttrs encCtx node.node) node hptr
  refine ⟨c1, ⟨fun h => absurd h h1, fun h => absurd h h2, fun h => absurd h h3,
    fun h => absurd h h4, c3, c4, fun _ => c2⟩, fun _ hreach => ?_⟩
  by_cases hmk : encCtx.encMethodNode.isSome = true ∨ encCtx.keyInfoNode.isSome = true
  · exact c5 hmk
  · have hm : encCtx.encMethodNode = none := by
      cases hs : encCtx.encMethodNode with
      | none => rfl
      | some _ => exact absurd (Or.inl (by rw [hs]; rfl)) hmk
    have hk : encCtx.keyInfoNode = none := by
      cases hs : encCtx.keyInfoNode with
      | none => rfl
      | some _ => exact absurd (Or.inr (by rw [hs]; rfl)) hmk
    have hcv : encCtx.cipherValueNode.isSome = true := by
      rcases hptr with h | h | h
      · exact absurd (Or.inl h) hmk
      · exact absurd (Or.inr h) hmk
      · exact h
    rcases hreach with h | ⟨method, keyInfo, cipherData, rest, hshape, hmeth, hki, hcd⟩
    · rcases h with h | h | h | h | h | h
      · exact absurd h h1
      · exact absurd h h2
      · exact absurd h h3
      · exact absurd h h4
      · exact absurd (Or.inl h) hmk
      · exact absurd (Or.inr h) hmk
    · rw [readChildren_of_shape env (xmlSecEncCtxEncDataNodeReadAttrs encCtx node.node) node
        method keyInfo cipherData rest hshape hm hk hmeth hki hcd,
        cipherDataNodeRead_poisoned env _ _ (by exact hcv)]
      exact ⟨"encCtx->cipherValueNode == NULL", by decide, rfl⟩

/-- Shared: TemplateRead returns what its structural phase returns when that fails. -/
theorem templateRead_of_structure_failed (env : EncEnv) (encCtx : xmlSecEncCtx)
    (node : xmlNodePtr)
    (h : (xmlSecEncCtxEncDataNodeReadStructure env encCtx node).1.failed = true) :
    xmlSecEncCtxEncDataNodeRead env encCtx node =
      xmlSecEncCtxEncDataNodeReadStructure env encCtx node := by
  unfold xmlSecEncCtxEncDataNodeRead
  split
  · rename_i heq
    exact heq.symm
  · rename_i heq
    rw [heq] at h
    cases h

/-- Shared: on a poisoned context TemplateRead fails and leaves the fields that were set. -/
theorem templateRead_poisoned (env : EncEnv) (encCtx : xmlSecEncCtx) (node : xmlNodePtr)
    (hp : encCtx.poisoned) :
    (xmlSecEncCtxEncDataNodeRead env encCtx node).1.failed = true ∧
    encCtx.keepsRead (xmlSecEncCtxEncDataNodeRead env encCtx node).2 := by
  obtain ⟨s1, s2, _⟩ := readStructure_poisoned env encCtx node hp
  rw [templateRead_of_structure_failed env encCtx node s1]
  exact ⟨s1, s2⟩

/-- Shared: the outcome of an entry point whose TemplateRead, on a context `read` that has
the recorded fields of `encCtx`, fails. -/
theorem templateRead_poisoned_from (env : EncEnv) (encCtx read : xmlSecEncCtx)
    (node : xmlNodePtr) (hp : encCtx.poisoned) (hk : encCtx.keepsRead read) :
    (xmlSecEncCtxEncDataNodeRead env read node).1.failed = true ∧
    encCtx.keepsRead (xmlSecEncCtxEncDataNodeRead env read node).2 := by
  obtain ⟨r1, r2⟩ := templateRead_poisoned env read node (poisoned_of_keepsRead _ _ hk hp)
  exact ⟨r1, keepsRead_trans _ _ _ hk r2⟩

/-- Shared: on a poisoned context `xmlSecEncCtxBinaryEncrypt` fails and leaves the fields
that were set. -/
theorem binaryEncrypt_poisoned (env : EncEnv) (encCtx : xmlSecEncCtx) (tmpl : Option xmlNode)
    (data : Option Bytes) (hp : encCtx.poisoned) :
    (xmlSecEncCtxBinaryEncrypt env encCtx tmpl data).ret.failed = true ∧
    encCtx.keepsRead (xmlSecEncCtxBinaryEncrypt env encCtx tmpl data).ctx := by
  have key : ∀ out : EncOutcome Unit, xmlSecEncCtxBinaryEncrypt env encCtx tmpl data = out →
      out.ret.failed = true ∧ encCtx.keepsRead out.ctx := by
    intro out hout
    unfold xmlSecEncCtxBinaryEncrypt at hout
    split at hout
    · subst hout
      exact ⟨rfl, keepsRead_refl _⟩
    · split at hout
      · subst hout
        exact ⟨rfl, keepsRead_refl _⟩
      · subst hout
        exact ⟨rfl, keepsRead_refl _⟩
      · rename_i tmplNode bytes
        obtain ⟨r1, r2⟩ := templateRead_poisoned_from env encCtx { encCtx with encrypt := true }
          { path := [], node := tmplNode } hp
          ⟨fun _ => rfl, fun _ => rfl, fun _ => rfl, fun _ => rfl, fun _ => rfl, fun _ => rfl,
            fun _ => rfl⟩
        try dsimp only at hout
        split at hout
        · rename_i reason subject read heq
          rw [heq] at r2
          subst hout
          exact ⟨rfl, r2⟩
        · rename_i read heq
          rw [heq] at r1
          cases r1
  exact key _ rfl

/-- Shared: on a poisoned context `xmlSecEncCtxXmlEncrypt` fails and leaves the fields that
were set. -/
theorem xmlEncrypt_poisoned (env : EncEnv) (encCtx : xmlSecEncCtx) (tmpl node : Option xmlNode)
    (nodeDoc : Option xmlDoc) (hp : encCtx.poisoned) :
    (xmlSecEncCtxXmlEncrypt env encCtx tmpl node nodeDoc).ret.failed = true ∧
    encCtx.keepsRead (xmlSecEncCtxXmlEncrypt env encCtx tmpl node nodeDoc).ctx := by
  have key : ∀ out : EncOutcome Unit,
      xmlSecEncCtxXmlEncrypt env encCtx tmpl node nodeDoc = out →
      out.ret.failed = true ∧ encCtx.keepsRead out.ctx := by
    intro out hout
    unfold xmlSecEncCtxXmlEncrypt at hout
    split at hout
    · subst hout
      exact ⟨rfl, keepsRead_refl _⟩
    · split at hout
      · subst hout
        exact ⟨rfl, keepsRead_refl _⟩
      · subst hout
        exact ⟨rfl, keepsRead_refl _⟩
      · subst hout
        exact ⟨rfl, keepsRead_refl _⟩
      · rename_i tmplNode source doc
        obtain ⟨r1, r2⟩ := templateRead_poisoned_from env encCtx { encCtx with encrypt := true }
          { path := [], node := tmplNode } hp
          ⟨fun _ => rfl, fun _ => rfl, fun _ => rfl, fun _ => rfl, fun _ => rfl, fun _ => rfl,
            fun _ => rfl⟩
        try dsimp only at hout
        split at hout
        · rename_i reason subject read heq
          rw [heq] at r2
          subst hout
          exact ⟨rfl, r2⟩
        · rename_i read heq
          rw [heq] at r1
          cases r1
  exact key _ rfl

/-- Shared: on a poisoned context `xmlSecEncCtxUriEncrypt` fails and leaves the fields that
were set. -/
theorem uriEncrypt_poisoned (env : EncEnv) (encCtx : xmlSecEncCtx) (tmpl : Option xmlNode)
    (uri : Option String) (hp : encCtx.poisoned) :
    (xmlSecEncCtxUriEncrypt env encCtx tmpl uri).ret.failed = true ∧
    encCtx.keepsRead (xmlSecEncCtxUriEncrypt env encCtx tmpl uri).ctx := by
  have key : ∀ out : EncOutcome Unit, xmlSecEncCtxUriEncrypt env encCtx tmpl uri = out →
      out.ret.failed = true ∧ encCtx.keepsRead out.ctx := by
    intro out hout
    unfold xmlSecEncCtxUriEncrypt at hout
    split at hout
    · subst hout
      exact ⟨rfl, keepsRead_refl _⟩
    · split at hout
      · subst hout
        exact ⟨rfl, keepsRead_refl _⟩
      · subst hout
        exact ⟨rfl, keepsRead_refl _⟩
      · rename_i tmplNode u
        try dsimp only at hout
        split at hout
        · subst hout
          exact ⟨rfl, fun _ => rfl, fun _ => rfl, fun _ => rfl, fun _ => rfl, fun _ => rfl,
            fun _ => rfl, fun _ => rfl⟩
        · rename_i tctx _
          obtain ⟨r1, r2⟩ := templateRead_poisoned_from env encCtx
            { encCtx with encrypt := true, encTransformCtx := tctx }
            { path := [], node := tmplNode } hp
            ⟨fun _ => rfl, fun _ => rfl, fun _ => rfl, fun _ => rfl, fun _ => rfl,
              fun _ => rfl, fun _ => rfl⟩
          try dsimp only at hout
          split at hout
          · rename_i reason subject read heq
            rw [heq] at r2
            subst hout
            exact ⟨rfl, r2⟩
          · rename_i read heq
            rw [heq] at r1
            cases r1
  exact key _ rfl

/-- Shared: on a poisoned context `xmlSecEncCtxDecryptToBuffer` fails and leaves the fields
that were set. -/
theorem decryptToBuffer_poisoned (env : EncEnv) (encCtx : xmlSecEncCtx) (node : Option xmlNode)
    (hp : encCtx.poisoned) :
    (xmlSecEncCtxDecryptToBuffer env encCtx node).ret.failed = true ∧
    encCtx.keepsRead (xmlSecEncCtxDecryptToBuffer env encCtx node).ctx := by
  have key : ∀ out : EncOutcome Bytes, xmlSecEncCtxDecryptToBuffer env encCtx node = out →
      out.ret.failed = true ∧ encCtx.keepsRead out.ctx := by
    intro out hout
    unfold xmlSecEncCtxDecryptToBuffer at hout
    split at hout
    · subst hout
      exact ⟨rfl, keepsRead_refl _⟩
    · split at hout
      · subst hout
        exact ⟨rfl, keepsRead_refl _⟩
      · rename_i encNode
        obtain ⟨r1, r2⟩ := templateRead_poisoned_from env encCtx
          { encCtx with encrypt := false } { path := [], node := encNode } hp
          ⟨fun _ => rfl, fun _ => rfl, fun _ => rfl, fun _ => rfl, fun _ => rfl, fun _ => rfl,
            fun _ => rfl⟩
        try dsimp only at hout
        split at hout
        · rename_i reason subject read heq
          rw [heq] at r2
          subst hout
          exact ⟨rfl, r2⟩
        · rename_i read heq
          rw [heq] at r1
          cases r1
  exact key _ rfl

/-- Shared: on a poisoned context `xmlSecEncCtxDecrypt` fails and leaves the fields that
were set. -/
theorem decrypt_poisoned (env : EncEnv) (encCtx : xmlSecEncCtx) (node : Option xmlNode)
    (hp : encCtx.poisoned) :
    (xmlSecEncCtxDecrypt env encCtx node).ret.failed = true ∧
    encCtx.keepsRead (xmlSecEncCtxDecrypt env encCtx node).ctx := by
  obtain ⟨d1, d2⟩ := decryptToBuffer_poisoned env encCtx node hp
  have key : ∀ out : EncOutcome Unit, xmlSecEncCtxDecrypt env encCtx node = out →
      out.ret.failed = true ∧ encCtx.keepsRead out.ctx := by
    intro out hout
    unfold xmlSecEncCtxDecrypt at hout
    split at hout
    · subst hout
      exact ⟨rfl, keepsRead_refl _⟩
    · split at hout
      · subst hout
        exact ⟨rfl, d2⟩
      · rename_i buffer heq
        rw [heq] at d1
        cases d1
  exact key _ rfl

/-- Shared: on a poisoned context every call of an entry point fails and leaves the fields
that were set. -/
theorem entryCall_poisoned (env : EncEnv) (encCtx : xmlSecEncCtx) (call : EntryCall)
    (hp : encCtx.poisoned) :
    (call.run env encCtx).1.failed = true ∧ encCtx.keepsRead (call.run env encCtx).2 := by
  cases call with
  | binaryEncrypt tmpl data => exact binaryEncrypt_poisoned env encCtx tmpl data hp
  | xmlEncrypt tmpl node nodeDoc => exact xmlEncrypt_poisoned env encCtx tmpl node nodeDoc hp
  | uriEncrypt tmpl uri => exact uriEncrypt_poisoned env encCtx tmpl uri hp
  | decrypt node => exact decrypt_poisoned env encCtx (some node) hp
  | decryptToBuffer node =>
    obtain ⟨d1, d2⟩ := decryptToBuffer_poisoned env encCtx node hp
    refine ⟨?_, d2⟩
    show (match (xmlSecEncCtxDecryptToBuffer env encCtx node).ret with
      | xmlSecResult.ok _ => xmlSecResult.ok ()
      | xmlSecResult.fail reason subject => xmlSecResult.fail reason subject).failed = true
    cases hr : (xmlSecEncCtxDecryptToBuffer env encCtx node).ret with
    | ok b =>
      rw [hr] at d1
      cases d1
    | fail reason subject => rfl

/-- Shared: on a poisoned context every call of a sequence of calls of entry points fails. -/
theorem runAll_poisoned (env : EncEnv) (calls : List EntryCall) :
    ∀ encCtx : xmlSecEncCtx, encCtx.poisoned →
      ∀ r ∈ EntryCall.runAll env encCtx calls, r.failed = true := by
  induction calls with
  | nil =>
    intro encCtx _ r hr
    cases hr
  | cons call rest ih =>
    intro encCtx hp r hr
    obtain ⟨e1, e2⟩ := entryCall_poisoned env encCtx call hp
    unfold EntryCall.runAll at hr
    rcases List.mem_cons.1 hr with h | h
    · rw [h]
      exact e1
    · exact ih _ (poisoned_of_keepsRead _ _ e2 hp) r h

/-- C25. On a context in which one of `id`, `type`, `mimeType`, `encoding`, `encMethodNode`,
`keyInfoNode` or `cipherValueNode` is set, as a TemplateRead that failed after recording it
leaves the context: every call of every sequence of later calls of entry points fails; each
call leaves the fields that were set as they are, so the context stays in that state;
TemplateRead leaves `result` as it is; and on a node with the right root TemplateRead fails
at one of its assertions `field == NULL`, when the field that is set is not
`cipherValueNode` alone, or when the children of the node start with the optional
`EncryptionMethod`, the optional `KeyInfo` and `CipherData`, as those of a valid node do. -/
theorem failed_read_poisons_context (env : EncEnv) (encCtx : xmlSecEncCtx)
    (hp : encCtx.poisoned) :
    (∀ calls : List EntryCall, ∀ r ∈ EntryCall.runAll env encCtx calls, r.failed = true) ∧
    (∀ call : EntryCall,
      encCtx.keepsRead (call.run env encCtx).2 ∧ (call.run env encCtx).2.poisoned) ∧
    (∀ node : xmlNodePtr,
      (xmlSecEncCtxEncDataNodeRead env encCtx node).2.result = encCtx.result) ∧
    (∀ node : xmlNodePtr,
      xmlSecCheckNodeName (some node.node) encCtx.mode.rootName xmlSecEncNs = true →
      ((encCtx.id.isSome = true ∨ encCtx.type.isSome = true ∨ encCtx.mimeType.isSome = true ∨
          encCtx.encoding.isSome = true ∨ encCtx.encMethodNode.isSome = true ∨
          encCtx.keyInfoNode.isSome = true) ∨
        ∃ (method keyInfo : Option xmlNode) (cipherData : xmlNode) (rest : List xmlNode),
          xmlSecElementNodes node.node.children =
            method.toList ++ keyInfo.toList ++ cipherData :: rest ∧
          (∀ n ∈ method,
            xmlSecCheckNodeName (some n) xmlSecNodeEncryptionMethod xmlSecEncNs = true) ∧
          (∀ n ∈ keyInfo, xmlSecCheckNodeName (some n) xmlSecNodeKeyInfo xmlSecDSigNs = true) ∧
          xmlSecCheckNodeName (some cipherData) xmlSecNodeCipherData xmlSecEncNs = true) →
      ∃ subject ∈ readAssertions,
        (xmlSecEncCtxEncDataNodeRead env encCtx node).1 =
          xmlSecResult.fail xmlSecErrorReason.ASSERTION subject) := by
  refine ⟨fun calls => runAll_poisoned env calls encCtx hp, fun call => ?_, fun node => ?_,
    fun node hroot hreach => ?_⟩
  · obtain ⟨_, e2⟩ := entryCall_poisoned env encCtx call hp
    exact ⟨e2, poisoned_of_keepsRead _ _ e2 hp⟩
  · exact (templateRead_frame env encCtx node).2.2.2.1
  · obtain ⟨s1, _, s3⟩ := readStructure_poisoned env encCtx node hp
    rw [templateRead_of_structure_failed env encCtx node s1]
    exact s3 hroot hreach

/-- C25, at a concrete input: `xmlSecEncCtxBinaryEncrypt` on a template with the attribute
`Type` and without `CipherData` fails and leaves `result` at `NULL`; on the context it
leaves, the call on the sample template fails, and TemplateRead on the sample template fails
at an assertion. -/
theorem failed_read_poisons_context_witness :
    (xmlSecEncCtxBinaryEncrypt sampleEncEnv
      (freshEncCtx sampleEncEnv xmlEncCtxMode.xmlEncCtxModeEncryptedData none
        (some (sampleKey "k" 3)))
      (some sampleTypedNoCipherData) (some [1])).ctx.result = none ∧
    (xmlSecEncCtxBinaryEncrypt sampleEncEnv
      (xmlSecEncCtxBinaryEncrypt sampleEncEnv
        (freshEncCtx sampleEncEnv xmlEncCtxMode.xmlEncCtxModeEncryptedData none
          (some (sampleKey "k" 3)))
        (some sampleTypedNoCipherData) (some [1])).ctx
      (some sampleTemplate) (some [1])).ret.failed = true ∧
    ∃ subject ∈ readAssertions,
      (xmlSecEncCtxEncDataNodeRead sampleEncEnv
        (xmlSecEncCtxBinaryEncrypt sampleEncEnv
          (freshEncCtx sampleEncEnv xmlEncCtxMode.xmlEncCtxModeEncryptedData none
            (some (sampleKey "k" 3)))
          (some sampleTypedNoCipherData) (some [1])).ctx
        { path := [], node := sampleTemplate }).1 =
          xmlSecResult.fail xmlSecErrorReason.ASSERTION subject := by
  obtain ⟨h1, _, _, h4⟩ := failed_read_poisons_context sampleEncEnv
    (xmlSecEncCtxBinaryEncrypt sampleEncEnv
      (freshEncCtx sampleEncEnv xmlEncCtxMode.xmlEncCtxModeEncryptedData none
        (some (sampleKey "k" 3)))
      (some sampleTypedNoCipherData) (some [1])).ctx
    (Or.inr (Or.inl (by decide)))
  exact ⟨by decide,
    h1 [EntryCall.binaryEncrypt (some sampleTemplate) (some [1])] _ (List.mem_cons_self _ _),
    h4 { path := [], node := sampleTemplate } (by decide) (Or.inl (Or.inr (Or.inl (by decide))))⟩

/-! ### A load that fails -/

/-- Shared: with no allocation failing, whatever the loop of `xmlSecSimpleKeysMngrLoad`
returns, it has read an initial segment of the chain, and the store holds the keys it held
followed by the keys the reader returned, in that order. -/
theorem loadLoop_appends (env : KeysMngrEnv) (strict : Bool) (ctx : xmlSecKeysMngrCtx)
    (hmalloc : ∀ n, env.xmlMalloc n = true) (hrealloc : ∀ n, env.xmlRealloc n = true) :
    ∀ (l : List xmlNode) (keysData : xmlSecSimpleKeysData),
      (xmlSecSimpleKeysMngrLoadLoop env strict ctx (some { keysData := some keysData })
          l).trace.map Prod.fst <+: l ∧
      storedKeys (xmlSecSimpleKeysMngrLoadLoop env strict ctx (some { keysData := some keysData })
          l).mngr =
        keysData.keys ++
          (xmlSecSimpleKeysMngrLoadLoop env strict ctx (some { keysData := some keysData })
            l).trace.filterMap Prod.snd := by
  intro l
  induction l with
  | nil =>
    intro keysData
    simp [xmlSecSimpleKeysMngrLoadLoop, storedKeys]
  | cons c next ih =>
    intro keysData
    unfold xmlSecSimpleKeysMngrLoadLoop
    by_cases hcheck : xmlSecCheckNodeName (some c) "KeyInfo" xmlSecDSigNs = true
    · rw [if_pos hcheck]
      cases hread : env.xmlSecKeyInfoNodeRead c
          { ctx with keysMngr := some { keysData := some keysData } } with
      | none =>
        cases strict with
        | true =>
          simp only [if_true, List.map_cons, List.map_nil, List.filterMap_cons,
            List.filterMap_nil, List.append_nil]
          exact ⟨⟨next, rfl⟩, rfl⟩
        | false =>
          obtain ⟨h1, h2⟩ := ih keysData
          simp only [Bool.false_eq_true, if_false, List.map_cons, List.filterMap_cons]
          exact ⟨List.prefix_cons_inj c |>.2 h1, h2⟩
      | some key =>
        obtain ⟨grown, hadd, hkeys⟩ := addKey_ok_of_memory env keysData key hmalloc hrealloc
        obtain ⟨h1, h2⟩ := ih grown
        simp only [hadd, Int.lt_irrefl, if_false, List.map_cons, List.filterMap_cons]
        refine ⟨List.prefix_cons_inj c |>.2 h1, ?_⟩
        rw [h2, hkeys, List.append_assoc]
        rfl
    · rw [if_neg hcheck]
      exact ⟨List.nil_prefix, by simp [storedKeys]⟩

/-- C26. `xmlSecSimpleKeysMngrLoad` is not atomic.  With no allocation failing, whatever the
call returns, the children it handed to the KeyInfo reader are an initial segment of the
element children of the root, and the store holds the keys it held before the call followed
by every key the reader returned for these children, in that order.  The call returns `-1`
when a child is not a dsig `KeyInfo`, and with `strict` when the reader fails on a child,
which is then the last one read: the keys read before that point stay in the store, so a call
that fails after reading a key leaves a store that differs from the one before the call. -/
theorem load_not_atomic (env : KeysMngrEnv) (keysData : xmlSecSimpleKeysData) (uri : String)
    (strict : Bool)
    (hmalloc : ∀ n, env.xmlMalloc n = true) (hrealloc : ∀ n, env.xmlRealloc n = true) :
    (xmlSecSimpleKeysMngrLoad env (some { keysData := some keysData }) (some uri)
        strict).trace.map Prod.fst <+: keysDocumentElements env uri ∧
    storedKeys (xmlSecSimpleKeysMngrLoad env (some { keysData := some keysData }) (some uri)
        strict).mngr =
      keysData.keys ++
        (xmlSecSimpleKeysMngrLoad env (some { keysData := some keysData }) (some uri)
          strict).trace.filterMap Prod.snd ∧
    (∀ e ∈ (xmlSecSimpleKeysMngrLoad env (some { keysData := some keysData }) (some uri)
        strict).trace,
      ∃ ctx : xmlSecKeysMngrCtx, ctx.allowedOrigins = xmlSecKeyOriginAll ∧
        env.xmlSecKeyInfoNodeRead e.1 ctx = e.2) ∧
    ((∃ c ∈ keysDocumentElements env uri,
        xmlSecCheckNodeName (some c) "KeyInfo" xmlSecDSigNs = false) →
      (xmlSecSimpleKeysMngrLoad env (some { keysData := some keysData }) (some uri)
        strict).ret = -1) ∧
    (strict = true → ∀ (pre post : List (xmlNode × Option xmlSecKey)) (cur : xmlNode),
      (xmlSecSimpleKeysMngrLoad env (some { keysData := some keysData }) (some uri)
        strict).trace = pre ++ (cur, none) :: post →
      (xmlSecSimpleKeysMngrLoad env (some { keysData := some keysData }) (some uri)
        strict).ret = -1 ∧ post = []) ∧
    ((xmlSecSimpleKeysMngrLoad env (some { keysData := some keysData }) (some uri)
        strict).ret = -1 →
      (xmlSecSimpleKeysMngrLoad env (some { keysData := some keysData }) (some uri)
        strict).trace.filterMap Prod.snd ≠ [] →
      storedKeys (xmlSecSimpleKeysMngrLoad env (some { keysData := some keysData }) (some uri)
        strict).mngr ≠ keysData.keys) := by
  have happend : storedKeys (xmlSecSimpleKeysMngrLoad env (some { keysData := some keysData })
      (some uri) strict).mngr =
      keysData.keys ++
        (xmlSecSimpleKeysMngrLoad env (some { keysData := some keysData }) (some uri)
          strict).trace.filterMap Prod.snd ∧
      (xmlSecSimpleKeysMngrLoad env (some { keysData := some keysData }) (some uri)
        strict).trace.map Prod.fst <+: keysDocumentElements env uri ∧
      (∀ e ∈ (xmlSecSimpleKeysMngrLoad env (some { keysData := some keysData }) (some uri)
          strict).trace,
        ∃ ctx : xmlSecKeysMngrCtx, ctx.allowedOrigins = xmlSecKeyOriginAll ∧
          env.xmlSecKeyInfoNodeRead e.1 ctx = e.2) ∧
      ((∃ c ∈ keysDocumentElements env uri,
          xmlSecCheckNodeName (some c) "KeyInfo" xmlSecDSigNs = false) →
        (xmlSecSimpleKeysMngrLoad env (some { keysData := some keysData }) (some uri)
          strict).ret = -1) ∧
      (strict = true → ∀ (pre post : List (xmlNode × Option xmlSecKey)) (cur : xmlNode),
        (xmlSecSimpleKeysMngrLoad env (some { keysData := some keysData }) (some uri)
          strict).trace = pre ++ (cur, none) :: post →
        (xmlSecSimpleKeysMngrLoad env (some { keysData := some keysData }) (some uri)
          strict).ret = -1 ∧ post = []) := by
    rcases load_cases env (some { keysData := some keysData }) uri strict with
      ⟨hret, htrace, hm⟩ | ⟨doc, root, ctx, hparse, hroot, horig, hload⟩
    · rw [htrace, hm]
      refine ⟨by simp [storedKeys], List.nil_prefix, fun e he => (by cases he), fun _ => hret,
        fun _ pre post cur h => ?_⟩
      simp at h
    · rw [hload]
      obtain ⟨h1, h2⟩ := loadLoop_appends env strict ctx hmalloc hrealloc
        (xmlSecElementNodes root.children) keysData
      refine ⟨h2, ?_, fun e he => ?_, fun hforeign => ?_, fun hstrict pre post cur h => ?_⟩
      · simpa [keysDocumentElements, hparse, hroot] using h1
      · obtain ⟨m, hm⟩ := loadLoop_trace_faithful env strict ctx _ _ e he
        exact ⟨{ ctx with keysMngr := m }, horig, hm⟩
      · apply loadLoop_foreign env strict ctx
        simpa [keysDocumentElements, hparse, hroot] using hforeign
      · subst hstrict
        obtain ⟨s1, s2, _⟩ := loadLoop_strict env ctx _ _ pre post cur h
        exact ⟨s1, s2⟩
  obtain ⟨a1, a2, a3, a4, a5⟩ := happend
  refine ⟨a2, a1, a3, a4, a5, fun _ hne heq => ?_⟩
  rw [a1] at heq
  exact hne (List.append_right_eq_self.1 heq)

/-- C26, at scenario S2: three `KeyInfo` children with a malformed middle one, loaded with
`strict` into an empty store: the call fails at the second child, and the key read from the
first child is in the store. -/
theorem load_not_atomic_witness :
    (xmlSecSimpleKeysMngrLoad (sampleKeysEnv sampleS2Doc) sampleEmptyMngr (some "keys.xml")
        true).ret = -1 ∧
    storedKeys (xmlSecSimpleKeysMngrLoad (sampleKeysEnv sampleS2Doc) sampleEmptyMngr
        (some "keys.xml") true).mngr = [sampleKey "read" 1] ∧
    storedKeys (xmlSecSimpleKeysMngrLoad (sampleKeysEnv sampleS2Doc) sampleEmptyMngr
        (some "keys.xml") true).mngr ≠ [] := by
  obtain ⟨_, h2, _, _, _, h6⟩ := load_not_atomic (sampleKeysEnv sampleS2Doc)
    { keys := [], maxSize := 0 } "keys.xml" true (fun _ => rfl) (fun _ => rfl)
  exact ⟨by decide, h2.trans (by decide), h6 (by decide) (by decide)⟩

/-! ### The sizes of the key store -/

/-- Shared: `xmlSecSimpleKeysMngrAddKey`, whether it succeeds or fails, keeps the sizes of
the store fitting. -/
theorem addKey_wellSized (env : KeysMngrEnv) (mngr : Option xmlSecKeysMngr)
    (key : Option xmlSecKey) (h : storeWellSized mngr) :
    storeWellSized (xmlSecSimpleKeysMngrAddKey env mngr key).2 := by
  unfold xmlSecSimpleKeysMngrAddKey
  cases mngr with
  | none => exact h
  | some m =>
    cases hd : m.keysData with
    | none =>
      dsimp only
      rw [hd]
      exact h
    | some keysData =>
      obtain ⟨hle, hpow, hzero⟩ := h m keysData rfl hd
      unfold xmlSecSimpleKeysData.curSize at hle hzero
      dsimp only
      rw [hd]
      cases key with
      | none => exact h
      | some k =>
        dsimp only
        by_cases h0 : keysData.maxSize = 0
        · rw [if_pos h0]
          split
          · intro m2 d2 hm2 hd2
            cases hm2
            cases hd2
            refine ⟨?_, Or.inr ⟨0, rfl⟩, fun hz => ?_⟩
            · unfold xmlSecSimpleKeysData.curSize
              rw [List.length_append, hzero h0]
              show 0 + 1 ≤ 16
              decide
            · exact absurd hz (show ¬ (16 : Nat) = 0 by decide)
          · exact h
        · rw [if_neg h0]
          by_cases hfull : keysData.curSize = keysData.maxSize
          · rw [if_pos hfull]
            unfold xmlSecSimpleKeysData.curSize at hfull
            try dsimp only
            split
            · intro m2 d2 hm2 hd2
              cases hm2
              cases hd2
              refine ⟨?_, Or.inr ?_, fun hz => ?_⟩
              · unfold xmlSecSimpleKeysData.curSize
                rw [List.length_append]
                simp only [List.length_singleton]
                omega
              · rcases hpow with hz | ⟨j, hj⟩
                · exact absurd hz h0
                · exact ⟨j + 1, by rw [hj, pow_succ]; ring⟩
              · simp only at hz
                omega
            · exact h
          · rw [if_neg hfull]
            unfold xmlSecSimpleKeysData.curSize at hfull
            intro m2 d2 hm2 hd2
            cases hm2
            cases hd2
            refine ⟨?_, hpow, fun hz => absurd hz h0⟩
            unfold xmlSecSimpleKeysData.curSize
            rw [List.length_append]
            simp only [List.length_singleton]
            omega

/-- Shared: every call on the store keeps the sizes fitting. -/
theorem storeCall_wellSized (env : KeysMngrEnv) (mngr : Option xmlSecKeysMngr)
    (call : StoreCall) (h : storeWellSized mngr) : storeWellSized (call.run env mngr).1 := by
  cases call with
  | addKey key => exact addKey_wellSized env mngr key h
  | findKey keyName keyId keyType allowedOrigins => exact h

/-- Shared: every sequence of calls on the store keeps the sizes fitting. -/
theorem runAll_wellSized (env : KeysMngrEnv) (calls : List StoreCall) :
    ∀ mngr : Option xmlSecKeysMngr, storeWellSized mngr →
      storeWellSized (StoreCall.runAll env mngr calls) := by
  induction calls with
  | nil =>
    intro mngr h
    exact h
  | cons call rest ih =>
    intro mngr h
    unfold StoreCall.runAll
    exact ih _ (storeCall_wellSized env mngr call h)

/-- C27. In every state reached from a newly created store by a sequence of
`xmlSecSimpleKeysMngrAddKey` calls, succeeding or failing, and
`xmlSecSimpleKeysMngrFindKey` calls: `curSize <= maxSize`, `maxSize` is `0` or `16 * 2 ^ k`
for some `k`, and `maxSize = 0` implies `curSize = 0`.  A `xmlSecSimpleKeysMngrFindKey` call
leaves the manager, with the sizes and the stored sequence, as it is. -/
theorem store_invariant (env : KeysMngrEnv) (sizeofKeysData : Nat) (calls : List StoreCall)
    (m : xmlSecKeysMngr) (keysData : xmlSecSimpleKeysData)
    (hm : StoreCall.runAll env
      (some { keysData := xmlSecSimpleKeysDataCreate env sizeofKeysData }) calls = some m)
    (hd : m.keysData = some keysData) :
    keysData.curSize ≤ keysData.maxSize ∧
    (keysData.maxSize = 0 ∨ ∃ k : Nat, keysData.maxSize = 16 * 2 ^ k) ∧
    (keysData.maxSize = 0 → keysData.curSize = 0) ∧
    (∀ (mngr : Option xmlSecKeysMngr) (keyName : Option String)
        (keyId keyType allowedOrigins : Nat),
      ((StoreCall.findKey keyName keyId keyType allowedOrigins).run env mngr).1 = mngr ∧
      storedKeys ((StoreCall.findKey keyName keyId keyType allowedOrigins).run env mngr).1 =
        storedKeys mngr) := by
  have hnew : storeWellSized
      (some { keysData := xmlSecSimpleKeysDataCreate env sizeofKeysData }) := by
    intro m2 d2 hm2 hd2
    cases hm2
    unfold xmlSecSimpleKeysDataCreate at hd2
    dsimp only at hd2
    split at hd2
    · cases hd2
      exact ⟨Nat.le_refl _, Or.inl rfl, fun _ => rfl⟩
    · cases hd2
  obtain ⟨h1, h2, h3⟩ := runAll_wellSized env calls _ hnew m keysData hm hd
  exact ⟨h1, h2, h3, fun _ _ _ _ _ => ⟨rfl, rfl⟩⟩

/-- C27, at a concrete sequence: a key is added to a new store, a key is looked up, and an
add of `NULL` fails; the store then holds one key in 16 slots, and its sizes fit. -/
theorem store_invariant_witness :
    StoreCall.runAll (sampleKeysEnv (sampleKeysDoc []))
      (some { keysData := xmlSecSimpleKeysDataCreate (sampleKeysEnv (sampleKeysDoc [])) 24 })
      [StoreCall.addKey (some (sampleKey "alice" 1)), StoreCall.findKey (some "alice") 0 0 0,
        StoreCall.addKey none] =
      some { keysData := some { keys := [sampleKey "alice" 1], maxSize := 16 } } ∧
    ({ keys := [sampleKey "alice" 1], maxSize := 16 } : xmlSecSimpleKeysData).curSize ≤ 16 ∧
    ∃ k : Nat, (16 : Nat) = 16 * 2 ^ k := by
  obtain ⟨h1, h2, _⟩ := store_invariant (sampleKeysEnv (sampleKeysDoc [])) 24
    [StoreCall.addKey (some (sampleKey "alice" 1)), StoreCall.findKey (some "alice") 0 0 0,
      StoreCall.addKey none]
    { keysData := some { keys := [sampleKey "alice" 1], maxSize := 16 } }
    { keys := [sampleKey "alice" 1], maxSize := 16 } rfl rfl
  refine ⟨rfl, h1, ?_⟩
  rcases h2 with h | h
  · exact absurd h (show ¬ (16 : Nat) = 0 by decide)
  · exact h

end XmlSec
